import Mathlib

/-!
# DOLFIN 1.3.0 tetrahedron cell kernel

A shallow embedding of `dolfin/mesh/TetrahedronCell.cpp`: the canonical
ordering of a tetrahedron's sub-entities (`order`), the regular refinement
into eight children (`refine_cell`, `find_edge`), the geometric predicates
(`volume`, `diameter`, `normal`, `facet_area`, `collides`, `squared_distance`)
and the entity tables (`num_entities`, `num_vertices`, `create_entities`),
followed by the properties proved about them.

Floating-point numbers are read as elements of a linearly ordered field,
`unsigned int`/`std::size_t` indices as natural numbers. Two functions are
embedded a second time: `order_checked` is `order` with the assertions and the
reads of the source as steps that can fail, and `squared_distance_double`
evaluates the outside-of-plane tests of `squared_distance` in double precision
on integer coordinates.
-/

namespace Dolfin

/-! ## Mesh topology -/

/-- A connectivity table `topology(d0, d1)`: one tuple of `d1`-indices per
`d0`-entity. The empty table is a connectivity that was never built. -/
abbrev MeshConnectivity := List (List Nat)

/-- The tuple of an entity, `MeshConnectivity::operator()(entity)`. An entity
outside the table has no connections. -/
def MeshConnectivity.connections (conn : MeshConnectivity) (entity : Nat) : List Nat :=
  conn.getD entity []

/-- The six connectivity tables of a tetrahedral mesh that `order` and
`refine_cell` read or write: `cDd` is `topology(D, d)`. -/
structure MeshTopology where
  c10 : MeshConnectivity
  c20 : MeshConnectivity
  c21 : MeshConnectivity
  c30 : MeshConnectivity
  c31 : MeshConnectivity
  c32 : MeshConnectivity
deriving DecidableEq, Repr

/-- The vertices of cell `c`, `cell.entities(0)`. -/
def MeshTopology.cell_vertices (t : MeshTopology) (c : Nat) : List Nat := t.c30.connections c

/-- The edges of cell `c`, `cell.entities(1)`. -/
def MeshTopology.cell_edges (t : MeshTopology) (c : Nat) : List Nat := t.c31.connections c

/-- The facets of cell `c`, `cell.entities(2)`. -/
def MeshTopology.cell_facets (t : MeshTopology) (c : Nat) : List Nat := t.c32.connections c

/-- The vertices of edge `e`, `topology(1, 0)(e)`. -/
def MeshTopology.edge_vertices (t : MeshTopology) (e : Nat) : List Nat := t.c10.connections e

/-- The vertices of facet `f`, `topology(2, 0)(f)`. -/
def MeshTopology.facet_vertices (t : MeshTopology) (f : Nat) : List Nat := t.c20.connections f

/-- The edges of facet `f`, `topology(2, 1)(f)`. -/
def MeshTopology.facet_edges (t : MeshTopology) (f : Nat) : List Nat := t.c21.connections f

/-! ## `TetrahedronCell::order` -/

/-- The comparison of `sort_entities`: local vertex `l` comes no later than `r`
when its global index is no larger. -/
def global_le (g : Nat → Nat) (l r : Nat) : Prop := g l ≤ g r

instance (g : Nat → Nat) : DecidableRel (global_le g) :=
  fun l r => inferInstanceAs (Decidable (g l ≤ g r))

instance (g : Nat → Nat) : IsTotal Nat (global_le g) := ⟨fun a b => Nat.le_total (g a) (g b)⟩

instance (g : Nat → Nat) : IsTrans Nat (global_le g) :=
  ⟨fun _ _ _ hab hbc => Nat.le_trans hab hbc⟩

/-- The strict comparison by global index. -/
def global_lt (g : Nat → Nat) (l r : Nat) : Prop := g l < g r

instance (g : Nat → Nat) : DecidableRel (global_lt g) :=
  fun l r => inferInstanceAs (Decidable (g l < g r))

instance (g : Nat → Nat) : IsAntisymm Nat (global_lt g) :=
  ⟨fun _ _ hab hba => absurd hab (Nat.lt_asymm hba)⟩

/-- A tuple of local vertices is strictly ascending in global index. -/
def Ascending (g : Nat → Nat) (tuple : List Nat) : Prop := tuple.Sorted (global_lt g)

instance (g : Nat → Nat) (tuple : List Nat) : Decidable (Ascending g tuple) :=
  inferInstanceAs (Decidable (List.Pairwise (global_lt g) tuple))

/-- Modelled from the spec: `CellType::sort_entities` (CellType.cpp is not
under src/), "sort vertices ... ascending by global index": the first
`num_vertices` entries of the tuple are sorted by the global index `g` of
each local vertex; what follows them is left in place. -/
def sort_entities (num_vertices : Nat) (local_vertices : List Nat) (g : Nat → Nat) : List Nat :=
  (local_vertices.take num_vertices).insertionSort (global_le g) ++ local_vertices.drop num_vertices

/-- The value of `std::count(tuple, tuple + n, x)`. -/
def count (n : Nat) (tuple : List Nat) (x : Nat) : Nat := (tuple.take n).count x

/-- The three assignments `tmp = xs[m]; xs[m] = xs[k]; xs[k] = tmp`. -/
def swap (xs : List Nat) (m k : Nat) : List Nat :=
  (xs.set m (xs.getD k 0)).set k (xs.getD m 0)

/-- The first `k` in `m, ..., n - 1` whose entry `xs[k]` passes the test `p`:
where the scan `for (k = m; k < n; k++) if (p(xs[k])) { ...; break; }` stops. -/
def scan (n : Nat) (p : Nat → Bool) (xs : List Nat) (m : Nat) : Option Nat :=
  (List.range' m (n - m)).find? (fun k => p (xs.getD k 0))

/-- One scan of steps 3 and 5: the first entry from slot `m` on that passes `p`
is swapped into slot `m` and `m` advances; without a match nothing changes. -/
def scan_swap (n : Nat) (p : Nat → Bool) (st : List Nat × Nat) : List Nat × Nat :=
  match scan n p st.1 st.2 with
  | some k => (swap st.1 st.2 k, st.2 + 1)
  | none => st

/-- One scan of step 6: the first entry from slot `i` on that passes `p` is
swapped into slot `i`; the slot is `i` whether or not earlier scans matched. -/
def scan_swap_at (n : Nat) (p : Nat → Bool) (xs : List Nat) (i : Nat) : List Nat :=
  match scan n p xs i with
  | some j => swap xs i j
  | none => xs

/-- The state of a selection loop after `t` scans: the slots below `t` hold
their entries, and the list is still a rearrangement of the one it began with. -/
def Selected (q : Nat → Nat → Bool) (xs0 : List Nat) (t : Nat) (xs : List Nat) : Prop :=
  xs.Perm xs0 ∧ ∀ s, s < t → q s (xs.getD s 0) = true

/-- Sorts the tuple of entity `e` in a table, in place. -/
def sort_at (n : Nat) (g : Nat → Nat) (conn : MeshConnectivity) (e : Nat) : MeshConnectivity :=
  conn.set e (sort_entities n (conn.connections e) g)

/-- Step 1 of `order`: sort the two vertices of each of the cell's six edges. -/
def order_edge_vertices (t : MeshTopology) (c : Nat) (g : Nat → Nat) : MeshTopology :=
  { t with
    c10 :=
      if t.c10.isEmpty then t.c10
      else (List.range 6).foldl
        (fun conn i => sort_at 2 g conn ((t.cell_edges c).getD i 0)) t.c10 }

/-- Step 2 of `order`: sort the three vertices of each of the cell's four facets. -/
def order_facet_vertices (t : MeshTopology) (c : Nat) (g : Nat → Nat) : MeshTopology :=
  { t with
    c20 :=
      if t.c20.isEmpty then t.c20
      else (List.range 4).foldl
        (fun conn i => sort_at 3 g conn ((t.cell_facets c).getD i 0)) t.c20 }

/-- The loop over the vertices `j = 0, 1, 2` of one facet in step 3: the edge
not incident to vertex `j` is swapped into the next free slot. -/
def sort_facet_edges (c10 : MeshConnectivity) (facet_vertices edges : List Nat) : List Nat :=
  ((List.range 3).foldl
    (fun st j => scan_swap 3
      (fun e => count 2 (c10.connections e) (facet_vertices.getD j 0) == 0) st)
    (edges, 0)).1

/-- Step 3 of `order`: reorder the three edges of each of the cell's facets. -/
def order_facet_edges (t : MeshTopology) (c : Nat) : MeshTopology :=
  { t with
    c21 :=
      if t.c21.isEmpty then t.c21
      else (List.range 4).foldl
        (fun conn i =>
          let f := (t.cell_facets c).getD i 0
          conn.set f (sort_facet_edges t.c10 (t.c20.connections f) (conn.connections f)))
        t.c21 }

/-- Step 4 of `order`: sort the four vertices of the cell. -/
def order_cell_vertices (t : MeshTopology) (c : Nat) (g : Nat → Nat) : MeshTopology :=
  { t with c30 := if t.c30.isEmpty then t.c30 else sort_at 4 g t.c30 c }

/-- The two nested loops over the vertex pairs `(i, j)`, `i < j`, in step 5: the
edge incident to neither vertex is swapped into the next free slot. -/
def sort_cell_edges (c10 : MeshConnectivity) (cell_vertices edges : List Nat) : List Nat :=
  ((List.range 3).foldl
    (fun st i => (List.range' (i + 1) (4 - (i + 1))).foldl
      (fun st j => scan_swap 6
        (fun e => count 2 (c10.connections e) (cell_vertices.getD i 0) == 0
          && count 2 (c10.connections e) (cell_vertices.getD j 0) == 0) st)
      st)
    (edges, 0)).1

/-- Step 5 of `order`: reorder the six edges of the cell. -/
def order_cell_edges (t : MeshTopology) (c : Nat) : MeshTopology :=
  { t with
    c31 :=
      if t.c31.isEmpty then t.c31
      else t.c31.set c (sort_cell_edges t.c10 (t.cell_vertices c) (t.cell_edges c)) }

/-- The loop over the cell's vertices `i = 0, ..., 3` in step 6: the facet not
incident to vertex `i` is swapped into slot `i`. -/
def sort_cell_facets (c20 : MeshConnectivity) (cell_vertices facets : List Nat) : List Nat :=
  (List.range 4).foldl
    (fun xs i => scan_swap_at 4
      (fun f => count 3 (c20.connections f) (cell_vertices.getD i 0) == 0) xs i)
    facets

/-- Step 6 of `order`: reorder the four facets of the cell. -/
def order_cell_facets (t : MeshTopology) (c : Nat) : MeshTopology :=
  { t with
    c32 :=
      if t.c32.isEmpty then t.c32
      else t.c32.set c (sort_cell_facets t.c20 (t.cell_vertices c) (t.cell_facets c)) }

/-- `TetrahedronCell::order(cell, local_to_global_vertex_indices)`: the six
steps in sequence, each on the connectivity the previous ones left. The
`dolfin_assert`s of the source are checks of debug builds and have no part here;
an index outside a tuple, which the source never checks, reads as `0`. -/
def order (t : MeshTopology) (c : Nat) (g : Nat → Nat) : MeshTopology :=
  order_cell_facets
    (order_cell_edges
      (order_cell_vertices
        (order_facet_edges
          (order_facet_vertices (order_edge_vertices t c g) c g) c) c g) c) c

/-! ## Errors and `find_edge` -/

/-- An error raised through `dolfin_error(location, task, reason)`. -/
structure Error where
  location : String
  task : String
  reason : String
deriving DecidableEq, Repr

/-- The table `EV` of `find_edge`: the vertex pairs in lexicographic order. -/
def EV : List (Nat × Nat) := [(0, 1), (0, 2), (0, 3), (1, 2), (1, 3), (2, 3)]

/-- `TetrahedronCell::find_edge(i, cell)`: the first position `j` in the cell's
edge list of an edge that touches neither of the cell's vertices `EV[i][0]` and
`EV[i][1]`, or the error "Edge really not found". -/
def find_edge (t : MeshTopology) (i c : Nat) : Except Error Nat :=
  let v := t.cell_vertices c
  let e := t.cell_edges c
  match (List.range 6).find? (fun j =>
      let ev := t.c10.connections (e.getD j 0)
      let v0 := v.getD (EV.getD i (0, 0)).1 0
      let v1 := v.getD (EV.getD i (0, 0)).2 0
      ev.getD 0 0 != v0 && ev.getD 0 0 != v1 && ev.getD 1 0 != v0 && ev.getD 1 0 != v1) with
  | some j => .ok j
  | none => .error ⟨"TetrahedronCell.cpp", "find specified edge in cell", "Edge really not found"⟩

/-! ## Valid connectivity and the postconditions of `order` -/

/-- Cell `c` has valid simplicial connectivity: four distinct vertices; six
distinct edges, each joining two distinct vertices of the cell, every pair of
vertices joined by one of them; four distinct facets, each with three distinct
vertices of the cell, every vertex opposite one of them; and on each facet three
of the cell's edges, joining vertices of the facet, every vertex of the facet
opposite one of them. -/
structure Valid (t : MeshTopology) (c : Nat) : Prop where
  cv_length : (t.cell_vertices c).length = 4
  cv_nodup : (t.cell_vertices c).Nodup
  ce_length : (t.cell_edges c).length = 6
  ce_nodup : (t.cell_edges c).Nodup
  ev_length : ∀ e ∈ t.cell_edges c, (t.edge_vertices e).length = 2
  ev_nodup : ∀ e ∈ t.cell_edges c, (t.edge_vertices e).Nodup
  ev_sub : ∀ e ∈ t.cell_edges c, ∀ v ∈ t.edge_vertices e, v ∈ t.cell_vertices c
  ev_all : ∀ a ∈ t.cell_vertices c, ∀ b ∈ t.cell_vertices c, a ≠ b →
    ∃ e ∈ t.cell_edges c, a ∈ t.edge_vertices e ∧ b ∈ t.edge_vertices e
  cf_length : (t.cell_facets c).length = 4
  cf_nodup : (t.cell_facets c).Nodup
  fv_length : ∀ f ∈ t.cell_facets c, (t.facet_vertices f).length = 3
  fv_nodup : ∀ f ∈ t.cell_facets c, (t.facet_vertices f).Nodup
  fv_sub : ∀ f ∈ t.cell_facets c, ∀ v ∈ t.facet_vertices f, v ∈ t.cell_vertices c
  fv_all : ∀ a ∈ t.cell_vertices c, ∃ f ∈ t.cell_facets c, a ∉ t.facet_vertices f
  fe_length : ∀ f ∈ t.cell_facets c, (t.facet_edges f).length = 3
  fe_sub : ∀ f ∈ t.cell_facets c, ∀ e ∈ t.facet_edges f, e ∈ t.cell_edges c
  fe_ev : ∀ f ∈ t.cell_facets c, ∀ e ∈ t.facet_edges f, ∀ v ∈ t.edge_vertices e,
    v ∈ t.facet_vertices f
  fe_all : ∀ f ∈ t.cell_facets c, ∀ a ∈ t.facet_vertices f,
    ∃ e ∈ t.facet_edges f, a ∉ t.edge_vertices e

/-- Two states of the connectivity that differ only by permutations inside the
tuples: entity by entity, each tuple of one is a rearrangement of the same tuple
of the other. -/
structure TuplePerm (t t' : MeshTopology) : Prop where
  c10 : ∀ e, (t'.c10.connections e).Perm (t.c10.connections e)
  c20 : ∀ e, (t'.c20.connections e).Perm (t.c20.connections e)
  c21 : ∀ e, (t'.c21.connections e).Perm (t.c21.connections e)
  c30 : ∀ e, (t'.c30.connections e).Perm (t.c30.connections e)
  c31 : ∀ e, (t'.c31.connections e).Perm (t.c31.connections e)
  c32 : ∀ e, (t'.c32.connections e).Perm (t.c32.connections e)

/-- The postconditions of `order` on cell `c`: the vertex tuples of the cell,
of its edges and of its facets are strictly ascending in global index; edge `m`
of a facet does not touch the facet's vertex `m`; edge `m` of the cell touches
neither vertex of the `m`-th pair of `EV`; facet `i` of the cell does not touch
the cell's vertex `i`. -/
structure Ordered (t : MeshTopology) (c : Nat) (g : Nat → Nat) : Prop where
  cell_vertices : Ascending g (t.cell_vertices c)
  edge_vertices : ∀ e ∈ t.cell_edges c, Ascending g (t.edge_vertices e)
  facet_vertices : ∀ f ∈ t.cell_facets c, Ascending g (t.facet_vertices f)
  facet_edges : ∀ f ∈ t.cell_facets c, ∀ m, m < 3 →
    (t.facet_vertices f).getD m 0 ∉ t.edge_vertices ((t.facet_edges f).getD m 0)
  cell_edges : ∀ m, m < 6 →
    (t.cell_vertices c).getD (EV.getD m (0, 0)).1 0 ∉ t.edge_vertices ((t.cell_edges c).getD m 0) ∧
    (t.cell_vertices c).getD (EV.getD m (0, 0)).2 0 ∉ t.edge_vertices ((t.cell_edges c).getD m 0)
  cell_facets : ∀ i, i < 4 →
    (t.cell_vertices c).getD i 0 ∉ t.facet_vertices ((t.cell_facets c).getD i 0)

/-- The test of the scan for slot `j` of a facet in step 3: edge `e` does not
touch the facet's vertex `j`. -/
def facet_edge_test (c10 : MeshConnectivity) (facet_vertices : List Nat) (j e : Nat) : Bool :=
  count 2 (c10.connections e) (facet_vertices.getD j 0) == 0

/-- The test of the scan for slot `m` of the cell in step 5: edge `e` touches
neither vertex of the `m`-th pair of `EV`. -/
def cell_edge_test (c10 : MeshConnectivity) (cell_vertices : List Nat) (m e : Nat) : Bool :=
  count 2 (c10.connections e) (cell_vertices.getD (EV.getD m (0, 0)).1 0) == 0
    && count 2 (c10.connections e) (cell_vertices.getD (EV.getD m (0, 0)).2 0) == 0

/-- The test of the scan for slot `i` of the cell in step 6: facet `f` does not
touch the cell's vertex `i`. -/
def cell_facet_test (c20 : MeshConnectivity) (cell_vertices : List Nat) (i f : Nat) : Bool :=
  count 3 (c20.connections f) (cell_vertices.getD i 0) == 0

/-- The connectivity after the three sorting steps 1, 2 and 4 of `order` alone:
the vertex tuples are those `order` leaves, the edge and facet lists are still
the initial ones. -/
def sort_vertices (t : MeshTopology) (c : Nat) (g : Nat → Nat) : MeshTopology :=
  { t with
    c10 := (order t c g).c10
    c20 := (order t c g).c20
    c30 := (order t c g).c30 }

/-- Two states of the connectivity hold the same tuples for cell `c`: its
vertex, edge and facet tuples, the vertex tuple of each of its edges, and the
vertex and edge tuples of each of its facets. -/
structure SameCell (t t' : MeshTopology) (c : Nat) : Prop where
  cell_vertices : t'.cell_vertices c = t.cell_vertices c
  cell_edges : t'.cell_edges c = t.cell_edges c
  cell_facets : t'.cell_facets c = t.cell_facets c
  edge_vertices : ∀ e ∈ t.cell_edges c, t'.edge_vertices e = t.edge_vertices e
  facet_vertices : ∀ f ∈ t.cell_facets c, t'.facet_vertices f = t.facet_vertices f
  facet_edges : ∀ f ∈ t.cell_facets c, t'.facet_edges f = t.facet_edges f

/-- The mesh of one tetrahedron as `create_entities` numbers it. -/
def unit_mesh : MeshTopology where
  c10 := [[2, 3], [1, 3], [1, 2], [0, 3], [0, 2], [0, 1]]
  c20 := [[1, 2, 3], [0, 2, 3], [0, 1, 3], [0, 1, 2]]
  c21 := [[0, 1, 2], [0, 3, 4], [1, 3, 5], [2, 4, 5]]
  c30 := [[0, 1, 2, 3]]
  c31 := [[0, 1, 2, 3, 4, 5]]
  c32 := [[0, 1, 2, 3]]

/-- The mesh of one tetrahedron with its tuples in another arrangement. -/
def shuffled_mesh : MeshTopology where
  c10 := [[3, 2], [1, 3], [2, 1], [0, 3], [2, 0], [0, 1]]
  c20 := [[3, 1, 2], [0, 2, 3], [3, 0, 1], [1, 0, 2]]
  c21 := [[2, 0, 1], [0, 3, 4], [5, 3, 1], [4, 5, 2]]
  c30 := [[2, 0, 3, 1]]
  c31 := [[4, 0, 5, 2, 1, 3]]
  c32 := [[1, 3, 0, 2]]

/-- A mesh of two tetrahedra, on the vertices `0, 1, 2, 3` and `1, 2, 3, 4`,
that share facet `0` and its edges `0, 1, 2`. -/
def two_cell_mesh : MeshTopology where
  c10 := [[2, 3], [1, 3], [1, 2], [0, 3], [0, 2], [0, 1], [3, 4], [2, 4], [1, 4]]
  c20 := [[1, 2, 3], [0, 2, 3], [0, 1, 3], [0, 1, 2], [2, 3, 4], [1, 3, 4], [1, 2, 4]]
  c21 := [[0, 1, 2], [0, 3, 4], [1, 3, 5], [2, 4, 5], [0, 6, 7], [1, 6, 8], [2, 7, 8]]
  c30 := [[0, 1, 2, 3], [1, 2, 3, 4]]
  c31 := [[0, 1, 2, 3, 4, 5], [6, 7, 0, 8, 1, 2]]
  c32 := [[0, 1, 2, 3], [4, 5, 6, 0]]

/-! ## Points, geometry and meshes -/

/-- A point of space: three coordinates. -/
structure Point (K : Type) where
  x : K
  y : K
  z : K
deriving DecidableEq, Repr

/-- Modelled from the spec: `Point::distance` (Point.cpp is not under src/), the
Euclidean distance of two points, with the square root of the field passed in. -/
def Point.distance {K : Type} [Field K] (sqrt : K → K) (p q : Point K) : K :=
  sqrt ((q.x - p.x) * (q.x - p.x) + (q.y - p.y) * (q.y - p.y) + (q.z - p.z) * (q.z - p.z))

/-- The midpoint of two points: where regular refinement puts the new vertex of
an edge. -/
def Point.midpoint {K : Type} [Field K] (p q : Point K) : Point K :=
  ⟨(p.x + q.x) / 2, (p.y + q.y) / 2, (p.z + q.z) / 2⟩

/-- Modelled from the spec: `MeshGeometry` (MeshGeometry.h is not under src/),
the "vertex coordinate accessor by local index": the embedding dimension and
one coordinate tuple per vertex. -/
structure MeshGeometry (K : Type) where
  dim : Nat
  coordinates : List (List K)

/-- The coordinates of vertex `n`, `geometry.x(n)`. -/
def MeshGeometry.x {K : Type} (geometry : MeshGeometry K) (n : Nat) : List K :=
  geometry.coordinates.getD n []

/-- The vertex `n` as a point, `geometry.point(n)`; a coordinate the vertex does
not have is zero. -/
def MeshGeometry.point {K : Type} [Field K] (geometry : MeshGeometry K) (n : Nat) : Point K :=
  ⟨(geometry.x n).getD 0 0, (geometry.x n).getD 1 0, (geometry.x n).getD 2 0⟩

/-- A mesh: its topology, its geometry and its number of vertices,
`mesh.num_vertices()`. -/
structure Mesh (K : Type) where
  topology : MeshTopology
  geometry : MeshGeometry K
  num_vertices : Nat

/-- A mesh entity: its topological dimension and its index. -/
structure MeshEntity where
  dim : Nat
  index : Nat
deriving DecidableEq, Repr

/-! ## `TetrahedronCell::volume` -/

/-- The expression `v` of `volume` on the coordinates of the four vertices. -/
def volume_determinant {K : Type} [Field K] (x0 x1 x2 x3 : Point K) : K :=
  x0.x * (x1.y * x2.z + x3.y * x1.z + x2.y * x3.z - x2.y * x1.z - x1.y * x3.z - x3.y * x2.z)
    - x1.x * (x0.y * x2.z + x3.y * x0.z + x2.y * x3.z - x2.y * x0.z - x0.y * x3.z - x3.y * x2.z)
    + x2.x * (x0.y * x1.z + x3.y * x0.z + x1.y * x3.z - x1.y * x0.z - x0.y * x3.z - x3.y * x1.z)
    - x3.x * (x0.y * x1.z + x1.y * x2.z + x2.y * x0.z - x1.y * x0.z - x2.y * x1.z - x0.y * x2.z)

/-- `TetrahedronCell::volume(tetrahedron)`: an error unless the entity is a cell
and the mesh is embedded in R^3, otherwise `|v| / 6`. -/
def volume {K : Type} [LinearOrderedField K] (mesh : Mesh K) (tetrahedron : MeshEntity) :
    Except Error K :=
  if tetrahedron.dim ≠ 3 then
    .error ⟨"TetrahedronCell.cpp", "compute volume of tetrahedron cell",
      "Illegal mesh entity, not a tetrahedron"⟩
  else if mesh.geometry.dim ≠ 3 then
    .error ⟨"TetrahedronCell.cpp", "compute volume of tetrahedron",
      "Only know how to compute volume when embedded in R^3"⟩
  else
    let vertices := mesh.topology.c30.connections tetrahedron.index
    let x0 := mesh.geometry.x (vertices.getD 0 0)
    let x1 := mesh.geometry.x (vertices.getD 1 0)
    let x2 := mesh.geometry.x (vertices.getD 2 0)
    let x3 := mesh.geometry.x (vertices.getD 3 0)
    let v := volume_determinant
      ⟨x0.getD 0 0, x0.getD 1 0, x0.getD 2 0⟩ ⟨x1.getD 0 0, x1.getD 1 0, x1.getD 2 0⟩
      ⟨x2.getD 0 0, x2.getD 1 0, x2.getD 2 0⟩ ⟨x3.getD 0 0, x3.getD 1 0, x3.getD 2 0⟩
    .ok (|v| / 6)

/-- The mesh of a single cell with the given vertices over a geometry: what
`volume` is asked about when a tuple of vertices is measured. -/
def tetrahedron_mesh {K : Type} (geometry : MeshGeometry K) (vertices : List Nat) : Mesh K where
  topology := ⟨[], [], [], [vertices], [], []⟩
  geometry := geometry
  num_vertices := geometry.coordinates.length

/-! ## `TetrahedronCell::refine_cell` -/

/-- Modelled from the spec: `MeshEditor` (MeshEditor.cpp is not under src/), the
"mesh builder with `add_cell(index, vertex_tuple)`" to which the children "are
appended": the geometry of the mesh being built and the cells added so far,
each with its index, in the order of the calls. -/
structure MeshEditor (K : Type) where
  geometry : MeshGeometry K
  cells : List (Nat × List Nat)

/-- Modelled from the spec: `MeshEditor::add_cell(index, vertex_tuple)`. -/
def MeshEditor.add_cell {K : Type} (editor : MeshEditor K) (c : Nat) (v : List Nat) :
    MeshEditor K :=
  { editor with cells := editor.cells ++ [(c, v)] }

/-- The four children at the corners, `cells[0]` to `cells[3]`. -/
def corner_cells (v0 v1 v2 v3 e0 e1 e2 e3 e4 e5 : Nat) : List (List Nat) :=
  [[v0, e3, e4, e5], [v1, e1, e2, e5], [v2, e0, e2, e4], [v3, e0, e1, e3]]

/-- The three ways `refine_cell` divides the octahedron, `cells[4]` to
`cells[7]`: pattern `0` is the first branch, `1` the second, any other the third. -/
def octahedron_cells (pattern : Nat) (e0 e1 e2 e3 e4 e5 : Nat) : List (List Nat) :=
  match pattern with
  | 0 => [[e0, e1, e2, e5], [e0, e1, e3, e5], [e0, e2, e4, e5], [e0, e3, e4, e5]]
  | 1 => [[e0, e1, e2, e4], [e0, e1, e3, e4], [e1, e2, e4, e5], [e1, e3, e4, e5]]
  | _ => [[e0, e1, e2, e3], [e0, e2, e3, e4], [e1, e2, e3, e5], [e2, e3, e4, e5]]

/-- The branch the comparisons of `refine_cell` take. -/
def octahedron_pattern {K : Type} [LinearOrderedField K] (d05 d14 d23 : K) : Nat :=
  if d05 ≤ d14 ∧ d14 ≤ d23 then 0
  else if d14 ≤ d23 then 1
  else 2

/-- The loop `for (_cell ...) editor.add_cell(current_cell++, *_cell)`. -/
def add_cells {K : Type} (cells : List (List Nat)) (editor : MeshEditor K) (current_cell : Nat) :
    MeshEditor K × Nat :=
  cells.foldl (fun st cell => (st.1.add_cell st.2 cell, st.2 + 1)) (editor, current_cell)

/-- `TetrahedronCell::refine_cell(cell, editor, current_cell)`: the new editor
and the new value of the counter, or the error of `find_edge`. The square root
of `Point::distance` is the parameter `sqrt`. -/
def refine_cell {K : Type} [LinearOrderedField K] (sqrt : K → K) (mesh : Mesh K) (c : Nat)
    (editor : MeshEditor K) (current_cell : Nat) : Except Error (MeshEditor K × Nat) := do
  let v := mesh.topology.cell_vertices c
  let e := mesh.topology.cell_edges c
  let offset := mesh.num_vertices
  let v0 := v.getD 0 0
  let v1 := v.getD 1 0
  let v2 := v.getD 2 0
  let v3 := v.getD 3 0
  let e0 := offset + e.getD (← find_edge mesh.topology 0 c) 0
  let e1 := offset + e.getD (← find_edge mesh.topology 1 c) 0
  let e2 := offset + e.getD (← find_edge mesh.topology 2 c) 0
  let e3 := offset + e.getD (← find_edge mesh.topology 3 c) 0
  let e4 := offset + e.getD (← find_edge mesh.topology 4 c) 0
  let e5 := offset + e.getD (← find_edge mesh.topology 5 c) 0
  let p0 := editor.geometry.point e0
  let p1 := editor.geometry.point e1
  let p2 := editor.geometry.point e2
  let p3 := editor.geometry.point e3
  let p4 := editor.geometry.point e4
  let p5 := editor.geometry.point e5
  let d05 := p0.distance sqrt p5
  let d14 := p1.distance sqrt p4
  let d23 := p2.distance sqrt p3
  let cells := corner_cells v0 v1 v2 v3 e0 e1 e2 e3 e4 e5
    ++ octahedron_cells (octahedron_pattern d05 d14 d23) e0 e1 e2 e3 e4 e5
  pure (add_cells cells editor current_cell)

/-- The index `e_i` that `refine_cell` gives the new vertex of the edge found by
`find_edge(i, cell)`: the number of vertices of the mesh plus the index of that
edge. Where `find_edge` fails there is no such vertex, and this is the offset. -/
def new_vertex {K : Type} (mesh : Mesh K) (c i : Nat) : Nat :=
  match find_edge mesh.topology i c with
  | .ok j => mesh.num_vertices + (mesh.topology.cell_edges c).getD j 0
  | .error _ => mesh.num_vertices

/-- The eight children of cell `c` when the octahedron is divided by the given
pattern: the four corner children, then the four central ones. -/
def children {K : Type} (mesh : Mesh K) (c pattern : Nat) : List (List Nat) :=
  corner_cells ((mesh.topology.cell_vertices c).getD 0 0) ((mesh.topology.cell_vertices c).getD 1 0)
      ((mesh.topology.cell_vertices c).getD 2 0) ((mesh.topology.cell_vertices c).getD 3 0)
      (new_vertex mesh c 0) (new_vertex mesh c 1) (new_vertex mesh c 2)
      (new_vertex mesh c 3) (new_vertex mesh c 4) (new_vertex mesh c 5)
    ++ octahedron_cells pattern (new_vertex mesh c 0) (new_vertex mesh c 1) (new_vertex mesh c 2)
      (new_vertex mesh c 3) (new_vertex mesh c 4) (new_vertex mesh c 5)

/-- The three distances `d05`, `d14`, `d23` that `refine_cell` compares, between
the new vertices of opposite edges in the geometry of the editor. -/
def diagonals {K : Type} [LinearOrderedField K] (sqrt : K → K) (mesh : Mesh K) (c : Nat)
    (editor : MeshEditor K) : K × K × K :=
  ((editor.geometry.point (new_vertex mesh c 0)).distance sqrt
      (editor.geometry.point (new_vertex mesh c 5)),
    (editor.geometry.point (new_vertex mesh c 1)).distance sqrt
      (editor.geometry.point (new_vertex mesh c 4)),
    (editor.geometry.point (new_vertex mesh c 2)).distance sqrt
      (editor.geometry.point (new_vertex mesh c 3)))

/-- The volumes `volume` returns for a list of vertex tuples, each measured as a
cell over the given geometry. -/
def volumes {K : Type} [LinearOrderedField K] (geometry : MeshGeometry K)
    (cells : List (List Nat)) : Except Error (List K) :=
  cells.mapM (fun cell => volume (tetrahedron_mesh geometry cell) ⟨3, 0⟩)

/-- A tetrahedron whose edge midpoints `e0` and `e5` are at distance 2, `e2` and
`e3` at distance 4, `e1` and `e4` at distance 6: the vertices and, from index 4
on, the midpoints of the edges `0` to `5` of `unit_mesh`. -/
def skew_geometry : MeshGeometry ℚ where
  dim := 3
  coordinates :=
    [[0, 0, 0], [0, 4, 6], [2, 4, 0], [2, 0, 6],
     [2, 2, 3], [1, 2, 6], [1, 4, 3], [1, 0, 3], [1, 2, 0], [0, 2, 3]]

/-- The mesh of the one tetrahedron of `skew_geometry`, before refinement. -/
def skew_mesh : Mesh ℚ where
  topology := unit_mesh
  geometry := ⟨3, [[0, 0, 0], [0, 4, 6], [2, 4, 0], [2, 0, 6]]⟩
  num_vertices := 4

/-! ## Operations on points -/

/-- Modelled from the spec: the "vector subtraction" of `Point` (Point.h is not
under src/), `p - q`. -/
def Point.sub {K : Type} [Field K] (p q : Point K) : Point K :=
  ⟨p.x - q.x, p.y - q.y, p.z - q.z⟩

/-- Modelled from the spec: the "dot product" of `Point`, `p.dot(q)`. -/
def Point.dot {K : Type} [Field K] (p q : Point K) : K :=
  p.x * q.x + p.y * q.y + p.z * q.z

/-- Modelled from the spec: the "cross product" of `Point`, `p.cross(q)`. -/
def Point.cross {K : Type} [Field K] (p q : Point K) : Point K :=
  ⟨p.y * q.z - p.z * q.y, p.z * q.x - p.x * q.z, p.x * q.y - p.y * q.x⟩

/-- Modelled from the spec: the "Euclidean norm" of `Point`, `p.norm()`, with
the square root of the field passed in. -/
def Point.norm {K : Type} [Field K] (sqrt : K → K) (p : Point K) : K :=
  sqrt (p.x * p.x + p.y * p.y + p.z * p.z)

/-- Division of a point by a number, `p /= a`. -/
def Point.div {K : Type} [Field K] (p : Point K) (a : K) : Point K :=
  ⟨p.x / a, p.y / a, p.z / a⟩

/-- Multiplication of a point by a number, `p *= a`. -/
def Point.mul {K : Type} [Field K] (p : Point K) (a : K) : Point K :=
  ⟨p.x * a, p.y * a, p.z * a⟩

/-! ## `TetrahedronCell::diameter` -/

/-- `TetrahedronCell::diameter(tetrahedron)`: an error unless the entity is a
cell and the mesh is embedded in R^3, otherwise the "area" of the triangle whose
sides are the products of the lengths of opposite edges, over three times the
volume. -/
def diameter {K : Type} [LinearOrderedField K] (sqrt : K → K) (mesh : Mesh K)
    (tetrahedron : MeshEntity) : Except Error K :=
  if tetrahedron.dim ≠ 3 then
    .error ⟨"TetrahedronCell.cpp", "compute diameter of tetrahedron cell",
      "Illegal mesh entity, not a tetrahedron"⟩
  else if mesh.geometry.dim ≠ 3 then
    .error ⟨"TetrahedronCell.cpp", "compute diameter",
      "Tetrahedron is not embedded in R^3, only know how to compute diameter in that case"⟩
  else do
    let vertices := mesh.topology.c30.connections tetrahedron.index
    let p0 := mesh.geometry.point (vertices.getD 0 0)
    let p1 := mesh.geometry.point (vertices.getD 1 0)
    let p2 := mesh.geometry.point (vertices.getD 2 0)
    let p3 := mesh.geometry.point (vertices.getD 3 0)
    let a := p1.distance sqrt p2
    let b := p0.distance sqrt p2
    let c := p0.distance sqrt p1
    let aa := p0.distance sqrt p3
    let bb := p1.distance sqrt p3
    let cc := p2.distance sqrt p3
    let la := a * aa
    let lb := b * bb
    let lc := c * cc
    let s := (1 / 2) * (la + lb + lc)
    let area := sqrt (s * (s - la) * (s - lb) * (s - lc))
    let v ← volume mesh tetrahedron
    pure (area / (3 * v))

/-! ## `TetrahedronCell::squared_distance` -/

/-- `TetrahedronCell::point_outside_of_plane(point, a, b, c, d)`: the point and
`d` lie strictly on opposite sides of the plane through `a`, `b`, `c`. -/
def point_outside_of_plane {K : Type} [LinearOrderedField K] (point a b c d : Point K) : Bool :=
  let v := (b.sub a).cross (c.sub a)
  let signp := v.dot (point.sub a)
  let signd := v.dot (d.sub a)
  decide (signp * signd < 0)

/-- `TetrahedronCell::squared_distance(cell, point)`. The squared distance of a
point to a triangle, `TriangleCell::squared_distance` (TriangleCell.cpp is not
under src/), and the largest floating-point number,
`std::numeric_limits<double>::max()`, are parameters. -/
def squared_distance {K : Type} [LinearOrderedField K]
    (triangle_squared_distance : Point K → Point K → Point K → Point K → K) (numeric_max : K)
    (mesh : Mesh K) (cell : Nat) (point : Point K) : K :=
  let vertices := mesh.topology.cell_vertices cell
  let a := mesh.geometry.point (vertices.getD 0 0)
  let b := mesh.geometry.point (vertices.getD 1 0)
  let c := mesh.geometry.point (vertices.getD 2 0)
  let d := mesh.geometry.point (vertices.getD 3 0)
  let r2 := numeric_max
  let r2 := if point_outside_of_plane point a b c d then
    min r2 (triangle_squared_distance point a b c) else r2
  let r2 := if point_outside_of_plane point a c d b then
    min r2 (triangle_squared_distance point a c d) else r2
  let r2 := if point_outside_of_plane point a d b c then
    min r2 (triangle_squared_distance point a d b) else r2
  let r2 := if point_outside_of_plane point b d c a then
    min r2 (triangle_squared_distance point b d c) else r2
  if r2 = numeric_max then 0 else r2

/-! ## `TetrahedronCell::normal`, `facet_area` -/

/-- The computation of `normal` on the four points: `P0` the vertex of the cell
opposite the facet, `P1`, `P2`, `P3` the vertices of the facet. -/
def normal_vector {K : Type} [LinearOrderedField K] (sqrt : K → K) (P0 P1 P2 P3 : Point K) :
    Point K :=
  let V0 := P0.sub P1
  let V1 := P2.sub P1
  let V2 := P3.sub P1
  let n := V1.cross V2
  let n := n.div (n.norm sqrt)
  if n.dot V0 > 0 then n.mul (-1) else n

/-- `TetrahedronCell::normal(cell, facet)`: the unit normal of the facet, turned
away from the cell's vertex `facet`. -/
def normal {K : Type} [LinearOrderedField K] (sqrt : K → K) (mesh : Mesh K) (cell facet : Nat) :
    Point K :=
  let f := (mesh.topology.cell_facets cell).getD facet 0
  let v0 := (mesh.topology.cell_vertices cell).getD facet 0
  let v1 := (mesh.topology.facet_vertices f).getD 0 0
  let v2 := (mesh.topology.facet_vertices f).getD 1 0
  let v3 := (mesh.topology.facet_vertices f).getD 2 0
  let p0 := mesh.geometry.x v0
  let p1 := mesh.geometry.x v1
  let p2 := mesh.geometry.x v2
  let p3 := mesh.geometry.x v3
  let P0 : Point K := ⟨p0.getD 0 0, p0.getD 1 0, p0.getD 2 0⟩
  let P1 : Point K := ⟨p1.getD 0 0, p1.getD 1 0, p1.getD 2 0⟩
  let P2 : Point K := ⟨p2.getD 0 0, p2.getD 1 0, p2.getD 2 0⟩
  let P3 : Point K := ⟨p3.getD 0 0, p3.getD 1 0, p3.getD 2 0⟩
  normal_vector sqrt P0 P1 P2 P3

/-- The three expressions `v0`, `v1`, `v2` of `facet_area`, on the coordinates
`x0`, `x1`, `x2` of the vertices of the facet. -/
def facet_area_vector {K : Type} [Field K] (mesh : Mesh K) (cell facet : Nat) : Point K :=
  let f := (mesh.topology.cell_facets cell).getD facet 0
  let vertices := mesh.topology.facet_vertices f
  let x0 := mesh.geometry.x (vertices.getD 0 0)
  let x1 := mesh.geometry.x (vertices.getD 1 0)
  let x2 := mesh.geometry.x (vertices.getD 2 0)
  let v0 := (x0.getD 1 0 * x1.getD 2 0 + x0.getD 2 0 * x2.getD 1 0 + x1.getD 1 0 * x2.getD 2 0)
    - (x2.getD 1 0 * x1.getD 2 0 + x2.getD 2 0 * x0.getD 1 0 + x1.getD 1 0 * x0.getD 2 0)
  let v1 := (x0.getD 2 0 * x1.getD 0 0 + x0.getD 0 0 * x2.getD 2 0 + x1.getD 2 0 * x2.getD 0 0)
    - (x2.getD 2 0 * x1.getD 0 0 + x2.getD 0 0 * x0.getD 2 0 + x1.getD 2 0 * x0.getD 0 0)
  let v2 := (x0.getD 0 0 * x1.getD 1 0 + x0.getD 1 0 * x2.getD 0 0 + x1.getD 0 0 * x2.getD 1 0)
    - (x2.getD 0 0 * x1.getD 1 0 + x2.getD 1 0 * x0.getD 0 0 + x1.getD 0 0 * x0.getD 1 0)
  ⟨v0, v1, v2⟩

/-- `TetrahedronCell::facet_area(cell, facet)`: half the square root of
`v0*v0 + v1*v1 + v2*v2`. Its two `dolfin_assert`s on the dimensions are checks
of debug builds and raise no error. -/
def facet_area {K : Type} [LinearOrderedField K] (sqrt : K → K) (mesh : Mesh K)
    (cell facet : Nat) : K :=
  let v := facet_area_vector mesh cell facet
  (1 / 2) * sqrt (v.x * v.x + v.y * v.y + v.z * v.z)

/-! ## `TetrahedronCell::collides` -/

/-- The vector `(x1, x2, x3)` of `collides`: the coefficients of `point - p0` on
the edge vectors `p1 - p0`, `p2 - p0`, `p3 - p0`, from the cofactors of the Gram
matrix. -/
def collides_coefficients {K : Type} [LinearOrderedField K] (p0 p1 p2 p3 point : Point K) :
    K × K × K :=
  let v1 := p1.sub p0
  let v2 := p2.sub p0
  let v3 := p3.sub p0
  let v := point.sub p0
  let a11 := v1.dot v1
  let a12 := v1.dot v2
  let a13 := v1.dot v3
  let a22 := v2.dot v2
  let a23 := v2.dot v3
  let a33 := v3.dot v3
  let b1 := v.dot v1
  let b2 := v.dot v2
  let b3 := v.dot v3
  let d11 := a22 * a33 - a23 * a23
  let d12 := a12 * a33 - a23 * a13
  let d13 := a12 * a23 - a22 * a13
  let d22 := a11 * a33 - a13 * a13
  let d23 := a11 * a23 - a12 * a13
  let d33 := a11 * a22 - a12 * a12
  let inv_det := 1 / (a11 * d11 - a12 * d12 + a13 * d13)
  (inv_det * (d11 * b1 - d12 * b2 + d13 * b3),
    inv_det * (-d12 * b1 + d22 * b2 - d23 * b3),
    inv_det * (d13 * b1 - d23 * b2 + d33 * b3))

/-- The tolerance `eps` of `collides`, from the edge vector `v1 = p1 - p0`; the
constant `DOLFIN_EPS_LARGE` (constants.h is not under src/) is a parameter. -/
def collides_tolerance {K : Type} [LinearOrderedField K] (eps_large : K) (p0 p1 : Point K) : K :=
  let v1 := p1.sub p0
  let dx := |v1.x|
  let dy := |v1.y|
  let dz := |v1.z|
  max eps_large (eps_large * max dx (max dy dz))

/-- `TetrahedronCell::collides(cell, point)`: the point is in the cell, up to
the tolerance. -/
def collides {K : Type} [LinearOrderedField K] (eps_large : K) (mesh : Mesh K) (cell : Nat)
    (point : Point K) : Bool :=
  let vertices := mesh.topology.cell_vertices cell
  let p0 := mesh.geometry.point (vertices.getD 0 0)
  let p1 := mesh.geometry.point (vertices.getD 1 0)
  let p2 := mesh.geometry.point (vertices.getD 2 0)
  let p3 := mesh.geometry.point (vertices.getD 3 0)
  let x := collides_coefficients p0 p1 p2 p3 point
  let eps := collides_tolerance eps_large p0 p1
  decide (x.1 ≥ -eps) && decide (x.2.1 ≥ -eps) && decide (x.2.2 ≥ -eps)
    && decide (x.1 + x.2.1 + x.2.2 ≤ 1 + eps)

/-! ## Concrete geometries -/

/-- The geometry of the tetrahedron `(0,0,0), (1,0,0), (0,1,0), (0,0,1)`. -/
def unit_geometry (K : Type) [Field K] : MeshGeometry K where
  dim := 3
  coordinates := [[0, 0, 0], [1, 0, 0], [0, 1, 0], [0, 0, 1]]

/-- The tetrahedron `(0,0,0), (1,0,0), (0,1,0), (0,0,1)` with its connectivity
as `create_entities` numbers it. -/
def unit_tetrahedron (K : Type) [Field K] : Mesh K where
  topology := unit_mesh
  geometry := unit_geometry K
  num_vertices := 4

/-- A mesh whose coordinates have only two components: the four corners of the
unit square as the vertices of one cell. -/
def flat_mesh : Mesh ℚ where
  topology := unit_mesh
  geometry := ⟨2, [[0, 0], [1, 0], [0, 1], [1, 1]]⟩
  num_vertices := 4

/-! ## Scaled meshes and the centroid -/

/-- The geometry with every coordinate multiplied by `s`. -/
def MeshGeometry.scale {K : Type} [Field K] (geometry : MeshGeometry K) (s : K) :
    MeshGeometry K where
  dim := geometry.dim
  coordinates := geometry.coordinates.map (fun x => x.map (fun a => a * s))

/-- The mesh with the same connectivity and every vertex coordinate multiplied
by `s`. -/
def Mesh.scale {K : Type} [Field K] (mesh : Mesh K) (s : K) : Mesh K where
  topology := mesh.topology
  geometry := mesh.geometry.scale s
  num_vertices := mesh.num_vertices

/-- The average of the four vertices of a cell. -/
def centroid {K : Type} [Field K] (mesh : Mesh K) (cell : Nat) : Point K :=
  let vertices := mesh.topology.cell_vertices cell
  let p0 := mesh.geometry.point (vertices.getD 0 0)
  let p1 := mesh.geometry.point (vertices.getD 1 0)
  let p2 := mesh.geometry.point (vertices.getD 2 0)
  let p3 := mesh.geometry.point (vertices.getD 3 0)
  ⟨(p0.x + p1.x + p2.x + p3.x) / 4, (p0.y + p1.y + p2.y + p3.y) / 4,
    (p0.z + p1.z + p2.z + p3.z) / 4⟩

/-! ## The circumscribed sphere -/

/-- The vector `|u|^2 (v x w) + |v|^2 (w x u) + |w|^2 (u x v)` of three edge
vectors `u`, `v`, `w` from one vertex. -/
def circum_vector {K : Type} [Field K] (u v w : Point K) : Point K :=
  ⟨u.dot u * (v.cross w).x + v.dot v * (w.cross u).x + w.dot w * (u.cross v).x,
    u.dot u * (v.cross w).y + v.dot v * (w.cross u).y + w.dot w * (u.cross v).y,
    u.dot u * (v.cross w).z + v.dot v * (w.cross u).z + w.dot w * (u.cross v).z⟩

/-- The centre of the sphere through four points: `p0` plus the vector above
over twice the scalar triple product of the edge vectors from `p0`. -/
def circumcenter {K : Type} [Field K] (p0 p1 p2 p3 : Point K) : Point K :=
  let u := p1.sub p0
  let v := p2.sub p0
  let w := p3.sub p0
  let n := (circum_vector u v w).div (2 * u.dot (v.cross w))
  ⟨p0.x + n.x, p0.y + n.y, p0.z + n.z⟩

/-! ## The sizes of a tetrahedron: `dim`, `num_entities`, `num_vertices` -/

/-- `TetrahedronCell::dim()`. -/
def dim : Nat := 3

/-- `TetrahedronCell::num_entities(dim)`: the number of entities of a
topological dimension in one cell; the `default` branch of the `switch` raises
an error whose message prints the dimension. -/
def num_entities (dim : Nat) : Except Error Nat :=
  match dim with
  | 0 => .ok 4
  | 1 => .ok 6
  | 2 => .ok 4
  | 3 => .ok 1
  | _ => .error ⟨"TetrahedronCell.cpp", "access number of entities of tetrahedron cell",
      "Illegal topological dimension (" ++ toString dim ++ ")"⟩

/-- `TetrahedronCell::num_vertices(dim)`: the number of vertices of an entity of
a topological dimension. -/
def num_vertices (dim : Nat) : Except Error Nat :=
  match dim with
  | 0 => .ok 1
  | 1 => .ok 2
  | 2 => .ok 3
  | 3 => .ok 4
  | _ => .error ⟨"TetrahedronCell.cpp",
      "access number of vertices for subsimplex of tetrahedron cell",
      "Illegal topological dimension (" ++ toString dim ++ ")"⟩

/-! ## `TetrahedronCell::create_entities` -/

/-- The assignment `e[i][j] = x` on the array of entities. -/
def put (e : List (List Nat)) (i j x : Nat) : List (List Nat) :=
  e.set i ((e.getD i []).set j x)

/-- `TetrahedronCell::create_entities(e, dim, v)`: the array `e` after the
assignments of the branch for `dim`, or the error of the `default` branch. -/
def create_entities (e : List (List Nat)) (dim : Nat) (v : List Nat) :
    Except Error (List (List Nat)) :=
  match dim with
  | 1 =>
    let e := put e 0 0 (v.getD 2 0)
    let e := put e 0 1 (v.getD 3 0)
    let e := put e 1 0 (v.getD 1 0)
    let e := put e 1 1 (v.getD 3 0)
    let e := put e 2 0 (v.getD 1 0)
    let e := put e 2 1 (v.getD 2 0)
    let e := put e 3 0 (v.getD 0 0)
    let e := put e 3 1 (v.getD 3 0)
    let e := put e 4 0 (v.getD 0 0)
    let e := put e 4 1 (v.getD 2 0)
    let e := put e 5 0 (v.getD 0 0)
    let e := put e 5 1 (v.getD 1 0)
    .ok e
  | 2 =>
    let e := put e 0 0 (v.getD 1 0)
    let e := put e 0 1 (v.getD 2 0)
    let e := put e 0 2 (v.getD 3 0)
    let e := put e 1 0 (v.getD 0 0)
    let e := put e 1 1 (v.getD 2 0)
    let e := put e 1 2 (v.getD 3 0)
    let e := put e 2 0 (v.getD 0 0)
    let e := put e 2 1 (v.getD 1 0)
    let e := put e 2 2 (v.getD 3 0)
    let e := put e 3 0 (v.getD 0 0)
    let e := put e 3 1 (v.getD 1 0)
    let e := put e 3 2 (v.getD 2 0)
    .ok e
  | _ => .error ⟨"TetrahedronCell.cpp", "create entities of tetrahedron cell",
      "Don't know how to create entities of topological dimension " ++ toString dim⟩

/-! ## Operations that are not implemented -/

/-- Modelled from the spec: `dolfin_not_implemented()` (log.h is not under
src/), which raises the "NotImplementedError" of the function it stands in. -/
def not_implemented (function : String) : Error :=
  ⟨"TetrahedronCell.cpp", function, "The function has not been implemented"⟩

/-- `TetrahedronCell::cell_normal(cell)`: the error "cell_normal not implemented
for TetrahedronCell", whatever the cell. -/
def cell_normal {K : Type} (_mesh : Mesh K) (_cell : Nat) : Except Error (Point K) :=
  .error ⟨"TetrahedronCell.cpp", "compute cell normal",
    "cell_normal not implemented for TetrahedronCell"⟩

/-- `TetrahedronCell::collides(cell, entity)`, the test against a mesh entity:
`dolfin_not_implemented()`, whatever the arguments. -/
def collides_entity {K : Type} (_mesh : Mesh K) (_cell : Nat) (_entity : MeshEntity) :
    Except Error Bool :=
  .error (not_implemented "collides")

/-- `TetrahedronCell::refine_cellIrregular(cell, editor, current_cell,
refinement_rule, marked_edges)`: `dolfin_not_implemented()`; the rest of the
body is inside a comment. The editor and the counter are passed by reference,
so their values after the call are part of the result. -/
def refine_cellIrregular {K : Type} (_mesh : Mesh K) (_c : Nat) (editor : MeshEditor K)
    (current_cell : Nat) (_refinement_rule : Nat) (_marked_edges : List Nat) :
    Except Error Unit × MeshEditor K × Nat :=
  (.error (not_implemented "refine_cellIrregular"), editor, current_cell)

/-! ## Predicates of the later properties -/

/-- The vertices and edges of cell `c` form a tetrahedron: four distinct
vertices and six distinct edges, each joining two distinct vertices of the
cell, every pair of vertices joined by one of them. Nothing is asked of the
order of the edge list, nor of the facets. -/
structure EdgeConnectivity (t : MeshTopology) (c : Nat) : Prop where
  cv_length : (t.cell_vertices c).length = 4
  cv_nodup : (t.cell_vertices c).Nodup
  ce_length : (t.cell_edges c).length = 6
  ce_nodup : (t.cell_edges c).Nodup
  ev_length : ∀ e ∈ t.cell_edges c, (t.edge_vertices e).length = 2
  ev_nodup : ∀ e ∈ t.cell_edges c, (t.edge_vertices e).Nodup
  ev_sub : ∀ e ∈ t.cell_edges c, ∀ v ∈ t.edge_vertices e, v ∈ t.cell_vertices c
  ev_all : ∀ a ∈ t.cell_vertices c, ∀ b ∈ t.cell_vertices c, a ≠ b →
    ∃ e ∈ t.cell_edges c, a ∈ t.edge_vertices e ∧ b ∈ t.edge_vertices e

/-- The tuples that the steps of `order` index have the sizes of a tetrahedron:
where a step runs, the cell lists six edges or four facets, and each facet
three edges. In the source these are the sizes of the arrays and what the
`dolfin_assert`s of the steps ask to be built. -/
structure Sized (t : MeshTopology) (c : Nat) : Prop where
  edges : t.c10 ≠ [] ∨ t.c31 ≠ [] → (t.cell_edges c).length = 6
  facets : t.c20 ≠ [] ∨ t.c21 ≠ [] ∨ t.c32 ≠ [] → (t.cell_facets c).length = 4
  facet_edges : t.c21 ≠ [] → ∀ f ∈ t.cell_facets c, (t.facet_edges f).length = 3

/-- Three vectors are linearly independent: only the zero combination of them
is the zero vector. -/
def Independent {K : Type} [Field K] (v1 v2 v3 : Point K) : Prop :=
  ∀ a b c : K, a * v1.x + b * v2.x + c * v3.x = 0 → a * v1.y + b * v2.y + c * v3.y = 0 →
    a * v1.z + b * v2.z + c * v3.z = 0 → a = 0 ∧ b = 0 ∧ c = 0

/-- The closed tetrahedron with vertices `a`, `b`, `c`, `d`: the points that
are a combination of the vertices with weights `≥ 0` of sum 1. -/
def InTetrahedron {K : Type} [LinearOrderedField K] (p a b c d : Point K) : Prop :=
  ∃ w0 w1 w2 w3 : K, 0 ≤ w0 ∧ 0 ≤ w1 ∧ 0 ≤ w2 ∧ 0 ≤ w3 ∧ w0 + w1 + w2 + w3 = 1 ∧
    p.x = w0 * a.x + w1 * b.x + w2 * c.x + w3 * d.x ∧
    p.y = w0 * a.y + w1 * b.y + w2 * c.y + w3 * d.y ∧
    p.z = w0 * a.z + w1 * b.z + w2 * c.z + w3 * d.z

/-- The squared distances of a point to the faces `abc`, `acd`, `adb`, `bdc` of
a cell whose plane strictly separates the point from the opposite vertex, in
this order of the faces: what the specification takes the minimum of. -/
def separating_distances {K : Type} [LinearOrderedField K]
    (triangle_squared_distance : Point K → Point K → Point K → Point K → K)
    (mesh : Mesh K) (cell : Nat) (point : Point K) : List K :=
  let vertices := mesh.topology.cell_vertices cell
  let a := mesh.geometry.point (vertices.getD 0 0)
  let b := mesh.geometry.point (vertices.getD 1 0)
  let c := mesh.geometry.point (vertices.getD 2 0)
  let d := mesh.geometry.point (vertices.getD 3 0)
  [] ++ (if point_outside_of_plane point a b c d then [triangle_squared_distance point a b c]
      else [])
    ++ (if point_outside_of_plane point a c d b then [triangle_squared_distance point a c d]
      else [])
    ++ (if point_outside_of_plane point a d b c then [triangle_squared_distance point a d b]
      else [])
    ++ (if point_outside_of_plane point b d c a then [triangle_squared_distance point b d c]
      else [])

/-- The largest finite double, `std::numeric_limits<double>::max()`. -/
def double_max (K : Type) [Field K] : K := (2 ^ 53 - 1) * 2 ^ 971

/-! ## `TetrahedronCell::order` with its checks -/

/-- Modelled from the spec: the tuple of an entity where the source reads or
writes it through the pointer that `MeshConnectivity::operator()(entity)`
returns (MeshConnectivity.h is not under src/). An entity outside the table, and
so every entity of a table that was never built, has no tuple: following its
pointer is an error. -/
def MeshConnectivity.tuple (conn : MeshConnectivity) (entity : Nat) : Except Error (List Nat) :=
  if entity < conn.length then .ok (conn.connections entity)
  else .error ⟨"MeshConnectivity.h", "access the connections of a mesh entity",
    "No connections for entity " ++ toString entity⟩

/-- The search for the unit in the last place: `u` is doubled until `m / u` has
at most 53 bits. -/
def ulp_from (steps m u : Nat) : Nat :=
  match steps with
  | 0 => u
  | steps + 1 => if m / u < 2 ^ 53 then u else ulp_from steps m (2 * u)

/-- The unit in the last place of a double of magnitude `m`: the least power
of two `u` for which `m / u` has at most 53 bits. Overflow, from magnitude
`2^1024` on, has no part here. -/
def ulp (m : Nat) : Nat := ulp_from 971 m 1

/-- The double nearest to an integer, as an integer: rounding to a significand
of 53 bits, a tie going to the even significand. An integer of magnitude below
`2^53` is a double; a larger one is rounded to a multiple of its unit in the last
place. -/
def round_double (n : Int) : Int :=
  let m := n.natAbs
  let q := m / ulp m
  let r := m % ulp m
  let q := if 2 * r < ulp m ∨ (2 * r = ulp m ∧ q % 2 = 0) then q else q + 1
  n.sign * (q * ulp m : Nat)

/-- Modelled from the spec: the "vector subtraction" of `Point` in double
arithmetic on integer coordinates: each difference is rounded. -/
def Point.sub_double (p q : Point Int) : Point Int :=
  ⟨round_double (p.x - q.x), round_double (p.y - q.y), round_double (p.z - q.z)⟩

/-- Modelled from the spec: the "dot product" of `Point` in double arithmetic on
integer coordinates: each product and each sum is rounded, the sums from the
left. -/
def Point.dot_double (p q : Point Int) : Int :=
  round_double (round_double (round_double (p.x * q.x) + round_double (p.y * q.y))
    + round_double (p.z * q.z))

/-- Modelled from the spec: the "cross product" of `Point` in double arithmetic
on integer coordinates: each product and each difference is rounded. -/
def Point.cross_double (p q : Point Int) : Point Int :=
  ⟨round_double (round_double (p.y * q.z) - round_double (p.z * q.y)),
    round_double (round_double (p.z * q.x) - round_double (p.x * q.z)),
    round_double (round_double (p.x * q.y) - round_double (p.y * q.x))⟩

/-- `TetrahedronCell::point_outside_of_plane(point, a, b, c, d)` in double
arithmetic on points with integer coordinates: the expressions of the source,
each operation rounded to the nearest double. -/
def point_outside_of_plane_double (point a b c d : Point Int) : Bool :=
  let v := (b.sub_double a).cross_double (c.sub_double a)
  let signp := v.dot_double (point.sub_double a)
  let signd := v.dot_double (d.sub_double a)
  decide (round_double (signp * signd) < 0)

/-- The vertex `n` of a geometry with integer coordinates as a point. -/
def MeshGeometry.point_double (geometry : MeshGeometry Int) (n : Nat) : Point Int :=
  ⟨(geometry.x n).getD 0 0, (geometry.x n).getD 1 0, (geometry.x n).getD 2 0⟩

/-- `TetrahedronCell::squared_distance(cell, point)` in double arithmetic on a
mesh and a point with integer coordinates. The squared distance of a point to a
triangle, `TriangleCell::squared_distance` (TriangleCell.cpp is not under src/),
and the largest floating-point number are parameters, as in `squared_distance`;
minimum and comparison of doubles are exact. -/
def squared_distance_double
    (triangle_squared_distance : Point Int → Point Int → Point Int → Point Int → Int)
    (numeric_max : Int) (mesh : Mesh Int) (cell : Nat) (point : Point Int) : Int :=
  let vertices := mesh.topology.cell_vertices cell
  let a := mesh.geometry.point_double (vertices.getD 0 0)
  let b := mesh.geometry.point_double (vertices.getD 1 0)
  let c := mesh.geometry.point_double (vertices.getD 2 0)
  let d := mesh.geometry.point_double (vertices.getD 3 0)
  let r2 := numeric_max
  let r2 := if point_outside_of_plane_double point a b c d then
    min r2 (triangle_squared_distance point a b c) else r2
  let r2 := if point_outside_of_plane_double point a c d b then
    min r2 (triangle_squared_distance point a c d) else r2
  let r2 := if point_outside_of_plane_double point a d b c then
    min r2 (triangle_squared_distance point a d b) else r2
  let r2 := if point_outside_of_plane_double point b d c a then
    min r2 (triangle_squared_distance point b d c) else r2
  if r2 = numeric_max then 0 else r2

/-- A parallelogram as a tetrahedron: the vertices `a = (0,0,0)`,
`b = (-2,-3,-262143)`, `c = (-524287,-131072,-131071)` and `d = b + c` lie in one
plane. All coordinates are integers below `2^20` in magnitude, and so doubles. -/
def parallelogram_mesh : Mesh Int where
  topology := ⟨[], [], [], [[0, 1, 2, 3]], [], []⟩
  geometry := ⟨3, [[0, 0, 0], [-2, -3, -262143], [-524287, -131072, -131071],
    [-524289, -131075, -393214]]⟩
  num_vertices := 4

/-! ## Tables and swaps -/

theorem connections_set (conn : MeshConnectivity) (i e : Nat) (v : List Nat) :
    MeshConnectivity.connections (conn.set i v) e
      = if e = i ∧ i < conn.length then v else conn.connections e := by
  unfold MeshConnectivity.connections
  rw [List.getD_eq_getElem?_getD, List.getD_eq_getElem?_getD, List.getElem?_set]
  by_cases h : i = e
  · subst h
    by_cases h2 : i < conn.length
    · simp [h2]
    · simp [h2, List.getElem?_eq_none (Nat.le_of_not_lt h2)]
  · have h' : ¬ e = i := fun h3 => h h3.symm
    simp [h, h']

theorem connections_eq_nil_of_le (conn : MeshConnectivity) (e : Nat) (h : conn.length ≤ e) :
    conn.connections e = [] := by
  unfold MeshConnectivity.connections
  simp [List.getD_eq_getElem?_getD, List.getElem?_eq_none h]

theorem set_connections_self (conn : MeshConnectivity) (e : Nat) :
    conn.set e (conn.connections e) = conn := by
  unfold MeshConnectivity.connections
  by_cases h : e < conn.length
  · apply List.ext_getElem? 
    intro n
    rw [List.getElem?_set]
    by_cases hn : e = n
    · subst hn; simp [h]
    · simp [hn]
  · exact List.set_eq_of_length_le (by omega)

theorem set_getD_self (xs : List Nat) (m : Nat) : xs.set m (xs.getD m 0) = xs := by
  by_cases h : m < xs.length
  · apply List.ext_getElem? 
    intro n
    rw [List.getElem?_set]
    by_cases hn : m = n
    · subst hn; simp [h]
    · simp [hn]
  · exact List.set_eq_of_length_le (by omega)

theorem swap_self (xs : List Nat) (m : Nat) : swap xs m m = xs := by
  unfold swap
  rw [set_getD_self]
  exact set_getD_self xs m

theorem getD_cons_set_perm (l : List Nat) (k x : Nat) (hk : k < l.length) :
    (l.getD k 0 :: l.set k x).Perm (x :: l) := by
  induction l generalizing k with
  | nil => simp at hk
  | cons y l ih =>
    cases k with
    | zero => simpa using List.Perm.swap x y l
    | succ k =>
      have hk' : k < l.length := by simpa using hk
      have h1 := ih k hk'
      have h2 : (l.getD k 0 :: y :: l.set k x).Perm (y :: l.getD k 0 :: l.set k x) :=
        List.Perm.swap _ _ _
      have h3 : (y :: l.getD k 0 :: l.set k x).Perm (y :: x :: l) := List.Perm.cons y h1
      have h4 : (y :: x :: l).Perm (x :: y :: l) := List.Perm.swap _ _ _
      simpa using (h2.trans h3).trans h4

theorem swap_perm_of_lt (xs : List Nat) (m k : Nat) (hmk : m < k) (hk : k < xs.length) :
    (swap xs m k).Perm xs := by
  induction xs generalizing m k with
  | nil => simp at hk
  | cons y l ih =>
    cases k with
    | zero => omega
    | succ k =>
      have hk' : k < l.length := by simpa using hk
      cases m with
      | zero =>
        have := getD_cons_set_perm l k y hk'
        simpa [swap] using this
      | succ m =>
        have := ih m k (by omega) hk'
        simpa [swap] using this

theorem swap_perm (xs : List Nat) (m k : Nat) (hmk : m ≤ k) (hk : k < xs.length) :
    (swap xs m k).Perm xs := by
  rcases Nat.eq_or_lt_of_le hmk with h | h
  · subst h; rw [swap_self]
  · exact swap_perm_of_lt xs m k h hk

theorem length_swap (xs : List Nat) (m k : Nat) : (swap xs m k).length = xs.length := by
  simp [swap]

theorem getD_swap (xs : List Nat) (m k i : Nat) (hm : m < xs.length) (hk : k < xs.length) :
    (swap xs m k).getD i 0 = if i = k then xs.getD m 0 else if i = m then xs.getD k 0 else xs.getD i 0 := by
  unfold swap
  simp only [List.getD_eq_getElem?_getD, List.getElem?_set, List.length_set]
  by_cases h1 : k = i
  · subst h1; simp [hk]
  · have h1' : ¬ i = k := fun h => h1 h.symm
    by_cases h2 : m = i
    · subst h2; simp [h1, h1', hm]
    · have h2' : ¬ i = m := fun h => h2 h.symm
      simp [h1, h1', h2, h2']


/-! ## Scans and selection loops -/

theorem find_range'_some (q : Nat → Bool) (len m k : Nat)
    (h : (List.range' m len).find? q = some k) :
    m ≤ k ∧ k < m + len ∧ q k = true ∧ ∀ j, m ≤ j → j < k → q j = false := by
  induction len generalizing m with
  | zero => simp at h
  | succ len ih =>
    rw [List.range'_succ, List.find?_cons] at h
    cases hq : q m with
    | true =>
      rw [hq] at h
      have hk : m = k := by simpa using h
      subst hk
      exact ⟨Nat.le_refl _, by omega, hq, fun j h1 h2 => by omega⟩
    | false =>
      rw [hq] at h
      obtain ⟨h1, h2, h3, h4⟩ := ih (m + 1) h
      refine ⟨by omega, by omega, h3, fun j hj1 hj2 => ?_⟩
      rcases Nat.eq_or_lt_of_le hj1 with e | l
      · rw [← e]; exact hq
      · exact h4 j l hj2

theorem find_range'_none (q : Nat → Bool) (len m : Nat)
    (h : (List.range' m len).find? q = none) (j : Nat) (h1 : m ≤ j) (h2 : j < m + len) :
    q j = false := by
  rw [List.find?_eq_none] at h
  have := h j (by rw [List.mem_range']; exact ⟨j - m, by omega, by omega⟩)
  simpa using this

theorem scan_some (n : Nat) (p : Nat → Bool) (xs : List Nat) (m k : Nat)
    (h : scan n p xs m = some k) :
    m ≤ k ∧ k < n ∧ p (xs.getD k 0) = true ∧ ∀ j, m ≤ j → j < k → p (xs.getD j 0) = false := by
  obtain ⟨h1, h2, h3, h4⟩ := find_range'_some _ _ _ _ h
  exact ⟨h1, by omega, h3, h4⟩

theorem scan_exists (n : Nat) (p : Nat → Bool) (xs : List Nat) (m j : Nat)
    (h1 : m ≤ j) (h2 : j < n) (hp : p (xs.getD j 0) = true) :
    ∃ k, scan n p xs m = some k := by
  cases h : scan n p xs m with
  | some k => exact ⟨k, rfl⟩
  | none =>
    have := find_range'_none _ _ _ h j h1 (by omega)
    simp only [hp] at this
    cases this

theorem scan_first (n : Nat) (p : Nat → Bool) (xs : List Nat) (m : Nat)
    (h2 : m < n) (hp : p (xs.getD m 0) = true) : scan n p xs m = some m := by
  obtain ⟨k, hk⟩ := scan_exists n p xs m m (Nat.le_refl _) h2 hp
  obtain ⟨h1, _, _, h4⟩ := scan_some n p xs m k hk
  rcases Nat.eq_or_lt_of_le h1 with e | l
  · rw [hk, e]
  · have := h4 m (Nat.le_refl _) l
    rw [hp] at this
    cases this

theorem exists_getD_of_mem (xs : List Nat) (x : Nat) (h : x ∈ xs) :
    ∃ k, k < xs.length ∧ xs.getD k 0 = x := by
  obtain ⟨k, hk, e⟩ := List.mem_iff_getElem.mp h
  exact ⟨k, hk, by simp [List.getD_eq_getElem?_getD, List.getElem?_eq_getElem hk, e]⟩

theorem getD_mem (xs : List Nat) (k : Nat) (h : k < xs.length) : xs.getD k 0 ∈ xs := by
  simp [List.getD_eq_getElem?_getD, List.getElem?_eq_getElem h]

/-- One scan of a selection loop: when every slot has an entry of the list that
passes its test and no entry passes the tests of two slots, the scan for slot `t`
succeeds and fills it. -/
theorem scan_selected (n : Nat) (q : Nat → Nat → Bool) (xs0 xs : List Nat) (t : Nat)
    (hlen : xs0.length = n)
    (h1 : ∀ t, t < n → ∃ x, x ∈ xs0 ∧ q t x = true)
    (h2 : ∀ x, x ∈ xs0 → ∀ s t, s < n → t < n → q s x = true → q t x = true → s = t)
    (ht : t < n) (hinv : Selected q xs0 t xs) :
    ∃ k, scan n (q t) xs t = some k ∧ Selected q xs0 (t + 1) (swap xs t k) := by
  obtain ⟨hperm, hsel⟩ := hinv
  have hl : xs.length = n := by rw [hperm.length_eq, hlen]
  obtain ⟨x, hx, hq⟩ := h1 t ht
  obtain ⟨j, hj, hjx⟩ := exists_getD_of_mem xs x (hperm.symm.subset hx)
  have htj : t ≤ j := by
    by_contra hc
    have hjt : j < t := by omega
    have := hsel j hjt
    rw [hjx] at this
    have := h2 x hx j t (by omega) ht this hq
    omega
  obtain ⟨k, hk⟩ := scan_exists n (q t) xs t j htj (by omega) (by rw [hjx]; exact hq)
  obtain ⟨hk1, hk2, hk3, _⟩ := scan_some _ _ _ _ _ hk
  refine ⟨k, hk, (swap_perm xs t k hk1 (by omega)).trans hperm, fun s hs => ?_⟩
  rw [getD_swap xs t k s (by omega) (by omega)]
  by_cases e1 : s = k
  · have : k = t := by omega
    subst e1; subst this
    simpa using hk3
  · by_cases e2 : s = t
    · subst e2; simpa [e1] using hk3
    · simp only [e1, e2, if_false]
      exact hsel s (by omega)

/-- A selection loop in the style of steps 3 and 5 (`scan_swap`, the free slot
`m` advancing with each match) fills every slot. -/
theorem foldl_scan_swap_selected (n : Nat) (q : Nat → Nat → Bool) (xs0 : List Nat)
    (hlen : xs0.length = n)
    (h1 : ∀ t, t < n → ∃ x, x ∈ xs0 ∧ q t x = true)
    (h2 : ∀ x, x ∈ xs0 → ∀ s t, s < n → t < n → q s x = true → q t x = true → s = t)
    (t : Nat) (ht : t ≤ n) :
    ((List.range t).foldl (fun st s => scan_swap n (q s) st) (xs0, 0)).2 = t ∧
    Selected q xs0 t ((List.range t).foldl (fun st s => scan_swap n (q s) st) (xs0, 0)).1 := by
  induction t with
  | zero => exact ⟨rfl, List.Perm.refl _, fun s hs => by omega⟩
  | succ t ih =>
    obtain ⟨e, hinv⟩ := ih (by omega)
    rw [List.range_succ, List.foldl_append]
    simp only [List.foldl_cons, List.foldl_nil]
    generalize (List.range t).foldl (fun st s => scan_swap n (q s) st) (xs0, 0) = st at e hinv
    obtain ⟨k, hk, hsel⟩ := scan_selected n q xs0 st.1 t hlen h1 h2 (by omega) hinv
    unfold scan_swap
    rw [e, hk]
    exact ⟨rfl, hsel⟩

/-- A selection loop in the style of step 6 (`scan_swap_at`, slot `i` for the
`i`-th scan) fills every slot. -/
theorem foldl_scan_swap_at_selected (n : Nat) (q : Nat → Nat → Bool) (xs0 : List Nat)
    (hlen : xs0.length = n)
    (h1 : ∀ t, t < n → ∃ x, x ∈ xs0 ∧ q t x = true)
    (h2 : ∀ x, x ∈ xs0 → ∀ s t, s < n → t < n → q s x = true → q t x = true → s = t)
    (t : Nat) (ht : t ≤ n) :
    Selected q xs0 t ((List.range t).foldl (fun xs s => scan_swap_at n (q s) xs s) xs0) := by
  induction t with
  | zero => exact ⟨List.Perm.refl _, fun s hs => by omega⟩
  | succ t ih =>
    have hinv := ih (by omega)
    rw [List.range_succ, List.foldl_append]
    simp only [List.foldl_cons, List.foldl_nil]
    generalize (List.range t).foldl (fun xs s => scan_swap_at n (q s) xs s) xs0 = xs at hinv
    obtain ⟨k, hk, hsel⟩ := scan_selected n q xs0 xs t hlen h1 h2 (by omega) hinv
    unfold scan_swap_at
    rw [hk]
    exact hsel

/-- A selection loop leaves a list alone whose every slot already holds an entry
that passes the slot's test. -/
theorem foldl_scan_swap_id (n : Nat) (q : Nat → Nat → Bool) (xs : List Nat)
    (h : ∀ s, s < n → q s (xs.getD s 0) = true) (t : Nat) (ht : t ≤ n) :
    (List.range t).foldl (fun st s => scan_swap n (q s) st) (xs, 0) = (xs, t) := by
  induction t with
  | zero => rfl
  | succ t ih =>
    rw [List.range_succ, List.foldl_append, ih (by omega)]
    simp only [List.foldl_cons, List.foldl_nil]
    unfold scan_swap
    simp only
    rw [scan_first n (q t) xs t (by omega) (h t (by omega))]
    simp only [swap_self]

theorem foldl_scan_swap_at_id (n : Nat) (q : Nat → Nat → Bool) (xs : List Nat)
    (h : ∀ s, s < n → q s (xs.getD s 0) = true) (t : Nat) (ht : t ≤ n) :
    (List.range t).foldl (fun xs s => scan_swap_at n (q s) xs s) xs = xs := by
  induction t with
  | zero => rfl
  | succ t ih =>
    rw [List.range_succ, List.foldl_append, ih (by omega)]
    simp only [List.foldl_cons, List.foldl_nil]
    unfold scan_swap_at
    rw [scan_first n (q t) xs t (by omega) (h t (by omega))]
    simp only [swap_self]

/-- Two rearrangements of one list that both have every slot filled are equal. -/
theorem selected_unique (n : Nat) (q : Nat → Nat → Bool) (xs0 ys zs : List Nat)
    (hlen : xs0.length = n)
    (h2 : ∀ x, x ∈ xs0 → ∀ s t, s < n → t < n → q s x = true → q t x = true → s = t)
    (hy : Selected q xs0 n ys) (hz : Selected q xs0 n zs) : ys = zs := by
  obtain ⟨py, sy⟩ := hy
  obtain ⟨pz, sz⟩ := hz
  have ly : ys.length = n := by rw [py.length_eq, hlen]
  have lz : zs.length = n := by rw [pz.length_eq, hlen]
  apply List.ext_getElem (by rw [ly, lz])
  intro t hty htz
  have hmem : ys.getD t 0 ∈ zs := pz.symm.subset (py.subset (getD_mem ys t hty))
  obtain ⟨k, hk, e⟩ := exists_getD_of_mem zs _ hmem
  have hkt : k = t := by
    apply h2 (ys.getD t 0) (py.subset (getD_mem ys t hty)) k t (by omega) (by omega)
    · rw [← e]; exact sz k (by omega)
    · exact sy t (by omega)
  subst hkt
  simpa [List.getD_eq_getElem?_getD, List.getElem?_eq_getElem hty,
    List.getElem?_eq_getElem htz] using e.symm


/-! ## Sorting by global index -/

theorem sort_entities_perm (n : Nat) (l : List Nat) (g : Nat → Nat) :
    (sort_entities n l g).Perm l := by
  unfold sort_entities
  have h := (List.perm_insertionSort (global_le g) (l.take n)).append_right (l.drop n)
  rwa [List.take_append_drop] at h

theorem mem_sort_entities (n : Nat) (l : List Nat) (g : Nat → Nat) (x : Nat) :
    x ∈ sort_entities n l g ↔ x ∈ l := (sort_entities_perm n l g).mem_iff

theorem sort_entities_nil (n : Nat) (g : Nat → Nat) : sort_entities n [] g = [] := by
  simp [sort_entities]

theorem Ascending.sorted_le {g : Nat → Nat} {l : List Nat} (h : Ascending g l) :
    l.Sorted (global_le g) :=
  List.Pairwise.imp (fun hab => Nat.le_of_lt hab) h

theorem sort_entities_of_sorted (n : Nat) (l : List Nat) (g : Nat → Nat)
    (h : l.Sorted (global_le g)) : sort_entities n l g = l := by
  unfold sort_entities
  have ht : (l.take n).Sorted (global_le g) := List.Pairwise.sublist (List.take_sublist n l) h
  rw [List.Sorted.insertionSort_eq ht, List.take_append_drop]

theorem sort_entities_of_ascending (n : Nat) (l : List Nat) (g : Nat → Nat)
    (h : Ascending g l) : sort_entities n l g = l :=
  sort_entities_of_sorted n l g h.sorted_le

theorem sort_entities_sorted (n : Nat) (l : List Nat) (g : Nat → Nat) (hl : l.length ≤ n) :
    (sort_entities n l g).Sorted (global_le g) := by
  unfold sort_entities
  rw [List.drop_eq_nil_of_le hl, List.append_nil]
  exact List.sorted_insertionSort _ _

/-- Sorting a tuple without repeated global indices leaves it strictly ascending. -/
theorem sort_entities_ascending (n : Nat) (l : List Nat) (g : Nat → Nat) (hl : l.length ≤ n)
    (hnd : (l.map g).Nodup) : Ascending g (sort_entities n l g) := by
  have hs := sort_entities_sorted n l g hl
  have hp := sort_entities_perm n l g
  have hnd' : ((sort_entities n l g).map g).Nodup := (hp.map g).nodup_iff.mpr hnd
  generalize sort_entities n l g = s at hs hnd'
  unfold Ascending
  rw [List.Sorted, List.pairwise_iff_getElem] at hs ⊢
  intro i j hi hj hij
  have h1 := hs i j hi hj hij
  have h2 : g s[i] ≠ g s[j] := by
    rw [List.Nodup, List.pairwise_iff_getElem] at hnd'
    have := hnd' i j (by simpa using hi) (by simpa using hj) hij
    simpa using this
  exact Nat.lt_of_le_of_ne h1 h2

theorem ascending_unique (g : Nat → Nat) (l1 l2 : List Nat) (hp : l1.Perm l2)
    (h1 : Ascending g l1) (h2 : Ascending g l2) : l1 = l2 :=
  List.eq_of_perm_of_sorted hp h1 h2

theorem map_nodup_of_injOn (g : Nat → Nat) (l : List Nat) (hnd : l.Nodup)
    (hg : ∀ a, a ∈ l → ∀ b, b ∈ l → g a = g b → a = b) : (l.map g).Nodup := by
  rw [List.nodup_map_iff_inj_on hnd]
  intro a ha b hb he
  exact hg a ha b hb he


/-! ## Loops over the entities of a table -/

theorem lt_length_of_connections_ne_nil (conn : MeshConnectivity) (e : Nat)
    (h : conn.connections e ≠ []) : e < conn.length := by
  by_contra hc
  exact h (connections_eq_nil_of_le conn e (by omega))

theorem lt_length_of_length_connections (conn : MeshConnectivity) (e n : Nat)
    (h : (conn.connections e).length = n + 1) : e < conn.length := by
  apply lt_length_of_connections_ne_nil
  intro hc
  rw [hc] at h
  simp at h

theorem map_getD_range (l : List Nat) :
    (List.range l.length).map (fun i => l.getD i 0) = l := by
  apply List.ext_getElem (by simp)
  intro i h1 h2
  simp [List.getD_eq_getElem?_getD, List.getElem?_eq_getElem h2]

theorem foldl_range_getD (G : MeshConnectivity → Nat → MeshConnectivity) (l : List Nat) (n : Nat)
    (hl : l.length = n) (conn : MeshConnectivity) :
    (List.range n).foldl (fun conn i => G conn (l.getD i 0)) conn = l.foldl G conn := by
  subst hl
  conv => rhs; rw [← map_getD_range l]
  rw [List.foldl_map]

theorem if_isEmpty_set (conn : MeshConnectivity) (c : Nat) (v : List Nat) :
    (if conn.isEmpty then conn else conn.set c v) = conn.set c v := by
  cases conn <;> simp

theorem foldl_set_nil {α : Type} (G : MeshConnectivity → α → Nat)
    (H : MeshConnectivity → α → List Nat) (l : List α) :
    l.foldl (fun conn a => conn.set (G conn a) (H conn a)) ([] : MeshConnectivity) = [] := by
  induction l with
  | nil => rfl
  | cons f rest ih => simpa using ih

theorem if_isEmpty_foldl_set {α : Type} (conn : MeshConnectivity) (G : MeshConnectivity → α → Nat)
    (H : MeshConnectivity → α → List Nat) (l : List α) :
    (if conn.isEmpty then conn else l.foldl (fun conn a => conn.set (G conn a) (H conn a)) conn)
      = l.foldl (fun conn a => conn.set (G conn a) (H conn a)) conn := by
  cases conn with
  | nil => simp [foldl_set_nil]
  | cons a l => simp

/-- After a loop that rewrites the tuples of distinct entities of a table, each
by its own function, an entity of the loop holds its rewritten tuple and every
other entity its old one. -/
theorem connections_foldl_set (F : Nat → List Nat → List Nat) (idxs : List Nat)
    (hnd : idxs.Nodup) (conn : MeshConnectivity) (hin : ∀ f, f ∈ idxs → f < conn.length)
    (e : Nat) :
    (idxs.foldl (fun conn f => conn.set f (F f (conn.connections f))) conn).connections e
      = if e ∈ idxs then F e (conn.connections e) else conn.connections e := by
  induction idxs generalizing conn with
  | nil => simp
  | cons f rest ih =>
    rw [List.foldl_cons, ih (List.nodup_cons.mp hnd).2 _
      (fun f' hf' => by rw [List.length_set]; exact hin f' (List.mem_cons_of_mem _ hf'))]
    have hf : f < conn.length := hin f (List.mem_cons_self _ _)
    have hfr : f ∉ rest := (List.nodup_cons.mp hnd).1
    rw [connections_set]
    by_cases he : e = f
    · subst he
      simp [hfr, hf]
    · simp [he]

theorem length_foldl_set {α : Type} (G : MeshConnectivity → α → Nat)
    (H : MeshConnectivity → α → List Nat) (l : List α) (conn : MeshConnectivity) :
    (l.foldl (fun conn a => conn.set (G conn a) (H conn a)) conn).length = conn.length := by
  induction l generalizing conn with
  | nil => rfl
  | cons f rest ih => rw [List.foldl_cons, ih, List.length_set]

/-! ### The tables `order` leaves -/

theorem order_c10 (t : MeshTopology) (c : Nat) (g : Nat → Nat) :
    (order t c g).c10 = (List.range 6).foldl
      (fun conn i => sort_at 2 g conn ((t.cell_edges c).getD i 0)) t.c10 :=
  if_isEmpty_foldl_set t.c10 (fun _ i => (t.cell_edges c).getD i 0)
    (fun conn i => sort_entities 2 (conn.connections ((t.cell_edges c).getD i 0)) g) (List.range 6)

theorem order_c20 (t : MeshTopology) (c : Nat) (g : Nat → Nat) :
    (order t c g).c20 = (List.range 4).foldl
      (fun conn i => sort_at 3 g conn ((t.cell_facets c).getD i 0)) t.c20 :=
  if_isEmpty_foldl_set t.c20 (fun _ i => (t.cell_facets c).getD i 0)
    (fun conn i => sort_entities 3 (conn.connections ((t.cell_facets c).getD i 0)) g) (List.range 4)

theorem order_c21 (t : MeshTopology) (c : Nat) (g : Nat → Nat) :
    (order t c g).c21 = (List.range 4).foldl
      (fun conn i => conn.set ((t.cell_facets c).getD i 0)
        (sort_facet_edges (order t c g).c10
          ((order t c g).c20.connections ((t.cell_facets c).getD i 0))
          (conn.connections ((t.cell_facets c).getD i 0)))) t.c21 :=
  if_isEmpty_foldl_set t.c21 (fun _ i => (t.cell_facets c).getD i 0)
    (fun conn i => sort_facet_edges (order t c g).c10
          ((order t c g).c20.connections ((t.cell_facets c).getD i 0))
          (conn.connections ((t.cell_facets c).getD i 0))) (List.range 4)

theorem order_c30 (t : MeshTopology) (c : Nat) (g : Nat → Nat) :
    (order t c g).c30 = sort_at 4 g t.c30 c :=
  if_isEmpty_set t.c30 c _

theorem order_c31 (t : MeshTopology) (c : Nat) (g : Nat → Nat) :
    (order t c g).c31 = t.c31.set c
      (sort_cell_edges (order t c g).c10 ((order t c g).c30.connections c) (t.cell_edges c)) :=
  if_isEmpty_set t.c31 c _

theorem order_c32 (t : MeshTopology) (c : Nat) (g : Nat → Nat) :
    (order t c g).c32 = t.c32.set c
      (sort_cell_facets (order t c g).c20 ((order t c g).c30.connections c) (t.cell_facets c)) :=
  if_isEmpty_set t.c32 c _


/-! ## The three selection loops of `order` -/

theorem sort_facet_edges_eq (c10 : MeshConnectivity) (fv xs : List Nat) :
    sort_facet_edges c10 fv xs
      = ((List.range 3).foldl (fun st j => scan_swap 3 (facet_edge_test c10 fv j) st) (xs, 0)).1 :=
  rfl

theorem sort_cell_edges_eq (c10 : MeshConnectivity) (cv xs : List Nat) :
    sort_cell_edges c10 cv xs
      = ((List.range 6).foldl (fun st m => scan_swap 6 (cell_edge_test c10 cv m) st) (xs, 0)).1 := by
  have h3 : List.range 3 = [0, 1, 2] := rfl
  have h6 : List.range 6 = [0, 1, 2, 3, 4, 5] := rfl
  unfold sort_cell_edges
  rw [h3, h6]
  simp only [List.foldl_cons, List.foldl_nil, List.range', cell_edge_test, EV, List.getD_cons_zero,
    List.getD_cons_succ]
  rfl

theorem sort_cell_facets_eq (c20 : MeshConnectivity) (cv xs : List Nat) :
    sort_cell_facets c20 cv xs
      = (List.range 4).foldl (fun xs i => scan_swap_at 4 (cell_facet_test c20 cv i) xs i) xs :=
  rfl

theorem count_eq_zero_iff (n : Nat) (l : List Nat) (x : Nat) (hl : l.length ≤ n) :
    (count n l x == 0) = true ↔ x ∉ l := by
  unfold count
  rw [List.take_of_length_le hl]
  simp [List.count_eq_zero]

theorem count_eq_zero_of_not_mem (n : Nat) (l : List Nat) (x : Nat) (h : x ∉ l) :
    (count n l x == 0) = true := by
  unfold count
  have : x ∉ l.take n := fun hx => h (List.mem_of_mem_take hx)
  simp [List.count_eq_zero, this]


/-! ## Positions of the vertices of an edge or facet in the cell -/

theorem length_eq_four {l : List Nat} (h : l.length = 4) : ∃ a b c d, l = [a, b, c, d] := by
  match l, h with
  | [a, b, c, d], _ => exact ⟨a, b, c, d, rfl⟩

theorem getD_inj_of_nodup (l : List Nat) (hnd : l.Nodup) (p q : Nat) (hp : p < l.length)
    (hq : q < l.length) (h : l.getD p 0 = l.getD q 0) : p = q := by
  simp only [List.getD_eq_getElem?_getD, List.getElem?_eq_getElem hp,
    List.getElem?_eq_getElem hq, Option.getD_some] at h
  exact (hnd.getElem_inj_iff).mp h

/-- A pair of distinct entries of a list without repetitions occupies two
distinct positions of it. -/
theorem pair_positions (l t : List Nat) (hnd : l.Nodup) (ht : t.length = 2) (htn : t.Nodup)
    (hsub : ∀ v, v ∈ t → v ∈ l) :
    ∃ p q, p < l.length ∧ q < l.length ∧ p ≠ q ∧
      ∀ i, i < l.length → (l.getD i 0 ∈ t ↔ i = p ∨ i = q) := by
  obtain ⟨a, b, hab⟩ := List.length_eq_two.mp ht
  subst hab
  obtain ⟨p, hp, hpa⟩ := exists_getD_of_mem l a (hsub a (by simp))
  obtain ⟨q, hq, hqb⟩ := exists_getD_of_mem l b (hsub b (by simp))
  have hne : a ≠ b := by
    intro h; subst h; simp at htn
  refine ⟨p, q, hp, hq, ?_, fun i hi => ?_⟩
  · intro h; subst h; exact hne (hpa.symm.trans hqb)
  · simp only [List.mem_cons, List.mem_singleton, List.not_mem_nil, or_false]
    constructor
    · rintro (h | h)
      · exact Or.inl (getD_inj_of_nodup l hnd i p hi hp (h.trans hpa.symm))
      · exact Or.inr (getD_inj_of_nodup l hnd i q hi hq (h.trans hqb.symm))
    · rintro (h | h)
      · subst h; exact Or.inl hpa
      · subst h; exact Or.inr hqb

/-- A triple of distinct entries of a list without repetitions occupies three
distinct positions of it. -/
theorem triple_positions (l t : List Nat) (hnd : l.Nodup) (ht : t.length = 3) (htn : t.Nodup)
    (hsub : ∀ v, v ∈ t → v ∈ l) :
    ∃ p q r, p < l.length ∧ q < l.length ∧ r < l.length ∧ p ≠ q ∧ p ≠ r ∧ q ≠ r ∧
      ∀ i, i < l.length → (l.getD i 0 ∈ t ↔ i = p ∨ i = q ∨ i = r) := by
  obtain ⟨a, b, d, habd⟩ := List.length_eq_three.mp ht
  subst habd
  obtain ⟨p, hp, hpa⟩ := exists_getD_of_mem l a (hsub a (by simp))
  obtain ⟨q, hq, hqb⟩ := exists_getD_of_mem l b (hsub b (by simp))
  obtain ⟨r, hr, hrd⟩ := exists_getD_of_mem l d (hsub d (by simp))
  simp only [List.nodup_cons, List.mem_cons, List.mem_singleton, not_or, List.not_mem_nil,
    not_false_eq_true, List.nodup_nil, and_true, or_false] at htn
  obtain ⟨⟨hab, had⟩, hbd⟩ := htn
  refine ⟨p, q, r, hp, hq, hr, ?_, ?_, ?_, fun i hi => ?_⟩
  · intro h; subst h; exact hab (hpa.symm.trans hqb)
  · intro h; subst h; exact had (hpa.symm.trans hrd)
  · intro h; subst h; exact hbd (hqb.symm.trans hrd)
  · simp only [List.mem_cons, List.mem_singleton, List.not_mem_nil, or_false]
    constructor
    · rintro (h | h | h)
      · exact Or.inl (getD_inj_of_nodup l hnd i p hi hp (h.trans hpa.symm))
      · exact Or.inr (Or.inl (getD_inj_of_nodup l hnd i q hi hq (h.trans hqb.symm)))
      · exact Or.inr (Or.inr (getD_inj_of_nodup l hnd i r hi hr (h.trans hrd.symm)))
    · rintro (h | h | h)
      · subst h; exact Or.inl hpa
      · subst h; exact Or.inr (Or.inl hqb)
      · subst h; exact Or.inr (Or.inr hrd)

theorem EV_fst_lt : ∀ m, m < 6 → (EV.getD m (0, 0)).1 < 4 := by decide
theorem EV_snd_lt : ∀ m, m < 6 → (EV.getD m (0, 0)).2 < 4 := by decide
theorem EV_fst_ne_snd : ∀ m, m < 6 → (EV.getD m (0, 0)).1 ≠ (EV.getD m (0, 0)).2 := by decide

/-- No pair of positions avoids two different pairs of `EV`. -/
theorem EV_unique : ∀ s, s < 6 → ∀ t, t < 6 → ∀ p, p < 4 → ∀ q, q < 4 → p ≠ q →
    ((EV.getD s (0, 0)).1 ≠ p ∧ (EV.getD s (0, 0)).1 ≠ q ∧
      (EV.getD s (0, 0)).2 ≠ p ∧ (EV.getD s (0, 0)).2 ≠ q) →
    ((EV.getD t (0, 0)).1 ≠ p ∧ (EV.getD t (0, 0)).1 ≠ q ∧
      (EV.getD t (0, 0)).2 ≠ p ∧ (EV.getD t (0, 0)).2 ≠ q) → s = t := by
  intro s hs t ht p hp q hq hpq h1 h2
  interval_cases s <;> interval_cases t <;>
    simp only [EV, List.getD_cons_zero, List.getD_cons_succ] at h1 h2 <;> omega

/-- The pair of `EV` at `5 - m` is the complement of the pair at `m`. -/
theorem EV_complement : ∀ m, m < 6 →
    (EV.getD m (0, 0)).1 ≠ (EV.getD (5 - m) (0, 0)).1 ∧
    (EV.getD m (0, 0)).1 ≠ (EV.getD (5 - m) (0, 0)).2 ∧
    (EV.getD m (0, 0)).2 ≠ (EV.getD (5 - m) (0, 0)).1 ∧
    (EV.getD m (0, 0)).2 ≠ (EV.getD (5 - m) (0, 0)).2 := by
  decide


theorem cell_edge_test_iff (u : MeshTopology) (c m e : Nat)
    (hl : (u.edge_vertices e).length = 2) :
    cell_edge_test u.c10 (u.cell_vertices c) m e = true ↔
      (u.cell_vertices c).getD (EV.getD m (0, 0)).1 0 ∉ u.edge_vertices e ∧
      (u.cell_vertices c).getD (EV.getD m (0, 0)).2 0 ∉ u.edge_vertices e := by
  unfold cell_edge_test
  unfold MeshTopology.edge_vertices at hl ⊢
  rw [Bool.and_eq_true, count_eq_zero_iff 2 _ _ (Nat.le_of_eq hl),
    count_eq_zero_iff 2 _ _ (Nat.le_of_eq hl)]

theorem facet_edge_test_iff (u : MeshTopology) (f j e : Nat)
    (hl : (u.edge_vertices e).length = 2) :
    facet_edge_test u.c10 (u.facet_vertices f) j e = true ↔
      (u.facet_vertices f).getD j 0 ∉ u.edge_vertices e := by
  unfold facet_edge_test
  unfold MeshTopology.edge_vertices at hl ⊢
  rw [count_eq_zero_iff 2 _ _ (Nat.le_of_eq hl)]

theorem cell_facet_test_iff (u : MeshTopology) (c i f : Nat)
    (hl : (u.facet_vertices f).length = 3) :
    cell_facet_test u.c20 (u.cell_vertices c) i f = true ↔
      (u.cell_vertices c).getD i 0 ∉ u.facet_vertices f := by
  unfold cell_facet_test
  unfold MeshTopology.facet_vertices at hl ⊢
  rw [count_eq_zero_iff 3 _ _ (Nat.le_of_eq hl)]

/-! ### Step 5: the edges of the cell -/

theorem cell_edge_test_unique (u : MeshTopology) (c : Nat) (hv : Valid u c)
    (x : Nat) (hx : x ∈ u.cell_edges c) (s t : Nat) (hs : s < 6) (ht : t < 6)
    (h1 : cell_edge_test u.c10 (u.cell_vertices c) s x = true)
    (h2 : cell_edge_test u.c10 (u.cell_vertices c) t x = true) : s = t := by
  rw [cell_edge_test_iff u c s x (hv.ev_length x hx)] at h1
  rw [cell_edge_test_iff u c t x (hv.ev_length x hx)] at h2
  obtain ⟨p, q, hp, hq, hpq, hpos⟩ := pair_positions (u.cell_vertices c) (u.edge_vertices x)
    hv.cv_nodup (hv.ev_length x hx) (hv.ev_nodup x hx) (hv.ev_sub x hx)
  rw [hv.cv_length] at hp hq hpos
  rw [hpos _ (EV_fst_lt s hs), hpos _ (EV_snd_lt s hs)] at h1
  rw [hpos _ (EV_fst_lt t ht), hpos _ (EV_snd_lt t ht)] at h2
  exact EV_unique s hs t ht p hp q hq hpq
    ⟨fun h => h1.1 (Or.inl h), fun h => h1.1 (Or.inr h), fun h => h1.2 (Or.inl h),
      fun h => h1.2 (Or.inr h)⟩
    ⟨fun h => h2.1 (Or.inl h), fun h => h2.1 (Or.inr h), fun h => h2.2 (Or.inl h),
      fun h => h2.2 (Or.inr h)⟩

theorem cell_edge_test_exists (u : MeshTopology) (c : Nat) (hv : Valid u c)
    (m : Nat) (hm : m < 6) :
    ∃ x, x ∈ u.cell_edges c ∧ cell_edge_test u.c10 (u.cell_vertices c) m x = true := by
  have hm' : 5 - m < 6 := by omega
  have hk := EV_fst_lt (5 - m) hm'
  have hl := EV_snd_lt (5 - m) hm'
  have hkl := EV_fst_ne_snd (5 - m) hm'
  have hi := EV_fst_lt m hm
  have hj := EV_snd_lt m hm
  obtain ⟨c1, c2, c3, c4⟩ := EV_complement m hm
  generalize (EV.getD (5 - m) (0, 0)).1 = k at hk hl hkl c1 c2 c3 c4
  generalize (EV.getD (5 - m) (0, 0)).2 = l at hk hl hkl c1 c2 c3 c4
  have hcvk : (u.cell_vertices c).getD k 0 ∈ u.cell_vertices c :=
    getD_mem _ k (by rw [hv.cv_length]; exact hk)
  have hcvl : (u.cell_vertices c).getD l 0 ∈ u.cell_vertices c :=
    getD_mem _ l (by rw [hv.cv_length]; exact hl)
  have hne : (u.cell_vertices c).getD k 0 ≠ (u.cell_vertices c).getD l 0 := fun h =>
    hkl (getD_inj_of_nodup _ hv.cv_nodup k l (by rw [hv.cv_length]; exact hk)
      (by rw [hv.cv_length]; exact hl) h)
  obtain ⟨x, hx, hxk, hxl⟩ := hv.ev_all _ hcvk _ hcvl hne
  refine ⟨x, hx, ?_⟩
  rw [cell_edge_test_iff u c m x (hv.ev_length x hx)]
  obtain ⟨p, q, hp, hq, hpq, hpos⟩ := pair_positions (u.cell_vertices c) (u.edge_vertices x)
    hv.cv_nodup (hv.ev_length x hx) (hv.ev_nodup x hx) (hv.ev_sub x hx)
  rw [hv.cv_length] at hp hq hpos
  rw [hpos _ hi, hpos _ hj]
  rw [hpos _ hk] at hxk
  rw [hpos _ hl] at hxl
  generalize (EV.getD m (0, 0)).1 = i at hi c1 c2
  generalize (EV.getD m (0, 0)).2 = j at hj c3 c4
  omega

/-- Step 5 on valid connectivity: every slot of the cell's edge list is filled,
and the list is a rearrangement of the one before. -/
theorem sort_cell_edges_selected (u : MeshTopology) (c : Nat) (hv : Valid u c) :
    Selected (cell_edge_test u.c10 (u.cell_vertices c)) (u.cell_edges c) 6
      (sort_cell_edges u.c10 (u.cell_vertices c) (u.cell_edges c)) := by
  rw [sort_cell_edges_eq]
  exact (foldl_scan_swap_selected 6 _ _ hv.ce_length (cell_edge_test_exists u c hv)
    (cell_edge_test_unique u c hv) 6 (Nat.le_refl _)).2

/-! ### Step 6: the facets of the cell -/

theorem cell_facet_test_unique (u : MeshTopology) (c : Nat) (hv : Valid u c)
    (x : Nat) (hx : x ∈ u.cell_facets c) (s t : Nat) (hs : s < 4) (ht : t < 4)
    (h1 : cell_facet_test u.c20 (u.cell_vertices c) s x = true)
    (h2 : cell_facet_test u.c20 (u.cell_vertices c) t x = true) : s = t := by
  rw [cell_facet_test_iff u c s x (hv.fv_length x hx)] at h1
  rw [cell_facet_test_iff u c t x (hv.fv_length x hx)] at h2
  obtain ⟨p, q, r, hp, hq, hr, hpq, hpr, hqr, hpos⟩ :=
    triple_positions (u.cell_vertices c) (u.facet_vertices x)
      hv.cv_nodup (hv.fv_length x hx) (hv.fv_nodup x hx) (hv.fv_sub x hx)
  rw [hv.cv_length] at hp hq hr hpos
  rw [hpos _ hs] at h1
  rw [hpos _ ht] at h2
  omega

theorem cell_facet_test_exists (u : MeshTopology) (c : Nat) (hv : Valid u c)
    (i : Nat) (hi : i < 4) :
    ∃ x, x ∈ u.cell_facets c ∧ cell_facet_test u.c20 (u.cell_vertices c) i x = true := by
  obtain ⟨f, hf, hnot⟩ := hv.fv_all _ (getD_mem _ i (by rw [hv.cv_length]; exact hi))
  exact ⟨f, hf, (cell_facet_test_iff u c i f (hv.fv_length f hf)).mpr hnot⟩

/-- Step 6 on valid connectivity: every slot of the cell's facet list is filled,
and the list is a rearrangement of the one before. -/
theorem sort_cell_facets_selected (u : MeshTopology) (c : Nat) (hv : Valid u c) :
    Selected (cell_facet_test u.c20 (u.cell_vertices c)) (u.cell_facets c) 4
      (sort_cell_facets u.c20 (u.cell_vertices c) (u.cell_facets c)) := by
  rw [sort_cell_facets_eq]
  exact foldl_scan_swap_at_selected 4 _ _ hv.cf_length (cell_facet_test_exists u c hv)
    (cell_facet_test_unique u c hv) 4 (Nat.le_refl _)

/-! ### Step 3: the edges of a facet -/

theorem facet_edge_test_unique (u : MeshTopology) (c : Nat) (hv : Valid u c)
    (f : Nat) (hf : f ∈ u.cell_facets c)
    (x : Nat) (hx : x ∈ u.facet_edges f) (s t : Nat) (hs : s < 3) (ht : t < 3)
    (h1 : facet_edge_test u.c10 (u.facet_vertices f) s x = true)
    (h2 : facet_edge_test u.c10 (u.facet_vertices f) t x = true) : s = t := by
  have hxc := hv.fe_sub f hf x hx
  rw [facet_edge_test_iff u f s x (hv.ev_length x hxc)] at h1
  rw [facet_edge_test_iff u f t x (hv.ev_length x hxc)] at h2
  obtain ⟨p, q, hp, hq, hpq, hpos⟩ := pair_positions (u.facet_vertices f) (u.edge_vertices x)
    (hv.fv_nodup f hf) (hv.ev_length x hxc) (hv.ev_nodup x hxc) (hv.fe_ev f hf x hx)
  rw [hv.fv_length f hf] at hp hq hpos
  rw [hpos _ hs] at h1
  rw [hpos _ ht] at h2
  omega

theorem facet_edge_test_exists (u : MeshTopology) (c : Nat) (hv : Valid u c)
    (f : Nat) (hf : f ∈ u.cell_facets c) (j : Nat) (hj : j < 3) :
    ∃ x, x ∈ u.facet_edges f ∧ facet_edge_test u.c10 (u.facet_vertices f) j x = true := by
  obtain ⟨e, he, hnot⟩ := hv.fe_all f hf _ (getD_mem _ j (by rw [hv.fv_length f hf]; exact hj))
  exact ⟨e, he, (facet_edge_test_iff u f j e (hv.ev_length e (hv.fe_sub f hf e he))).mpr hnot⟩

/-- Step 3 on valid connectivity: every slot of a facet's edge list is filled,
and the list is a rearrangement of the one before. -/
theorem sort_facet_edges_selected (u : MeshTopology) (c : Nat) (hv : Valid u c)
    (f : Nat) (hf : f ∈ u.cell_facets c) :
    Selected (facet_edge_test u.c10 (u.facet_vertices f)) (u.facet_edges f) 3
      (sort_facet_edges u.c10 (u.facet_vertices f) (u.facet_edges f)) := by
  rw [sort_facet_edges_eq]
  exact (foldl_scan_swap_selected 3 _ _ (hv.fe_length f hf) (facet_edge_test_exists u c hv f hf)
    (facet_edge_test_unique u c hv f hf) 3 (Nat.le_refl _)).2


/-! ## Validity and the tuples of `order` -/

/-- Valid connectivity is a property of the tuples as sets: it survives any
permutation inside the tuples. -/
theorem Valid.of_tuplePerm {t t' : MeshTopology} {c : Nat} (hp : TuplePerm t t')
    (hv : Valid t c) : Valid t' c := by
  have cv : ∀ x, x ∈ t'.cell_vertices c ↔ x ∈ t.cell_vertices c := fun x => (hp.c30 c).mem_iff
  have ce : ∀ x, x ∈ t'.cell_edges c ↔ x ∈ t.cell_edges c := fun x => (hp.c31 c).mem_iff
  have cf : ∀ x, x ∈ t'.cell_facets c ↔ x ∈ t.cell_facets c := fun x => (hp.c32 c).mem_iff
  have ev : ∀ e x, x ∈ t'.edge_vertices e ↔ x ∈ t.edge_vertices e := fun e x => (hp.c10 e).mem_iff
  have fv : ∀ e x, x ∈ t'.facet_vertices e ↔ x ∈ t.facet_vertices e :=
    fun e x => (hp.c20 e).mem_iff
  have fe : ∀ e x, x ∈ t'.facet_edges e ↔ x ∈ t.facet_edges e := fun e x => (hp.c21 e).mem_iff
  refine
    { cv_length := (hp.c30 c).length_eq.trans hv.cv_length
      cv_nodup := (hp.c30 c).nodup_iff.mpr hv.cv_nodup
      ce_length := (hp.c31 c).length_eq.trans hv.ce_length
      ce_nodup := (hp.c31 c).nodup_iff.mpr hv.ce_nodup
      ev_length := fun e he => (hp.c10 e).length_eq.trans (hv.ev_length e ((ce e).mp he))
      ev_nodup := fun e he => (hp.c10 e).nodup_iff.mpr (hv.ev_nodup e ((ce e).mp he))
      ev_sub := fun e he v hv' => (cv v).mpr (hv.ev_sub e ((ce e).mp he) v ((ev e v).mp hv'))
      ev_all := ?_
      cf_length := (hp.c32 c).length_eq.trans hv.cf_length
      cf_nodup := (hp.c32 c).nodup_iff.mpr hv.cf_nodup
      fv_length := fun f hf => (hp.c20 f).length_eq.trans (hv.fv_length f ((cf f).mp hf))
      fv_nodup := fun f hf => (hp.c20 f).nodup_iff.mpr (hv.fv_nodup f ((cf f).mp hf))
      fv_sub := fun f hf v hv' => (cv v).mpr (hv.fv_sub f ((cf f).mp hf) v ((fv f v).mp hv'))
      fv_all := ?_
      fe_length := fun f hf => (hp.c21 f).length_eq.trans (hv.fe_length f ((cf f).mp hf))
      fe_sub := fun f hf e he => (ce e).mpr (hv.fe_sub f ((cf f).mp hf) e ((fe f e).mp he))
      fe_ev := fun f hf e he v hv' =>
        (fv f v).mpr (hv.fe_ev f ((cf f).mp hf) e ((fe f e).mp he) v ((ev e v).mp hv'))
      fe_all := ?_ }
  · intro a ha b hb hab
    obtain ⟨e, he, h1, h2⟩ := hv.ev_all a ((cv a).mp ha) b ((cv b).mp hb) hab
    exact ⟨e, (ce e).mpr he, (ev e a).mpr h1, (ev e b).mpr h2⟩
  · intro a ha
    obtain ⟨f, hf, h1⟩ := hv.fv_all a ((cv a).mp ha)
    exact ⟨f, (cf f).mpr hf, fun h => h1 ((fv f a).mp h)⟩
  · intro f hf a ha
    obtain ⟨e, he, h1⟩ := hv.fe_all f ((cf f).mp hf) a ((fv f a).mp ha)
    exact ⟨e, (fe f e).mpr he, fun h => h1 ((ev e a).mp h)⟩

theorem TuplePerm.refl (t : MeshTopology) : TuplePerm t t :=
  ⟨fun _ => List.Perm.refl _, fun _ => List.Perm.refl _, fun _ => List.Perm.refl _,
    fun _ => List.Perm.refl _, fun _ => List.Perm.refl _, fun _ => List.Perm.refl _⟩

theorem TuplePerm.symm {t t' : MeshTopology} (h : TuplePerm t t') : TuplePerm t' t :=
  ⟨fun e => (h.c10 e).symm, fun e => (h.c20 e).symm, fun e => (h.c21 e).symm,
    fun e => (h.c30 e).symm, fun e => (h.c31 e).symm, fun e => (h.c32 e).symm⟩

theorem TuplePerm.trans {t t' t'' : MeshTopology} (h : TuplePerm t t') (h' : TuplePerm t' t'') :
    TuplePerm t t'' :=
  ⟨fun e => (h'.c10 e).trans (h.c10 e), fun e => (h'.c20 e).trans (h.c20 e),
    fun e => (h'.c21 e).trans (h.c21 e), fun e => (h'.c30 e).trans (h.c30 e),
    fun e => (h'.c31 e).trans (h.c31 e), fun e => (h'.c32 e).trans (h.c32 e)⟩

/-! ### The tuples after the sorting steps -/

theorem Valid.edge_lt {t : MeshTopology} {c : Nat} (hv : Valid t c) (e : Nat)
    (he : e ∈ t.cell_edges c) : e < t.c10.length :=
  lt_length_of_length_connections t.c10 e 1 (hv.ev_length e he)

theorem Valid.facet_lt {t : MeshTopology} {c : Nat} (hv : Valid t c) (f : Nat)
    (hf : f ∈ t.cell_facets c) : f < t.c20.length :=
  lt_length_of_length_connections t.c20 f 2 (hv.fv_length f hf)

theorem Valid.facet_lt' {t : MeshTopology} {c : Nat} (hv : Valid t c) (f : Nat)
    (hf : f ∈ t.cell_facets c) : f < t.c21.length :=
  lt_length_of_length_connections t.c21 f 2 (hv.fe_length f hf)

theorem Valid.cell_lt30 {t : MeshTopology} {c : Nat} (hv : Valid t c) : c < t.c30.length :=
  lt_length_of_length_connections t.c30 c 3 hv.cv_length

theorem Valid.cell_lt31 {t : MeshTopology} {c : Nat} (hv : Valid t c) : c < t.c31.length :=
  lt_length_of_length_connections t.c31 c 5 hv.ce_length

theorem Valid.cell_lt32 {t : MeshTopology} {c : Nat} (hv : Valid t c) : c < t.c32.length :=
  lt_length_of_length_connections t.c32 c 3 hv.cf_length

theorem sort_vertices_edge_vertices (t : MeshTopology) (c : Nat) (g : Nat → Nat)
    (hv : Valid t c) (e : Nat) :
    (sort_vertices t c g).edge_vertices e
      = if e ∈ t.cell_edges c then sort_entities 2 (t.edge_vertices e) g
        else t.edge_vertices e := by
  show (order t c g).c10.connections e = _
  rw [order_c10, foldl_range_getD (sort_at 2 g) (t.cell_edges c) 6 hv.ce_length]
  exact connections_foldl_set (fun _ l => sort_entities 2 l g) (t.cell_edges c) hv.ce_nodup
    t.c10 hv.edge_lt e

theorem sort_vertices_facet_vertices (t : MeshTopology) (c : Nat) (g : Nat → Nat)
    (hv : Valid t c) (f : Nat) :
    (sort_vertices t c g).facet_vertices f
      = if f ∈ t.cell_facets c then sort_entities 3 (t.facet_vertices f) g
        else t.facet_vertices f := by
  show (order t c g).c20.connections f = _
  rw [order_c20, foldl_range_getD (sort_at 3 g) (t.cell_facets c) 4 hv.cf_length]
  exact connections_foldl_set (fun _ l => sort_entities 3 l g) (t.cell_facets c) hv.cf_nodup
    t.c20 hv.facet_lt f

theorem sort_vertices_cell_vertices (t : MeshTopology) (c : Nat) (g : Nat → Nat)
    (hv : Valid t c) (c' : Nat) :
    (sort_vertices t c g).cell_vertices c'
      = if c' = c then sort_entities 4 (t.cell_vertices c) g else t.cell_vertices c' := by
  show (order t c g).c30.connections c' = _
  rw [order_c30, sort_at, connections_set]
  by_cases h : c' = c
  · subst h; simp [hv.cell_lt30]; rfl
  · simp [h]; rfl

/-- The sorting steps only permute inside the tuples. -/
theorem sort_vertices_tuplePerm (t : MeshTopology) (c : Nat) (g : Nat → Nat) (hv : Valid t c) :
    TuplePerm t (sort_vertices t c g) := by
  refine ⟨fun e => ?_, fun f => ?_, fun _ => List.Perm.refl _, fun c' => ?_,
    fun _ => List.Perm.refl _, fun _ => List.Perm.refl _⟩
  · have := sort_vertices_edge_vertices t c g hv e
    unfold MeshTopology.edge_vertices at this
    rw [this]
    split
    · exact sort_entities_perm _ _ _
    · exact List.Perm.refl _
  · have := sort_vertices_facet_vertices t c g hv f
    unfold MeshTopology.facet_vertices at this
    rw [this]
    split
    · exact sort_entities_perm _ _ _
    · exact List.Perm.refl _
  · have := sort_vertices_cell_vertices t c g hv c'
    unfold MeshTopology.cell_vertices at this
    rw [this]
    split
    · rename_i h; subst h; exact sort_entities_perm _ _ _
    · exact List.Perm.refl _

theorem sort_vertices_valid (t : MeshTopology) (c : Nat) (g : Nat → Nat) (hv : Valid t c) :
    Valid (sort_vertices t c g) c :=
  Valid.of_tuplePerm (sort_vertices_tuplePerm t c g hv) hv

/-! ### The tuples `order` leaves -/

theorem order_cell_edges_eq (t : MeshTopology) (c : Nat) (g : Nat → Nat) (hv : Valid t c)
    (c' : Nat) :
    (order t c g).cell_edges c'
      = if c' = c then
          sort_cell_edges (sort_vertices t c g).c10 ((sort_vertices t c g).cell_vertices c)
            ((sort_vertices t c g).cell_edges c)
        else t.cell_edges c' := by
  show (order t c g).c31.connections c' = _
  rw [order_c31, connections_set]
  by_cases h : c' = c
  · subst h; simp [hv.cell_lt31]; rfl
  · simp [h]; rfl

theorem order_cell_facets_eq (t : MeshTopology) (c : Nat) (g : Nat → Nat) (hv : Valid t c)
    (c' : Nat) :
    (order t c g).cell_facets c'
      = if c' = c then
          sort_cell_facets (sort_vertices t c g).c20 ((sort_vertices t c g).cell_vertices c)
            ((sort_vertices t c g).cell_facets c)
        else t.cell_facets c' := by
  show (order t c g).c32.connections c' = _
  rw [order_c32, connections_set]
  by_cases h : c' = c
  · subst h; simp [hv.cell_lt32]; rfl
  · simp [h]; rfl

theorem order_facet_edges_eq (t : MeshTopology) (c : Nat) (g : Nat → Nat) (hv : Valid t c)
    (f : Nat) :
    (order t c g).facet_edges f
      = if f ∈ t.cell_facets c then
          sort_facet_edges (sort_vertices t c g).c10 ((sort_vertices t c g).facet_vertices f)
            ((sort_vertices t c g).facet_edges f)
        else t.facet_edges f := by
  show (order t c g).c21.connections f = _
  rw [order_c21, foldl_range_getD
    (fun conn f => conn.set f (sort_facet_edges (order t c g).c10
      ((order t c g).c20.connections f) (conn.connections f))) (t.cell_facets c) 4 hv.cf_length]
  exact connections_foldl_set (fun f l => sort_facet_edges (order t c g).c10
      ((order t c g).c20.connections f) l) (t.cell_facets c) hv.cf_nodup t.c21 hv.facet_lt' f


theorem Selected.perm {q : Nat → Nat → Bool} {xs0 xs : List Nat} {n : Nat}
    (h : Selected q xs0 n xs) : xs.Perm xs0 := h.1

theorem Selected.slot_mem {q : Nat → Nat → Bool} {xs0 xs : List Nat} {n : Nat}
    (h : Selected q xs0 n xs) (hl : xs0.length = n) (m : Nat) (hm : m < n) :
    xs.getD m 0 ∈ xs0 :=
  h.1.subset (Dolfin.getD_mem xs m (by rw [h.1.length_eq, hl]; exact hm))

/-- On valid connectivity `order` only permutes inside the tuples. -/
theorem order_tuplePerm (t : MeshTopology) (c : Nat) (g : Nat → Nat) (hv : Valid t c) :
    TuplePerm t (order t c g) := by
  have hu := sort_vertices_tuplePerm t c g hv
  have hvu := sort_vertices_valid t c g hv
  refine ⟨hu.c10, hu.c20, fun f => ?_, hu.c30, fun c' => ?_, fun c' => ?_⟩
  · have := order_facet_edges_eq t c g hv f
    unfold MeshTopology.facet_edges at this
    rw [this]
    split
    · rename_i hf
      exact (sort_facet_edges_selected _ c hvu f hf).perm
    · exact List.Perm.refl _
  · have := order_cell_edges_eq t c g hv c'
    unfold MeshTopology.cell_edges at this
    rw [this]
    split
    · rename_i h; subst h
      exact (sort_cell_edges_selected _ c' hvu).perm
    · exact List.Perm.refl _
  · have := order_cell_facets_eq t c g hv c'
    unfold MeshTopology.cell_facets at this
    rw [this]
    split
    · rename_i h; subst h
      exact (sort_cell_facets_selected _ c' hvu).perm
    · exact List.Perm.refl _

/-- On valid connectivity `order` leaves valid connectivity, for the cell it
orders and for every other cell. -/
theorem order_valid (t : MeshTopology) (c : Nat) (g : Nat → Nat) (hv : Valid t c)
    (c' : Nat) (hv' : Valid t c') : Valid (order t c g) c' :=
  Valid.of_tuplePerm (order_tuplePerm t c g hv) hv'

theorem map_nodup_of_subset (g : Nat → Nat) (cv : List Nat)
    (hg : ∀ a, a ∈ cv → ∀ b, b ∈ cv → g a = g b → a = b)
    (l : List Nat) (hnd : l.Nodup) (hsub : ∀ v, v ∈ l → v ∈ cv) :
    (l.map g).Nodup :=
  map_nodup_of_injOn g l hnd (fun a ha b hb => hg a (hsub a ha) b (hsub b hb))

/-- Step 5 of `order` on valid connectivity: the edge in slot `m` of the cell
touches neither vertex of the `m`-th pair of `EV`. -/
theorem order_cell_edges_ordered (t : MeshTopology) (c : Nat) (g : Nat → Nat) (hv : Valid t c)
    (m : Nat) (hm : m < 6) :
    ((order t c g).cell_vertices c).getD (EV.getD m (0, 0)).1 0
        ∉ (order t c g).edge_vertices (((order t c g).cell_edges c).getD m 0) ∧
    ((order t c g).cell_vertices c).getD (EV.getD m (0, 0)).2 0
        ∉ (order t c g).edge_vertices (((order t c g).cell_edges c).getD m 0) := by
  have hvu := sort_vertices_valid t c g hv
  have hce := order_cell_edges_eq t c g hv c
  rw [if_pos rfl] at hce
  have sce := sort_cell_edges_selected _ c hvu
  rw [← hce] at sce
  have hmem := sce.slot_mem hvu.ce_length m hm
  exact (cell_edge_test_iff _ c m _ (hvu.ev_length _ hmem)).mp (sce.2 m hm)

/-- Step 6 of `order` on valid connectivity: the facet in slot `i` of the cell
does not touch the cell's vertex `i`. -/
theorem order_cell_facets_ordered (t : MeshTopology) (c : Nat) (g : Nat → Nat) (hv : Valid t c)
    (i : Nat) (hi : i < 4) :
    ((order t c g).cell_vertices c).getD i 0
        ∉ (order t c g).facet_vertices (((order t c g).cell_facets c).getD i 0) := by
  have hvu := sort_vertices_valid t c g hv
  have hcf := order_cell_facets_eq t c g hv c
  rw [if_pos rfl] at hcf
  have scf := sort_cell_facets_selected _ c hvu
  rw [← hcf] at scf
  have hmem := scf.slot_mem hvu.cf_length i hi
  exact (cell_facet_test_iff _ c i _ (hvu.fv_length _ hmem)).mp (scf.2 i hi)

theorem mem_order_cell_edges (t : MeshTopology) (c : Nat) (g : Nat → Nat) (hv : Valid t c)
    (e : Nat) : e ∈ (order t c g).cell_edges c ↔ e ∈ t.cell_edges c :=
  ((order_tuplePerm t c g hv).c31 c).mem_iff

theorem mem_order_cell_facets (t : MeshTopology) (c : Nat) (g : Nat → Nat) (hv : Valid t c)
    (f : Nat) : f ∈ (order t c g).cell_facets c ↔ f ∈ t.cell_facets c :=
  ((order_tuplePerm t c g hv).c32 c).mem_iff

/-- Step 3 of `order` on valid connectivity: the edge in slot `m` of a facet of
the cell does not touch the facet's vertex `m`. -/
theorem order_facet_edges_ordered (t : MeshTopology) (c : Nat) (g : Nat → Nat) (hv : Valid t c)
    (f : Nat) (hf : f ∈ (order t c g).cell_facets c) (m : Nat) (hm : m < 3) :
    ((order t c g).facet_vertices f).getD m 0
        ∉ (order t c g).edge_vertices (((order t c g).facet_edges f).getD m 0) := by
  have hvu := sort_vertices_valid t c g hv
  have hft : f ∈ t.cell_facets c := (mem_order_cell_facets t c g hv f).mp hf
  have sfe := sort_facet_edges_selected _ c hvu f hft
  have hfe := order_facet_edges_eq t c g hv f
  rw [if_pos hft] at hfe
  rw [← hfe] at sfe
  have hmem := sfe.slot_mem (hvu.fe_length f hft) m hm
  exact (facet_edge_test_iff _ f m _ (hvu.ev_length _ (hvu.fe_sub f hft _ hmem))).mp
    (sfe.2 m hm)

/-- The six postconditions of `order` on valid connectivity, for a global
numbering that is injective on the cell's vertices. -/
theorem order_ordered (t : MeshTopology) (c : Nat) (g : Nat → Nat) (hv : Valid t c)
    (hg : ∀ a, a ∈ t.cell_vertices c → ∀ b, b ∈ t.cell_vertices c → g a = g b → a = b) :
    Ordered (order t c g) c g := by
  have mce := fun e => (mem_order_cell_edges t c g hv e).mp
  have mcf := fun f => (mem_order_cell_facets t c g hv f).mp
  refine ⟨?_, fun e he => ?_, fun f hf => ?_, order_facet_edges_ordered t c g hv,
    order_cell_edges_ordered t c g hv, order_cell_facets_ordered t c g hv⟩
  · show Ascending g ((sort_vertices t c g).cell_vertices c)
    rw [sort_vertices_cell_vertices t c g hv c, if_pos rfl]
    exact sort_entities_ascending 4 _ g (Nat.le_of_eq hv.cv_length)
      (map_nodup_of_subset g _ hg _ hv.cv_nodup (fun _ h => h))
  · show Ascending g ((sort_vertices t c g).edge_vertices e)
    rw [sort_vertices_edge_vertices t c g hv e, if_pos (mce e he)]
    exact sort_entities_ascending 2 _ g (Nat.le_of_eq (hv.ev_length e (mce e he)))
      (map_nodup_of_subset g _ hg _ (hv.ev_nodup e (mce e he)) (hv.ev_sub e (mce e he)))
  · show Ascending g ((sort_vertices t c g).facet_vertices f)
    rw [sort_vertices_facet_vertices t c g hv f, if_pos (mcf f hf)]
    exact sort_entities_ascending 3 _ g (Nat.le_of_eq (hv.fv_length f (mcf f hf)))
      (map_nodup_of_subset g _ hg _ (hv.fv_nodup f (mcf f hf)) (hv.fv_sub f (mcf f hf)))

/-! ## `order` on an ordered cell -/

theorem MeshTopology.eq_of_tables (a b : MeshTopology) (h10 : a.c10 = b.c10)
    (h20 : a.c20 = b.c20) (h21 : a.c21 = b.c21) (h30 : a.c30 = b.c30) (h31 : a.c31 = b.c31)
    (h32 : a.c32 = b.c32) : a = b := by
  obtain ⟨a10, a20, a21, a30, a31, a32⟩ := a
  obtain ⟨b10, b20, b21, b30, b31, b32⟩ := b
  simp only at h10 h20 h21 h30 h31 h32
  subst h10 h20 h21 h30 h31 h32
  rfl

theorem foldl_eq_self {α : Type} (G : MeshConnectivity → α → MeshConnectivity) (l : List α)
    (conn : MeshConnectivity) (h : ∀ a, a ∈ l → G conn a = conn) : l.foldl G conn = conn := by
  induction l with
  | nil => rfl
  | cons a l ih =>
    rw [List.foldl_cons, h a (List.mem_cons_self _ _)]
    exact ih (fun b hb => h b (List.mem_cons_of_mem _ hb))

theorem sort_at_of_ascending (n : Nat) (g : Nat → Nat) (conn : MeshConnectivity) (e : Nat)
    (h : Ascending g (conn.connections e)) : sort_at n g conn e = conn := by
  unfold sort_at
  rw [sort_entities_of_ascending n _ g h, set_connections_self]

theorem sort_facet_edges_of_ordered (c10 : MeshConnectivity) (fv xs : List Nat)
    (h : ∀ s, s < 3 → fv.getD s 0 ∉ c10.connections (xs.getD s 0)) :
    sort_facet_edges c10 fv xs = xs := by
  rw [sort_facet_edges_eq, foldl_scan_swap_id 3 _ xs
    (fun s hs => count_eq_zero_of_not_mem 2 _ _ (h s hs)) 3 (Nat.le_refl _)]

theorem sort_cell_edges_of_ordered (c10 : MeshConnectivity) (cv xs : List Nat)
    (h : ∀ m, m < 6 → cv.getD (EV.getD m (0, 0)).1 0 ∉ c10.connections (xs.getD m 0) ∧
      cv.getD (EV.getD m (0, 0)).2 0 ∉ c10.connections (xs.getD m 0)) :
    sort_cell_edges c10 cv xs = xs := by
  rw [sort_cell_edges_eq, foldl_scan_swap_id 6 _ xs
    (fun s hs => by
      unfold cell_edge_test
      rw [count_eq_zero_of_not_mem 2 _ _ (h s hs).1, count_eq_zero_of_not_mem 2 _ _ (h s hs).2]
      rfl) 6 (Nat.le_refl _)]

theorem sort_cell_facets_of_ordered (c20 : MeshConnectivity) (cv xs : List Nat)
    (h : ∀ i, i < 4 → cv.getD i 0 ∉ c20.connections (xs.getD i 0)) :
    sort_cell_facets c20 cv xs = xs := by
  rw [sort_cell_facets_eq, foldl_scan_swap_at_id 4 _ xs
    (fun s hs => count_eq_zero_of_not_mem 3 _ _ (h s hs)) 4 (Nat.le_refl _)]

/-- On a cell that satisfies its postconditions `order` changes nothing. -/
theorem order_eq_self_of_ordered (t : MeshTopology) (c : Nat) (g : Nat → Nat) (hv : Valid t c)
    (ho : Ordered t c g) : order t c g = t := by
  have h10 : (order t c g).c10 = t.c10 := by
    rw [order_c10]
    apply foldl_eq_self
    intro i hi
    exact sort_at_of_ascending 2 g t.c10 _ (ho.edge_vertices _
      (getD_mem _ i (by rw [hv.ce_length]; exact List.mem_range.mp hi)))
  have h20 : (order t c g).c20 = t.c20 := by
    rw [order_c20]
    apply foldl_eq_self
    intro i hi
    exact sort_at_of_ascending 3 g t.c20 _ (ho.facet_vertices _
      (getD_mem _ i (by rw [hv.cf_length]; exact List.mem_range.mp hi)))
  have h30 : (order t c g).c30 = t.c30 := by
    rw [order_c30]
    exact sort_at_of_ascending 4 g t.c30 c ho.cell_vertices
  refine MeshTopology.eq_of_tables _ _ h10 h20 ?_ h30 ?_ ?_
  · rw [order_c21, h10, h20]
    apply foldl_eq_self
    intro i hi
    have hf : (t.cell_facets c).getD i 0 ∈ t.cell_facets c :=
      getD_mem _ i (by rw [hv.cf_length]; exact List.mem_range.mp hi)
    have := sort_facet_edges_of_ordered t.c10 (t.c20.connections ((t.cell_facets c).getD i 0))
      (t.c21.connections ((t.cell_facets c).getD i 0)) (ho.facet_edges _ hf)
    rw [this]
    exact set_connections_self _ _
  · rw [order_c31, h10, h30]
    have := sort_cell_edges_of_ordered t.c10 (t.c30.connections c) (t.cell_edges c) ho.cell_edges
    rw [this]
    exact set_connections_self _ _
  · rw [order_c32, h20, h30]
    have := sort_cell_facets_of_ordered t.c20 (t.c30.connections c) (t.cell_facets c)
      ho.cell_facets
    rw [this]
    exact set_connections_self _ _


/-! ## Uniqueness of the ordered tuples, and other cells -/

/-- The postconditions of `order` determine the tuples of the cell: two states
that differ only by permutations inside the tuples and both satisfy them hold
the same tuples for the cell. -/
theorem ordered_unique (t t' : MeshTopology) (c : Nat) (g : Nat → Nat) (hp : TuplePerm t t')
    (hv : Valid t c) (ho : Ordered t c g) (ho' : Ordered t' c g) : SameCell t t' c := by
  have hv' : Valid t' c := Valid.of_tuplePerm hp hv
  have mce : ∀ e, e ∈ t'.cell_edges c ↔ e ∈ t.cell_edges c := fun e => (hp.c31 c).mem_iff
  have mcf : ∀ f, f ∈ t'.cell_facets c ↔ f ∈ t.cell_facets c := fun f => (hp.c32 c).mem_iff
  have hcv : t'.cell_vertices c = t.cell_vertices c :=
    ascending_unique g _ _ (hp.c30 c) ho'.cell_vertices ho.cell_vertices
  have hev : ∀ e, e ∈ t.cell_edges c → t'.edge_vertices e = t.edge_vertices e := fun e he =>
    ascending_unique g _ _ (hp.c10 e) (ho'.edge_vertices e ((mce e).mpr he))
      (ho.edge_vertices e he)
  have hfv : ∀ f, f ∈ t.cell_facets c → t'.facet_vertices f = t.facet_vertices f := fun f hf =>
    ascending_unique g _ _ (hp.c20 f) (ho'.facet_vertices f ((mcf f).mpr hf))
      (ho.facet_vertices f hf)
  refine ⟨hcv, ?_, ?_, hev, hfv, fun f hf => ?_⟩
  · refine selected_unique 6 (cell_edge_test t.c10 (t.cell_vertices c)) (t.cell_edges c) _ _
      hv.ce_length (cell_edge_test_unique t c hv) ⟨hp.c31 c, fun s hs => ?_⟩
      ⟨List.Perm.refl _, fun s hs => ?_⟩
    · have hmem : (t'.cell_edges c).getD s 0 ∈ t.cell_edges c :=
        (mce _).mp (getD_mem _ s (by rw [hv'.ce_length]; exact hs))
      rw [cell_edge_test_iff t c s _ (hv.ev_length _ hmem), ← hcv, ← hev _ hmem]
      exact ho'.cell_edges s hs
    · have hmem : (t.cell_edges c).getD s 0 ∈ t.cell_edges c :=
        getD_mem _ s (by rw [hv.ce_length]; exact hs)
      rw [cell_edge_test_iff t c s _ (hv.ev_length _ hmem)]
      exact ho.cell_edges s hs
  · refine selected_unique 4 (cell_facet_test t.c20 (t.cell_vertices c)) (t.cell_facets c) _ _
      hv.cf_length (cell_facet_test_unique t c hv) ⟨hp.c32 c, fun s hs => ?_⟩
      ⟨List.Perm.refl _, fun s hs => ?_⟩
    · have hmem : (t'.cell_facets c).getD s 0 ∈ t.cell_facets c :=
        (mcf _).mp (getD_mem _ s (by rw [hv'.cf_length]; exact hs))
      rw [cell_facet_test_iff t c s _ (hv.fv_length _ hmem), ← hcv, ← hfv _ hmem]
      exact ho'.cell_facets s hs
    · have hmem : (t.cell_facets c).getD s 0 ∈ t.cell_facets c :=
        getD_mem _ s (by rw [hv.cf_length]; exact hs)
      rw [cell_facet_test_iff t c s _ (hv.fv_length _ hmem)]
      exact ho.cell_facets s hs
  · refine selected_unique 3 (facet_edge_test t.c10 (t.facet_vertices f)) (t.facet_edges f) _ _
      (hv.fe_length f hf) (facet_edge_test_unique t c hv f hf) ⟨hp.c21 f, fun s hs => ?_⟩
      ⟨List.Perm.refl _, fun s hs => ?_⟩
    · have hmem : (t'.facet_edges f).getD s 0 ∈ t.facet_edges f :=
        (hp.c21 f).subset (getD_mem (t'.facet_edges f) s
          (by rw [hv'.fe_length f ((mcf f).mpr hf)]; exact hs))
      have hmem' := hv.fe_sub f hf _ hmem
      rw [facet_edge_test_iff t f s _ (hv.ev_length _ hmem'), ← hfv f hf, ← hev _ hmem']
      exact ho'.facet_edges f ((mcf f).mpr hf) s hs
    · have hmem : (t.facet_edges f).getD s 0 ∈ t.facet_edges f :=
        getD_mem _ s (by rw [hv.fe_length f hf]; exact hs)
      rw [facet_edge_test_iff t f s _ (hv.ev_length _ (hv.fe_sub f hf _ hmem))]
      exact ho.facet_edges f hf s hs

/-- The postconditions of `order` on a cell only read the tuples of the cell. -/
theorem Ordered.of_sameCell {t t' : MeshTopology} {c : Nat} {g : Nat → Nat}
    (hs : SameCell t t' c) (hv : Valid t c) (ho : Ordered t c g) : Ordered t' c g := by
  have hce : ∀ m, m < 6 → (t.cell_edges c).getD m 0 ∈ t.cell_edges c := fun m hm =>
    getD_mem _ m (by rw [hv.ce_length]; exact hm)
  have hcf : ∀ m, m < 4 → (t.cell_facets c).getD m 0 ∈ t.cell_facets c := fun m hm =>
    getD_mem _ m (by rw [hv.cf_length]; exact hm)
  refine ⟨?_, fun e he => ?_, fun f hf => ?_, fun f hf m hm => ?_, fun m hm => ?_,
    fun i hi => ?_⟩
  · rw [hs.cell_vertices]; exact ho.cell_vertices
  · rw [hs.cell_edges] at he
    rw [hs.edge_vertices e he]; exact ho.edge_vertices e he
  · rw [hs.cell_facets] at hf
    rw [hs.facet_vertices f hf]; exact ho.facet_vertices f hf
  · rw [hs.cell_facets] at hf
    have hmem : (t.facet_edges f).getD m 0 ∈ t.facet_edges f :=
      getD_mem _ m (by rw [hv.fe_length f hf]; exact hm)
    rw [hs.facet_vertices f hf, hs.facet_edges f hf,
      hs.edge_vertices _ (hv.fe_sub f hf _ hmem)]
    exact ho.facet_edges f hf m hm
  · rw [hs.cell_vertices, hs.cell_edges, hs.edge_vertices _ (hce m hm)]
    exact ho.cell_edges m hm
  · rw [hs.cell_vertices, hs.cell_facets, hs.facet_vertices _ (hcf i hi)]
    exact ho.cell_facets i hi

/-- Ordering another cell changes no tuple of a cell that satisfies its
postconditions. -/
theorem order_other_cell (t : MeshTopology) (c1 c2 : Nat) (g : Nat → Nat) (hne : c1 ≠ c2)
    (hv1 : Valid t c1) (ho : Ordered t c1 g) (hv2 : Valid t c2) :
    SameCell t (order t c2 g) c1 := by
  have hev : ∀ e, e ∈ t.cell_edges c1 → (order t c2 g).edge_vertices e = t.edge_vertices e := by
    intro e he
    show (sort_vertices t c2 g).edge_vertices e = _
    rw [sort_vertices_edge_vertices t c2 g hv2 e]
    split
    · exact sort_entities_of_ascending 2 _ g (ho.edge_vertices e he)
    · rfl
  have hfv : ∀ f, f ∈ t.cell_facets c1 →
      (order t c2 g).facet_vertices f = t.facet_vertices f := by
    intro f hf
    show (sort_vertices t c2 g).facet_vertices f = _
    rw [sort_vertices_facet_vertices t c2 g hv2 f]
    split
    · exact sort_entities_of_ascending 3 _ g (ho.facet_vertices f hf)
    · rfl
  refine ⟨?_, ?_, ?_, hev, hfv, fun f hf => ?_⟩
  · show (sort_vertices t c2 g).cell_vertices c1 = _
    rw [sort_vertices_cell_vertices t c2 g hv2 c1, if_neg hne]
  · rw [order_cell_edges_eq t c2 g hv2 c1, if_neg hne]
  · rw [order_cell_facets_eq t c2 g hv2 c1, if_neg hne]
  · rw [order_facet_edges_eq t c2 g hv2 f]
    split
    · apply sort_facet_edges_of_ordered
      intro s hs
      have hmem : (t.facet_edges f).getD s 0 ∈ t.facet_edges f :=
        getD_mem _ s (by rw [hv1.fe_length f hf]; exact hs)
      have h1 := hfv f hf
      have h2 := hev _ (hv1.fe_sub f hf _ hmem)
      have h3 := ho.facet_edges f hf s hs
      rw [← h1, ← h2] at h3
      exact h3
    · rfl


/-! ### The loops only permute -/

theorem scan_swap_perm (n : Nat) (p : Nat → Bool) (st : List Nat × Nat) (hl : n ≤ st.1.length) :
    (scan_swap n p st).1.Perm st.1 := by
  unfold scan_swap
  cases h : scan n p st.1 st.2 with
  | none => exact List.Perm.refl _
  | some k =>
    obtain ⟨h1, h2, _, _⟩ := scan_some _ _ _ _ _ h
    exact swap_perm st.1 st.2 k h1 (by omega)

theorem foldl_scan_swap_perm {α : Type} (n : Nat) (q : α → Nat → Bool) (l : List α)
    (st : List Nat × Nat) (hl : n ≤ st.1.length) :
    (l.foldl (fun st a => scan_swap n (q a) st) st).1.Perm st.1 := by
  induction l generalizing st with
  | nil => exact List.Perm.refl _
  | cons a l ih =>
    rw [List.foldl_cons]
    have h1 := scan_swap_perm n (q a) st hl
    exact (ih _ (by rw [h1.length_eq]; exact hl)).trans h1

theorem scan_swap_at_perm (n : Nat) (p : Nat → Bool) (xs : List Nat) (i : Nat)
    (hl : n ≤ xs.length) : (scan_swap_at n p xs i).Perm xs := by
  unfold scan_swap_at
  cases h : scan n p xs i with
  | none => exact List.Perm.refl _
  | some k =>
    obtain ⟨h1, h2, _, _⟩ := scan_some _ _ _ _ _ h
    exact swap_perm xs i k h1 (by omega)

theorem foldl_scan_swap_at_perm (n : Nat) (q : Nat → Nat → Bool) (l : List Nat)
    (xs : List Nat) (hl : n ≤ xs.length) :
    (l.foldl (fun xs i => scan_swap_at n (q i) xs i) xs).Perm xs := by
  induction l generalizing xs with
  | nil => exact List.Perm.refl _
  | cons a l ih =>
    rw [List.foldl_cons]
    have h1 := scan_swap_at_perm n (q a) xs a hl
    exact (ih _ (by rw [h1.length_eq]; exact hl)).trans h1

/-- Step 3 rearranges the edge list of a facet, whatever the connectivity. -/
theorem sort_facet_edges_perm (c10 : MeshConnectivity) (fv xs : List Nat) (hl : 3 ≤ xs.length) :
    (sort_facet_edges c10 fv xs).Perm xs := by
  rw [sort_facet_edges_eq]
  exact foldl_scan_swap_perm 3 _ _ (xs, 0) hl

/-- Step 5 rearranges the edge list of the cell, whatever the connectivity. -/
theorem sort_cell_edges_perm (c10 : MeshConnectivity) (cv xs : List Nat) (hl : 6 ≤ xs.length) :
    (sort_cell_edges c10 cv xs).Perm xs := by
  rw [sort_cell_edges_eq]
  exact foldl_scan_swap_perm 6 _ _ (xs, 0) hl

/-- Step 6 rearranges the facet list of the cell, whatever the connectivity. -/
theorem sort_cell_facets_perm (c20 : MeshConnectivity) (cv xs : List Nat) (hl : 4 ≤ xs.length) :
    (sort_cell_facets c20 cv xs).Perm xs := by
  rw [sort_cell_facets_eq]
  exact foldl_scan_swap_at_perm 4 _ _ xs hl

/-! ### Sorting the tuples of a list of entities -/

theorem connections_sort_at (n : Nat) (g : Nat → Nat) (conn : MeshConnectivity) (f e : Nat) :
    (sort_at n g conn f).connections e
      = if e = f then sort_entities n (conn.connections e) g else conn.connections e := by
  unfold sort_at
  rw [connections_set]
  by_cases h : e = f
  · subst h
    by_cases h2 : e < conn.length
    · simp [h2]
    · simp [h2, connections_eq_nil_of_le conn e (Nat.le_of_not_lt h2), sort_entities_nil]
  · simp [h]

theorem find_range_unique (P : Nat → Bool) (n m : Nat) (hm : m < n) (hP : P m = true)
    (hu : ∀ j, j < n → P j = true → j = m) : (List.range n).find? P = some m := by
  rw [List.range_eq_range']
  cases h : (List.range' 0 n).find? P with
  | none =>
    have := find_range'_none P n 0 h m (Nat.zero_le _) (by omega)
    rw [hP] at this
    cases this
  | some k =>
    obtain ⟨_, h2, h3, _⟩ := find_range'_some P n 0 k h
    rw [hu k (by omega) h3]

theorem find_range_exists (P : Nat → Bool) (n m : Nat) (hm : m < n) (hP : P m = true) :
    ∃ j, j < n ∧ P j = true ∧ (List.range n).find? P = some j := by
  rw [List.range_eq_range']
  cases h : (List.range' 0 n).find? P with
  | none =>
    have := find_range'_none P n 0 h m (Nat.zero_le _) (by omega)
    rw [hP] at this
    cases this
  | some k =>
    obtain ⟨_, h2, h3, _⟩ := find_range'_some P n 0 k h
    exact ⟨k, by omega, h3, rfl⟩

/-- The test of `find_edge` on an edge with two vertices is the test of step 5
of `order`. -/
theorem find_edge_test_eq (t : MeshTopology) (c i e : Nat)
    (hl : (t.edge_vertices e).length = 2) :
    (((t.c10.connections e).getD 0 0 != (t.cell_vertices c).getD (EV.getD i (0, 0)).1 0
      && (t.c10.connections e).getD 0 0 != (t.cell_vertices c).getD (EV.getD i (0, 0)).2 0
      && (t.c10.connections e).getD 1 0 != (t.cell_vertices c).getD (EV.getD i (0, 0)).1 0
      && (t.c10.connections e).getD 1 0 != (t.cell_vertices c).getD (EV.getD i (0, 0)).2 0)
        = true) ↔ cell_edge_test t.c10 (t.cell_vertices c) i e = true := by
  rw [cell_edge_test_iff t c i e hl]
  obtain ⟨a, b, hab⟩ := List.length_eq_two.mp hl
  unfold MeshTopology.edge_vertices at hab ⊢
  rw [hab]
  generalize (t.cell_vertices c).getD (EV.getD i (0, 0)).1 0 = v0
  generalize (t.cell_vertices c).getD (EV.getD i (0, 0)).2 0 = v1
  simp only [List.getD_cons_zero, List.getD_cons_succ, Bool.and_eq_true, bne_iff_ne, ne_eq,
    List.mem_cons, List.mem_singleton, List.not_mem_nil, or_false, not_or]
  constructor
  · rintro ⟨⟨⟨h1, h2⟩, h3⟩, h4⟩
    exact ⟨⟨fun h => h1 h.symm, fun h => h3 h.symm⟩, ⟨fun h => h2 h.symm, fun h => h4 h.symm⟩⟩
  · rintro ⟨⟨h1, h3⟩, ⟨h2, h4⟩⟩
    exact ⟨⟨⟨fun h => h1 h.symm, fun h => h2 h.symm⟩, fun h => h3 h.symm⟩, fun h => h4 h.symm⟩

/-- On valid connectivity `find_edge` never fails: it returns a position of the
cell's edge list, and the edge there touches neither vertex of the pair. -/
theorem find_edge_valid (t : MeshTopology) (c : Nat) (hv : Valid t c) (i : Nat) (hi : i < 6) :
    ∃ j, j < 6 ∧ find_edge t i c = .ok j ∧
      cell_edge_test t.c10 (t.cell_vertices c) i ((t.cell_edges c).getD j 0) = true := by
  obtain ⟨x, hx, hq⟩ := cell_edge_test_exists t c hv i hi
  obtain ⟨m, hm, hmx⟩ := exists_getD_of_mem _ x hx
  rw [hv.ce_length] at hm
  have hPm := (find_edge_test_eq t c i _ (hv.ev_length _ (hmx ▸ hx))).mpr (hmx ▸ hq)
  obtain ⟨j, hj, hPj, hfind⟩ := find_range_exists
    (fun j =>
      (t.c10.connections ((t.cell_edges c).getD j 0)).getD 0 0
          != (t.cell_vertices c).getD (EV.getD i (0, 0)).1 0
        && (t.c10.connections ((t.cell_edges c).getD j 0)).getD 0 0
          != (t.cell_vertices c).getD (EV.getD i (0, 0)).2 0
        && (t.c10.connections ((t.cell_edges c).getD j 0)).getD 1 0
          != (t.cell_vertices c).getD (EV.getD i (0, 0)).1 0
        && (t.c10.connections ((t.cell_edges c).getD j 0)).getD 1 0
          != (t.cell_vertices c).getD (EV.getD i (0, 0)).2 0) 6 m hm hPm
  refine ⟨j, hj, ?_, ?_⟩
  · unfold find_edge
    simp only
    rw [hfind]
  · exact (find_edge_test_eq t c i _
      (hv.ev_length _ (getD_mem _ j (by rw [hv.ce_length]; exact hj)))).mp hPj

/-- On a cell whose edges are in the order of step 5, `find_edge` is the identity. -/
theorem find_edge_of_ordered (t : MeshTopology) (c : Nat) (hv : Valid t c)
    (ho : ∀ m, m < 6 →
      (t.cell_vertices c).getD (EV.getD m (0, 0)).1 0
        ∉ t.edge_vertices ((t.cell_edges c).getD m 0) ∧
      (t.cell_vertices c).getD (EV.getD m (0, 0)).2 0
        ∉ t.edge_vertices ((t.cell_edges c).getD m 0))
    (i : Nat) (hi : i < 6) : find_edge t i c = .ok i := by
  obtain ⟨j, hj, hfind, hq⟩ := find_edge_valid t c hv i hi
  have hmem : (t.cell_edges c).getD j 0 ∈ t.cell_edges c :=
    getD_mem _ j (by rw [hv.ce_length]; exact hj)
  have hqj := (cell_edge_test_iff t c j _ (hv.ev_length _ hmem)).mpr (ho j hj)
  have := cell_edge_test_unique t c hv _ hmem i j hi hj hq hqj
  rw [hfind, this]


/-! ## `refine_cell` -/

theorem add_cells_eq {K : Type} (cells : List (List Nat)) (editor : MeshEditor K) (cc : Nat) :
    add_cells cells editor cc
      = (⟨editor.geometry, editor.cells ++ (List.range' cc cells.length).zip cells⟩,
          cc + cells.length) := by
  unfold add_cells
  induction cells generalizing editor cc with
  | nil => simp
  | cons cell rest ih =>
    rw [List.foldl_cons, ih]
    simp only [MeshEditor.add_cell, List.length_cons, List.range'_succ, List.zip_cons_cons,
      List.append_assoc, List.singleton_append]
    refine Prod.ext rfl ?_
    simp only
    omega

/-- When `find_edge` succeeds for the six pairs, `refine_cell` adds the eight
children of the pattern its comparisons select. -/
theorem refine_cell_eq {K : Type} [LinearOrderedField K] (sqrt : K → K) (mesh : Mesh K)
    (c : Nat) (editor : MeshEditor K) (cc : Nat)
    (h : ∀ i, i < 6 → ∃ j, find_edge mesh.topology i c = .ok j) :
    refine_cell sqrt mesh c editor cc
      = .ok (add_cells (children mesh c
          (octahedron_pattern (diagonals sqrt mesh c editor).1 (diagonals sqrt mesh c editor).2.1
            (diagonals sqrt mesh c editor).2.2)) editor cc) := by
  obtain ⟨j0, h0⟩ := h 0 (by omega)
  obtain ⟨j1, h1⟩ := h 1 (by omega)
  obtain ⟨j2, h2⟩ := h 2 (by omega)
  obtain ⟨j3, h3⟩ := h 3 (by omega)
  obtain ⟨j4, h4⟩ := h 4 (by omega)
  obtain ⟨j5, h5⟩ := h 5 (by omega)
  simp only [refine_cell, children, diagonals, new_vertex, h0, h1, h2, h3, h4, h5]
  rfl

theorem length_children {K : Type} (mesh : Mesh K) (c pattern : Nat) :
    (children mesh c pattern).length = 8 := by
  unfold children corner_cells octahedron_cells
  split <;> rfl


/-! ## The volumes of the children -/

theorem abs_eq_div_eight {K : Type} [LinearOrderedField K] (a b : K)
    (h : a = b / 8 ∨ a = -(b / 8)) : |a| / 6 = |b| / 6 / 8 := by
  have h8 : |(8 : K)| = 8 := abs_of_pos (by norm_num)
  rcases h with h | h
  · rw [h, abs_div, h8]; ring
  · rw [h, abs_neg, abs_div, h8]; ring

theorem Point.midpoint_comm {K : Type} [Field K] (p q : Point K) :
    Point.midpoint p q = Point.midpoint q p := by
  simp only [Point.midpoint, add_comm]

set_option maxHeartbeats 1600000 in
/-- The determinant of each corner child is an eighth of the parent's, up to sign. -/
theorem volume_determinant_corner {K : Type} [LinearOrderedField K] (P0 P1 P2 P3 : Point K) :
    |volume_determinant P0 (P0.midpoint P3) (P0.midpoint P2) (P0.midpoint P1)| / 6
      = |volume_determinant P0 P1 P2 P3| / 6 / 8 ∧
    |volume_determinant P1 (P1.midpoint P3) (P1.midpoint P2) (P0.midpoint P1)| / 6
      = |volume_determinant P0 P1 P2 P3| / 6 / 8 ∧
    |volume_determinant P2 (P2.midpoint P3) (P1.midpoint P2) (P0.midpoint P2)| / 6
      = |volume_determinant P0 P1 P2 P3| / 6 / 8 ∧
    |volume_determinant P3 (P2.midpoint P3) (P1.midpoint P3) (P0.midpoint P3)| / 6
      = |volume_determinant P0 P1 P2 P3| / 6 / 8 := by
  refine ⟨?_, ?_, ?_, ?_⟩ <;> apply abs_eq_div_eight <;>
    first
    | (left; simp only [volume_determinant, Point.midpoint]; ring1)
    | (right; simp only [volume_determinant, Point.midpoint]; ring1)

set_option maxHeartbeats 3200000 in
/-- The determinant of each central child, in each of the three patterns, is an
eighth of the parent's, up to sign. Here `e0, ..., e5` are the midpoints of the
edges `23, 13, 12, 03, 02, 01`. -/
theorem volume_determinant_central {K : Type} [LinearOrderedField K] (P0 P1 P2 P3 : Point K)
    (e0 e1 e2 e3 e4 e5 : Point K)
    (h0 : e0 = P2.midpoint P3) (h1 : e1 = P1.midpoint P3) (h2 : e2 = P1.midpoint P2)
    (h3 : e3 = P0.midpoint P3) (h4 : e4 = P0.midpoint P2) (h5 : e5 = P0.midpoint P1) :
    (|volume_determinant e0 e1 e2 e5| / 6 = |volume_determinant P0 P1 P2 P3| / 6 / 8 ∧
     |volume_determinant e0 e1 e3 e5| / 6 = |volume_determinant P0 P1 P2 P3| / 6 / 8 ∧
     |volume_determinant e0 e2 e4 e5| / 6 = |volume_determinant P0 P1 P2 P3| / 6 / 8 ∧
     |volume_determinant e0 e3 e4 e5| / 6 = |volume_determinant P0 P1 P2 P3| / 6 / 8) ∧
    (|volume_determinant e0 e1 e2 e4| / 6 = |volume_determinant P0 P1 P2 P3| / 6 / 8 ∧
     |volume_determinant e0 e1 e3 e4| / 6 = |volume_determinant P0 P1 P2 P3| / 6 / 8 ∧
     |volume_determinant e1 e2 e4 e5| / 6 = |volume_determinant P0 P1 P2 P3| / 6 / 8 ∧
     |volume_determinant e1 e3 e4 e5| / 6 = |volume_determinant P0 P1 P2 P3| / 6 / 8) ∧
    (|volume_determinant e0 e1 e2 e3| / 6 = |volume_determinant P0 P1 P2 P3| / 6 / 8 ∧
     |volume_determinant e0 e2 e3 e4| / 6 = |volume_determinant P0 P1 P2 P3| / 6 / 8 ∧
     |volume_determinant e1 e2 e3 e5| / 6 = |volume_determinant P0 P1 P2 P3| / 6 / 8 ∧
     |volume_determinant e2 e3 e4 e5| / 6 = |volume_determinant P0 P1 P2 P3| / 6 / 8) := by
  subst h0 h1 h2 h3 h4 h5
  refine ⟨⟨?_, ?_, ?_, ?_⟩, ⟨?_, ?_, ?_, ?_⟩, ⟨?_, ?_, ?_, ?_⟩⟩ <;> apply abs_eq_div_eight <;>
    first
    | (left; simp only [volume_determinant, Point.midpoint]; ring1)
    | (right; simp only [volume_determinant, Point.midpoint]; ring1)


theorem volume_tetrahedron_mesh {K : Type} [LinearOrderedField K] (geometry : MeshGeometry K)
    (hdim : geometry.dim = 3) (a b c d : Nat) :
    volume (tetrahedron_mesh geometry [a, b, c, d]) ⟨3, 0⟩
      = .ok (|volume_determinant (geometry.point a) (geometry.point b) (geometry.point c)
          (geometry.point d)| / 6) := by
  simp [volume, tetrahedron_mesh, hdim, MeshConnectivity.connections, MeshGeometry.point]

theorem volume_cell {K : Type} [LinearOrderedField K] (mesh : Mesh K)
    (hdim : mesh.geometry.dim = 3) (c : Nat) :
    volume mesh ⟨3, c⟩
      = .ok (|volume_determinant (mesh.geometry.point ((mesh.topology.cell_vertices c).getD 0 0))
          (mesh.geometry.point ((mesh.topology.cell_vertices c).getD 1 0))
          (mesh.geometry.point ((mesh.topology.cell_vertices c).getD 2 0))
          (mesh.geometry.point ((mesh.topology.cell_vertices c).getD 3 0))| / 6) := by
  simp [volume, hdim, MeshGeometry.point, MeshTopology.cell_vertices]

/-- The two positions left over by the pair of `EV` at `m` are the pair at `5 - m`. -/
theorem EV_positions : ∀ m, m < 6 → ∀ p, p < 4 → ∀ q, q < 4 → p ≠ q →
    (EV.getD m (0, 0)).1 ≠ p → (EV.getD m (0, 0)).1 ≠ q →
    (EV.getD m (0, 0)).2 ≠ p → (EV.getD m (0, 0)).2 ≠ q →
    (p = (EV.getD (5 - m) (0, 0)).1 ∧ q = (EV.getD (5 - m) (0, 0)).2) ∨
    (p = (EV.getD (5 - m) (0, 0)).2 ∧ q = (EV.getD (5 - m) (0, 0)).1) := by
  intro m hm p hp q hq hpq h1 h2 h3 h4
  interval_cases m <;>
    simp only [EV, List.getD_cons_zero, List.getD_cons_succ, Nat.reduceSub] at h1 h2 h3 h4 ⊢ <;>
    omega

/-- An edge of the cell that touches neither vertex of the pair of `EV` at `m`
joins the two vertices of the pair at `5 - m`. -/
theorem edge_vertices_of_test (u : MeshTopology) (c : Nat) (hv : Valid u c) (m : Nat)
    (hm : m < 6) (x : Nat) (hx : x ∈ u.cell_edges c)
    (h : cell_edge_test u.c10 (u.cell_vertices c) m x = true) :
    u.edge_vertices x = [(u.cell_vertices c).getD (EV.getD (5 - m) (0, 0)).1 0,
        (u.cell_vertices c).getD (EV.getD (5 - m) (0, 0)).2 0] ∨
    u.edge_vertices x = [(u.cell_vertices c).getD (EV.getD (5 - m) (0, 0)).2 0,
        (u.cell_vertices c).getD (EV.getD (5 - m) (0, 0)).1 0] := by
  rw [cell_edge_test_iff u c m x (hv.ev_length x hx)] at h
  obtain ⟨p, q, hp, hq, hpq, hpos⟩ := pair_positions (u.cell_vertices c) (u.edge_vertices x)
    hv.cv_nodup (hv.ev_length x hx) (hv.ev_nodup x hx) (hv.ev_sub x hx)
  rw [hv.cv_length] at hp hq hpos
  rw [hpos _ (EV_fst_lt m hm), hpos _ (EV_snd_lt m hm)] at h
  have hm' : 5 - m < 6 := by omega
  have hk := EV_fst_lt (5 - m) hm'
  have hl := EV_snd_lt (5 - m) hm'
  have hkl := EV_fst_ne_snd (5 - m) hm'
  have hpq' := EV_positions m hm p hp q hq hpq (fun e => h.1 (Or.inl e)) (fun e => h.1 (Or.inr e))
    (fun e => h.2 (Or.inl e)) (fun e => h.2 (Or.inr e))
  generalize (EV.getD (5 - m) (0, 0)).1 = k at hk hl hkl hpq'
  generalize (EV.getD (5 - m) (0, 0)).2 = l at hk hl hkl hpq'
  have hmk : (u.cell_vertices c).getD k 0 ∈ u.edge_vertices x := (hpos k hk).mpr (by omega)
  have hml : (u.cell_vertices c).getD l 0 ∈ u.edge_vertices x := (hpos l hl).mpr (by omega)
  have hne : (u.cell_vertices c).getD k 0 ≠ (u.cell_vertices c).getD l 0 := fun e =>
    hkl (getD_inj_of_nodup _ hv.cv_nodup k l (by rw [hv.cv_length]; exact hk)
      (by rw [hv.cv_length]; exact hl) e)
  obtain ⟨a, b, hab⟩ := List.length_eq_two.mp (hv.ev_length x hx)
  rw [hab] at hmk hml ⊢
  simp only [List.mem_cons, List.mem_singleton, List.not_mem_nil, or_false] at hmk hml
  rcases hmk with e1 | e1 <;> rcases hml with e2 | e2
  · exact absurd (e1.trans e2.symm) hne
  · left; rw [e1, e2]
  · right; rw [e1, e2]
  · exact absurd (e1.trans e2.symm) hne

/-- Where every new vertex is the midpoint of its edge, the new vertex `e_i` of
`refine_cell` is the midpoint of the two vertices of the pair of `EV` at `5 - i`. -/
theorem point_new_vertex {K : Type} [LinearOrderedField K] (mesh : Mesh K) (c : Nat)
    (editor : MeshEditor K) (hv : Valid mesh.topology c)
    (hmid : ∀ e, e ∈ mesh.topology.cell_edges c →
      editor.geometry.point (mesh.num_vertices + e)
        = (editor.geometry.point ((mesh.topology.edge_vertices e).getD 0 0)).midpoint
            (editor.geometry.point ((mesh.topology.edge_vertices e).getD 1 0)))
    (i : Nat) (hi : i < 6) :
    editor.geometry.point (new_vertex mesh c i)
      = (editor.geometry.point
          ((mesh.topology.cell_vertices c).getD (EV.getD (5 - i) (0, 0)).1 0)).midpoint
        (editor.geometry.point
          ((mesh.topology.cell_vertices c).getD (EV.getD (5 - i) (0, 0)).2 0)) := by
  obtain ⟨j, hj, hfind, hq⟩ := find_edge_valid mesh.topology c hv i hi
  have hmem : (mesh.topology.cell_edges c).getD j 0 ∈ mesh.topology.cell_edges c :=
    getD_mem _ j (by rw [hv.ce_length]; exact hj)
  unfold new_vertex
  rw [hfind]
  simp only
  rw [hmid _ hmem]
  rcases edge_vertices_of_test mesh.topology c hv i hi _ hmem hq with h | h
  · rw [h]; rfl
  · rw [h]; exact Point.midpoint_comm _ _


theorem mapM_eq_replicate {K : Type} (f : List Nat → Except Error K) (l : List (List Nat))
    (v : K) (h : ∀ x, x ∈ l → f x = .ok v) : l.mapM f = .ok (List.replicate l.length v) := by
  induction l with
  | nil => rfl
  | cons a l ih =>
    rw [List.mapM_cons, h a (List.mem_cons_self _ _),
      ih (fun x hx => h x (List.mem_cons_of_mem _ hx))]
    rfl

/-- Where the new vertices are the midpoints of the edges, every child of every
pattern has an eighth of the volume of the parent. -/
theorem volume_children {K : Type} [LinearOrderedField K] (mesh : Mesh K) (c : Nat)
    (editor : MeshEditor K) (hv : Valid mesh.topology c)
    (hdim' : editor.geometry.dim = 3)
    (hmid : ∀ e, e ∈ mesh.topology.cell_edges c →
      editor.geometry.point (mesh.num_vertices + e)
        = (editor.geometry.point ((mesh.topology.edge_vertices e).getD 0 0)).midpoint
            (editor.geometry.point ((mesh.topology.edge_vertices e).getD 1 0)))
    (pattern : Nat) (child : List Nat) (hc : child ∈ children mesh c pattern) :
    volume (tetrahedron_mesh editor.geometry child) ⟨3, 0⟩
      = .ok (|volume_determinant
          (editor.geometry.point ((mesh.topology.cell_vertices c).getD 0 0))
          (editor.geometry.point ((mesh.topology.cell_vertices c).getD 1 0))
          (editor.geometry.point ((mesh.topology.cell_vertices c).getD 2 0))
          (editor.geometry.point ((mesh.topology.cell_vertices c).getD 3 0))| / 6 / 8) := by
  have he0 := point_new_vertex mesh c editor hv hmid 0 (by omega)
  have he1 := point_new_vertex mesh c editor hv hmid 1 (by omega)
  have he2 := point_new_vertex mesh c editor hv hmid 2 (by omega)
  have he3 := point_new_vertex mesh c editor hv hmid 3 (by omega)
  have he4 := point_new_vertex mesh c editor hv hmid 4 (by omega)
  have he5 := point_new_vertex mesh c editor hv hmid 5 (by omega)
  simp only [EV, List.getD_cons_zero, List.getD_cons_succ, Nat.reduceSub] at he0 he1 he2 he3 he4 he5
  obtain ⟨k0, k1, k2, k3⟩ := volume_determinant_corner
    (editor.geometry.point ((mesh.topology.cell_vertices c).getD 0 0))
    (editor.geometry.point ((mesh.topology.cell_vertices c).getD 1 0))
    (editor.geometry.point ((mesh.topology.cell_vertices c).getD 2 0))
    (editor.geometry.point ((mesh.topology.cell_vertices c).getD 3 0))
  obtain ⟨⟨a0, a1, a2, a3⟩, ⟨b0, b1, b2, b3⟩, ⟨c0, c1, c2, c3⟩⟩ := volume_determinant_central
    (editor.geometry.point ((mesh.topology.cell_vertices c).getD 0 0))
    (editor.geometry.point ((mesh.topology.cell_vertices c).getD 1 0))
    (editor.geometry.point ((mesh.topology.cell_vertices c).getD 2 0))
    (editor.geometry.point ((mesh.topology.cell_vertices c).getD 3 0))
    _ _ _ _ _ _ he0 he1 he2 he3 he4 he5
  rw [← he0, ← he1, ← he3] at k3
  rw [← he0, ← he2, ← he4] at k2
  rw [← he1, ← he2, ← he5] at k1
  rw [← he3, ← he4, ← he5] at k0
  unfold children corner_cells at hc
  rcases pattern with _ | _ | n <;>
    simp only [octahedron_cells, List.cons_append, List.nil_append, List.mem_cons,
      List.mem_singleton, List.not_mem_nil, or_false] at hc <;>
    rcases hc with h | h | h | h | h | h | h | h <;>
    rw [h, volume_tetrahedron_mesh editor.geometry hdim'] <;>
    congr 1


/-! ## Concrete meshes -/

theorem unit_mesh_valid : Valid unit_mesh 0 where
  cv_length := by decide
  cv_nodup := by decide
  ce_length := by decide
  ce_nodup := by decide
  ev_length := by decide
  ev_nodup := by decide
  ev_sub := by decide
  ev_all := by decide
  cf_length := by decide
  cf_nodup := by decide
  fv_length := by decide
  fv_nodup := by decide
  fv_sub := by decide
  fv_all := by decide
  fe_length := by decide
  fe_sub := by decide
  fe_ev := by decide
  fe_all := by decide

theorem two_cell_mesh_valid_0 : Valid two_cell_mesh 0 where
  cv_length := by decide
  cv_nodup := by decide
  ce_length := by decide
  ce_nodup := by decide
  ev_length := by decide
  ev_nodup := by decide
  ev_sub := by decide
  ev_all := by decide
  cf_length := by decide
  cf_nodup := by decide
  fv_length := by decide
  fv_nodup := by decide
  fv_sub := by decide
  fv_all := by decide
  fe_length := by decide
  fe_sub := by decide
  fe_ev := by decide
  fe_all := by decide

theorem two_cell_mesh_valid_1 : Valid two_cell_mesh 1 where
  cv_length := by decide
  cv_nodup := by decide
  ce_length := by decide
  ce_nodup := by decide
  ev_length := by decide
  ev_nodup := by decide
  ev_sub := by decide
  ev_all := by decide
  cf_length := by decide
  cf_nodup := by decide
  fv_length := by decide
  fv_nodup := by decide
  fv_sub := by decide
  fv_all := by decide
  fe_length := by decide
  fe_sub := by decide
  fe_ev := by decide
  fe_all := by decide

theorem unit_mesh_shuffled : TuplePerm unit_mesh shuffled_mesh := by
  refine ⟨fun e => ?_, fun e => ?_, fun e => ?_, fun e => ?_, fun e => ?_, fun e => ?_⟩ <;>
    (match e with
     | 0 => decide
     | 1 => decide
     | 2 => decide
     | 3 => decide
     | 4 => decide
     | 5 => decide
     | n + 6 => exact List.Perm.refl _)

/-! ## The claims about `order` -/

/-- Claim C1. Two distinct cells with valid connectivity, a numbering injective
on the vertices of the first: after `order` on the first cell and then on the
second, every facet they share keeps the vertex tuple and the edge tuple, and
every edge they share the vertex tuple, that `order` on the first cell alone
produced, and the first cell still satisfies all postconditions of `order`. -/
theorem order_neighbour (t : MeshTopology) (c1 c2 : Nat) (g : Nat → Nat) (hne : c1 ≠ c2)
    (hv1 : Valid t c1) (hv2 : Valid t c2)
    (hg : ∀ a, a ∈ t.cell_vertices c1 → ∀ b, b ∈ t.cell_vertices c1 → g a = g b → a = b) :
    (∀ f, f ∈ t.cell_facets c1 → f ∈ t.cell_facets c2 →
      (order (order t c1 g) c2 g).facet_vertices f = (order t c1 g).facet_vertices f ∧
      (order (order t c1 g) c2 g).facet_edges f = (order t c1 g).facet_edges f) ∧
    (∀ e, e ∈ t.cell_edges c1 → e ∈ t.cell_edges c2 →
      (order (order t c1 g) c2 g).edge_vertices e = (order t c1 g).edge_vertices e) ∧
    Ordered (order (order t c1 g) c2 g) c1 g := by
  have hv1' := order_valid t c1 g hv1 c1 hv1
  have hv2' := order_valid t c1 g hv1 c2 hv2
  have ho := order_ordered t c1 g hv1 hg
  have hs := order_other_cell (order t c1 g) c1 c2 g hne hv1' ho hv2'
  refine ⟨fun f hf _ => ?_, fun e he _ => ?_, Ordered.of_sameCell hs hv1' ho⟩
  · have hf' := (mem_order_cell_facets t c1 g hv1 f).mpr hf
    exact ⟨hs.facet_vertices f hf', hs.facet_edges f hf'⟩
  · exact hs.edge_vertices e ((mem_order_cell_edges t c1 g hv1 e).mpr he)

theorem order_neighbour_witness :
    (0 ≠ 1 ∧ Valid two_cell_mesh 0 ∧ Valid two_cell_mesh 1) ∧
    ((∀ f, f ∈ two_cell_mesh.cell_facets 0 → f ∈ two_cell_mesh.cell_facets 1 →
      (order (order two_cell_mesh 0 (fun v => 10 - v)) 1 (fun v => 10 - v)).facet_vertices f
        = (order two_cell_mesh 0 (fun v => 10 - v)).facet_vertices f ∧
      (order (order two_cell_mesh 0 (fun v => 10 - v)) 1 (fun v => 10 - v)).facet_edges f
        = (order two_cell_mesh 0 (fun v => 10 - v)).facet_edges f) ∧
    (∀ e, e ∈ two_cell_mesh.cell_edges 0 → e ∈ two_cell_mesh.cell_edges 1 →
      (order (order two_cell_mesh 0 (fun v => 10 - v)) 1 (fun v => 10 - v)).edge_vertices e
        = (order two_cell_mesh 0 (fun v => 10 - v)).edge_vertices e) ∧
    Ordered (order (order two_cell_mesh 0 (fun v => 10 - v)) 1 (fun v => 10 - v)) 0
      (fun v => 10 - v)) :=
  ⟨⟨by decide, two_cell_mesh_valid_0, two_cell_mesh_valid_1⟩,
    order_neighbour two_cell_mesh 0 1 (fun v => 10 - v) (by decide) two_cell_mesh_valid_0
      two_cell_mesh_valid_1 (by decide)⟩

/-- Claim C2. For a cell with valid connectivity and a numbering injective on
its vertices, two initial states that differ only by permutations inside the
tuples are left by `order` with the same tuples for the cell: its vertex, edge
and facet tuples, the vertex tuple of each edge and the vertex and edge tuples
of each facet. -/
theorem order_canonical (t t' : MeshTopology) (c : Nat) (g : Nat → Nat) (hp : TuplePerm t t')
    (hv : Valid t c)
    (hg : ∀ a, a ∈ t.cell_vertices c → ∀ b, b ∈ t.cell_vertices c → g a = g b → a = b) :
    SameCell (order t c g) (order t' c g) c := by
  have hv' : Valid t' c := Valid.of_tuplePerm hp hv
  have hg' : ∀ a, a ∈ t'.cell_vertices c → ∀ b, b ∈ t'.cell_vertices c → g a = g b → a = b :=
    fun a ha b hb => hg a ((hp.c30 c).subset ha) b ((hp.c30 c).subset hb)
  exact ordered_unique _ _ c g
    (((order_tuplePerm t c g hv).symm.trans hp).trans (order_tuplePerm t' c g hv'))
    (order_valid t c g hv c hv) (order_ordered t c g hv hg) (order_ordered t' c g hv' hg')

theorem order_canonical_witness :
    (TuplePerm unit_mesh shuffled_mesh ∧ Valid unit_mesh 0) ∧
    SameCell (order unit_mesh 0 (fun v => 10 - v)) (order shuffled_mesh 0 (fun v => 10 - v)) 0 :=
  ⟨⟨unit_mesh_shuffled, unit_mesh_valid⟩,
    order_canonical unit_mesh shuffled_mesh 0 (fun v => 10 - v) unit_mesh_shuffled
      unit_mesh_valid (by decide)⟩

/-- Claim C3. `order` is idempotent: for a cell with valid connectivity and a
numbering injective on its vertices, a second application of `order` leaves the
whole connectivity as the first one left it. -/
theorem order_idempotent (t : MeshTopology) (c : Nat) (g : Nat → Nat) (hv : Valid t c)
    (hg : ∀ a, a ∈ t.cell_vertices c → ∀ b, b ∈ t.cell_vertices c → g a = g b → a = b) :
    order (order t c g) c g = order t c g :=
  order_eq_self_of_ordered _ c g (order_valid t c g hv c hv) (order_ordered t c g hv hg)

theorem order_idempotent_witness :
    Valid shuffled_mesh 0 ∧
    order (order shuffled_mesh 0 (fun v => 10 - v)) 0 (fun v => 10 - v)
      = order shuffled_mesh 0 (fun v => 10 - v) :=
  ⟨Valid.of_tuplePerm unit_mesh_shuffled unit_mesh_valid,
    order_idempotent shuffled_mesh 0 (fun v => 10 - v)
      (Valid.of_tuplePerm unit_mesh_shuffled unit_mesh_valid) (by decide)⟩


/-- Claim C5. After `order` on a cell with valid connectivity, for every slot
`m < 6` with `(i, j)` the `m`-th pair of `(0,1),(0,2),(0,3),(1,2),(1,3),(2,3)`,
the edge in slot `m` of the cell contains neither the cell's vertex `i` nor its
vertex `j`, it joins the other two vertices of the cell, and `find_edge(m, cell)`
returns `m`. -/
theorem order_cell_edges_complement (t : MeshTopology) (c : Nat) (g : Nat → Nat)
    (hv : Valid t c) (m : Nat) (hm : m < 6) :
    ((order t c g).cell_vertices c).getD (EV.getD m (0, 0)).1 0
        ∉ (order t c g).edge_vertices (((order t c g).cell_edges c).getD m 0) ∧
    ((order t c g).cell_vertices c).getD (EV.getD m (0, 0)).2 0
        ∉ (order t c g).edge_vertices (((order t c g).cell_edges c).getD m 0) ∧
    (∀ v, v ∈ (order t c g).edge_vertices (((order t c g).cell_edges c).getD m 0) ↔
      v = ((order t c g).cell_vertices c).getD (EV.getD (5 - m) (0, 0)).1 0 ∨
      v = ((order t c g).cell_vertices c).getD (EV.getD (5 - m) (0, 0)).2 0) ∧
    find_edge (order t c g) m c = .ok m := by
  have hv' := order_valid t c g hv c hv
  have ho := order_cell_edges_ordered t c g hv
  have hmem : ((order t c g).cell_edges c).getD m 0 ∈ (order t c g).cell_edges c :=
    getD_mem _ m (by rw [hv'.ce_length]; exact hm)
  refine ⟨(ho m hm).1, (ho m hm).2, fun v => ?_, find_edge_of_ordered _ c hv' ho m hm⟩
  have htest := (cell_edge_test_iff (order t c g) c m _ (hv'.ev_length _ hmem)).mpr (ho m hm)
  rcases edge_vertices_of_test (order t c g) c hv' m hm _ hmem htest with h | h <;>
    rw [h] <;> simp only [List.mem_cons, List.mem_singleton, List.not_mem_nil, or_false]
  exact Or.comm

theorem order_cell_edges_complement_witness :
    (Valid shuffled_mesh 0 ∧ 2 < 6) ∧
    (((order shuffled_mesh 0 (fun v => v)).cell_vertices 0).getD (EV.getD 2 (0, 0)).1 0
        ∉ (order shuffled_mesh 0 (fun v => v)).edge_vertices
            (((order shuffled_mesh 0 (fun v => v)).cell_edges 0).getD 2 0) ∧
    ((order shuffled_mesh 0 (fun v => v)).cell_vertices 0).getD (EV.getD 2 (0, 0)).2 0
        ∉ (order shuffled_mesh 0 (fun v => v)).edge_vertices
            (((order shuffled_mesh 0 (fun v => v)).cell_edges 0).getD 2 0) ∧
    (∀ v, v ∈ (order shuffled_mesh 0 (fun v => v)).edge_vertices
          (((order shuffled_mesh 0 (fun v => v)).cell_edges 0).getD 2 0) ↔
      v = ((order shuffled_mesh 0 (fun v => v)).cell_vertices 0).getD
          (EV.getD (5 - 2) (0, 0)).1 0 ∨
      v = ((order shuffled_mesh 0 (fun v => v)).cell_vertices 0).getD
          (EV.getD (5 - 2) (0, 0)).2 0) ∧
    find_edge (order shuffled_mesh 0 (fun v => v)) 2 0 = .ok 2) :=
  ⟨⟨Valid.of_tuplePerm unit_mesh_shuffled unit_mesh_valid, by decide⟩,
    order_cell_edges_complement shuffled_mesh 0 (fun v => v)
      (Valid.of_tuplePerm unit_mesh_shuffled unit_mesh_valid) 2 (by decide)⟩

/-- A vertex of the cell and the vertices of a facet of the cell that does not
contain it are the four vertices of the cell. -/
theorem vertex_cons_facet_perm (t : MeshTopology) (c : Nat) (hv : Valid t c) (f : Nat)
    (hf : f ∈ t.cell_facets c) (a : Nat) (ha : a ∈ t.cell_vertices c)
    (ho : a ∉ t.facet_vertices f) :
    (t.cell_vertices c).Perm (a :: t.facet_vertices f) := by
  refine (List.Subperm.perm_of_length_le (List.subperm_of_subset ?_ ?_) ?_).symm
  · exact List.nodup_cons.mpr ⟨ho, hv.fv_nodup f hf⟩
  · intro x hx
    rcases List.mem_cons.mp hx with h | h
    · rw [h]; exact ha
    · exact hv.fv_sub f hf x h
  · rw [hv.cv_length, List.length_cons, hv.fv_length f hf]

/-- Claim C6. After `order` on a cell with valid connectivity the facet list of
the cell is a rearrangement of the four facets it had, and for every `i < 4` the
facet in slot `i` is the facet of the cell opposite vertex `i`: it is one of the
cell's facets, it does not contain the cell's vertex `i`, its three vertices
together with vertex `i` are the four vertices of the cell, and it is the only
facet of the cell that does not contain vertex `i`. -/
theorem order_cell_facets_opposite (t : MeshTopology) (c : Nat) (g : Nat → Nat)
    (hv : Valid t c) (i : Nat) (hi : i < 4) :
    ((order t c g).cell_facets c).Perm (t.cell_facets c) ∧
    ((order t c g).cell_facets c).length = 4 ∧
    ((order t c g).cell_facets c).getD i 0 ∈ t.cell_facets c ∧
    ((order t c g).cell_vertices c).getD i 0
        ∉ (order t c g).facet_vertices (((order t c g).cell_facets c).getD i 0) ∧
    ((order t c g).cell_vertices c).Perm
      (((order t c g).cell_vertices c).getD i 0
        :: (order t c g).facet_vertices (((order t c g).cell_facets c).getD i 0)) ∧
    (∀ f, f ∈ (order t c g).cell_facets c →
      (((order t c g).cell_vertices c).getD i 0 ∉ (order t c g).facet_vertices f ↔
        f = ((order t c g).cell_facets c).getD i 0)) := by
  have hv' := order_valid t c g hv c hv
  have ho := order_cell_facets_ordered t c g hv
  have hmem : ((order t c g).cell_facets c).getD i 0 ∈ (order t c g).cell_facets c :=
    getD_mem _ i (by rw [hv'.cf_length]; exact hi)
  refine ⟨(order_tuplePerm t c g hv).c32 c, hv'.cf_length,
    (mem_order_cell_facets t c g hv _).mp hmem, ho i hi,
    vertex_cons_facet_perm _ c hv' _ hmem _ (getD_mem _ i (by rw [hv'.cv_length]; exact hi))
      (ho i hi),
    fun f hf => ⟨fun hnot => ?_, fun h => by rw [h]; exact ho i hi⟩⟩
  obtain ⟨j, hj, hfj⟩ := exists_getD_of_mem _ f hf
  rw [hv'.cf_length] at hj
  have hij : i = j :=
    cell_facet_test_unique (order t c g) c hv' f hf i j hi hj
      ((cell_facet_test_iff _ c i f (hv'.fv_length f hf)).mpr hnot)
      ((cell_facet_test_iff _ c j f (hv'.fv_length f hf)).mpr (by rw [← hfj]; exact ho j hj))
  rw [hij, hfj]

theorem order_cell_facets_opposite_witness :
    (Valid shuffled_mesh 0 ∧ 1 < 4) ∧
    (((order shuffled_mesh 0 (fun v => v)).cell_facets 0).Perm (shuffled_mesh.cell_facets 0) ∧
    ((order shuffled_mesh 0 (fun v => v)).cell_facets 0).length = 4 ∧
    ((order shuffled_mesh 0 (fun v => v)).cell_facets 0).getD 1 0
      ∈ shuffled_mesh.cell_facets 0 ∧
    ((order shuffled_mesh 0 (fun v => v)).cell_vertices 0).getD 1 0
      ∉ (order shuffled_mesh 0 (fun v => v)).facet_vertices
          (((order shuffled_mesh 0 (fun v => v)).cell_facets 0).getD 1 0) ∧
    ((order shuffled_mesh 0 (fun v => v)).cell_vertices 0).Perm
      (((order shuffled_mesh 0 (fun v => v)).cell_vertices 0).getD 1 0
        :: (order shuffled_mesh 0 (fun v => v)).facet_vertices
            (((order shuffled_mesh 0 (fun v => v)).cell_facets 0).getD 1 0)) ∧
    (∀ f, f ∈ (order shuffled_mesh 0 (fun v => v)).cell_facets 0 →
      (((order shuffled_mesh 0 (fun v => v)).cell_vertices 0).getD 1 0
          ∉ (order shuffled_mesh 0 (fun v => v)).facet_vertices f ↔
        f = ((order shuffled_mesh 0 (fun v => v)).cell_facets 0).getD 1 0))) :=
  ⟨⟨Valid.of_tuplePerm unit_mesh_shuffled unit_mesh_valid, by decide⟩,
    order_cell_facets_opposite shuffled_mesh 0 (fun v => v)
      (Valid.of_tuplePerm unit_mesh_shuffled unit_mesh_valid) 1 (by decide)⟩

theorem new_vertex_skew_mesh :
    new_vertex skew_mesh 0 0 = 4 ∧ new_vertex skew_mesh 0 1 = 5 ∧ new_vertex skew_mesh 0 2 = 6 ∧
    new_vertex skew_mesh 0 3 = 7 ∧ new_vertex skew_mesh 0 4 = 8 ∧ new_vertex skew_mesh 0 5 = 9 := by
  decide

theorem rat_sqrt_values : Rat.sqrt 4 = 2 ∧ Rat.sqrt 36 = 6 ∧ Rat.sqrt 16 = 4 := by
  refine ⟨?_, ?_, ?_⟩
  · rw [show (4 : ℚ) = 2 * 2 by norm_num, Rat.sqrt_eq, abs_of_pos (by norm_num)]
  · rw [show (36 : ℚ) = 6 * 6 by norm_num, Rat.sqrt_eq, abs_of_pos (by norm_num)]
  · rw [show (16 : ℚ) = 4 * 4 by norm_num, Rat.sqrt_eq, abs_of_pos (by norm_num)]

theorem diagonals_skew_mesh :
    diagonals Rat.sqrt skew_mesh 0 ⟨skew_geometry, []⟩ = (2, 6, 4) := by
  obtain ⟨h0, h1, h2, h3, h4, h5⟩ := new_vertex_skew_mesh
  obtain ⟨s4, s36, s16⟩ := rat_sqrt_values
  unfold diagonals
  rw [h0, h1, h2, h3, h4, h5]
  simp only [Point.distance, MeshGeometry.point, MeshGeometry.x, skew_geometry,
    List.getD_cons_zero, List.getD_cons_succ]
  norm_num [s4, s36, s16]

/-- Claim C8, at the failing input. The tetrahedron `skew_mesh` has `d05 = 2`
strictly smaller than `d14 = 6` and `d23 = 4`, and yet `refine_cell` takes its
third branch: the four central children it adds all contain `e2 = 6` and
`e3 = 7`, the ends of the diagonal of length 4, and child 4 contains neither
`e5 = 9` nor a cut along the shortest diagonal `e0`-`e5`. -/
theorem refine_cell_skew_mesh :
    diagonals Rat.sqrt skew_mesh 0 ⟨skew_geometry, []⟩ = (2, 6, 4) ∧
    refine_cell Rat.sqrt skew_mesh 0 ⟨skew_geometry, []⟩ 0
      = .ok (⟨skew_geometry,
          [(0, [0, 7, 8, 9]), (1, [1, 5, 6, 9]), (2, [2, 4, 6, 8]), (3, [3, 4, 5, 7]),
           (4, [4, 5, 6, 7]), (5, [4, 6, 7, 8]), (6, [5, 6, 7, 9]), (7, [6, 7, 8, 9])]⟩, 8) ∧
    ¬ (∀ child, child ∈ [[4, 5, 6, 7], [4, 6, 7, 8], [5, 6, 7, 9], [6, 7, 8, 9]] →
        new_vertex skew_mesh 0 0 ∈ child ∧ new_vertex skew_mesh 0 5 ∈ child) := by
  obtain ⟨h0, h1, h2, h3, h4, h5⟩ := new_vertex_skew_mesh
  refine ⟨diagonals_skew_mesh, ?_, by decide⟩
  rw [refine_cell_eq Rat.sqrt skew_mesh 0 _ 0
    (fun i hi => by
      obtain ⟨j, _, hj, _⟩ := find_edge_valid skew_mesh.topology 0 unit_mesh_valid i hi
      exact ⟨j, hj⟩),
    diagonals_skew_mesh, add_cells_eq]
  have hp : octahedron_pattern (2 : ℚ) 6 4 = 2 := by
    unfold octahedron_pattern
    norm_num
  simp only [hp, children, h0, h1, h2, h3, h4, h5]
  rfl

/-- Claim C10. On a cell with valid connectivity `refine_cell` succeeds; it
appends to the cells of the builder exactly the eight children, the four corner
children and then the four central children of the pattern its comparisons
select, under the indices `c, c + 1, ..., c + 7` in that order, where `c` is the
value of the counter on entry; it leaves the geometry of the builder alone and
the counter at `c + 8`. -/
theorem refine_cell_adds_eight {K : Type} [LinearOrderedField K] (sqrt : K → K) (mesh : Mesh K)
    (c : Nat) (editor : MeshEditor K) (cc : Nat) (hv : Valid mesh.topology c) :
    ∃ pattern,
      refine_cell sqrt mesh c editor cc
        = .ok (⟨editor.geometry,
            editor.cells ++ (List.range' cc 8).zip (children mesh c pattern)⟩, cc + 8) ∧
      (children mesh c pattern).length = 8 ∧
      (children mesh c pattern).take 4
        = corner_cells ((mesh.topology.cell_vertices c).getD 0 0)
            ((mesh.topology.cell_vertices c).getD 1 0) ((mesh.topology.cell_vertices c).getD 2 0)
            ((mesh.topology.cell_vertices c).getD 3 0) (new_vertex mesh c 0) (new_vertex mesh c 1)
            (new_vertex mesh c 2) (new_vertex mesh c 3) (new_vertex mesh c 4)
            (new_vertex mesh c 5) ∧
      (children mesh c pattern).drop 4
        = octahedron_cells pattern (new_vertex mesh c 0) (new_vertex mesh c 1)
            (new_vertex mesh c 2) (new_vertex mesh c 3) (new_vertex mesh c 4)
            (new_vertex mesh c 5) := by
  refine ⟨octahedron_pattern (diagonals sqrt mesh c editor).1 (diagonals sqrt mesh c editor).2.1
    (diagonals sqrt mesh c editor).2.2, ?_, length_children mesh c _, rfl, rfl⟩
  rw [refine_cell_eq sqrt mesh c editor cc
    (fun i hi => by
      obtain ⟨j, _, hj, _⟩ := find_edge_valid mesh.topology c hv i hi
      exact ⟨j, hj⟩),
    add_cells_eq, length_children]

theorem refine_cell_adds_eight_witness :
    Valid skew_mesh.topology 0 ∧
    ∃ pattern,
      refine_cell Rat.sqrt skew_mesh 0 ⟨skew_geometry, [(0, [0, 1, 2, 3])]⟩ 1
        = .ok (⟨skew_geometry,
            [(0, [0, 1, 2, 3])] ++ (List.range' 1 8).zip (children skew_mesh 0 pattern)⟩, 1 + 8) ∧
      (children skew_mesh 0 pattern).length = 8 ∧
      (children skew_mesh 0 pattern).take 4
        = corner_cells ((skew_mesh.topology.cell_vertices 0).getD 0 0)
            ((skew_mesh.topology.cell_vertices 0).getD 1 0)
            ((skew_mesh.topology.cell_vertices 0).getD 2 0)
            ((skew_mesh.topology.cell_vertices 0).getD 3 0) (new_vertex skew_mesh 0 0)
            (new_vertex skew_mesh 0 1) (new_vertex skew_mesh 0 2) (new_vertex skew_mesh 0 3)
            (new_vertex skew_mesh 0 4) (new_vertex skew_mesh 0 5) ∧
      (children skew_mesh 0 pattern).drop 4
        = octahedron_cells pattern (new_vertex skew_mesh 0 0) (new_vertex skew_mesh 0 1)
            (new_vertex skew_mesh 0 2) (new_vertex skew_mesh 0 3) (new_vertex skew_mesh 0 4)
            (new_vertex skew_mesh 0 5) :=
  ⟨unit_mesh_valid,
    refine_cell_adds_eight Rat.sqrt skew_mesh 0 ⟨skew_geometry, [(0, [0, 1, 2, 3])]⟩ 1
      unit_mesh_valid⟩


theorem getD_zip_range (cc : Nat) (l : List (List Nat)) (k : Nat) (hk : k < l.length) :
    ((List.range' cc l.length).zip l).getD k (0, []) = (cc + k, l.getD k []) := by
  have h1 : k < ((List.range' cc l.length).zip l).length := by
    rw [List.length_zip, List.length_range', Nat.min_self]; exact hk
  rw [List.getD_eq_getElem _ _ h1, List.getD_eq_getElem _ _ hk, List.getElem_zip,
    List.getElem_range', Nat.one_mul]

/-- What `refine_cell` leaves in the builder on a cell with valid connectivity:
the cells it had, then the eight children under the indices from the counter
on, and the counter eight higher. -/
theorem refine_cell_editor {K : Type} [LinearOrderedField K] (sqrt : K → K) (mesh : Mesh K)
    (c : Nat) (editor : MeshEditor K) (cc : Nat) (hv : Valid mesh.topology c) :
    ∃ pattern,
      refine_cell sqrt mesh c editor cc
        = .ok (⟨editor.geometry,
            editor.cells ++ (List.range' cc 8).zip (children mesh c pattern)⟩, cc + 8) := by
  refine ⟨octahedron_pattern (diagonals sqrt mesh c editor).1 (diagonals sqrt mesh c editor).2.1
    (diagonals sqrt mesh c editor).2.2, ?_⟩
  rw [refine_cell_eq sqrt mesh c editor cc
    (fun i hi => by
      obtain ⟨j, _, hj, _⟩ := find_edge_valid mesh.topology c hv i hi
      exact ⟨j, hj⟩),
    add_cells_eq, length_children]

/-- Claim C9. In exact arithmetic, for a cell with valid connectivity in a mesh
embedded in R^3 whose six new vertices are the midpoints of its edges:
`refine_cell` succeeds, keeps the cells the builder had and appends eight cells
to them, each of these eight cells has one eighth of the volume of the parent,
and their volumes sum to the volume of the parent; the same eighth is the volume
of each of the eight children of each of the three patterns that divide the
octahedron, selected or not. -/
theorem refine_cell_children_volume {K : Type} [LinearOrderedField K] (sqrt : K → K)
    (mesh : Mesh K) (c : Nat) (editor : MeshEditor K) (cc : Nat) (hv : Valid mesh.topology c)
    (hdim : mesh.geometry.dim = 3) (hdim' : editor.geometry.dim = 3)
    (hold : ∀ v, v ∈ mesh.topology.cell_vertices c →
      editor.geometry.point v = mesh.geometry.point v)
    (hmid : ∀ e, e ∈ mesh.topology.cell_edges c →
      editor.geometry.point (mesh.num_vertices + e)
        = (editor.geometry.point ((mesh.topology.edge_vertices e).getD 0 0)).midpoint
            (editor.geometry.point ((mesh.topology.edge_vertices e).getD 1 0))) :
    ∃ V, volume mesh ⟨3, c⟩ = .ok V ∧
      (∀ pattern child, child ∈ children mesh c pattern →
        volume (tetrahedron_mesh editor.geometry child) ⟨3, 0⟩ = .ok (V / 8)) ∧
      ∃ editor' vols,
        refine_cell sqrt mesh c editor cc = .ok (editor', cc + 8) ∧
        editor'.geometry = editor.geometry ∧
        editor'.cells.take editor.cells.length = editor.cells ∧
        (editor'.cells.drop editor.cells.length).length = 8 ∧
        (editor'.cells.drop editor.cells.length).map Prod.fst = List.range' cc 8 ∧
        (∀ cell, cell ∈ editor'.cells.drop editor.cells.length →
          volume (tetrahedron_mesh editor'.geometry cell.2) ⟨3, 0⟩ = .ok (V / 8)) ∧
        volumes editor'.geometry ((editor'.cells.drop editor.cells.length).map Prod.snd)
          = .ok vols ∧
        vols.length = 8 ∧ vols.sum = V := by
  have hmem : ∀ k, k < 4 →
      (mesh.topology.cell_vertices c).getD k 0 ∈ mesh.topology.cell_vertices c :=
    fun k hk => getD_mem _ k (by rw [hv.cv_length]; exact hk)
  have hchild := volume_children mesh c editor hv hdim' hmid
  rw [hold _ (hmem 0 (by omega)), hold _ (hmem 1 (by omega)), hold _ (hmem 2 (by omega)),
    hold _ (hmem 3 (by omega))] at hchild
  obtain ⟨pattern, hr⟩ := refine_cell_editor sqrt mesh c editor cc hv
  have hlen := length_children mesh c pattern
  have hlz : (List.range' cc 8).length = (children mesh c pattern).length := by
    rw [List.length_range', hlen]
  have hvols := mapM_eq_replicate _ _ _ (hchild pattern)
  rw [hlen] at hvols
  refine ⟨_, volume_cell mesh hdim c, hchild, _, List.replicate 8 (|volume_determinant
      (mesh.geometry.point ((mesh.topology.cell_vertices c).getD 0 0))
      (mesh.geometry.point ((mesh.topology.cell_vertices c).getD 1 0))
      (mesh.geometry.point ((mesh.topology.cell_vertices c).getD 2 0))
      (mesh.geometry.point ((mesh.topology.cell_vertices c).getD 3 0))| / 6 / 8), hr, rfl,
    List.take_left' rfl, ?_, ?_, ?_, ?_, List.length_replicate _ _, ?_⟩
  · rw [List.drop_left' rfl, List.length_zip, List.length_range', hlen]; rfl
  · rw [List.drop_left' rfl]
    exact List.map_fst_zip _ _ (Nat.le_of_eq hlz)
  · intro cell hcell
    rw [List.drop_left' rfl] at hcell
    exact hchild pattern cell.2 (List.of_mem_zip (by exact hcell)).2
  · rw [List.drop_left' rfl, List.map_snd_zip _ _ (Nat.le_of_eq hlz.symm)]
    exact hvols
  · rw [List.sum_replicate, nsmul_eq_mul]
    push_cast
    ring

theorem skew_geometry_midpoints (e : Nat) (he : e ∈ skew_mesh.topology.cell_edges 0) :
    skew_geometry.point (skew_mesh.num_vertices + e)
      = (skew_geometry.point ((skew_mesh.topology.edge_vertices e).getD 0 0)).midpoint
          (skew_geometry.point ((skew_mesh.topology.edge_vertices e).getD 1 0)) := by
  have h : e = 0 ∨ e = 1 ∨ e = 2 ∨ e = 3 ∨ e = 4 ∨ e = 5 := by
    simpa [skew_mesh, unit_mesh, MeshTopology.cell_edges, MeshConnectivity.connections] using he
  rcases h with h | h | h | h | h | h <;> subst h <;>
    simp only [skew_mesh, unit_mesh, skew_geometry, MeshTopology.edge_vertices,
      MeshConnectivity.connections, MeshGeometry.point, MeshGeometry.x, Point.midpoint,
      List.getD_cons_zero, List.getD_cons_succ, Nat.reduceAdd] <;>
    norm_num

theorem refine_cell_children_volume_witness :
    (Valid skew_mesh.topology 0 ∧ skew_mesh.geometry.dim = 3 ∧ skew_geometry.dim = 3 ∧
      (∀ v, v ∈ skew_mesh.topology.cell_vertices 0 →
        skew_geometry.point v = skew_mesh.geometry.point v) ∧
      (∀ e, e ∈ skew_mesh.topology.cell_edges 0 →
        skew_geometry.point (skew_mesh.num_vertices + e)
          = (skew_geometry.point ((skew_mesh.topology.edge_vertices e).getD 0 0)).midpoint
              (skew_geometry.point ((skew_mesh.topology.edge_vertices e).getD 1 0)))) ∧
    ∃ V, volume skew_mesh ⟨3, 0⟩ = .ok V ∧
      (∀ pattern child, child ∈ children skew_mesh 0 pattern →
        volume (tetrahedron_mesh skew_geometry child) ⟨3, 0⟩ = .ok (V / 8)) ∧
      ∃ editor' vols,
        refine_cell Rat.sqrt skew_mesh 0 ⟨skew_geometry, [(0, [0, 1, 2, 3])]⟩ 1
          = .ok (editor', 1 + 8) ∧
        editor'.geometry = skew_geometry ∧
        editor'.cells.take 1 = [(0, [0, 1, 2, 3])] ∧
        (editor'.cells.drop 1).length = 8 ∧
        (editor'.cells.drop 1).map Prod.fst = List.range' 1 8 ∧
        (∀ cell, cell ∈ editor'.cells.drop 1 →
          volume (tetrahedron_mesh editor'.geometry cell.2) ⟨3, 0⟩ = .ok (V / 8)) ∧
        volumes editor'.geometry ((editor'.cells.drop 1).map Prod.snd) = .ok vols ∧
        vols.length = 8 ∧ vols.sum = V :=
  ⟨⟨unit_mesh_valid, rfl, rfl, by decide, skew_geometry_midpoints⟩,
    refine_cell_children_volume Rat.sqrt skew_mesh 0 ⟨skew_geometry, [(0, [0, 1, 2, 3])]⟩ 1
      unit_mesh_valid rfl rfl (by decide) skew_geometry_midpoints⟩

/-! ## The corner children of `refine_cell` -/

/-- Every edge of a cell with valid connectivity passes the test of one slot. -/
theorem cell_edge_test_of_mem (u : MeshTopology) (c : Nat) (hv : Valid u c) (e : Nat)
    (he : e ∈ u.cell_edges c) :
    ∃ m, m < 6 ∧ cell_edge_test u.c10 (u.cell_vertices c) m e = true := by
  have sce := sort_cell_edges_selected u c hv
  obtain ⟨k, hk, hke⟩ := exists_getD_of_mem _ e (sce.perm.symm.subset he)
  rw [sce.perm.length_eq, hv.ce_length] at hk
  exact ⟨k, hk, hke ▸ sce.2 k hk⟩

/-- Two edges of a cell with valid connectivity that pass the test of the same
slot are the same edge. -/
theorem cell_edge_test_inj (u : MeshTopology) (c : Nat) (hv : Valid u c) (m : Nat) (hm : m < 6)
    (e e' : Nat) (he : e ∈ u.cell_edges c) (he' : e' ∈ u.cell_edges c)
    (h : cell_edge_test u.c10 (u.cell_vertices c) m e = true)
    (h' : cell_edge_test u.c10 (u.cell_vertices c) m e' = true) : e = e' := by
  have sce := sort_cell_edges_selected u c hv
  obtain ⟨k, hk, hke⟩ := exists_getD_of_mem _ e (sce.perm.symm.subset he)
  obtain ⟨k', hk', hke'⟩ := exists_getD_of_mem _ e' (sce.perm.symm.subset he')
  rw [sce.perm.length_eq, hv.ce_length] at hk hk'
  have e1 := cell_edge_test_unique u c hv e he k m hk hm (hke ▸ sce.2 k hk) h
  have e2 := cell_edge_test_unique u c hv e' he' k' m hk' hm (hke' ▸ sce.2 k' hk') h'
  rw [← hke, ← hke', e1, e2]

/-- The new vertex `e_i` of `refine_cell` on valid connectivity is the vertex
count plus the index of an edge of the cell that passes the test of slot `i`. -/
theorem new_vertex_valid {K : Type} (mesh : Mesh K) (c : Nat) (hv : Valid mesh.topology c)
    (i : Nat) (hi : i < 6) :
    ∃ e, e ∈ mesh.topology.cell_edges c ∧ new_vertex mesh c i = mesh.num_vertices + e ∧
      cell_edge_test mesh.topology.c10 (mesh.topology.cell_vertices c) i e = true := by
  obtain ⟨j, hj, hfind, hq⟩ := find_edge_valid mesh.topology c hv i hi
  refine ⟨_, getD_mem _ j (by rw [hv.ce_length]; exact hj), ?_, hq⟩
  unfold new_vertex
  rw [hfind]

/-- A vertex of the cell lies on the edge that passes the test of slot `m`
exactly when its position is in the pair of `EV` at `5 - m`. -/
theorem mem_edge_vertices_iff_of_test (u : MeshTopology) (c : Nat) (hv : Valid u c) (m : Nat)
    (hm : m < 6) (e : Nat) (he : e ∈ u.cell_edges c)
    (h : cell_edge_test u.c10 (u.cell_vertices c) m e = true) (k : Nat) (hk : k < 4) :
    (u.cell_vertices c).getD k 0 ∈ u.edge_vertices e ↔
      k = (EV.getD (5 - m) (0, 0)).1 ∨ k = (EV.getD (5 - m) (0, 0)).2 := by
  have hm' : 5 - m < 6 := by omega
  have h1 := EV_fst_lt (5 - m) hm'
  have h2 := EV_snd_lt (5 - m) hm'
  have hinj : ∀ a b, a < 4 → b < 4 →
      (u.cell_vertices c).getD a 0 = (u.cell_vertices c).getD b 0 → a = b := fun a b ha hb =>
    getD_inj_of_nodup _ hv.cv_nodup a b (by rw [hv.cv_length]; exact ha)
      (by rw [hv.cv_length]; exact hb)
  rcases edge_vertices_of_test u c hv m hm e he h with hev | hev <;> rw [hev] <;>
    simp only [List.mem_cons, List.mem_singleton, List.not_mem_nil, or_false] <;>
    constructor
  · rintro (e1 | e1)
    · exact Or.inl (hinj _ _ hk h1 e1)
    · exact Or.inr (hinj _ _ hk h2 e1)
  · rintro (e1 | e1)
    · exact Or.inl (by rw [e1])
    · exact Or.inr (by rw [e1])
  · rintro (e1 | e1)
    · exact Or.inr (hinj _ _ hk h2 e1)
    · exact Or.inl (hinj _ _ hk h1 e1)
  · rintro (e1 | e1)
    · exact Or.inr (by rw [e1])
    · exact Or.inl (by rw [e1])

/-- The three new vertices of one corner: when `i1, i2, i3` are the slots whose
complementary pair contains position `k`, the edges behind `e_i1, e_i2, e_i3`
are three distinct edges, and they are the edges of the cell at vertex `k`. -/
theorem corner_edges {K : Type} (mesh : Mesh K) (c : Nat) (hv : Valid mesh.topology c)
    (k i1 i2 i3 : Nat) (hk : k < 4) (h1 : i1 < 6) (h2 : i2 < 6) (h3 : i3 < 6)
    (h12 : i1 ≠ i2) (h13 : i1 ≠ i3) (h23 : i2 ≠ i3)
    (hcorner : ∀ m, m < 6 →
      ((k = (EV.getD (5 - m) (0, 0)).1 ∨ k = (EV.getD (5 - m) (0, 0)).2) ↔
        (m = i1 ∨ m = i2 ∨ m = i3))) :
    ∃ e1 e2 e3, new_vertex mesh c i1 = mesh.num_vertices + e1 ∧
      new_vertex mesh c i2 = mesh.num_vertices + e2 ∧
      new_vertex mesh c i3 = mesh.num_vertices + e3 ∧ [e1, e2, e3].Nodup ∧
      (∀ e, e ∈ [e1, e2, e3] ↔
        (e ∈ mesh.topology.cell_edges c ∧
          (mesh.topology.cell_vertices c).getD k 0 ∈ mesh.topology.edge_vertices e)) := by
  obtain ⟨e1, he1, hn1, ht1⟩ := new_vertex_valid mesh c hv i1 h1
  obtain ⟨e2, he2, hn2, ht2⟩ := new_vertex_valid mesh c hv i2 h2
  obtain ⟨e3, he3, hn3, ht3⟩ := new_vertex_valid mesh c hv i3 h3
  have hne : ∀ a b ea eb, a < 6 → b < 6 → a ≠ b → ea ∈ mesh.topology.cell_edges c →
      cell_edge_test mesh.topology.c10 (mesh.topology.cell_vertices c) a ea = true →
      cell_edge_test mesh.topology.c10 (mesh.topology.cell_vertices c) b eb = true →
      ea ≠ eb := by
    intro a b ea eb ha hb hab hea hta htb heq
    rw [← heq] at htb
    exact hab (cell_edge_test_unique mesh.topology c hv ea hea a b ha hb hta htb)
  refine ⟨e1, e2, e3, hn1, hn2, hn3, ?_, fun e => ?_⟩
  · simp only [List.nodup_cons, List.mem_cons, List.mem_singleton, List.not_mem_nil, or_false,
      not_or, not_false_eq_true, List.nodup_nil, and_true]
    exact ⟨⟨hne i1 i2 e1 e2 h1 h2 h12 he1 ht1 ht2, hne i1 i3 e1 e3 h1 h3 h13 he1 ht1 ht3⟩,
      hne i2 i3 e2 e3 h2 h3 h23 he2 ht2 ht3⟩
  · simp only [List.mem_cons, List.mem_singleton, List.not_mem_nil, or_false]
    constructor
    · rintro (h | h | h)
      · rw [h]
        exact ⟨he1, (mem_edge_vertices_iff_of_test _ c hv i1 h1 e1 he1 ht1 k hk).mpr
          ((hcorner i1 h1).mpr (Or.inl rfl))⟩
      · rw [h]
        exact ⟨he2, (mem_edge_vertices_iff_of_test _ c hv i2 h2 e2 he2 ht2 k hk).mpr
          ((hcorner i2 h2).mpr (Or.inr (Or.inl rfl)))⟩
      · rw [h]
        exact ⟨he3, (mem_edge_vertices_iff_of_test _ c hv i3 h3 e3 he3 ht3 k hk).mpr
          ((hcorner i3 h3).mpr (Or.inr (Or.inr rfl)))⟩
    · rintro ⟨he, hke⟩
      obtain ⟨m, hm, htm⟩ := cell_edge_test_of_mem mesh.topology c hv e he
      have hpos := (mem_edge_vertices_iff_of_test _ c hv m hm e he htm k hk).mp hke
      rcases (hcorner m hm).mp hpos with h | h | h
      · subst h
        exact Or.inl (cell_edge_test_inj _ c hv m hm e e1 he he1 htm ht1)
      · subst h
        exact Or.inr (Or.inl (cell_edge_test_inj _ c hv m hm e e2 he he2 htm ht2))
      · subst h
        exact Or.inr (Or.inr (cell_edge_test_inj _ c hv m hm e e3 he he3 htm ht3))


theorem corner_slots :
    (∀ m, m < 6 → ((0 = (EV.getD (5 - m) (0, 0)).1 ∨ 0 = (EV.getD (5 - m) (0, 0)).2) ↔
      (m = 3 ∨ m = 4 ∨ m = 5))) ∧
    (∀ m, m < 6 → ((1 = (EV.getD (5 - m) (0, 0)).1 ∨ 1 = (EV.getD (5 - m) (0, 0)).2) ↔
      (m = 1 ∨ m = 2 ∨ m = 5))) ∧
    (∀ m, m < 6 → ((2 = (EV.getD (5 - m) (0, 0)).1 ∨ 2 = (EV.getD (5 - m) (0, 0)).2) ↔
      (m = 0 ∨ m = 2 ∨ m = 4))) ∧
    (∀ m, m < 6 → ((3 = (EV.getD (5 - m) (0, 0)).1 ∨ 3 = (EV.getD (5 - m) (0, 0)).2) ↔
      (m = 0 ∨ m = 1 ∨ m = 3))) := by
  decide

/-- The corner children: in every pattern child `k < 4` is the cell's vertex `k`
followed by the new vertices of three distinct edges, which are exactly the edges
of the cell that contain vertex `k`. -/
theorem corner_children_shape {K : Type} (mesh : Mesh K) (c : Nat)
    (hv : Valid mesh.topology c) (pattern k : Nat) (hk : k < 4) :
    ∃ e1 e2 e3,
      (children mesh c pattern).getD k []
        = [(mesh.topology.cell_vertices c).getD k 0, mesh.num_vertices + e1,
            mesh.num_vertices + e2, mesh.num_vertices + e3] ∧
      [e1, e2, e3].Nodup ∧
      (∀ e, e ∈ [e1, e2, e3] ↔
        (e ∈ mesh.topology.cell_edges c ∧
          (mesh.topology.cell_vertices c).getD k 0 ∈ mesh.topology.edge_vertices e)) ∧
      (∀ e, e ∈ mesh.topology.cell_edges c →
        (mesh.topology.cell_vertices c).getD k 0 ∉ mesh.topology.edge_vertices e →
        mesh.num_vertices + e
          ∉ [mesh.num_vertices + e1, mesh.num_vertices + e2, mesh.num_vertices + e3]) := by
  obtain ⟨s0, s1, s2, s3⟩ := corner_slots
  have key : ∀ i1 i2 i3, i1 < 6 → i2 < 6 → i3 < 6 → i1 ≠ i2 → i1 ≠ i3 → i2 ≠ i3 →
      (∀ m, m < 6 → ((k = (EV.getD (5 - m) (0, 0)).1 ∨ k = (EV.getD (5 - m) (0, 0)).2) ↔
        (m = i1 ∨ m = i2 ∨ m = i3))) →
      (children mesh c pattern).getD k []
        = [(mesh.topology.cell_vertices c).getD k 0, new_vertex mesh c i1,
            new_vertex mesh c i2, new_vertex mesh c i3] →
      ∃ e1 e2 e3,
        (children mesh c pattern).getD k []
          = [(mesh.topology.cell_vertices c).getD k 0, mesh.num_vertices + e1,
              mesh.num_vertices + e2, mesh.num_vertices + e3] ∧
        [e1, e2, e3].Nodup ∧
        (∀ e, e ∈ [e1, e2, e3] ↔
          (e ∈ mesh.topology.cell_edges c ∧
            (mesh.topology.cell_vertices c).getD k 0 ∈ mesh.topology.edge_vertices e)) ∧
        (∀ e, e ∈ mesh.topology.cell_edges c →
          (mesh.topology.cell_vertices c).getD k 0 ∉ mesh.topology.edge_vertices e →
          mesh.num_vertices + e
            ∉ [mesh.num_vertices + e1, mesh.num_vertices + e2, mesh.num_vertices + e3]) := by
    intro i1 i2 i3 h1 h2 h3 h12 h13 h23 hcorner hchild
    obtain ⟨e1, e2, e3, hn1, hn2, hn3, hnd, hiff⟩ :=
      corner_edges mesh c hv k i1 i2 i3 hk h1 h2 h3 h12 h13 h23 hcorner
    refine ⟨e1, e2, e3, by rw [hchild, hn1, hn2, hn3], hnd, hiff, fun e he hnot hmem => ?_⟩
    have : e ∈ [e1, e2, e3] := by
      simp only [List.mem_cons, List.mem_singleton, List.not_mem_nil, or_false] at hmem ⊢
      omega
    exact hnot ((hiff e).mp this).2
  interval_cases k
  · exact key 3 4 5 (by omega) (by omega) (by omega) (by omega) (by omega) (by omega) s0 rfl
  · exact key 1 2 5 (by omega) (by omega) (by omega) (by omega) (by omega) (by omega) s1 rfl
  · exact key 0 2 4 (by omega) (by omega) (by omega) (by omega) (by omega) (by omega) s2 rfl
  · exact key 0 1 3 (by omega) (by omega) (by omega) (by omega) (by omega) (by omega) s3 rfl

/-- Claim C11. On a cell with valid connectivity, whatever the order of its
edge list, `refine_cell` succeeds and appends eight cells to the cells of the
builder; for `k < 4` the cell it appends in place `k`, under the index counter
plus `k`, is the cell's vertex `k` followed by the new vertices, vertex count
plus edge index, of three distinct edges that are exactly the edges of the cell
containing vertex `k`; the new vertex of an edge that does not contain vertex
`k` is not among them. -/
theorem refine_cell_corner_children {K : Type} [LinearOrderedField K] (sqrt : K → K)
    (mesh : Mesh K) (c : Nat) (editor : MeshEditor K) (cc : Nat)
    (hv : Valid mesh.topology c) :
    ∃ editor',
      refine_cell sqrt mesh c editor cc = .ok (editor', cc + 8) ∧
      editor'.cells.take editor.cells.length = editor.cells ∧
      editor'.cells.length = editor.cells.length + 8 ∧
      ∀ k, k < 4 → ∃ e1 e2 e3,
        editor'.cells.getD (editor.cells.length + k) (0, [])
          = (cc + k, [(mesh.topology.cell_vertices c).getD k 0, mesh.num_vertices + e1,
              mesh.num_vertices + e2, mesh.num_vertices + e3]) ∧
        [e1, e2, e3].Nodup ∧
        (∀ e, e ∈ [e1, e2, e3] ↔
          (e ∈ mesh.topology.cell_edges c ∧
            (mesh.topology.cell_vertices c).getD k 0 ∈ mesh.topology.edge_vertices e)) ∧
        (∀ e, e ∈ mesh.topology.cell_edges c →
          (mesh.topology.cell_vertices c).getD k 0 ∉ mesh.topology.edge_vertices e →
          mesh.num_vertices + e
            ∉ [mesh.num_vertices + e1, mesh.num_vertices + e2, mesh.num_vertices + e3]) := by
  obtain ⟨pattern, hr⟩ := refine_cell_editor sqrt mesh c editor cc hv
  have hlen := length_children mesh c pattern
  refine ⟨_, hr, List.take_left' rfl, ?_, fun k hk => ?_⟩
  · rw [List.length_append, List.length_zip, List.length_range', hlen]; rfl
  obtain ⟨e1, e2, e3, hchild, hnd, hiff, hnot⟩ := corner_children_shape mesh c hv pattern k hk
  refine ⟨e1, e2, e3, ?_, hnd, hiff, hnot⟩
  have h8 := getD_zip_range cc (children mesh c pattern) k (by rw [hlen]; omega)
  rw [hlen] at h8
  show (editor.cells ++ (List.range' cc 8).zip (children mesh c pattern)).getD
    (editor.cells.length + k) (0, []) = _
  rw [List.getD_append_right _ _ _ _ (Nat.le_add_right _ _), Nat.add_sub_cancel_left, h8, hchild]

theorem refine_cell_corner_children_witness :
    Valid skew_mesh.topology 0 ∧
    ∃ editor',
      refine_cell Rat.sqrt skew_mesh 0 ⟨skew_geometry, [(0, [0, 1, 2, 3])]⟩ 1
        = .ok (editor', 1 + 8) ∧
      editor'.cells.take 1 = [(0, [0, 1, 2, 3])] ∧
      editor'.cells.length = 1 + 8 ∧
      ∀ k, k < 4 → ∃ e1 e2 e3,
        editor'.cells.getD (1 + k) (0, [])
          = (1 + k, [(skew_mesh.topology.cell_vertices 0).getD k 0, skew_mesh.num_vertices + e1,
              skew_mesh.num_vertices + e2, skew_mesh.num_vertices + e3]) ∧
        [e1, e2, e3].Nodup ∧
        (∀ e, e ∈ [e1, e2, e3] ↔
          (e ∈ skew_mesh.topology.cell_edges 0 ∧
            (skew_mesh.topology.cell_vertices 0).getD k 0 ∈ skew_mesh.topology.edge_vertices e)) ∧
        (∀ e, e ∈ skew_mesh.topology.cell_edges 0 →
          (skew_mesh.topology.cell_vertices 0).getD k 0 ∉ skew_mesh.topology.edge_vertices e →
          skew_mesh.num_vertices + e
            ∉ [skew_mesh.num_vertices + e1, skew_mesh.num_vertices + e2,
                skew_mesh.num_vertices + e3]) :=
  ⟨unit_mesh_valid,
    refine_cell_corner_children Rat.sqrt skew_mesh 0 ⟨skew_geometry, [(0, [0, 1, 2, 3])]⟩ 1
      unit_mesh_valid⟩


/-! ## The volume formula -/

/-- The expression `v` of `volume` is the scalar triple product of the three
edge vectors from `x0`, with the opposite sign. -/
theorem volume_determinant_eq_triple {K : Type} [Field K] (x0 x1 x2 x3 : Point K) :
    volume_determinant x0 x1 x2 x3
      = -((x1.sub x0).dot ((x2.sub x0).cross (x3.sub x0))) := by
  simp only [volume_determinant, Point.sub, Point.dot, Point.cross]
  ring

theorem perm_four_cases {α : Type} (a b c d : α) (l : List α) (h : l.Perm [a, b, c, d]) :
    l ∈ [[a, b, c, d], [b, a, c, d], [b, c, a, d], [b, c, d, a],
         [a, c, b, d], [c, a, b, d], [c, b, a, d], [c, b, d, a],
         [a, c, d, b], [c, a, d, b], [c, d, a, b], [c, d, b, a],
         [a, b, d, c], [b, a, d, c], [b, d, a, c], [b, d, c, a],
         [a, d, b, c], [d, a, b, c], [d, b, a, c], [d, b, c, a],
         [a, d, c, b], [d, a, c, b], [d, c, a, b], [d, c, b, a]] := by
  have := List.mem_permutations'.mpr h
  simpa [List.permutations', List.permutations'Aux] using this

set_option maxHeartbeats 1600000 in
/-- The absolute value of the expression `v` of `volume` does not depend on the
order of the four vertices. -/
theorem abs_volume_determinant_perm {K : Type} [LinearOrderedField K] (P : Nat → Point K)
    (a b c d : Nat) (l : List Nat) (h : l.Perm [a, b, c, d]) :
    |volume_determinant (P (l.getD 0 0)) (P (l.getD 1 0)) (P (l.getD 2 0)) (P (l.getD 3 0))|
      = |volume_determinant (P a) (P b) (P c) (P d)| := by
  have hc := perm_four_cases a b c d l h
  simp only [List.mem_cons, List.mem_singleton, List.not_mem_nil, or_false] at hc
  rcases hc with h | h | h | h | h | h | h | h | h | h | h | h | h | h | h | h | h | h | h | h
    | h | h | h | h <;>
    subst h <;>
    simp only [List.getD_cons_zero, List.getD_cons_succ] <;>
    rw [abs_eq_abs] <;>
    first
    | (left; simp only [volume_determinant]; ring1)
    | (right; simp only [volume_determinant]; ring1)

/-- The value of `volume` does not depend on the order of the cell's vertices. -/
theorem volume_perm {K : Type} [LinearOrderedField K] (mesh mesh' : Mesh K) (c c' : Nat)
    (hg : mesh'.geometry = mesh.geometry) (hl : (mesh.topology.cell_vertices c).length = 4)
    (hp : (mesh'.topology.cell_vertices c').Perm (mesh.topology.cell_vertices c)) :
    volume mesh' ⟨3, c'⟩ = volume mesh ⟨3, c⟩ := by
  by_cases hdim : mesh.geometry.dim = 3
  · rw [volume_cell mesh hdim c, volume_cell mesh' (hg ▸ hdim) c', hg]
    obtain ⟨a, b, c0, d, habcd⟩ := length_eq_four hl
    rw [habcd] at hp ⊢
    rw [abs_volume_determinant_perm (fun i => mesh.geometry.point i) a b c0 d _ hp]
    rfl
  · simp [volume, hdim, hg]

theorem volume_unit_geometry {K : Type} [LinearOrderedField K] :
    volume (tetrahedron_mesh (unit_geometry K) [0, 1, 2, 3]) ⟨3, 0⟩ = .ok (1 / 6) := by
  rw [volume_tetrahedron_mesh (unit_geometry K) rfl]
  simp only [volume_determinant, MeshGeometry.point, MeshGeometry.x, unit_geometry,
    List.getD_cons_zero, List.getD_cons_succ]
  norm_num

/-- Claim C12. In exact arithmetic, on a mesh embedded in R^3 `volume` returns
`|(x1 - x0) . ((x2 - x0) x (x3 - x0))| / 6` for the four vertices `x0, ..., x3`
of the cell: the expression `v` of the code is the scalar triple product of the
three edge vectors from `x0`, with the opposite sign. -/
theorem volume_eq_triple_product {K : Type} [LinearOrderedField K] (mesh : Mesh K) (c : Nat)
    (hdim : mesh.geometry.dim = 3) :
    volume mesh ⟨3, c⟩
      = .ok (|((mesh.geometry.point ((mesh.topology.cell_vertices c).getD 1 0)).sub
                (mesh.geometry.point ((mesh.topology.cell_vertices c).getD 0 0))).dot
              (((mesh.geometry.point ((mesh.topology.cell_vertices c).getD 2 0)).sub
                (mesh.geometry.point ((mesh.topology.cell_vertices c).getD 0 0))).cross
               ((mesh.geometry.point ((mesh.topology.cell_vertices c).getD 3 0)).sub
                (mesh.geometry.point ((mesh.topology.cell_vertices c).getD 0 0))))| / 6) ∧
    ∀ x0 x1 x2 x3 : Point K,
      volume_determinant x0 x1 x2 x3 = -((x1.sub x0).dot ((x2.sub x0).cross (x3.sub x0))) := by
  refine ⟨?_, volume_determinant_eq_triple⟩
  rw [volume_cell mesh hdim c, volume_determinant_eq_triple, abs_neg]

theorem volume_eq_triple_product_witness :
    skew_mesh.geometry.dim = 3 ∧
    (volume skew_mesh ⟨3, 0⟩
      = .ok (|((skew_mesh.geometry.point ((skew_mesh.topology.cell_vertices 0).getD 1 0)).sub
                (skew_mesh.geometry.point ((skew_mesh.topology.cell_vertices 0).getD 0 0))).dot
              (((skew_mesh.geometry.point ((skew_mesh.topology.cell_vertices 0).getD 2 0)).sub
                (skew_mesh.geometry.point ((skew_mesh.topology.cell_vertices 0).getD 0 0))).cross
               ((skew_mesh.geometry.point ((skew_mesh.topology.cell_vertices 0).getD 3 0)).sub
                (skew_mesh.geometry.point
                  ((skew_mesh.topology.cell_vertices 0).getD 0 0))))| / 6) ∧
    ∀ x0 x1 x2 x3 : Point ℚ,
      volume_determinant x0 x1 x2 x3 = -((x1.sub x0).dot ((x2.sub x0).cross (x3.sub x0)))) :=
  ⟨rfl, volume_eq_triple_product skew_mesh 0 rfl⟩

/-- Claim C13. In exact arithmetic `volume` is the same for every order of the
cell's four vertices: two cells over one geometry whose vertex tuples are
permutations of each other have the same volume; and the tetrahedron
`(0,0,0), (1,0,0), (0,1,0), (0,0,1)` has volume `1/6` in each of its 24 vertex
orders. -/
theorem volume_permutation_invariant {K : Type} [LinearOrderedField K] (mesh mesh' : Mesh K)
    (c c' : Nat) (hg : mesh'.geometry = mesh.geometry)
    (hl : (mesh.topology.cell_vertices c).length = 4)
    (hp : (mesh'.topology.cell_vertices c').Perm (mesh.topology.cell_vertices c)) :
    volume mesh' ⟨3, c'⟩ = volume mesh ⟨3, c⟩ ∧
    ∀ l : List Nat, l.Perm [0, 1, 2, 3] →
      volume (tetrahedron_mesh (unit_geometry K) l) ⟨3, 0⟩ = .ok (1 / 6) := by
  refine ⟨volume_perm mesh mesh' c c' hg hl hp, fun l hl' => ?_⟩
  rw [volume_perm (tetrahedron_mesh (unit_geometry K) [0, 1, 2, 3])
    (tetrahedron_mesh (unit_geometry K) l) 0 0 rfl rfl hl']
  exact volume_unit_geometry

theorem volume_permutation_invariant_witness :
    ((⟨shuffled_mesh, unit_geometry ℚ, 4⟩ : Mesh ℚ).geometry = (unit_tetrahedron ℚ).geometry ∧
      ((unit_tetrahedron ℚ).topology.cell_vertices 0).length = 4 ∧
      ((⟨shuffled_mesh, unit_geometry ℚ, 4⟩ : Mesh ℚ).topology.cell_vertices 0).Perm
        ((unit_tetrahedron ℚ).topology.cell_vertices 0)) ∧
    (volume (⟨shuffled_mesh, unit_geometry ℚ, 4⟩ : Mesh ℚ) ⟨3, 0⟩
        = volume (unit_tetrahedron ℚ) ⟨3, 0⟩ ∧
    ∀ l : List Nat, l.Perm [0, 1, 2, 3] →
      volume (tetrahedron_mesh (unit_geometry ℚ) l) ⟨3, 0⟩ = .ok (1 / 6)) :=
  ⟨⟨rfl, by decide, by decide⟩,
    volume_permutation_invariant (unit_tetrahedron ℚ) ⟨shuffled_mesh, unit_geometry ℚ, 4⟩ 0 0 rfl
      (by decide) (by decide)⟩

/-! ## `collides` -/

theorem getD_map_mul {K : Type} [Field K] (l : List K) (s : K) (i : Nat) :
    (l.map (fun a => a * s)).getD i 0 = l.getD i 0 * s := by
  induction l generalizing i with
  | nil => simp
  | cons a l ih =>
    cases i with
    | zero => simp
    | succ i => simpa using ih i

theorem getD_map_map_mul {K : Type} [Field K] (l : List (List K)) (s : K) (n : Nat) :
    (l.map (fun x => x.map (fun a => a * s))).getD n [] = (l.getD n []).map (fun a => a * s) := by
  induction l generalizing n with
  | nil => simp
  | cons a l ih =>
    cases n with
    | zero => simp
    | succ n => simpa using ih n

/-- A vertex of the scaled geometry is the vertex multiplied by the factor. -/
theorem point_scale {K : Type} [Field K] (geometry : MeshGeometry K) (s : K) (n : Nat) :
    (geometry.scale s).point n = (geometry.point n).mul s := by
  simp only [MeshGeometry.point, MeshGeometry.x, MeshGeometry.scale, Point.mul,
    getD_map_map_mul, getD_map_mul]

theorem scale_quotient {K : Type} [Field K] (s : K) (hs : s ≠ 0) (D N D' N' : K)
    (hD : D' = s ^ 6 * D) (hN : N' = s ^ 6 * N) : 1 / D' * N' = 1 / D * N := by
  subst hD hN
  have h6 : s ^ 6 ≠ 0 := pow_ne_zero 6 hs
  by_cases h : D = 0
  · subst h; simp
  · field_simp
    ring

theorem Point.sub_mul_mul {K : Type} [Field K] (a b : Point K) (s : K) :
    (a.mul s).sub (b.mul s) = (a.sub b).mul s := by
  simp only [Point.sub, Point.mul, sub_mul]

theorem Point.dot_mul_mul {K : Type} [Field K] (a b : Point K) (s : K) :
    (a.mul s).dot (b.mul s) = s ^ 2 * a.dot b := by
  simp only [Point.dot, Point.mul]
  ring

theorem Point.dot_comm {K : Type} [Field K] (a b : Point K) : a.dot b = b.dot a := by
  simp only [Point.dot]
  ring

/-- The coefficients `x1, x2, x3` do not change when the vertices and the point
are multiplied by one factor other than zero. -/
theorem collides_coefficients_scale {K : Type} [LinearOrderedField K] (p0 p1 p2 p3 p : Point K)
    (s : K) (hs : s ≠ 0) :
    collides_coefficients (p0.mul s) (p1.mul s) (p2.mul s) (p3.mul s) (p.mul s)
      = collides_coefficients p0 p1 p2 p3 p := by
  simp only [collides_coefficients, Point.sub_mul_mul, Point.dot_mul_mul]
  refine Prod.ext ?_ (Prod.ext ?_ ?_)
  · apply scale_quotient s hs <;> ring
  · apply scale_quotient s hs <;> ring
  · apply scale_quotient s hs <;> ring

/-- The tolerance after multiplying the vertices by a positive factor `s`: the
largest component of `v1` is multiplied by `s`. -/
theorem collides_tolerance_scale {K : Type} [LinearOrderedField K] (eps_large : K)
    (p0 p1 : Point K) (s : K) (hs : 0 < s) :
    collides_tolerance eps_large (p0.mul s) (p1.mul s)
      = max eps_large (eps_large * (s * max |(p1.sub p0).x| (max |(p1.sub p0).y| |(p1.sub p0).z|)))
    := by
  simp only [collides_tolerance, Point.sub, Point.mul]
  rw [mul_max_of_nonneg _ _ hs.le, mul_max_of_nonneg _ _ hs.le]
  rw [← abs_of_pos hs, ← abs_mul, ← abs_mul, ← abs_mul, abs_of_pos hs]
  congr 3 <;> ring_nf

theorem collides_eq {K : Type} [LinearOrderedField K] (eps_large : K) (mesh : Mesh K)
    (cell : Nat) (point : Point K) :
    collides eps_large mesh cell point
      = (decide ((collides_coefficients
            (mesh.geometry.point ((mesh.topology.cell_vertices cell).getD 0 0))
            (mesh.geometry.point ((mesh.topology.cell_vertices cell).getD 1 0))
            (mesh.geometry.point ((mesh.topology.cell_vertices cell).getD 2 0))
            (mesh.geometry.point ((mesh.topology.cell_vertices cell).getD 3 0)) point).1
          ≥ -collides_tolerance eps_large
            (mesh.geometry.point ((mesh.topology.cell_vertices cell).getD 0 0))
            (mesh.geometry.point ((mesh.topology.cell_vertices cell).getD 1 0)))
        && decide ((collides_coefficients
            (mesh.geometry.point ((mesh.topology.cell_vertices cell).getD 0 0))
            (mesh.geometry.point ((mesh.topology.cell_vertices cell).getD 1 0))
            (mesh.geometry.point ((mesh.topology.cell_vertices cell).getD 2 0))
            (mesh.geometry.point ((mesh.topology.cell_vertices cell).getD 3 0)) point).2.1
          ≥ -collides_tolerance eps_large
            (mesh.geometry.point ((mesh.topology.cell_vertices cell).getD 0 0))
            (mesh.geometry.point ((mesh.topology.cell_vertices cell).getD 1 0)))
        && decide ((collides_coefficients
            (mesh.geometry.point ((mesh.topology.cell_vertices cell).getD 0 0))
            (mesh.geometry.point ((mesh.topology.cell_vertices cell).getD 1 0))
            (mesh.geometry.point ((mesh.topology.cell_vertices cell).getD 2 0))
            (mesh.geometry.point ((mesh.topology.cell_vertices cell).getD 3 0)) point).2.2
          ≥ -collides_tolerance eps_large
            (mesh.geometry.point ((mesh.topology.cell_vertices cell).getD 0 0))
            (mesh.geometry.point ((mesh.topology.cell_vertices cell).getD 1 0)))
        && decide ((collides_coefficients
            (mesh.geometry.point ((mesh.topology.cell_vertices cell).getD 0 0))
            (mesh.geometry.point ((mesh.topology.cell_vertices cell).getD 1 0))
            (mesh.geometry.point ((mesh.topology.cell_vertices cell).getD 2 0))
            (mesh.geometry.point ((mesh.topology.cell_vertices cell).getD 3 0)) point).1
          + (collides_coefficients
            (mesh.geometry.point ((mesh.topology.cell_vertices cell).getD 0 0))
            (mesh.geometry.point ((mesh.topology.cell_vertices cell).getD 1 0))
            (mesh.geometry.point ((mesh.topology.cell_vertices cell).getD 2 0))
            (mesh.geometry.point ((mesh.topology.cell_vertices cell).getD 3 0)) point).2.1
          + (collides_coefficients
            (mesh.geometry.point ((mesh.topology.cell_vertices cell).getD 0 0))
            (mesh.geometry.point ((mesh.topology.cell_vertices cell).getD 1 0))
            (mesh.geometry.point ((mesh.topology.cell_vertices cell).getD 2 0))
            (mesh.geometry.point ((mesh.topology.cell_vertices cell).getD 3 0)) point).2.2
          ≤ 1 + collides_tolerance eps_large
            (mesh.geometry.point ((mesh.topology.cell_vertices cell).getD 0 0))
            (mesh.geometry.point ((mesh.topology.cell_vertices cell).getD 1 0)))) := rfl

/-- The tolerance is at least `DOLFIN_EPS_LARGE`. -/
theorem le_collides_tolerance {K : Type} [LinearOrderedField K] (eps_large : K) (p0 p1 : Point K) :
    eps_large ≤ collides_tolerance eps_large p0 p1 := le_max_left _ _

/-- Claim C14, amended. In exact arithmetic, multiplying the four vertex
coordinates and the query point by one positive factor `s` leaves the
coefficients `x1, x2, x3` unchanged;
the result of `collides` is unchanged whenever the tolerance is unchanged; and
for `s ≥ 1` and a tolerance constant `≥ 0` a point that collides still collides
after scaling. -/
theorem collides_scale {K : Type} [LinearOrderedField K] (eps_large : K) (mesh : Mesh K)
    (cell : Nat) (point : Point K) (s : K) (hs : 0 < s) (heps : 0 ≤ eps_large) :
    collides_coefficients
        ((mesh.scale s).geometry.point (((mesh.scale s).topology.cell_vertices cell).getD 0 0))
        ((mesh.scale s).geometry.point (((mesh.scale s).topology.cell_vertices cell).getD 1 0))
        ((mesh.scale s).geometry.point (((mesh.scale s).topology.cell_vertices cell).getD 2 0))
        ((mesh.scale s).geometry.point (((mesh.scale s).topology.cell_vertices cell).getD 3 0))
        (point.mul s)
      = collides_coefficients
        (mesh.geometry.point ((mesh.topology.cell_vertices cell).getD 0 0))
        (mesh.geometry.point ((mesh.topology.cell_vertices cell).getD 1 0))
        (mesh.geometry.point ((mesh.topology.cell_vertices cell).getD 2 0))
        (mesh.geometry.point ((mesh.topology.cell_vertices cell).getD 3 0)) point ∧
    (collides_tolerance eps_large
        ((mesh.scale s).geometry.point (((mesh.scale s).topology.cell_vertices cell).getD 0 0))
        ((mesh.scale s).geometry.point (((mesh.scale s).topology.cell_vertices cell).getD 1 0))
      = collides_tolerance eps_large
        (mesh.geometry.point ((mesh.topology.cell_vertices cell).getD 0 0))
        (mesh.geometry.point ((mesh.topology.cell_vertices cell).getD 1 0)) →
      collides eps_large (mesh.scale s) cell (point.mul s) = collides eps_large mesh cell point) ∧
    (1 ≤ s → collides eps_large mesh cell point = true →
      collides eps_large (mesh.scale s) cell (point.mul s) = true) := by
  have hc := collides_coefficients_scale
    (mesh.geometry.point ((mesh.topology.cell_vertices cell).getD 0 0))
    (mesh.geometry.point ((mesh.topology.cell_vertices cell).getD 1 0))
    (mesh.geometry.point ((mesh.topology.cell_vertices cell).getD 2 0))
    (mesh.geometry.point ((mesh.topology.cell_vertices cell).getD 3 0)) point s hs.ne.symm
  have ht : (mesh.scale s).topology = mesh.topology := rfl
  have hg : (mesh.scale s).geometry = mesh.geometry.scale s := rfl
  refine ⟨?_, ?_, ?_⟩
  · rw [ht, hg, point_scale, point_scale, point_scale, point_scale, hc]
  · intro h
    rw [collides_eq, collides_eq, h]
    rw [ht, hg, point_scale, point_scale, point_scale, point_scale, hc]
  · intro h1 h
    have hle : collides_tolerance eps_large
          (mesh.geometry.point ((mesh.topology.cell_vertices cell).getD 0 0))
          (mesh.geometry.point ((mesh.topology.cell_vertices cell).getD 1 0))
        ≤ collides_tolerance eps_large
          ((mesh.geometry.point ((mesh.topology.cell_vertices cell).getD 0 0)).mul s)
          ((mesh.geometry.point ((mesh.topology.cell_vertices cell).getD 1 0)).mul s) := by
      rw [collides_tolerance_scale _ _ _ _ hs]
      refine max_le_max le_rfl (mul_le_mul_of_nonneg_left ?_ heps)
      exact le_mul_of_one_le_left (le_max_of_le_left (abs_nonneg _)) h1
    rw [collides_eq] at h ⊢
    rw [ht, hg, point_scale, point_scale, point_scale, point_scale, hc]
    generalize collides_coefficients
      (mesh.geometry.point ((mesh.topology.cell_vertices cell).getD 0 0))
      (mesh.geometry.point ((mesh.topology.cell_vertices cell).getD 1 0))
      (mesh.geometry.point ((mesh.topology.cell_vertices cell).getD 2 0))
      (mesh.geometry.point ((mesh.topology.cell_vertices cell).getD 3 0)) point = X at h ⊢
    simp only [Bool.and_eq_true, decide_eq_true_eq, ge_iff_le] at h ⊢
    obtain ⟨⟨⟨a1, a2⟩, a3⟩, a4⟩ := h
    exact ⟨⟨⟨by linarith, by linarith⟩, by linarith⟩, by linarith⟩

theorem collides_scale_witness :
    (0 : ℚ) < 4 ∧ (0 : ℚ) ≤ 1 / 10 ^ 14 ∧
    (collides_coefficients
        (((unit_tetrahedron ℚ).scale 4).geometry.point
          ((((unit_tetrahedron ℚ).scale 4).topology.cell_vertices 0).getD 0 0))
        (((unit_tetrahedron ℚ).scale 4).geometry.point
          ((((unit_tetrahedron ℚ).scale 4).topology.cell_vertices 0).getD 1 0))
        (((unit_tetrahedron ℚ).scale 4).geometry.point
          ((((unit_tetrahedron ℚ).scale 4).topology.cell_vertices 0).getD 2 0))
        (((unit_tetrahedron ℚ).scale 4).geometry.point
          ((((unit_tetrahedron ℚ).scale 4).topology.cell_vertices 0).getD 3 0))
        ((⟨1 / 4, 1 / 4, 1 / 4⟩ : Point ℚ).mul 4)
      = collides_coefficients
        ((unit_tetrahedron ℚ).geometry.point (((unit_tetrahedron ℚ).topology.cell_vertices 0).getD 0 0))
        ((unit_tetrahedron ℚ).geometry.point (((unit_tetrahedron ℚ).topology.cell_vertices 0).getD 1 0))
        ((unit_tetrahedron ℚ).geometry.point (((unit_tetrahedron ℚ).topology.cell_vertices 0).getD 2 0))
        ((unit_tetrahedron ℚ).geometry.point (((unit_tetrahedron ℚ).topology.cell_vertices 0).getD 3 0))
        ⟨1 / 4, 1 / 4, 1 / 4⟩ ∧
    (collides_tolerance (1 / 10 ^ 14)
        (((unit_tetrahedron ℚ).scale 4).geometry.point
          ((((unit_tetrahedron ℚ).scale 4).topology.cell_vertices 0).getD 0 0))
        (((unit_tetrahedron ℚ).scale 4).geometry.point
          ((((unit_tetrahedron ℚ).scale 4).topology.cell_vertices 0).getD 1 0))
      = collides_tolerance (1 / 10 ^ 14)
        ((unit_tetrahedron ℚ).geometry.point (((unit_tetrahedron ℚ).topology.cell_vertices 0).getD 0 0))
        ((unit_tetrahedron ℚ).geometry.point
          (((unit_tetrahedron ℚ).topology.cell_vertices 0).getD 1 0)) →
      collides (1 / 10 ^ 14) ((unit_tetrahedron ℚ).scale 4) 0
          ((⟨1 / 4, 1 / 4, 1 / 4⟩ : Point ℚ).mul 4)
        = collides (1 / 10 ^ 14) (unit_tetrahedron ℚ) 0 ⟨1 / 4, 1 / 4, 1 / 4⟩) ∧
    ((1 : ℚ) ≤ 4 → collides (1 / 10 ^ 14) (unit_tetrahedron ℚ) 0 ⟨1 / 4, 1 / 4, 1 / 4⟩ = true →
      collides (1 / 10 ^ 14) ((unit_tetrahedron ℚ).scale 4) 0
        ((⟨1 / 4, 1 / 4, 1 / 4⟩ : Point ℚ).mul 4) = true)) :=
  ⟨by norm_num, by norm_num,
    collides_scale (1 / 10 ^ 14) (unit_tetrahedron ℚ) 0 ⟨1 / 4, 1 / 4, 1 / 4⟩ 4 (by norm_num)
      (by norm_num)⟩

/-- The vertices of the unit tetrahedron as points. -/
theorem unit_tetrahedron_points (K : Type) [Field K] :
    (unit_tetrahedron K).geometry.point (((unit_tetrahedron K).topology.cell_vertices 0).getD 0 0)
      = ⟨0, 0, 0⟩ ∧
    (unit_tetrahedron K).geometry.point (((unit_tetrahedron K).topology.cell_vertices 0).getD 1 0)
      = ⟨1, 0, 0⟩ ∧
    (unit_tetrahedron K).geometry.point (((unit_tetrahedron K).topology.cell_vertices 0).getD 2 0)
      = ⟨0, 1, 0⟩ ∧
    (unit_tetrahedron K).geometry.point (((unit_tetrahedron K).topology.cell_vertices 0).getD 3 0)
      = ⟨0, 0, 1⟩ := ⟨rfl, rfl, rfl, rfl⟩

/-- Claim C14, counterexample. With `DOLFIN_EPS_LARGE = 1e-14`, the point
`(-2^-45, 0, 0)` does not collide with the tetrahedron `(0,0,0), (1,0,0),
(0,1,0), (0,0,1)`: `x1 = -2^-45 < -1e-14`. After multiplying the vertices and
the point by 4 it does: `x1` is the same and the tolerance is `4e-14`. -/
theorem collides_not_scale_invariant :
    collides (1 / 10 ^ 14) (unit_tetrahedron ℚ) 0 ⟨-1 / 2 ^ 45, 0, 0⟩ = false ∧
    collides (1 / 10 ^ 14) ((unit_tetrahedron ℚ).scale 4) 0
      ((⟨-1 / 2 ^ 45, 0, 0⟩ : Point ℚ).mul 4) = true := by
  obtain ⟨h0, h1, h2, h3⟩ := unit_tetrahedron_points ℚ
  constructor
  · rw [collides_eq, h0, h1, h2, h3]
    norm_num [collides_coefficients, collides_tolerance, Point.sub, Point.dot]
  · rw [collides_eq]
    have ht : ((unit_tetrahedron ℚ).scale 4).topology = (unit_tetrahedron ℚ).topology := rfl
    have hg : ((unit_tetrahedron ℚ).scale 4).geometry = (unit_tetrahedron ℚ).geometry.scale 4 :=
      rfl
    rw [ht, hg, point_scale, point_scale, point_scale, point_scale, h0, h1, h2, h3]
    norm_num [collides_coefficients, collides_tolerance, Point.sub, Point.dot, Point.mul]

/-! ## `collides` at the centroid -/

/-- The determinant of the Gram matrix in `collides` is the square of the
expression `v` of `volume`. -/
theorem gram_determinant {K : Type} [Field K] (p0 p1 p2 p3 : Point K) :
    (p1.sub p0).dot (p1.sub p0)
        * ((p2.sub p0).dot (p2.sub p0) * (p3.sub p0).dot (p3.sub p0)
          - (p2.sub p0).dot (p3.sub p0) * (p2.sub p0).dot (p3.sub p0))
      - (p1.sub p0).dot (p2.sub p0)
        * ((p1.sub p0).dot (p2.sub p0) * (p3.sub p0).dot (p3.sub p0)
          - (p2.sub p0).dot (p3.sub p0) * (p1.sub p0).dot (p3.sub p0))
      + (p1.sub p0).dot (p3.sub p0)
        * ((p1.sub p0).dot (p2.sub p0) * (p2.sub p0).dot (p3.sub p0)
          - (p2.sub p0).dot (p2.sub p0) * (p1.sub p0).dot (p3.sub p0))
      = volume_determinant p0 p1 p2 p3 ^ 2 := by
  simp only [volume_determinant, Point.sub, Point.dot]
  ring

theorem Point.dot_combination {K : Type} [Field K] (v1 v2 v3 w : Point K) (a b c : K) :
    (⟨a * v1.x + b * v2.x + c * v3.x, a * v1.y + b * v2.y + c * v3.y,
        a * v1.z + b * v2.z + c * v3.z⟩ : Point K).dot w
      = a * v1.dot w + b * v2.dot w + c * v3.dot w := by
  simp only [Point.dot]
  ring

/-- On a tetrahedron with `v ≠ 0`, the coefficients of `collides` for the point
`p0 + a (p1 - p0) + b (p2 - p0) + c (p3 - p0)` are `a`, `b`, `c`. -/
theorem collides_coefficients_combination {K : Type} [LinearOrderedField K]
    (p0 p1 p2 p3 point : Point K) (a b c : K)
    (hdet : volume_determinant p0 p1 p2 p3 ≠ 0)
    (hp : point.sub p0 = ⟨a * (p1.sub p0).x + b * (p2.sub p0).x + c * (p3.sub p0).x,
      a * (p1.sub p0).y + b * (p2.sub p0).y + c * (p3.sub p0).y,
      a * (p1.sub p0).z + b * (p2.sub p0).z + c * (p3.sub p0).z⟩) :
    collides_coefficients p0 p1 p2 p3 point = (a, b, c) := by
  have hG := gram_determinant p0 p1 p2 p3
  have hne : volume_determinant p0 p1 p2 p3 ^ 2 ≠ 0 := pow_ne_zero 2 hdet
  rw [← hG] at hne
  simp only [collides_coefficients, hp, Point.dot_combination]
  rw [Point.dot_comm (p2.sub p0) (p1.sub p0), Point.dot_comm (p3.sub p0) (p1.sub p0),
    Point.dot_comm (p3.sub p0) (p2.sub p0)]
  generalize (p1.sub p0).dot (p1.sub p0) = a11 at hne ⊢
  generalize (p1.sub p0).dot (p2.sub p0) = a12 at hne ⊢
  generalize (p1.sub p0).dot (p3.sub p0) = a13 at hne ⊢
  generalize (p2.sub p0).dot (p2.sub p0) = a22 at hne ⊢
  generalize (p2.sub p0).dot (p3.sub p0) = a23 at hne ⊢
  generalize (p3.sub p0).dot (p3.sub p0) = a33 at hne ⊢
  refine Prod.ext ?_ (Prod.ext ?_ ?_)
  · show 1 / _ * _ = a
    rw [one_div, inv_mul_eq_iff_eq_mul₀ hne]; ring
  · show 1 / _ * _ = b
    rw [one_div, inv_mul_eq_iff_eq_mul₀ hne]; ring
  · show 1 / _ * _ = c
    rw [one_div, inv_mul_eq_iff_eq_mul₀ hne]; ring

/-- The volume of the unit tetrahedron. -/
theorem volume_unit_tetrahedron (K : Type) [LinearOrderedField K] :
    volume (unit_tetrahedron K) ⟨3, 0⟩ = .ok (1 / 6) := by
  obtain ⟨h0, h1, h2, h3⟩ := unit_tetrahedron_points K
  rw [volume_cell _ rfl, h0, h1, h2, h3]
  norm_num [volume_determinant]

/-- Claim C15. In exact arithmetic, for every cell of non-zero volume and every
tolerance constant `≥ 0`, `collides` is true at the centroid, the average of the
four vertices of the cell: the three coefficients are `1/4` there. -/
theorem collides_centroid {K : Type} [LinearOrderedField K] (eps_large : K) (mesh : Mesh K)
    (cell : Nat) (V : K) (heps : 0 ≤ eps_large) (hV : volume mesh ⟨3, cell⟩ = .ok V)
    (hV0 : V ≠ 0) :
    collides eps_large mesh cell (centroid mesh cell) = true ∧
    collides_coefficients
        (mesh.geometry.point ((mesh.topology.cell_vertices cell).getD 0 0))
        (mesh.geometry.point ((mesh.topology.cell_vertices cell).getD 1 0))
        (mesh.geometry.point ((mesh.topology.cell_vertices cell).getD 2 0))
        (mesh.geometry.point ((mesh.topology.cell_vertices cell).getD 3 0))
        (centroid mesh cell) = (1 / 4, 1 / 4, 1 / 4) := by
  have hdim : mesh.geometry.dim = 3 := by
    by_contra hdim
    simp [volume, hdim] at hV
  rw [volume_cell mesh hdim] at hV
  have hdet : volume_determinant
      (mesh.geometry.point ((mesh.topology.cell_vertices cell).getD 0 0))
      (mesh.geometry.point ((mesh.topology.cell_vertices cell).getD 1 0))
      (mesh.geometry.point ((mesh.topology.cell_vertices cell).getD 2 0))
      (mesh.geometry.point ((mesh.topology.cell_vertices cell).getD 3 0)) ≠ 0 := by
    intro h0
    rw [h0] at hV
    injection hV with hV
    exact hV0 (by rw [← hV]; simp)
  have hx := collides_coefficients_combination _ _ _ _ (centroid mesh cell) (1 / 4) (1 / 4) (1 / 4)
    hdet (by
      simp only [centroid, Point.sub, Point.mk.injEq]
      refine ⟨?_, ?_, ?_⟩ <;> ring)
  refine ⟨?_, hx⟩
  rw [collides_eq, hx]
  have ht := le_collides_tolerance eps_large
    (mesh.geometry.point ((mesh.topology.cell_vertices cell).getD 0 0))
    (mesh.geometry.point ((mesh.topology.cell_vertices cell).getD 1 0))
  simp only [Bool.and_eq_true, decide_eq_true_eq, ge_iff_le]
  refine ⟨⟨⟨?_, ?_⟩, ?_⟩, ?_⟩ <;> linarith

theorem collides_centroid_witness :
    (0 : ℚ) ≤ 1 / 10 ^ 14 ∧ volume (unit_tetrahedron ℚ) ⟨3, 0⟩ = .ok (1 / 6) ∧
    (1 / 6 : ℚ) ≠ 0 ∧
    collides (1 / 10 ^ 14) (unit_tetrahedron ℚ) 0 (centroid (unit_tetrahedron ℚ) 0) = true ∧
    collides_coefficients
        ((unit_tetrahedron ℚ).geometry.point
          (((unit_tetrahedron ℚ).topology.cell_vertices 0).getD 0 0))
        ((unit_tetrahedron ℚ).geometry.point
          (((unit_tetrahedron ℚ).topology.cell_vertices 0).getD 1 0))
        ((unit_tetrahedron ℚ).geometry.point
          (((unit_tetrahedron ℚ).topology.cell_vertices 0).getD 2 0))
        ((unit_tetrahedron ℚ).geometry.point
          (((unit_tetrahedron ℚ).topology.cell_vertices 0).getD 3 0))
        (centroid (unit_tetrahedron ℚ) 0) = (1 / 4, 1 / 4, 1 / 4) :=
  ⟨by norm_num, volume_unit_tetrahedron ℚ, by norm_num,
    collides_centroid (1 / 10 ^ 14) (unit_tetrahedron ℚ) 0 (1 / 6) (by norm_num)
      (volume_unit_tetrahedron ℚ) (by norm_num)⟩

/-! ## `squared_distance` at a vertex -/

/-- A point in the plane of `a`, `b`, `c` is not outside of it. -/
theorem point_outside_of_plane_of_coplanar {K : Type} [LinearOrderedField K]
    (point a b c d : Point K)
    (h : ((b.sub a).cross (c.sub a)).dot (point.sub a) = 0) :
    point_outside_of_plane point a b c d = false := by
  simp [point_outside_of_plane, h]

/-- The vertex `d` itself is not on the other side of the plane from `d`. -/
theorem point_outside_of_plane_self {K : Type} [LinearOrderedField K] (a b c d : Point K) :
    point_outside_of_plane d a b c d = false := by
  simp only [point_outside_of_plane, decide_eq_false_iff_not, not_lt]
  exact mul_self_nonneg _

theorem coplanar_first {K : Type} [LinearOrderedField K] (a b c : Point K) :
    ((b.sub a).cross (c.sub a)).dot (a.sub a) = 0 := by
  simp only [Point.sub, Point.dot, Point.cross]; ring

theorem coplanar_second {K : Type} [LinearOrderedField K] (a b c : Point K) :
    ((b.sub a).cross (c.sub a)).dot (b.sub a) = 0 := by
  simp only [Point.sub, Point.dot, Point.cross]; ring

theorem coplanar_third {K : Type} [LinearOrderedField K] (a b c : Point K) :
    ((b.sub a).cross (c.sub a)).dot (c.sub a) = 0 := by
  simp only [Point.sub, Point.dot, Point.cross]; ring

/-- Claim C16. In exact arithmetic, for every cell and each of its four
vertices, `squared_distance` at the coordinates of the vertex is exactly 0:
none of the four outside-of-plane tests is true there. -/
theorem squared_distance_vertex {K : Type} [LinearOrderedField K]
    (triangle_squared_distance : Point K → Point K → Point K → Point K → K) (numeric_max : K)
    (mesh : Mesh K) (cell i : Nat) (hi : i < 4) :
    squared_distance triangle_squared_distance numeric_max mesh cell
      (mesh.geometry.point ((mesh.topology.cell_vertices cell).getD i 0)) = 0 ∧
    point_outside_of_plane
      (mesh.geometry.point ((mesh.topology.cell_vertices cell).getD i 0))
      (mesh.geometry.point ((mesh.topology.cell_vertices cell).getD 0 0))
      (mesh.geometry.point ((mesh.topology.cell_vertices cell).getD 1 0))
      (mesh.geometry.point ((mesh.topology.cell_vertices cell).getD 2 0))
      (mesh.geometry.point ((mesh.topology.cell_vertices cell).getD 3 0)) = false ∧
    point_outside_of_plane
      (mesh.geometry.point ((mesh.topology.cell_vertices cell).getD i 0))
      (mesh.geometry.point ((mesh.topology.cell_vertices cell).getD 0 0))
      (mesh.geometry.point ((mesh.topology.cell_vertices cell).getD 2 0))
      (mesh.geometry.point ((mesh.topology.cell_vertices cell).getD 3 0))
      (mesh.geometry.point ((mesh.topology.cell_vertices cell).getD 1 0)) = false ∧
    point_outside_of_plane
      (mesh.geometry.point ((mesh.topology.cell_vertices cell).getD i 0))
      (mesh.geometry.point ((mesh.topology.cell_vertices cell).getD 0 0))
      (mesh.geometry.point ((mesh.topology.cell_vertices cell).getD 3 0))
      (mesh.geometry.point ((mesh.topology.cell_vertices cell).getD 1 0))
      (mesh.geometry.point ((mesh.topology.cell_vertices cell).getD 2 0)) = false ∧
    point_outside_of_plane
      (mesh.geometry.point ((mesh.topology.cell_vertices cell).getD i 0))
      (mesh.geometry.point ((mesh.topology.cell_vertices cell).getD 1 0))
      (mesh.geometry.point ((mesh.topology.cell_vertices cell).getD 3 0))
      (mesh.geometry.point ((mesh.topology.cell_vertices cell).getD 2 0))
      (mesh.geometry.point ((mesh.topology.cell_vertices cell).getD 0 0)) = false := by
  have h4 : ∀ p a b c d : Point K,
      point_outside_of_plane p a b c d = false → point_outside_of_plane p a c d b = false →
      point_outside_of_plane p a d b c = false → point_outside_of_plane p b d c a = false →
      (let r2 := numeric_max
       let r2 := if point_outside_of_plane p a b c d then
         min r2 (triangle_squared_distance p a b c) else r2
       let r2 := if point_outside_of_plane p a c d b then
         min r2 (triangle_squared_distance p a c d) else r2
       let r2 := if point_outside_of_plane p a d b c then
         min r2 (triangle_squared_distance p a d b) else r2
       let r2 := if point_outside_of_plane p b d c a then
         min r2 (triangle_squared_distance p b d c) else r2
       if r2 = numeric_max then (0 : K) else r2) = 0 := by
    intro p a b c d h1 h2 h3 h4
    simp [h1, h2, h3, h4]
  interval_cases i
  · have t1 := point_outside_of_plane_of_coplanar _ _ _ _
      (mesh.geometry.point ((mesh.topology.cell_vertices cell).getD 3 0))
      (coplanar_first (mesh.geometry.point ((mesh.topology.cell_vertices cell).getD 0 0))
        (mesh.geometry.point ((mesh.topology.cell_vertices cell).getD 1 0))
        (mesh.geometry.point ((mesh.topology.cell_vertices cell).getD 2 0)))
    have t2 := point_outside_of_plane_of_coplanar _ _ _ _
      (mesh.geometry.point ((mesh.topology.cell_vertices cell).getD 1 0))
      (coplanar_first (mesh.geometry.point ((mesh.topology.cell_vertices cell).getD 0 0))
        (mesh.geometry.point ((mesh.topology.cell_vertices cell).getD 2 0))
        (mesh.geometry.point ((mesh.topology.cell_vertices cell).getD 3 0)))
    have t3 := point_outside_of_plane_of_coplanar _ _ _ _
      (mesh.geometry.point ((mesh.topology.cell_vertices cell).getD 2 0))
      (coplanar_first (mesh.geometry.point ((mesh.topology.cell_vertices cell).getD 0 0))
        (mesh.geometry.point ((mesh.topology.cell_vertices cell).getD 3 0))
        (mesh.geometry.point ((mesh.topology.cell_vertices cell).getD 1 0)))
    have t4 := point_outside_of_plane_self
      (mesh.geometry.point ((mesh.topology.cell_vertices cell).getD 1 0))
      (mesh.geometry.point ((mesh.topology.cell_vertices cell).getD 3 0))
      (mesh.geometry.point ((mesh.topology.cell_vertices cell).getD 2 0))
      (mesh.geometry.point ((mesh.topology.cell_vertices cell).getD 0 0))
    exact ⟨h4 _ _ _ _ _ t1 t2 t3 t4, t1, t2, t3, t4⟩
  · have t1 := point_outside_of_plane_of_coplanar _ _ _ _
      (mesh.geometry.point ((mesh.topology.cell_vertices cell).getD 3 0))
      (coplanar_second (mesh.geometry.point ((mesh.topology.cell_vertices cell).getD 0 0))
        (mesh.geometry.point ((mesh.topology.cell_vertices cell).getD 1 0))
        (mesh.geometry.point ((mesh.topology.cell_vertices cell).getD 2 0)))
    have t2 := point_outside_of_plane_self
      (mesh.geometry.point ((mesh.topology.cell_vertices cell).getD 0 0))
      (mesh.geometry.point ((mesh.topology.cell_vertices cell).getD 2 0))
      (mesh.geometry.point ((mesh.topology.cell_vertices cell).getD 3 0))
      (mesh.geometry.point ((mesh.topology.cell_vertices cell).getD 1 0))
    have t3 := point_outside_of_plane_of_coplanar _ _ _ _
      (mesh.geometry.point ((mesh.topology.cell_vertices cell).getD 2 0))
      (coplanar_third (mesh.geometry.point ((mesh.topology.cell_vertices cell).getD 0 0))
        (mesh.geometry.point ((mesh.topology.cell_vertices cell).getD 3 0))
        (mesh.geometry.point ((mesh.topology.cell_vertices cell).getD 1 0)))
    have t4 := point_outside_of_plane_of_coplanar _ _ _ _
      (mesh.geometry.point ((mesh.topology.cell_vertices cell).getD 0 0))
      (coplanar_first (mesh.geometry.point ((mesh.topology.cell_vertices cell).getD 1 0))
        (mesh.geometry.point ((mesh.topology.cell_vertices cell).getD 3 0))
        (mesh.geometry.point ((mesh.topology.cell_vertices cell).getD 2 0)))
    exact ⟨h4 _ _ _ _ _ t1 t2 t3 t4, t1, t2, t3, t4⟩
  · have t1 := point_outside_of_plane_of_coplanar _ _ _ _
      (mesh.geometry.point ((mesh.topology.cell_vertices cell).getD 3 0))
      (coplanar_third (mesh.geometry.point ((mesh.topology.cell_vertices cell).getD 0 0))
        (mesh.geometry.point ((mesh.topology.cell_vertices cell).getD 1 0))
        (mesh.geometry.point ((mesh.topology.cell_vertices cell).getD 2 0)))
    have t2 := point_outside_of_plane_of_coplanar _ _ _ _
      (mesh.geometry.point ((mesh.topology.cell_vertices cell).getD 1 0))
      (coplanar_second (mesh.geometry.point ((mesh.topology.cell_vertices cell).getD 0 0))
        (mesh.geometry.point ((mesh.topology.cell_vertices cell).getD 2 0))
        (mesh.geometry.point ((mesh.topology.cell_vertices cell).getD 3 0)))
    have t3 := point_outside_of_plane_self
      (mesh.geometry.point ((mesh.topology.cell_vertices cell).getD 0 0))
      (mesh.geometry.point ((mesh.topology.cell_vertices cell).getD 3 0))
      (mesh.geometry.point ((mesh.topology.cell_vertices cell).getD 1 0))
      (mesh.geometry.point ((mesh.topology.cell_vertices cell).getD 2 0))
    have t4 := point_outside_of_plane_of_coplanar _ _ _ _
      (mesh.geometry.point ((mesh.topology.cell_vertices cell).getD 0 0))
      (coplanar_third (mesh.geometry.point ((mesh.topology.cell_vertices cell).getD 1 0))
        (mesh.geometry.point ((mesh.topology.cell_vertices cell).getD 3 0))
        (mesh.geometry.point ((mesh.topology.cell_vertices cell).getD 2 0)))
    exact ⟨h4 _ _ _ _ _ t1 t2 t3 t4, t1, t2, t3, t4⟩
  · have t1 := point_outside_of_plane_self
      (mesh.geometry.point ((mesh.topology.cell_vertices cell).getD 0 0))
      (mesh.geometry.point ((mesh.topology.cell_vertices cell).getD 1 0))
      (mesh.geometry.point ((mesh.topology.cell_vertices cell).getD 2 0))
      (mesh.geometry.point ((mesh.topology.cell_vertices cell).getD 3 0))
    have t2 := point_outside_of_plane_of_coplanar _ _ _ _
      (mesh.geometry.point ((mesh.topology.cell_vertices cell).getD 1 0))
      (coplanar_third (mesh.geometry.point ((mesh.topology.cell_vertices cell).getD 0 0))
        (mesh.geometry.point ((mesh.topology.cell_vertices cell).getD 2 0))
        (mesh.geometry.point ((mesh.topology.cell_vertices cell).getD 3 0)))
    have t3 := point_outside_of_plane_of_coplanar _ _ _ _
      (mesh.geometry.point ((mesh.topology.cell_vertices cell).getD 2 0))
      (coplanar_second (mesh.geometry.point ((mesh.topology.cell_vertices cell).getD 0 0))
        (mesh.geometry.point ((mesh.topology.cell_vertices cell).getD 3 0))
        (mesh.geometry.point ((mesh.topology.cell_vertices cell).getD 1 0)))
    have t4 := point_outside_of_plane_of_coplanar _ _ _ _
      (mesh.geometry.point ((mesh.topology.cell_vertices cell).getD 0 0))
      (coplanar_second (mesh.geometry.point ((mesh.topology.cell_vertices cell).getD 1 0))
        (mesh.geometry.point ((mesh.topology.cell_vertices cell).getD 3 0))
        (mesh.geometry.point ((mesh.topology.cell_vertices cell).getD 2 0)))
    exact ⟨h4 _ _ _ _ _ t1 t2 t3 t4, t1, t2, t3, t4⟩

/-- Witness for C16: the third vertex of the unit tetrahedron, with a
triangle distance that is 7 everywhere. -/
theorem squared_distance_vertex_witness :
    (2 : Nat) < 4 ∧
    squared_distance (fun _ _ _ _ => (7 : ℚ)) 1000 (unit_tetrahedron ℚ) 0
      ((unit_tetrahedron ℚ).geometry.point
        (((unit_tetrahedron ℚ).topology.cell_vertices 0).getD 2 0)) = 0 :=
  ⟨by decide,
    (squared_distance_vertex (fun _ _ _ _ => (7 : ℚ)) 1000 (unit_tetrahedron ℚ) 0 2
      (by decide)).1⟩

/-! ## `normal` -/

theorem normal_eq {K : Type} [LinearOrderedField K] (sqrt : K → K) (mesh : Mesh K)
    (cell facet : Nat) :
    normal sqrt mesh cell facet
      = normal_vector sqrt
        (mesh.geometry.point ((mesh.topology.cell_vertices cell).getD facet 0))
        (mesh.geometry.point ((mesh.topology.facet_vertices
          ((mesh.topology.cell_facets cell).getD facet 0)).getD 0 0))
        (mesh.geometry.point ((mesh.topology.facet_vertices
          ((mesh.topology.cell_facets cell).getD facet 0)).getD 1 0))
        (mesh.geometry.point ((mesh.topology.facet_vertices
          ((mesh.topology.cell_facets cell).getD facet 0)).getD 2 0)) := rfl

theorem dot_self_nonneg {K : Type} [LinearOrderedField K] (v : Point K) :
    0 ≤ v.x * v.x + v.y * v.y + v.z * v.z :=
  add_nonneg (add_nonneg (mul_self_nonneg _) (mul_self_nonneg _)) (mul_self_nonneg _)

theorem Point.div_dot {K : Type} [Field K] (p q : Point K) (a : K) :
    (p.div a).dot q = p.dot q / a := by
  simp only [Point.div, Point.dot]
  ring

theorem Point.mul_dot {K : Type} [Field K] (p q : Point K) (a : K) :
    (p.mul a).dot q = p.dot q * a := by
  simp only [Point.mul, Point.dot]
  ring

theorem Point.dot_self_mul {K : Type} [Field K] (p : Point K) (a : K) :
    (p.mul a).x * (p.mul a).x + (p.mul a).y * (p.mul a).y + (p.mul a).z * (p.mul a).z
      = (p.x * p.x + p.y * p.y + p.z * p.z) * (a * a) := by
  simp only [Point.mul]
  ring

theorem Point.dot_self_div {K : Type} [Field K] (p : Point K) (a : K) :
    (p.div a).x * (p.div a).x + (p.div a).y * (p.div a).y + (p.div a).z * (p.div a).z
      = (p.x * p.x + p.y * p.y + p.z * p.z) / (a * a) := by
  simp only [Point.div]
  ring

/-- The cross product of the two edge vectors of the facet, against the vector
to the opposite vertex, is the expression `v` of `volume`. -/
theorem cross_dot_eq_volume_determinant {K : Type} [Field K] (P0 P1 P2 P3 : Point K) :
    ((P2.sub P1).cross (P3.sub P1)).dot (P0.sub P1) = volume_determinant P0 P1 P2 P3 := by
  simp only [volume_determinant, Point.sub, Point.dot, Point.cross]
  ring

theorem cross_dot_left {K : Type} [Field K] (a b : Point K) : (a.cross b).dot a = 0 := by
  simp only [Point.dot, Point.cross]
  ring

theorem cross_dot_right {K : Type} [Field K] (a b : Point K) : (a.cross b).dot b = 0 := by
  simp only [Point.dot, Point.cross]
  ring

theorem Point.dot_sub_sub {K : Type} [Field K] (n a b c : Point K) :
    n.dot (a.sub c) = n.dot (a.sub b) - n.dot (c.sub b) := by
  simp only [Point.dot, Point.sub]
  ring

theorem dot_self_pos {K : Type} [LinearOrderedField K] (c w : Point K) (h : c.dot w ≠ 0) :
    0 < c.x * c.x + c.y * c.y + c.z * c.z := by
  rcases (dot_self_nonneg c).lt_or_eq with h0 | h0
  · exact h0
  · exfalso
    have hx : c.x = 0 := by
      have := mul_self_nonneg c.x; have := mul_self_nonneg c.y; have := mul_self_nonneg c.z
      exact mul_self_eq_zero.mp (by linarith)
    have hy : c.y = 0 := by
      have := mul_self_nonneg c.x; have := mul_self_nonneg c.y; have := mul_self_nonneg c.z
      exact mul_self_eq_zero.mp (by linarith)
    have hz : c.z = 0 := by
      have := mul_self_nonneg c.x; have := mul_self_nonneg c.y; have := mul_self_nonneg c.z
      exact mul_self_eq_zero.mp (by linarith)
    apply h
    simp only [Point.dot, hx, hy, hz]
    ring

/-- On four points with `v ≠ 0`, the vector of `normal` has norm 1, is
orthogonal to the two edge vectors of the facet from `P1`, and has a negative
dot product with the vectors from the facet's points to `P0`. -/
theorem normal_vector_spec (P0 P1 P2 P3 : Point ℝ) (hdet : volume_determinant P0 P1 P2 P3 ≠ 0) :
    Point.norm Real.sqrt (normal_vector Real.sqrt P0 P1 P2 P3) = 1 ∧
    (normal_vector Real.sqrt P0 P1 P2 P3).dot (P2.sub P1) = 0 ∧
    (normal_vector Real.sqrt P0 P1 P2 P3).dot (P3.sub P1) = 0 ∧
    (normal_vector Real.sqrt P0 P1 P2 P3).dot (P0.sub P1) < 0 ∧
    (normal_vector Real.sqrt P0 P1 P2 P3).dot (P0.sub P2) < 0 ∧
    (normal_vector Real.sqrt P0 P1 P2 P3).dot (P0.sub P3) < 0 := by
  have hw : ((P2.sub P1).cross (P3.sub P1)).dot (P0.sub P1) ≠ 0 := by
    rw [cross_dot_eq_volume_determinant]; exact hdet
  have hpos := dot_self_pos _ _ hw
  have h1 := cross_dot_left (P2.sub P1) (P3.sub P1)
  have h2 := cross_dot_right (P2.sub P1) (P3.sub P1)
  have hN : 0 < Point.norm Real.sqrt ((P2.sub P1).cross (P3.sub P1)) := Real.sqrt_pos.mpr hpos
  have hNN : Point.norm Real.sqrt ((P2.sub P1).cross (P3.sub P1))
      * Point.norm Real.sqrt ((P2.sub P1).cross (P3.sub P1))
      = ((P2.sub P1).cross (P3.sub P1)).x * ((P2.sub P1).cross (P3.sub P1)).x
        + ((P2.sub P1).cross (P3.sub P1)).y * ((P2.sub P1).cross (P3.sub P1)).y
        + ((P2.sub P1).cross (P3.sub P1)).z * ((P2.sub P1).cross (P3.sub P1)).z :=
    Real.mul_self_sqrt hpos.le
  have key : Point.norm Real.sqrt (normal_vector Real.sqrt P0 P1 P2 P3) = 1 ∧
      (normal_vector Real.sqrt P0 P1 P2 P3).dot (P2.sub P1) = 0 ∧
      (normal_vector Real.sqrt P0 P1 P2 P3).dot (P3.sub P1) = 0 ∧
      (normal_vector Real.sqrt P0 P1 P2 P3).dot (P0.sub P1) < 0 := by
    simp only [normal_vector]
    generalize (P2.sub P1).cross (P3.sub P1) = c at hw hpos h1 h2 hN hNN
    generalize Point.norm Real.sqrt c = N at hN hNN
    have hd : (c.div N).dot (P0.sub P1) ≠ 0 := by
      rw [Point.div_dot]; exact div_ne_zero hw hN.ne.symm
    split_ifs with hs
    · refine ⟨?_, ?_, ?_, ?_⟩
      · rw [Point.norm, Point.dot_self_mul, Point.dot_self_div, ← hNN,
          div_self (mul_self_ne_zero.mpr hN.ne.symm)]
        norm_num
      · rw [Point.mul_dot, Point.div_dot, h1]; simp
      · rw [Point.mul_dot, Point.div_dot, h2]; simp
      · rw [Point.mul_dot]; linarith
    · refine ⟨?_, ?_, ?_, ?_⟩
      · rw [Point.norm, Point.dot_self_div, ← hNN, div_self (mul_self_ne_zero.mpr hN.ne.symm)]
        norm_num
      · rw [Point.div_dot, h1]; simp
      · rw [Point.div_dot, h2]; simp
      · exact lt_of_le_of_ne (not_lt.mp hs) hd
  obtain ⟨k1, k2, k3, k4⟩ := key
  refine ⟨k1, k2, k3, k4, ?_, ?_⟩
  · rw [Point.dot_sub_sub _ P0 P1 P2, k2]; linarith
  · rw [Point.dot_sub_sub _ P0 P1 P3, k3]; linarith

/-- The vertex of the cell at position `f` and the three vertices of a facet
that does not contain it are the four vertices of the cell. -/
theorem opposite_vertex_perm (t : MeshTopology) (c : Nat) (hv : Valid t c) (f : Nat)
    (hf : f < 4)
    (ho : (t.cell_vertices c).getD f 0 ∉ t.facet_vertices ((t.cell_facets c).getD f 0)) :
    (t.cell_vertices c).Perm
      [(t.cell_vertices c).getD f 0,
        (t.facet_vertices ((t.cell_facets c).getD f 0)).getD 0 0,
        (t.facet_vertices ((t.cell_facets c).getD f 0)).getD 1 0,
        (t.facet_vertices ((t.cell_facets c).getD f 0)).getD 2 0] := by
  have hfm : (t.cell_facets c).getD f 0 ∈ t.cell_facets c :=
    getD_mem _ _ (by rw [hv.cf_length]; exact hf)
  have hvm : (t.cell_vertices c).getD f 0 ∈ t.cell_vertices c :=
    getD_mem _ _ (by rw [hv.cv_length]; exact hf)
  have hl := hv.fv_length _ hfm
  have hnd := hv.fv_nodup _ hfm
  have hsub := hv.fv_sub _ hfm
  obtain ⟨a, b, d, habd⟩ := List.length_eq_three.mp hl
  rw [habd] at ho hnd hsub ⊢
  simp only [List.getD_cons_zero, List.getD_cons_succ]
  refine (List.Subperm.perm_of_length_le (List.subperm_of_subset ?_ ?_) ?_).symm
  · exact List.nodup_cons.mpr ⟨ho, hnd⟩
  · intro x hx
    rcases List.mem_cons.mp hx with h | h
    · rw [h]; exact hvm
    · exact hsub x h
  · rw [hv.cv_length]; rfl

theorem Point.dot_sub_self {K : Type} [Field K] (n a : Point K) : n.dot (a.sub a) = 0 := by
  simp only [Point.dot, Point.sub]
  ring

/-- Claim C17. Over the reals, on a cell of non-zero volume with valid
connectivity whose facet `f` does not contain the cell's vertex `f`, `normal`
returns a vector of Euclidean norm 1 that is orthogonal to every edge vector of
the facet and points outward: its dot product with `P_opp - P` is negative for
the cell's vertex `P_opp` at position `f` and every vertex `P` of the facet. -/
theorem normal_outward (mesh : Mesh ℝ) (cell f : Nat) (V : ℝ)
    (hv : Valid mesh.topology cell) (hf : f < 4)
    (ho : (mesh.topology.cell_vertices cell).getD f 0
      ∉ mesh.topology.facet_vertices ((mesh.topology.cell_facets cell).getD f 0))
    (hV : volume mesh ⟨3, cell⟩ = .ok V) (hV0 : V ≠ 0) :
    Point.norm Real.sqrt (normal Real.sqrt mesh cell f) = 1 ∧
    (∀ a ∈ mesh.topology.facet_vertices ((mesh.topology.cell_facets cell).getD f 0),
      ∀ b ∈ mesh.topology.facet_vertices ((mesh.topology.cell_facets cell).getD f 0),
        (normal Real.sqrt mesh cell f).dot
          ((mesh.geometry.point a).sub (mesh.geometry.point b)) = 0) ∧
    (∀ v ∈ mesh.topology.facet_vertices ((mesh.topology.cell_facets cell).getD f 0),
      (normal Real.sqrt mesh cell f).dot
        ((mesh.geometry.point ((mesh.topology.cell_vertices cell).getD f 0)).sub
          (mesh.geometry.point v)) < 0) := by
  have hdim : mesh.geometry.dim = 3 := by
    by_contra hdim
    simp [volume, hdim] at hV
  rw [volume_cell mesh hdim, abs_volume_determinant_perm (fun i => mesh.geometry.point i) _ _ _ _ _
    (opposite_vertex_perm mesh.topology cell hv f hf ho)] at hV
  have hdet : volume_determinant
      (mesh.geometry.point ((mesh.topology.cell_vertices cell).getD f 0))
      (mesh.geometry.point ((mesh.topology.facet_vertices
        ((mesh.topology.cell_facets cell).getD f 0)).getD 0 0))
      (mesh.geometry.point ((mesh.topology.facet_vertices
        ((mesh.topology.cell_facets cell).getD f 0)).getD 1 0))
      (mesh.geometry.point ((mesh.topology.facet_vertices
        ((mesh.topology.cell_facets cell).getD f 0)).getD 2 0)) ≠ 0 := by
    intro h0
    rw [h0] at hV
    injection hV with hV
    exact hV0 (by rw [← hV]; simp)
  obtain ⟨k1, k2, k3, k4, k5, k6⟩ := normal_vector_spec _ _ _ _ hdet
  rw [← normal_eq] at k1 k2 k3 k4 k5 k6
  have hfm : (mesh.topology.cell_facets cell).getD f 0 ∈ mesh.topology.cell_facets cell :=
    getD_mem _ _ (by rw [hv.cf_length]; exact hf)
  obtain ⟨a, b, d, habd⟩ := List.length_eq_three.mp (hv.fv_length _ hfm)
  rw [habd] at k2 k3 k4 k5 k6 ⊢
  simp only [List.getD_cons_zero, List.getD_cons_succ] at k2 k3 k4 k5 k6
  have z : ∀ x ∈ [a, b, d], (normal Real.sqrt mesh cell f).dot
      ((mesh.geometry.point x).sub (mesh.geometry.point a)) = 0 := by
    intro x hx
    simp only [List.mem_cons, List.mem_singleton, List.not_mem_nil, or_false] at hx
    rcases hx with h | h | h <;> subst h
    · exact Point.dot_sub_self _ _
    · exact k2
    · exact k3
  refine ⟨k1, fun x hx y hy => ?_, fun x hx => ?_⟩
  · rw [Point.dot_sub_sub _ _ (mesh.geometry.point a) _, z x hx, z y hy, sub_zero]
  · simp only [List.mem_cons, List.mem_singleton, List.not_mem_nil, or_false] at hx
    rcases hx with h | h | h <;> subst h
    · exact k4
    · exact k5
    · exact k6

theorem normal_outward_witness :
    (Valid (unit_tetrahedron ℝ).topology 0 ∧ 0 < 4 ∧
      ((unit_tetrahedron ℝ).topology.cell_vertices 0).getD 0 0
        ∉ (unit_tetrahedron ℝ).topology.facet_vertices
          (((unit_tetrahedron ℝ).topology.cell_facets 0).getD 0 0) ∧
      volume (unit_tetrahedron ℝ) ⟨3, 0⟩ = .ok (1 / 6) ∧ (1 / 6 : ℝ) ≠ 0) ∧
    Point.norm Real.sqrt (normal Real.sqrt (unit_tetrahedron ℝ) 0 0) = 1 ∧
    (∀ a ∈ (unit_tetrahedron ℝ).topology.facet_vertices
        (((unit_tetrahedron ℝ).topology.cell_facets 0).getD 0 0),
      ∀ b ∈ (unit_tetrahedron ℝ).topology.facet_vertices
          (((unit_tetrahedron ℝ).topology.cell_facets 0).getD 0 0),
        (normal Real.sqrt (unit_tetrahedron ℝ) 0 0).dot
          (((unit_tetrahedron ℝ).geometry.point a).sub
            ((unit_tetrahedron ℝ).geometry.point b)) = 0) ∧
    (∀ v ∈ (unit_tetrahedron ℝ).topology.facet_vertices
        (((unit_tetrahedron ℝ).topology.cell_facets 0).getD 0 0),
      (normal Real.sqrt (unit_tetrahedron ℝ) 0 0).dot
        (((unit_tetrahedron ℝ).geometry.point
            (((unit_tetrahedron ℝ).topology.cell_vertices 0).getD 0 0)).sub
          ((unit_tetrahedron ℝ).geometry.point v)) < 0) :=
  ⟨⟨unit_mesh_valid, by decide, by decide, volume_unit_tetrahedron ℝ, by norm_num⟩,
    normal_outward (unit_tetrahedron ℝ) 0 0 (1 / 6) unit_mesh_valid (by decide) (by decide)
      (volume_unit_tetrahedron ℝ) (by norm_num)⟩

/-! ## `facet_area` -/

/-- The expressions `v0`, `v1`, `v2` of `facet_area` are the components of the
cross product of two edge vectors of the facet. -/
theorem facet_area_vector_eq_cross {K : Type} [Field K] (mesh : Mesh K) (cell facet : Nat) :
    facet_area_vector mesh cell facet
      = ((mesh.geometry.point ((mesh.topology.facet_vertices
              ((mesh.topology.cell_facets cell).getD facet 0)).getD 1 0)).sub
          (mesh.geometry.point ((mesh.topology.facet_vertices
              ((mesh.topology.cell_facets cell).getD facet 0)).getD 0 0))).cross
        ((mesh.geometry.point ((mesh.topology.facet_vertices
              ((mesh.topology.cell_facets cell).getD facet 0)).getD 2 0)).sub
          (mesh.geometry.point ((mesh.topology.facet_vertices
              ((mesh.topology.cell_facets cell).getD facet 0)).getD 0 0))) := by
  simp only [facet_area_vector, MeshGeometry.point, Point.sub, Point.cross, Point.mk.injEq]
  refine ⟨?_, ?_, ?_⟩ <;> ring

/-- The facet of the unit tetrahedron opposite to its last vertex is the
triangle `(0,0,0), (1,0,0), (0,1,0)`. -/
theorem unit_tetrahedron_facet_points (K : Type) [Field K] :
    (unit_tetrahedron K).geometry.point (((unit_tetrahedron K).topology.facet_vertices
        (((unit_tetrahedron K).topology.cell_facets 0).getD 3 0)).getD 0 0) = ⟨0, 0, 0⟩ ∧
    (unit_tetrahedron K).geometry.point (((unit_tetrahedron K).topology.facet_vertices
        (((unit_tetrahedron K).topology.cell_facets 0).getD 3 0)).getD 1 0) = ⟨1, 0, 0⟩ ∧
    (unit_tetrahedron K).geometry.point (((unit_tetrahedron K).topology.facet_vertices
        (((unit_tetrahedron K).topology.cell_facets 0).getD 3 0)).getD 2 0) = ⟨0, 1, 0⟩ :=
  ⟨rfl, rfl, rfl⟩

/-- Claim C18. Over the reals `facet_area` is half the Euclidean norm of
`(x1 - x0) x (x2 - x0)` for the vertices `x0, x1, x2` of the facet: the
expressions `v0, v1, v2` of the code are the components of that cross product,
so `4 * area^2` is its squared norm; and the triangle `(0,0,0), (1,0,0),
(0,1,0)`, facet 3 of the unit tetrahedron, has area `1/2`. -/
theorem facet_area_eq_half_cross (mesh : Mesh ℝ) (cell facet : Nat) :
    facet_area_vector mesh cell facet
      = ((mesh.geometry.point ((mesh.topology.facet_vertices
              ((mesh.topology.cell_facets cell).getD facet 0)).getD 1 0)).sub
          (mesh.geometry.point ((mesh.topology.facet_vertices
              ((mesh.topology.cell_facets cell).getD facet 0)).getD 0 0))).cross
        ((mesh.geometry.point ((mesh.topology.facet_vertices
              ((mesh.topology.cell_facets cell).getD facet 0)).getD 2 0)).sub
          (mesh.geometry.point ((mesh.topology.facet_vertices
              ((mesh.topology.cell_facets cell).getD facet 0)).getD 0 0))) ∧
    facet_area Real.sqrt mesh cell facet
      = 1 / 2 * Point.norm Real.sqrt
        (((mesh.geometry.point ((mesh.topology.facet_vertices
              ((mesh.topology.cell_facets cell).getD facet 0)).getD 1 0)).sub
          (mesh.geometry.point ((mesh.topology.facet_vertices
              ((mesh.topology.cell_facets cell).getD facet 0)).getD 0 0))).cross
        ((mesh.geometry.point ((mesh.topology.facet_vertices
              ((mesh.topology.cell_facets cell).getD facet 0)).getD 2 0)).sub
          (mesh.geometry.point ((mesh.topology.facet_vertices
              ((mesh.topology.cell_facets cell).getD facet 0)).getD 0 0)))) ∧
    4 * facet_area Real.sqrt mesh cell facet ^ 2
      = (((mesh.geometry.point ((mesh.topology.facet_vertices
              ((mesh.topology.cell_facets cell).getD facet 0)).getD 1 0)).sub
          (mesh.geometry.point ((mesh.topology.facet_vertices
              ((mesh.topology.cell_facets cell).getD facet 0)).getD 0 0))).cross
        ((mesh.geometry.point ((mesh.topology.facet_vertices
              ((mesh.topology.cell_facets cell).getD facet 0)).getD 2 0)).sub
          (mesh.geometry.point ((mesh.topology.facet_vertices
              ((mesh.topology.cell_facets cell).getD facet 0)).getD 0 0)))).dot
        (((mesh.geometry.point ((mesh.topology.facet_vertices
              ((mesh.topology.cell_facets cell).getD facet 0)).getD 1 0)).sub
          (mesh.geometry.point ((mesh.topology.facet_vertices
              ((mesh.topology.cell_facets cell).getD facet 0)).getD 0 0))).cross
        ((mesh.geometry.point ((mesh.topology.facet_vertices
              ((mesh.topology.cell_facets cell).getD facet 0)).getD 2 0)).sub
          (mesh.geometry.point ((mesh.topology.facet_vertices
              ((mesh.topology.cell_facets cell).getD facet 0)).getD 0 0)))) ∧
    0 ≤ facet_area Real.sqrt mesh cell facet ∧
    facet_area Real.sqrt (unit_tetrahedron ℝ) 0 3 = 1 / 2 := by
  have hv := facet_area_vector_eq_cross mesh cell facet
  have ha : ∀ (m : Mesh ℝ) (c f : Nat), facet_area Real.sqrt m c f
      = 1 / 2 * Point.norm Real.sqrt (facet_area_vector m c f) := fun _ _ _ => rfl
  refine ⟨hv, ?_, ?_, ?_, ?_⟩
  · rw [ha, hv]
  · rw [ha, hv, Point.norm, Point.dot, mul_pow, Real.sq_sqrt (dot_self_nonneg _)]
    ring
  · rw [ha]
    exact mul_nonneg (by norm_num) (Real.sqrt_nonneg _)
  · obtain ⟨h0, h1, h2⟩ := unit_tetrahedron_facet_points ℝ
    rw [ha, facet_area_vector_eq_cross, h0, h1, h2]
    simp only [Point.norm, Point.sub, Point.cross]
    norm_num

/-! ## `diameter` -/

theorem circum_vector_dot {K : Type} [Field K] (u v w : Point K) :
    (circum_vector u v w).dot u = u.dot u * u.dot (v.cross w) ∧
    (circum_vector u v w).dot v = v.dot v * u.dot (v.cross w) ∧
    (circum_vector u v w).dot w = w.dot w * u.dot (v.cross w) := by
  simp only [circum_vector, Point.dot, Point.cross]
  refine ⟨?_, ?_, ?_⟩ <;> ring

/-- Four times the squared length of `circum_vector` in terms of the products
of the squared lengths of opposite edges. -/
theorem circum_vector_dot_self {K : Type} [Field K] (u v w : Point K) :
    4 * (circum_vector u v w).dot (circum_vector u v w)
      = 2 * (((u.sub v).dot (u.sub v) * w.dot w) * (v.dot v * (u.sub w).dot (u.sub w))
          + (v.dot v * (u.sub w).dot (u.sub w)) * (u.dot u * (v.sub w).dot (v.sub w))
          + (u.dot u * (v.sub w).dot (v.sub w)) * ((u.sub v).dot (u.sub v) * w.dot w))
        - (((u.sub v).dot (u.sub v) * w.dot w) ^ 2 + (v.dot v * (u.sub w).dot (u.sub w)) ^ 2
          + (u.dot u * (v.sub w).dot (v.sub w)) ^ 2) := by
  simp only [circum_vector, Point.sub, Point.dot, Point.cross]
  ring

theorem sub_div_dot_self {K : Type} [Field K] (a n : Point K) (k : K) :
    (a.sub (n.div k)).dot (a.sub (n.div k))
      = a.dot a - 2 * (n.dot a / k) + n.dot n / (k * k) := by
  simp only [Point.sub, Point.div, Point.dot]
  ring

/-- A vector `a` with `n . a = |a|^2 t` is as far from `n / (2 t)` as the
origin is. -/
theorem sub_div_dot_self_eq {K : Type} [LinearOrderedField K] (a n : Point K) (t : K)
    (ht : t ≠ 0) (h : n.dot a = a.dot a * t) :
    (a.sub (n.div (2 * t))).dot (a.sub (n.div (2 * t))) = n.dot n / (2 * t * (2 * t)) := by
  rw [sub_div_dot_self, h]
  field_simp
  ring

/-- The four points are at the same squared distance from `circumcenter`. -/
theorem circumcenter_dot_self {K : Type} [LinearOrderedField K] (p0 p1 p2 p3 : Point K)
    (ht : (p1.sub p0).dot ((p2.sub p0).cross (p3.sub p0)) ≠ 0) :
    ∀ p ∈ [p0, p1, p2, p3],
      (p.sub (circumcenter p0 p1 p2 p3)).dot (p.sub (circumcenter p0 p1 p2 p3))
        = (circum_vector (p1.sub p0) (p2.sub p0) (p3.sub p0)).dot
            (circum_vector (p1.sub p0) (p2.sub p0) (p3.sub p0))
          / (2 * (p1.sub p0).dot ((p2.sub p0).cross (p3.sub p0))
            * (2 * (p1.sub p0).dot ((p2.sub p0).cross (p3.sub p0)))) := by
  have hs : ∀ p : Point K, p.sub (circumcenter p0 p1 p2 p3)
      = (p.sub p0).sub ((circum_vector (p1.sub p0) (p2.sub p0) (p3.sub p0)).div
          (2 * (p1.sub p0).dot ((p2.sub p0).cross (p3.sub p0)))) := by
    intro p
    simp only [circumcenter, Point.sub, Point.div, Point.mk.injEq]
    refine ⟨?_, ?_, ?_⟩ <;> ring
  obtain ⟨h1, h2, h3⟩ := circum_vector_dot (p1.sub p0) (p2.sub p0) (p3.sub p0)
  have h0 : (circum_vector (p1.sub p0) (p2.sub p0) (p3.sub p0)).dot (p0.sub p0)
      = (p0.sub p0).dot (p0.sub p0) * (p1.sub p0).dot ((p2.sub p0).cross (p3.sub p0)) := by
    simp only [Point.sub, Point.dot]
    ring
  intro p hp
  simp only [List.mem_cons, List.mem_singleton, List.not_mem_nil, or_false] at hp
  rw [hs]
  rcases hp with h | h | h | h <;> subst h
  · exact sub_div_dot_self_eq _ _ _ ht h0
  · exact sub_div_dot_self_eq _ _ _ ht h1
  · exact sub_div_dot_self_eq _ _ _ ht h2
  · exact sub_div_dot_self_eq _ _ _ ht h3

theorem distance_eq_sqrt_dot {K : Type} [Field K] (sqrt : K → K) (p q : Point K) :
    p.distance sqrt q = sqrt ((q.sub p).dot (q.sub p)) := rfl

theorem dot_sub_self_nonneg {K : Type} [LinearOrderedField K] (p q : Point K) :
    0 ≤ (q.sub p).dot (q.sub p) :=
  add_nonneg (add_nonneg (mul_self_nonneg _) (mul_self_nonneg _)) (mul_self_nonneg _)

/-- The Heron expression of `diameter` on the products of opposite edges is a
quarter of the squared length of `circum_vector`. -/
theorem heron_eq_circum_vector (p0 p1 p2 p3 : Point ℝ) :
    (1 / 2 * (p1.distance Real.sqrt p2 * p0.distance Real.sqrt p3
          + p0.distance Real.sqrt p2 * p1.distance Real.sqrt p3
          + p0.distance Real.sqrt p1 * p2.distance Real.sqrt p3))
      * (1 / 2 * (p1.distance Real.sqrt p2 * p0.distance Real.sqrt p3
          + p0.distance Real.sqrt p2 * p1.distance Real.sqrt p3
          + p0.distance Real.sqrt p1 * p2.distance Real.sqrt p3)
        - p1.distance Real.sqrt p2 * p0.distance Real.sqrt p3)
      * (1 / 2 * (p1.distance Real.sqrt p2 * p0.distance Real.sqrt p3
          + p0.distance Real.sqrt p2 * p1.distance Real.sqrt p3
          + p0.distance Real.sqrt p1 * p2.distance Real.sqrt p3)
        - p0.distance Real.sqrt p2 * p1.distance Real.sqrt p3)
      * (1 / 2 * (p1.distance Real.sqrt p2 * p0.distance Real.sqrt p3
          + p0.distance Real.sqrt p2 * p1.distance Real.sqrt p3
          + p0.distance Real.sqrt p1 * p2.distance Real.sqrt p3)
        - p0.distance Real.sqrt p1 * p2.distance Real.sqrt p3)
      = (circum_vector (p1.sub p0) (p2.sub p0) (p3.sub p0)).dot
          (circum_vector (p1.sub p0) (p2.sub p0) (p3.sub p0)) / 4 := by
  have e : ∀ p q : Point ℝ, p.distance Real.sqrt q * p.distance Real.sqrt q
      = (q.sub p).dot (q.sub p) := fun p q => Real.mul_self_sqrt (dot_sub_self_nonneg p q)
  have hA : (p1.distance Real.sqrt p2 * p0.distance Real.sqrt p3) ^ 2
      = ((p1.sub p0).sub (p2.sub p0)).dot ((p1.sub p0).sub (p2.sub p0))
        * (p3.sub p0).dot (p3.sub p0) := by
    rw [mul_pow, pow_two, pow_two, e, e]
    simp only [Point.sub, Point.dot]; ring
  have hB : (p0.distance Real.sqrt p2 * p1.distance Real.sqrt p3) ^ 2
      = (p2.sub p0).dot (p2.sub p0)
        * ((p1.sub p0).sub (p3.sub p0)).dot ((p1.sub p0).sub (p3.sub p0)) := by
    rw [mul_pow, pow_two, pow_two, e, e]
    simp only [Point.sub, Point.dot]; ring
  have hC : (p0.distance Real.sqrt p1 * p2.distance Real.sqrt p3) ^ 2
      = (p1.sub p0).dot (p1.sub p0)
        * ((p2.sub p0).sub (p3.sub p0)).dot ((p2.sub p0).sub (p3.sub p0)) := by
    rw [mul_pow, pow_two, pow_two, e, e]
    simp only [Point.sub, Point.dot]; ring
  have hQ := circum_vector_dot_self (p1.sub p0) (p2.sub p0) (p3.sub p0)
  rw [← hA, ← hB, ← hC] at hQ
  generalize p1.distance Real.sqrt p2 * p0.distance Real.sqrt p3 = la at hQ ⊢
  generalize p0.distance Real.sqrt p2 * p1.distance Real.sqrt p3 = lb at hQ ⊢
  generalize p0.distance Real.sqrt p1 * p2.distance Real.sqrt p3 = lc at hQ ⊢
  generalize (circum_vector (p1.sub p0) (p2.sub p0) (p3.sub p0)).dot
    (circum_vector (p1.sub p0) (p2.sub p0) (p3.sub p0)) = N at hQ ⊢
  linear_combination (-1 / 16) * hQ

/-- On a cell for which `volume` returns `V`, `diameter` returns the Heron
expression on the products of opposite edges over `3 V`. -/
theorem diameter_eq {K : Type} [LinearOrderedField K] (sqrt : K → K) (mesh : Mesh K) (c : Nat)
    (V : K) (hV : volume mesh ⟨3, c⟩ = .ok V) :
    diameter sqrt mesh ⟨3, c⟩
      = .ok (sqrt
        ((1 / 2 * ((mesh.geometry.point ((mesh.topology.cell_vertices c).getD 1 0)).distance sqrt
                (mesh.geometry.point ((mesh.topology.cell_vertices c).getD 2 0))
              * (mesh.geometry.point ((mesh.topology.cell_vertices c).getD 0 0)).distance sqrt
                (mesh.geometry.point ((mesh.topology.cell_vertices c).getD 3 0))
            + (mesh.geometry.point ((mesh.topology.cell_vertices c).getD 0 0)).distance sqrt
                (mesh.geometry.point ((mesh.topology.cell_vertices c).getD 2 0))
              * (mesh.geometry.point ((mesh.topology.cell_vertices c).getD 1 0)).distance sqrt
                (mesh.geometry.point ((mesh.topology.cell_vertices c).getD 3 0))
            + (mesh.geometry.point ((mesh.topology.cell_vertices c).getD 0 0)).distance sqrt
                (mesh.geometry.point ((mesh.topology.cell_vertices c).getD 1 0))
              * (mesh.geometry.point ((mesh.topology.cell_vertices c).getD 2 0)).distance sqrt
                (mesh.geometry.point ((mesh.topology.cell_vertices c).getD 3 0))))
          * (1 / 2 * ((mesh.geometry.point ((mesh.topology.cell_vertices c).getD 1 0)).distance sqrt
                (mesh.geometry.point ((mesh.topology.cell_vertices c).getD 2 0))
              * (mesh.geometry.point ((mesh.topology.cell_vertices c).getD 0 0)).distance sqrt
                (mesh.geometry.point ((mesh.topology.cell_vertices c).getD 3 0))
            + (mesh.geometry.point ((mesh.topology.cell_vertices c).getD 0 0)).distance sqrt
                (mesh.geometry.point ((mesh.topology.cell_vertices c).getD 2 0))
              * (mesh.geometry.point ((mesh.topology.cell_vertices c).getD 1 0)).distance sqrt
                (mesh.geometry.point ((mesh.topology.cell_vertices c).getD 3 0))
            + (mesh.geometry.point ((mesh.topology.cell_vertices c).getD 0 0)).distance sqrt
                (mesh.geometry.point ((mesh.topology.cell_vertices c).getD 1 0))
              * (mesh.geometry.point ((mesh.topology.cell_vertices c).getD 2 0)).distance sqrt
                (mesh.geometry.point ((mesh.topology.cell_vertices c).getD 3 0)))
            - (mesh.geometry.point ((mesh.topology.cell_vertices c).getD 1 0)).distance sqrt
                (mesh.geometry.point ((mesh.topology.cell_vertices c).getD 2 0))
              * (mesh.geometry.point ((mesh.topology.cell_vertices c).getD 0 0)).distance sqrt
                (mesh.geometry.point ((mesh.topology.cell_vertices c).getD 3 0)))
          * (1 / 2 * ((mesh.geometry.point ((mesh.topology.cell_vertices c).getD 1 0)).distance sqrt
                (mesh.geometry.point ((mesh.topology.cell_vertices c).getD 2 0))
              * (mesh.geometry.point ((mesh.topology.cell_vertices c).getD 0 0)).distance sqrt
                (mesh.geometry.point ((mesh.topology.cell_vertices c).getD 3 0))
            + (mesh.geometry.point ((mesh.topology.cell_vertices c).getD 0 0)).distance sqrt
                (mesh.geometry.point ((mesh.topology.cell_vertices c).getD 2 0))
              * (mesh.geometry.point ((mesh.topology.cell_vertices c).getD 1 0)).distance sqrt
                (mesh.geometry.point ((mesh.topology.cell_vertices c).getD 3 0))
            + (mesh.geometry.point ((mesh.topology.cell_vertices c).getD 0 0)).distance sqrt
                (mesh.geometry.point ((mesh.topology.cell_vertices c).getD 1 0))
              * (mesh.geometry.point ((mesh.topology.cell_vertices c).getD 2 0)).distance sqrt
                (mesh.geometry.point ((mesh.topology.cell_vertices c).getD 3 0)))
            - (mesh.geometry.point ((mesh.topology.cell_vertices c).getD 0 0)).distance sqrt
                (mesh.geometry.point ((mesh.topology.cell_vertices c).getD 2 0))
              * (mesh.geometry.point ((mesh.topology.cell_vertices c).getD 1 0)).distance sqrt
                (mesh.geometry.point ((mesh.topology.cell_vertices c).getD 3 0)))
          * (1 / 2 * ((mesh.geometry.point ((mesh.topology.cell_vertices c).getD 1 0)).distance sqrt
                (mesh.geometry.point ((mesh.topology.cell_vertices c).getD 2 0))
              * (mesh.geometry.point ((mesh.topology.cell_vertices c).getD 0 0)).distance sqrt
                (mesh.geometry.point ((mesh.topology.cell_vertices c).getD 3 0))
            + (mesh.geometry.point ((mesh.topology.cell_vertices c).getD 0 0)).distance sqrt
                (mesh.geometry.point ((mesh.topology.cell_vertices c).getD 2 0))
              * (mesh.geometry.point ((mesh.topology.cell_vertices c).getD 1 0)).distance sqrt
                (mesh.geometry.point ((mesh.topology.cell_vertices c).getD 3 0))
            + (mesh.geometry.point ((mesh.topology.cell_vertices c).getD 0 0)).distance sqrt
                (mesh.geometry.point ((mesh.topology.cell_vertices c).getD 1 0))
              * (mesh.geometry.point ((mesh.topology.cell_vertices c).getD 2 0)).distance sqrt
                (mesh.geometry.point ((mesh.topology.cell_vertices c).getD 3 0)))
            - (mesh.geometry.point ((mesh.topology.cell_vertices c).getD 0 0)).distance sqrt
                (mesh.geometry.point ((mesh.topology.cell_vertices c).getD 1 0))
              * (mesh.geometry.point ((mesh.topology.cell_vertices c).getD 2 0)).distance sqrt
                (mesh.geometry.point ((mesh.topology.cell_vertices c).getD 3 0))))
        / (3 * V)) := by
  have hdim : mesh.geometry.dim = 3 := by
    by_contra hdim
    simp [volume, hdim] at hV
  simp only [diameter, hdim, ne_eq, not_true_eq_false, if_false, hV]
  rfl

/-- The diameter of the unit tetrahedron. -/
theorem diameter_unit_tetrahedron :
    diameter Real.sqrt (unit_tetrahedron ℝ) ⟨3, 0⟩ = .ok (Real.sqrt 3) := by
  rw [diameter_eq Real.sqrt _ _ _ (volume_unit_tetrahedron ℝ)]
  have h0 : (unit_tetrahedron ℝ).geometry.point
      (((unit_tetrahedron ℝ).topology.cell_vertices 0).getD 0 0) = ⟨0, 0, 0⟩ := rfl
  have h1 : (unit_tetrahedron ℝ).geometry.point
      (((unit_tetrahedron ℝ).topology.cell_vertices 0).getD 1 0) = ⟨1, 0, 0⟩ := rfl
  have h2 : (unit_tetrahedron ℝ).geometry.point
      (((unit_tetrahedron ℝ).topology.cell_vertices 0).getD 2 0) = ⟨0, 1, 0⟩ := rfl
  have h3 : (unit_tetrahedron ℝ).geometry.point
      (((unit_tetrahedron ℝ).topology.cell_vertices 0).getD 3 0) = ⟨0, 0, 1⟩ := rfl
  rw [h0, h1, h2, h3]
  simp only [Point.distance]
  norm_num
  have h22 : Real.sqrt 2 * Real.sqrt 2 = 2 := Real.mul_self_sqrt (by norm_num)
  have e : 1 / 2 * (Real.sqrt 2 + Real.sqrt 2 + Real.sqrt 2)
        * (1 / 2 * (Real.sqrt 2 + Real.sqrt 2 + Real.sqrt 2) - Real.sqrt 2)
        * (1 / 2 * (Real.sqrt 2 + Real.sqrt 2 + Real.sqrt 2) - Real.sqrt 2)
        * (1 / 2 * (Real.sqrt 2 + Real.sqrt 2 + Real.sqrt 2) - Real.sqrt 2) = 3 / 4 := by
    have : 1 / 2 * (Real.sqrt 2 + Real.sqrt 2 + Real.sqrt 2)
        * (1 / 2 * (Real.sqrt 2 + Real.sqrt 2 + Real.sqrt 2) - Real.sqrt 2)
        * (1 / 2 * (Real.sqrt 2 + Real.sqrt 2 + Real.sqrt 2) - Real.sqrt 2)
        * (1 / 2 * (Real.sqrt 2 + Real.sqrt 2 + Real.sqrt 2) - Real.sqrt 2)
        = 3 / 16 * ((Real.sqrt 2 * Real.sqrt 2) * (Real.sqrt 2 * Real.sqrt 2)) := by ring
    rw [this, h22]; norm_num
  rw [e, Real.sqrt_div (by norm_num), show (4 : ℝ) = 2 * 2 by norm_num,
    Real.sqrt_mul_self (by norm_num)]
  ring_nf

/-- Claim C19. Over the reals, on a cell of non-zero volume `V`, `diameter`
returns `sqrt(s (s - la) (s - lb) (s - lc)) / (3 V)` with `la`, `lb`, `lc` the
products of the lengths of the three pairs of opposite edges and `s` half their
sum; this value is twice the circumradius: the point `circumcenter` is at
distance `diameter / 2` from all four vertices. For the tetrahedron `(0,0,0),
(1,0,0), (0,1,0), (0,0,1)` the result is `sqrt 3`. -/
theorem diameter_circumradius (mesh : Mesh ℝ) (c : Nat) (V : ℝ)
    (hV : volume mesh ⟨3, c⟩ = .ok V) (hV0 : V ≠ 0) :
    let p0 := mesh.geometry.point ((mesh.topology.cell_vertices c).getD 0 0)
    let p1 := mesh.geometry.point ((mesh.topology.cell_vertices c).getD 1 0)
    let p2 := mesh.geometry.point ((mesh.topology.cell_vertices c).getD 2 0)
    let p3 := mesh.geometry.point ((mesh.topology.cell_vertices c).getD 3 0)
    let la := p1.distance Real.sqrt p2 * p0.distance Real.sqrt p3
    let lb := p0.distance Real.sqrt p2 * p1.distance Real.sqrt p3
    let lc := p0.distance Real.sqrt p1 * p2.distance Real.sqrt p3
    let s := 1 / 2 * (la + lb + lc)
    let d := Real.sqrt (s * (s - la) * (s - lb) * (s - lc)) / (3 * V)
    diameter Real.sqrt mesh ⟨3, c⟩ = .ok d ∧
    (∀ p ∈ [p0, p1, p2, p3], (circumcenter p0 p1 p2 p3).distance Real.sqrt p = d / 2) ∧
    diameter Real.sqrt (unit_tetrahedron ℝ) ⟨3, 0⟩ = .ok (Real.sqrt 3) := by
  intro p0 p1 p2 p3 la lb lc s d
  refine ⟨diameter_eq Real.sqrt mesh c V hV, fun p hp => ?_, diameter_unit_tetrahedron⟩
  have hdim : mesh.geometry.dim = 3 := by
    by_contra hdim
    simp [volume, hdim] at hV
  have hVe : V = |(p1.sub p0).dot ((p2.sub p0).cross (p3.sub p0))| / 6 := by
    rw [volume_cell mesh hdim, volume_determinant_eq_triple, abs_neg] at hV
    injection hV with hV
    exact hV.symm
  have ht : (p1.sub p0).dot ((p2.sub p0).cross (p3.sub p0)) ≠ 0 := by
    intro h0
    rw [h0] at hVe
    exact hV0 (by rw [hVe]; simp)
  have hH : s * (s - la) * (s - lb) * (s - lc)
      = (circum_vector (p1.sub p0) (p2.sub p0) (p3.sub p0)).dot
          (circum_vector (p1.sub p0) (p2.sub p0) (p3.sub p0)) / 4 :=
    heron_eq_circum_vector p0 p1 p2 p3
  have hd : d = Real.sqrt ((circum_vector (p1.sub p0) (p2.sub p0) (p3.sub p0)).dot
      (circum_vector (p1.sub p0) (p2.sub p0) (p3.sub p0)) / 4) / (3 * V) := by
    rw [← hH]
  have hN : 0 ≤ (circum_vector (p1.sub p0) (p2.sub p0) (p3.sub p0)).dot
      (circum_vector (p1.sub p0) (p2.sub p0) (p3.sub p0)) / 4 :=
    div_nonneg (dot_self_nonneg _) (by norm_num)
  rw [distance_eq_sqrt_dot, circumcenter_dot_self p0 p1 p2 p3 ht p hp, hd, hVe]
  generalize (circum_vector (p1.sub p0) (p2.sub p0) (p3.sub p0)).dot
      (circum_vector (p1.sub p0) (p2.sub p0) (p3.sub p0)) = N at hN ⊢
  generalize (p1.sub p0).dot ((p2.sub p0).cross (p3.sub p0)) = t at ht ⊢
  have e : N / (2 * t * (2 * t)) = N / 4 / (t * t) := by
    rw [div_div]
    congr 1
    ring
  rw [e, Real.sqrt_div hN, Real.sqrt_mul_self_eq_abs]
  have hat : |t| ≠ 0 := abs_ne_zero.mpr ht
  field_simp
  ring

theorem diameter_circumradius_witness :
    volume (unit_tetrahedron ℝ) ⟨3, 0⟩ = .ok (1 / 6) ∧ (1 / 6 : ℝ) ≠ 0 ∧
    ∃ d, diameter Real.sqrt (unit_tetrahedron ℝ) ⟨3, 0⟩ = .ok d ∧
      ∀ p ∈ [(unit_tetrahedron ℝ).geometry.point
            (((unit_tetrahedron ℝ).topology.cell_vertices 0).getD 0 0),
          (unit_tetrahedron ℝ).geometry.point
            (((unit_tetrahedron ℝ).topology.cell_vertices 0).getD 1 0),
          (unit_tetrahedron ℝ).geometry.point
            (((unit_tetrahedron ℝ).topology.cell_vertices 0).getD 2 0),
          (unit_tetrahedron ℝ).geometry.point
            (((unit_tetrahedron ℝ).topology.cell_vertices 0).getD 3 0)],
        (circumcenter
          ((unit_tetrahedron ℝ).geometry.point
            (((unit_tetrahedron ℝ).topology.cell_vertices 0).getD 0 0))
          ((unit_tetrahedron ℝ).geometry.point
            (((unit_tetrahedron ℝ).topology.cell_vertices 0).getD 1 0))
          ((unit_tetrahedron ℝ).geometry.point
            (((unit_tetrahedron ℝ).topology.cell_vertices 0).getD 2 0))
          ((unit_tetrahedron ℝ).geometry.point
            (((unit_tetrahedron ℝ).topology.cell_vertices 0).getD 3 0))).distance Real.sqrt p
          = d / 2 :=
  ⟨volume_unit_tetrahedron ℝ, by norm_num, _,
    (diameter_circumradius (unit_tetrahedron ℝ) 0 (1 / 6) (volume_unit_tetrahedron ℝ)
      (by norm_num)).1,
    (diameter_circumradius (unit_tetrahedron ℝ) 0 (1 / 6) (volume_unit_tetrahedron ℝ)
      (by norm_num)).2.1⟩

/-! ## The embedding dimension -/

/-- Claim C20, amended. `volume` and `diameter` fail with a geometry error, and
return no value, whenever the embedding dimension of the mesh is not 3: on a
cell with the errors of the dimension check, on any other entity with an error
as well. -/
theorem volume_diameter_dimension {K : Type} [LinearOrderedField K] (sqrt : K → K)
    (mesh : Mesh K) (c : Nat) (hdim : mesh.geometry.dim ≠ 3) :
    volume mesh ⟨3, c⟩ = .error ⟨"TetrahedronCell.cpp", "compute volume of tetrahedron",
      "Only know how to compute volume when embedded in R^3"⟩ ∧
    diameter sqrt mesh ⟨3, c⟩ = .error ⟨"TetrahedronCell.cpp", "compute diameter",
      "Tetrahedron is not embedded in R^3, only know how to compute diameter in that case"⟩ ∧
    ∀ entity : MeshEntity, (∃ e, volume mesh entity = .error e) ∧
      (∃ e, diameter sqrt mesh entity = .error e) := by
  refine ⟨by simp [volume, hdim], by simp [diameter, hdim], fun entity => ?_⟩
  by_cases h : entity.dim = 3
  · constructor
    · exact ⟨_, by
        simp only [volume, h, hdim, ne_eq, not_true_eq_false, if_false, not_false_eq_true,
          if_true]
        rfl⟩
    · exact ⟨_, by
        simp only [diameter, h, hdim, ne_eq, not_true_eq_false, if_false, not_false_eq_true,
          if_true]
        rfl⟩
  · constructor
    · exact ⟨_, by
        simp only [volume, h, ne_eq, not_false_eq_true, if_true]
        rfl⟩
    · exact ⟨_, by
        simp only [diameter, h, ne_eq, not_false_eq_true, if_true]
        rfl⟩

theorem volume_diameter_dimension_witness :
    flat_mesh.geometry.dim ≠ 3 ∧
    volume flat_mesh ⟨3, 0⟩ = .error ⟨"TetrahedronCell.cpp", "compute volume of tetrahedron",
      "Only know how to compute volume when embedded in R^3"⟩ ∧
    diameter Rat.sqrt flat_mesh ⟨3, 0⟩ = .error ⟨"TetrahedronCell.cpp", "compute diameter",
      "Tetrahedron is not embedded in R^3, only know how to compute diameter in that case"⟩ ∧
    ∀ entity : MeshEntity, (∃ e, volume flat_mesh entity = .error e) ∧
      (∃ e, diameter Rat.sqrt flat_mesh entity = .error e) :=
  ⟨by decide, volume_diameter_dimension Rat.sqrt flat_mesh 0 (by decide)⟩

/-- Claim C20, counterexample. On a mesh of embedding dimension 2, the four
corners of the unit square as one cell, `squared_distance` at the point
`(5, 5, 5)` returns the value 0 and no error: the missing third coordinates are
read as 0, the four points are in one plane, so no outside-of-plane test is
true. -/
theorem squared_distance_flat_mesh :
    flat_mesh.geometry.dim = 2 ∧
    ∀ (triangle_squared_distance : Point ℚ → Point ℚ → Point ℚ → Point ℚ → ℚ) (numeric_max : ℚ),
      squared_distance triangle_squared_distance numeric_max flat_mesh 0 ⟨5, 5, 5⟩ = 0 := by
  refine ⟨rfl, fun tsd nm => ?_⟩
  have h0 : flat_mesh.geometry.point ((flat_mesh.topology.cell_vertices 0).getD 0 0)
      = ⟨0, 0, 0⟩ := rfl
  have h1 : flat_mesh.geometry.point ((flat_mesh.topology.cell_vertices 0).getD 1 0)
      = ⟨1, 0, 0⟩ := rfl
  have h2 : flat_mesh.geometry.point ((flat_mesh.topology.cell_vertices 0).getD 2 0)
      = ⟨0, 1, 0⟩ := rfl
  have h3 : flat_mesh.geometry.point ((flat_mesh.topology.cell_vertices 0).getD 3 0)
      = ⟨1, 1, 0⟩ := rfl
  simp only [squared_distance, h0, h1, h2, h3]
  norm_num [point_outside_of_plane, Point.sub, Point.dot, Point.cross]

/-! ## `create_entities`, `num_entities`, `num_vertices` -/

theorem length_eq_six {α : Type} {l : List α} (h : l.length = 6) :
    ∃ a b c d e f, l = [a, b, c, d, e, f] := by
  match l, h with
  | [a, b, c, d, e, f], _ => exact ⟨a, b, c, d, e, f, rfl⟩

theorem length_eq_four_rows {α : Type} {l : List α} (h : l.length = 4) :
    ∃ a b c d, l = [a, b, c, d] := by
  match l, h with
  | [a, b, c, d], _ => exact ⟨a, b, c, d, rfl⟩

/-- Claim C21. On a vertex list `v0, ..., v3`, `create_entities` for dimension 1
fills an array of six pairs with `(v2,v3), (v1,v3), (v1,v2), (v0,v3), (v0,v2),
(v0,v1)`, so that edge `k` is the pair of `EV` at `5 - k` and, the vertices being
distinct, omits the two vertices of the pair at `k`; for dimension 2 it fills an
array of four triples with `v` less its entry `i`, in the original order; for
every other dimension it fails with an error and writes nothing. -/
theorem create_entities_spec (e1 e2 : List (List Nat)) (v : List Nat)
    (h1 : e1.length = 6) (h1r : ∀ r ∈ e1, r.length = 2)
    (h2 : e2.length = 4) (h2r : ∀ r ∈ e2, r.length = 3) (hv : v.length = 4) :
    create_entities e1 1 v
      = .ok [[v.getD 2 0, v.getD 3 0], [v.getD 1 0, v.getD 3 0], [v.getD 1 0, v.getD 2 0],
          [v.getD 0 0, v.getD 3 0], [v.getD 0 0, v.getD 2 0], [v.getD 0 0, v.getD 1 0]] ∧
    (∀ k, k < 6 → ∀ e, create_entities e1 1 v = .ok e →
      e.getD k [] = [v.getD (EV.getD (5 - k) (0, 0)).1 0, v.getD (EV.getD (5 - k) (0, 0)).2 0] ∧
      (v.Nodup → v.getD (EV.getD k (0, 0)).1 0 ∉ e.getD k [] ∧
        v.getD (EV.getD k (0, 0)).2 0 ∉ e.getD k [])) ∧
    create_entities e2 2 v = .ok [v.eraseIdx 0, v.eraseIdx 1, v.eraseIdx 2, v.eraseIdx 3] ∧
    (∀ dim e, dim ≠ 1 → dim ≠ 2 → create_entities e dim v
      = .error ⟨"TetrahedronCell.cpp", "create entities of tetrahedron cell",
          "Don't know how to create entities of topological dimension " ++ toString dim⟩) := by
  obtain ⟨r0, r1, r2, r3, r4, r5, rfl⟩ := length_eq_six h1
  obtain ⟨s0, s1, s2, s3, rfl⟩ := length_eq_four_rows h2
  obtain ⟨a, b, c, d, rfl⟩ := length_eq_four hv
  have hr : ∀ r : List Nat, r.length = 2 → ∀ x y, (r.set 0 x).set 1 y = [x, y] := by
    intro r hr x y
    obtain ⟨p, q, rfl⟩ := List.length_eq_two.mp hr
    rfl
  have hs : ∀ r : List Nat, r.length = 3 → ∀ x y z, ((r.set 0 x).set 1 y).set 2 z = [x, y, z] := by
    intro r hr x y z
    obtain ⟨p, q, w, rfl⟩ := List.length_eq_three.mp hr
    rfl
  have e1 : create_entities [r0, r1, r2, r3, r4, r5] 1 [a, b, c, d]
      = .ok [[c, d], [b, d], [b, c], [a, d], [a, c], [a, b]] := by
    simp only [create_entities, put, List.getD_cons_zero, List.getD_cons_succ, List.set_cons_zero,
      List.set_cons_succ, hr r0 (h1r r0 (by simp)), hr r1 (h1r r1 (by simp)),
      hr r2 (h1r r2 (by simp)), hr r3 (h1r r3 (by simp)), hr r4 (h1r r4 (by simp)),
      hr r5 (h1r r5 (by simp))]
  have e2 : create_entities [s0, s1, s2, s3] 2 [a, b, c, d]
      = .ok [[b, c, d], [a, c, d], [a, b, d], [a, b, c]] := by
    simp only [create_entities, put, List.getD_cons_zero, List.getD_cons_succ, List.set_cons_zero,
      List.set_cons_succ, hs s0 (h2r s0 (by simp)), hs s1 (h2r s1 (by simp)),
      hs s2 (h2r s2 (by simp)), hs s3 (h2r s3 (by simp))]
  refine ⟨e1, ?_, e2, ?_⟩
  · intro k hk e he
    rw [e1] at he
    injection he with he
    subst he
    constructor
    · interval_cases k <;> rfl
    · intro hnd
      simp only [List.nodup_cons, List.mem_cons, List.mem_singleton, List.not_mem_nil, or_false,
        not_or, not_false_eq_true, List.nodup_nil, and_true] at hnd
      obtain ⟨⟨hab, hac, had⟩, ⟨hbc, hbd⟩, hcd⟩ := hnd
      interval_cases k <;>
        simp only [EV, List.getD_cons_zero, List.getD_cons_succ, List.mem_cons, List.mem_singleton,
          List.not_mem_nil, or_false, not_or] <;>
        refine ⟨⟨?_, ?_⟩, ?_, ?_⟩ <;> first | assumption | (apply Ne.symm; assumption)
  · intro dim e hd1 hd2
    match dim, hd1, hd2 with
    | 0, _, _ => rfl
    | n + 3, _, _ => rfl

theorem create_entities_spec_witness :
    ((List.replicate 6 [0, 0]).length = 6 ∧ (∀ r ∈ List.replicate 6 [0, 0], r.length = 2) ∧
      (List.replicate 4 [0, 0, 0]).length = 4 ∧
      (∀ r ∈ List.replicate 4 [0, 0, 0], r.length = 3) ∧ [10, 11, 12, 13].length = 4) ∧
    create_entities (List.replicate 6 [0, 0]) 1 [10, 11, 12, 13]
      = .ok [[12, 13], [11, 13], [11, 12], [10, 13], [10, 12], [10, 11]] ∧
    create_entities (List.replicate 4 [0, 0, 0]) 2 [10, 11, 12, 13]
      = .ok [[11, 12, 13], [10, 12, 13], [10, 11, 13], [10, 11, 12]] :=
  ⟨⟨rfl, by decide, rfl, by decide, rfl⟩,
    (create_entities_spec (List.replicate 6 [0, 0]) (List.replicate 4 [0, 0, 0]) [10, 11, 12, 13]
      rfl (by decide) rfl (by decide) rfl).1,
    (create_entities_spec (List.replicate 6 [0, 0]) (List.replicate 4 [0, 0, 0]) [10, 11, 12, 13]
      rfl (by decide) rfl (by decide) rfl).2.2.1⟩

/-- Claim C22. `num_entities` returns 4, 6, 4, 1 and `num_vertices` returns 1, 2,
3, 4 for the dimensions 0, 1, 2, 3, that is `C(4, dim + 1)` and `dim + 1`; each
fails with an error exactly when the dimension is greater than 3; and `dim()`
is 3. -/
theorem num_entities_spec :
    (num_entities 0 = .ok 4 ∧ num_entities 1 = .ok 6 ∧ num_entities 2 = .ok 4 ∧
      num_entities 3 = .ok 1) ∧
    (∀ d, d ≤ 3 → num_entities d = .ok (Nat.choose 4 (d + 1))) ∧
    (∀ d, d ≤ 3 → num_vertices d = .ok (d + 1)) ∧
    (∀ d, (∃ e, num_entities d = .error e) ↔ 3 < d) ∧
    (∀ d, (∃ e, num_vertices d = .error e) ↔ 3 < d) ∧
    (∀ d, 3 < d → num_entities d
      = .error ⟨"TetrahedronCell.cpp", "access number of entities of tetrahedron cell",
          "Illegal topological dimension (" ++ toString d ++ ")"⟩ ∧
      num_vertices d = .error ⟨"TetrahedronCell.cpp",
          "access number of vertices for subsimplex of tetrahedron cell",
          "Illegal topological dimension (" ++ toString d ++ ")"⟩) ∧
    dim = 3 := by
  refine ⟨⟨rfl, rfl, rfl, rfl⟩, ?_, ?_, ?_, ?_, ?_, rfl⟩
  · intro d hd
    interval_cases d <;> rfl
  · intro d hd
    interval_cases d <;> rfl
  · intro d
    match d with
    | 0 | 1 | 2 | 3 =>
      constructor
      · rintro ⟨e, he⟩; cases he
      · intro h; omega
    | n + 4 => exact ⟨fun _ => by omega, fun _ => ⟨_, rfl⟩⟩
  · intro d
    match d with
    | 0 | 1 | 2 | 3 =>
      constructor
      · rintro ⟨e, he⟩; cases he
      · intro h; omega
    | n + 4 => exact ⟨fun _ => by omega, fun _ => ⟨_, rfl⟩⟩
  · intro d hd
    match d, hd with
    | n + 4, _ => exact ⟨rfl, rfl⟩

/-- Claim C23. The three operations that are not implemented fail for every
input: `cell_normal`, `collides` with an entity and `refine_cellIrregular`
return their error whatever the arguments, and `refine_cellIrregular` leaves
the editor, with the cells added so far, and the cell counter as they were. -/
theorem not_implemented_spec {K : Type} (mesh : Mesh K) (cell : Nat) (entity : MeshEntity)
    (editor : MeshEditor K) (current_cell refinement_rule : Nat) (marked_edges : List Nat) :
    cell_normal mesh cell = .error ⟨"TetrahedronCell.cpp", "compute cell normal",
      "cell_normal not implemented for TetrahedronCell"⟩ ∧
    collides_entity mesh cell entity = .error (not_implemented "collides") ∧
    (refine_cellIrregular mesh cell editor current_cell refinement_rule marked_edges).1
      = .error (not_implemented "refine_cellIrregular") ∧
    (refine_cellIrregular mesh cell editor current_cell refinement_rule marked_edges).2.1
      = editor ∧
    (refine_cellIrregular mesh cell editor current_cell refinement_rule marked_edges).2.1.cells
      = editor.cells ∧
    (refine_cellIrregular mesh cell editor current_cell refinement_rule marked_edges).2.2
      = current_cell :=
  ⟨rfl, rfl, rfl, rfl, rfl, rfl⟩

/-! ## The linear system of `collides` -/

/-- The scalar triple product of linearly independent vectors is not zero. -/
theorem Independent.triple_ne_zero {K : Type} [Field K] {v1 v2 v3 : Point K}
    (h : Independent v1 v2 v3) : v1.dot (v2.cross v3) ≠ 0 := by
  intro h0
  simp only [Point.dot, Point.cross] at h0
  obtain ⟨-, -, x3⟩ := h (v2.cross v3).x (v3.cross v1).x (v1.cross v2).x
    (by simp only [Point.cross]; linear_combination h0)
    (by simp only [Point.cross]; ring) (by simp only [Point.cross]; ring)
  obtain ⟨-, -, y3⟩ := h (v2.cross v3).y (v3.cross v1).y (v1.cross v2).y
    (by simp only [Point.cross]; ring)
    (by simp only [Point.cross]; linear_combination h0) (by simp only [Point.cross]; ring)
  obtain ⟨-, -, z3⟩ := h (v2.cross v3).z (v3.cross v1).z (v1.cross v2).z
    (by simp only [Point.cross]; ring) (by simp only [Point.cross]; ring)
    (by simp only [Point.cross]; linear_combination h0)
  simp only [Point.cross] at x3 y3 z3
  obtain ⟨-, hx, -⟩ := h v2.x (-v1.x) 0 (by ring) (by linear_combination -z3)
    (by linear_combination y3)
  obtain ⟨-, hy, -⟩ := h v2.y (-v1.y) 0 (by linear_combination z3) (by ring)
    (by linear_combination -x3)
  obtain ⟨-, hz, -⟩ := h v2.z (-v1.z) 0 (by linear_combination -y3)
    (by linear_combination x3) (by ring)
  have hx' : v1.x = 0 := neg_eq_zero.mp hx
  have hy' : v1.y = 0 := neg_eq_zero.mp hy
  have hz' : v1.z = 0 := neg_eq_zero.mp hz
  obtain ⟨h1, -, -⟩ := h 1 0 0 (by rw [hx']; ring) (by rw [hy']; ring) (by rw [hz']; ring)
  exact one_ne_zero h1

/-- Cramer's rule: `(w . (v2 x v3)) v1 + (w . (v3 x v1)) v2 + (w . (v1 x v2)) v3`
is `(v1 . (v2 x v3)) w`. -/
theorem cramer {K : Type} [Field K] (v1 v2 v3 w : Point K) :
    w.dot (v2.cross v3) * v1.x + w.dot (v3.cross v1) * v2.x + w.dot (v1.cross v2) * v3.x
      = v1.dot (v2.cross v3) * w.x ∧
    w.dot (v2.cross v3) * v1.y + w.dot (v3.cross v1) * v2.y + w.dot (v1.cross v2) * v3.y
      = v1.dot (v2.cross v3) * w.y ∧
    w.dot (v2.cross v3) * v1.z + w.dot (v3.cross v1) * v2.z + w.dot (v1.cross v2) * v3.z
      = v1.dot (v2.cross v3) * w.z := by
  simp only [Point.dot, Point.cross]
  refine ⟨?_, ?_, ?_⟩ <;> ring

/-- With `v ≠ 0` the coefficients of `collides` are those of the point on the
three edge vectors. -/
theorem collides_coefficients_solve {K : Type} [LinearOrderedField K]
    (p0 p1 p2 p3 point : Point K) (hdet : volume_determinant p0 p1 p2 p3 ≠ 0) :
    point.sub p0
      = ⟨(collides_coefficients p0 p1 p2 p3 point).1 * (p1.sub p0).x
          + (collides_coefficients p0 p1 p2 p3 point).2.1 * (p2.sub p0).x
          + (collides_coefficients p0 p1 p2 p3 point).2.2 * (p3.sub p0).x,
        (collides_coefficients p0 p1 p2 p3 point).1 * (p1.sub p0).y
          + (collides_coefficients p0 p1 p2 p3 point).2.1 * (p2.sub p0).y
          + (collides_coefficients p0 p1 p2 p3 point).2.2 * (p3.sub p0).y,
        (collides_coefficients p0 p1 p2 p3 point).1 * (p1.sub p0).z
          + (collides_coefficients p0 p1 p2 p3 point).2.1 * (p2.sub p0).z
          + (collides_coefficients p0 p1 p2 p3 point).2.2 * (p3.sub p0).z⟩ := by
  have hT : (p1.sub p0).dot ((p2.sub p0).cross (p3.sub p0)) ≠ 0 := by
    intro h
    apply hdet
    rw [volume_determinant_eq_triple, h, neg_zero]
  obtain ⟨cx, cy, cz⟩ := cramer (p1.sub p0) (p2.sub p0) (p3.sub p0) (point.sub p0)
  have hp : point.sub p0
      = ⟨(point.sub p0).dot ((p2.sub p0).cross (p3.sub p0))
            / (p1.sub p0).dot ((p2.sub p0).cross (p3.sub p0)) * (p1.sub p0).x
          + (point.sub p0).dot ((p3.sub p0).cross (p1.sub p0))
            / (p1.sub p0).dot ((p2.sub p0).cross (p3.sub p0)) * (p2.sub p0).x
          + (point.sub p0).dot ((p1.sub p0).cross (p2.sub p0))
            / (p1.sub p0).dot ((p2.sub p0).cross (p3.sub p0)) * (p3.sub p0).x,
        (point.sub p0).dot ((p2.sub p0).cross (p3.sub p0))
            / (p1.sub p0).dot ((p2.sub p0).cross (p3.sub p0)) * (p1.sub p0).y
          + (point.sub p0).dot ((p3.sub p0).cross (p1.sub p0))
            / (p1.sub p0).dot ((p2.sub p0).cross (p3.sub p0)) * (p2.sub p0).y
          + (point.sub p0).dot ((p1.sub p0).cross (p2.sub p0))
            / (p1.sub p0).dot ((p2.sub p0).cross (p3.sub p0)) * (p3.sub p0).y,
        (point.sub p0).dot ((p2.sub p0).cross (p3.sub p0))
            / (p1.sub p0).dot ((p2.sub p0).cross (p3.sub p0)) * (p1.sub p0).z
          + (point.sub p0).dot ((p3.sub p0).cross (p1.sub p0))
            / (p1.sub p0).dot ((p2.sub p0).cross (p3.sub p0)) * (p2.sub p0).z
          + (point.sub p0).dot ((p1.sub p0).cross (p2.sub p0))
            / (p1.sub p0).dot ((p2.sub p0).cross (p3.sub p0)) * (p3.sub p0).z⟩ := by
    generalize (p1.sub p0).dot ((p2.sub p0).cross (p3.sub p0)) = T at hT cx cy cz
    generalize (point.sub p0).dot ((p2.sub p0).cross (p3.sub p0)) = n1 at cx cy cz
    generalize (point.sub p0).dot ((p3.sub p0).cross (p1.sub p0)) = n2 at cx cy cz
    generalize (point.sub p0).dot ((p1.sub p0).cross (p2.sub p0)) = n3 at cx cy cz
    have ex : (point.sub p0).x = n1 / T * (p1.sub p0).x + n2 / T * (p2.sub p0).x
        + n3 / T * (p3.sub p0).x := by
      field_simp
      linear_combination -cx
    have ey : (point.sub p0).y = n1 / T * (p1.sub p0).y + n2 / T * (p2.sub p0).y
        + n3 / T * (p3.sub p0).y := by
      field_simp
      linear_combination -cy
    have ez : (point.sub p0).z = n1 / T * (p1.sub p0).z + n2 / T * (p2.sub p0).z
        + n3 / T * (p3.sub p0).z := by
      field_simp
      linear_combination -cz
    rw [← ex, ← ey, ← ez]
  have hx := collides_coefficients_combination p0 p1 p2 p3 point _ _ _ hdet hp
  rw [hx]
  exact hp

/-- For a tolerance constant `≥ 0` the tolerance of `collides` is the constant
times `max(1, m)`, `m` the largest absolute component of `v1`. -/
theorem collides_tolerance_eq {K : Type} [LinearOrderedField K] (eps_large : K)
    (p0 p1 : Point K) (heps : 0 ≤ eps_large) :
    collides_tolerance eps_large p0 p1
      = eps_large * max 1 (max |(p1.sub p0).x| (max |(p1.sub p0).y| |(p1.sub p0).z|)) := by
  rw [mul_max_of_nonneg _ _ heps, mul_one]
  rfl

/-- Claim C24. Over an ordered field, on a cell whose edge vectors `v1`, `v2`,
`v3` from `p0` are linearly independent, for every query point `p`: the Gram
determinant of `collides` is not zero, its coefficients satisfy
`x1 v1 + x2 v2 + x3 v3 = p - p0` and solve the Gram system, and, the tolerance
constant being `≥ 0`, `collides` is true exactly when `x1, x2, x3 ≥ -eps` and
`x1 + x2 + x3 ≤ 1 + eps` with `eps` the constant times `max(1, m)`, `m` the
largest absolute component of `v1`. -/
theorem collides_solves {K : Type} [LinearOrderedField K] (eps_large : K) (mesh : Mesh K)
    (cell : Nat) (point : Point K)
    (hind : Independent
      ((mesh.geometry.point ((mesh.topology.cell_vertices cell).getD 1 0)).sub
        (mesh.geometry.point ((mesh.topology.cell_vertices cell).getD 0 0)))
      ((mesh.geometry.point ((mesh.topology.cell_vertices cell).getD 2 0)).sub
        (mesh.geometry.point ((mesh.topology.cell_vertices cell).getD 0 0)))
      ((mesh.geometry.point ((mesh.topology.cell_vertices cell).getD 3 0)).sub
        (mesh.geometry.point ((mesh.topology.cell_vertices cell).getD 0 0))))
    (heps : 0 ≤ eps_large) :
    let p0 := mesh.geometry.point ((mesh.topology.cell_vertices cell).getD 0 0)
    let p1 := mesh.geometry.point ((mesh.topology.cell_vertices cell).getD 1 0)
    let p2 := mesh.geometry.point ((mesh.topology.cell_vertices cell).getD 2 0)
    let p3 := mesh.geometry.point ((mesh.topology.cell_vertices cell).getD 3 0)
    let v1 := p1.sub p0
    let v2 := p2.sub p0
    let v3 := p3.sub p0
    let v := point.sub p0
    let x := collides_coefficients p0 p1 p2 p3 point
    let eps := eps_large * max 1 (max |v1.x| (max |v1.y| |v1.z|))
    v1.dot v1 * (v2.dot v2 * v3.dot v3 - v2.dot v3 * v2.dot v3)
        - v1.dot v2 * (v1.dot v2 * v3.dot v3 - v2.dot v3 * v1.dot v3)
        + v1.dot v3 * (v1.dot v2 * v2.dot v3 - v2.dot v2 * v1.dot v3) ≠ 0 ∧
    (⟨x.1 * v1.x + x.2.1 * v2.x + x.2.2 * v3.x, x.1 * v1.y + x.2.1 * v2.y + x.2.2 * v3.y,
      x.1 * v1.z + x.2.1 * v2.z + x.2.2 * v3.z⟩ : Point K) = v ∧
    (v1.dot v1 * x.1 + v1.dot v2 * x.2.1 + v1.dot v3 * x.2.2 = v.dot v1 ∧
      v1.dot v2 * x.1 + v2.dot v2 * x.2.1 + v2.dot v3 * x.2.2 = v.dot v2 ∧
      v1.dot v3 * x.1 + v2.dot v3 * x.2.1 + v3.dot v3 * x.2.2 = v.dot v3) ∧
    (collides eps_large mesh cell point = true ↔
      x.1 ≥ -eps ∧ x.2.1 ≥ -eps ∧ x.2.2 ≥ -eps ∧ x.1 + x.2.1 + x.2.2 ≤ 1 + eps) := by
  intro p0 p1 p2 p3 v1 v2 v3 v x eps
  have hdet : volume_determinant p0 p1 p2 p3 ≠ 0 := by
    rw [volume_determinant_eq_triple]
    exact neg_ne_zero.mpr hind.triple_ne_zero
  have hsol : v = ⟨x.1 * v1.x + x.2.1 * v2.x + x.2.2 * v3.x,
      x.1 * v1.y + x.2.1 * v2.y + x.2.2 * v3.y, x.1 * v1.z + x.2.1 * v2.z + x.2.2 * v3.z⟩ :=
    collides_coefficients_solve p0 p1 p2 p3 point hdet
  refine ⟨?_, hsol.symm, ⟨?_, ?_, ?_⟩, ?_⟩
  · rw [gram_determinant p0 p1 p2 p3]
    exact pow_ne_zero 2 hdet
  · rw [hsol, Point.dot_combination, Point.dot_comm v2 v1, Point.dot_comm v3 v1]
    ring
  · rw [hsol, Point.dot_combination, Point.dot_comm v3 v2]
    ring
  · rw [hsol, Point.dot_combination]
    ring
  · rw [collides_eq, collides_tolerance_eq eps_large p0 p1 heps]
    simp only [Bool.and_eq_true, decide_eq_true_eq, and_assoc]

/-- The edge vectors of the unit tetrahedron are linearly independent. -/
theorem unit_tetrahedron_independent (K : Type) [Field K] :
    Independent
      (((unit_tetrahedron K).geometry.point
          (((unit_tetrahedron K).topology.cell_vertices 0).getD 1 0)).sub
        ((unit_tetrahedron K).geometry.point
          (((unit_tetrahedron K).topology.cell_vertices 0).getD 0 0)))
      (((unit_tetrahedron K).geometry.point
          (((unit_tetrahedron K).topology.cell_vertices 0).getD 2 0)).sub
        ((unit_tetrahedron K).geometry.point
          (((unit_tetrahedron K).topology.cell_vertices 0).getD 0 0)))
      (((unit_tetrahedron K).geometry.point
          (((unit_tetrahedron K).topology.cell_vertices 0).getD 3 0)).sub
        ((unit_tetrahedron K).geometry.point
          (((unit_tetrahedron K).topology.cell_vertices 0).getD 0 0))) := by
  obtain ⟨h0, h1, h2, h3⟩ := unit_tetrahedron_points K
  rw [h0, h1, h2, h3]
  intro a b c ha hb hc
  simp only [Point.sub, sub_zero, mul_one, mul_zero, add_zero, zero_add] at ha hb hc
  exact ⟨ha, hb, hc⟩

theorem collides_solves_witness :
    (0 : ℚ) ≤ 1 / 10 ^ 14 ∧
    (let p0 := (unit_tetrahedron ℚ).geometry.point
        (((unit_tetrahedron ℚ).topology.cell_vertices 0).getD 0 0)
      let p1 := (unit_tetrahedron ℚ).geometry.point
        (((unit_tetrahedron ℚ).topology.cell_vertices 0).getD 1 0)
      let p2 := (unit_tetrahedron ℚ).geometry.point
        (((unit_tetrahedron ℚ).topology.cell_vertices 0).getD 2 0)
      let p3 := (unit_tetrahedron ℚ).geometry.point
        (((unit_tetrahedron ℚ).topology.cell_vertices 0).getD 3 0)
      let x := collides_coefficients p0 p1 p2 p3 ⟨1 / 2, 1 / 3, 1 / 7⟩
      let eps := 1 / 10 ^ 14
        * max 1 (max |(p1.sub p0).x| (max |(p1.sub p0).y| |(p1.sub p0).z|))
      Independent (p1.sub p0) (p2.sub p0) (p3.sub p0) ∧
      (collides (1 / 10 ^ 14) (unit_tetrahedron ℚ) 0 ⟨1 / 2, 1 / 3, 1 / 7⟩ = true ↔
        x.1 ≥ -eps ∧ x.2.1 ≥ -eps ∧ x.2.2 ≥ -eps ∧ x.1 + x.2.1 + x.2.2 ≤ 1 + eps)) :=
  ⟨by norm_num, unit_tetrahedron_independent ℚ,
    (collides_solves (1 / 10 ^ 14) (unit_tetrahedron ℚ) 0 ⟨1 / 2, 1 / 3, 1 / 7⟩
      (unit_tetrahedron_independent ℚ) (by norm_num)).2.2.2⟩

/-! ## `squared_distance` -/

/-- One step of the running minimum of `squared_distance`: the minimum is
either still the initial value, with no distance taken so far, or the least of
the distances taken so far and below the initial value. -/
theorem running_min_step {K : Type} [LinearOrderedField K] (M r t : K) (S : List K) (b : Bool)
    (hinv : (S = [] ∧ r = M) ∨ (r ∈ S ∧ (∀ s ∈ S, r ≤ s) ∧ r < M))
    (ht : b = true → t < M) :
    (S ++ (if b = true then [t] else []) = [] ∧ (if b = true then min r t else r) = M) ∨
    ((if b = true then min r t else r) ∈ S ++ (if b = true then [t] else []) ∧
      (∀ s ∈ S ++ (if b = true then [t] else []), (if b = true then min r t else r) ≤ s) ∧
      (if b = true then min r t else r) < M) := by
  cases b with
  | false => simpa using hinv
  | true =>
    have htM := ht rfl
    right
    simp only [if_true, List.mem_append, List.mem_singleton]
    rcases hinv with ⟨hS, hr⟩ | ⟨hm, hle, hlt⟩
    · rw [hS, hr, min_eq_right htM.le]
      refine ⟨Or.inr rfl, fun s hs => ?_, htM⟩
      rcases hs with h | h
      · cases h
      · rw [h]
    · refine ⟨?_, fun s hs => ?_, lt_of_le_of_lt (min_le_left _ _) hlt⟩
      · rcases min_choice r t with h | h
        · rw [h]; exact Or.inl hm
        · rw [h]; exact Or.inr rfl
      · rcases hs with h | h
        · exact (min_le_left _ _).trans (hle s h)
        · rw [h]; exact min_le_right _ _

/-- The projection `signd` of the opposite vertex in each of the four tests of
`squared_distance` is the expression `v` of `volume`, up to its sign. -/
theorem signd_eq_volume_determinant {K : Type} [Field K] (a b c d : Point K) :
    ((b.sub a).cross (c.sub a)).dot (d.sub a) = -volume_determinant a b c d ∧
    ((c.sub a).cross (d.sub a)).dot (b.sub a) = -volume_determinant a b c d ∧
    ((d.sub a).cross (b.sub a)).dot (c.sub a) = -volume_determinant a b c d ∧
    ((d.sub b).cross (c.sub b)).dot (a.sub b) = -volume_determinant a b c d := by
  simp only [volume_determinant, Point.sub, Point.dot, Point.cross]
  refine ⟨?_, ?_, ?_, ?_⟩ <;> ring

/-- The projections `signp` of a point in the four tests are its barycentric
coordinates times `-v`: they add up to `-v`, and `-v` times the point is their
combination of the vertices. -/
theorem signp_sum {K : Type} [Field K] (a b c d p : Point K) :
    ((d.sub b).cross (c.sub b)).dot (p.sub b) + ((c.sub a).cross (d.sub a)).dot (p.sub a)
        + ((d.sub a).cross (b.sub a)).dot (p.sub a) + ((b.sub a).cross (c.sub a)).dot (p.sub a)
      = -volume_determinant a b c d ∧
    -volume_determinant a b c d * p.x
      = ((d.sub b).cross (c.sub b)).dot (p.sub b) * a.x
        + ((c.sub a).cross (d.sub a)).dot (p.sub a) * b.x
        + ((d.sub a).cross (b.sub a)).dot (p.sub a) * c.x
        + ((b.sub a).cross (c.sub a)).dot (p.sub a) * d.x ∧
    -volume_determinant a b c d * p.y
      = ((d.sub b).cross (c.sub b)).dot (p.sub b) * a.y
        + ((c.sub a).cross (d.sub a)).dot (p.sub a) * b.y
        + ((d.sub a).cross (b.sub a)).dot (p.sub a) * c.y
        + ((b.sub a).cross (c.sub a)).dot (p.sub a) * d.y ∧
    -volume_determinant a b c d * p.z
      = ((d.sub b).cross (c.sub b)).dot (p.sub b) * a.z
        + ((c.sub a).cross (d.sub a)).dot (p.sub a) * b.z
        + ((d.sub a).cross (b.sub a)).dot (p.sub a) * c.z
        + ((b.sub a).cross (c.sub a)).dot (p.sub a) * d.z := by
  simp only [volume_determinant, Point.sub, Point.dot, Point.cross]
  refine ⟨?_, ?_, ?_, ?_⟩ <;> ring

/-- The projections `signp` of a combination of the vertices with weights of
sum 1 are the weights times `-v`. -/
theorem signp_of_weights {K : Type} [Field K] (a b c d p : Point K) (w0 w1 w2 w3 : K)
    (hsum : w0 + w1 + w2 + w3 = 1)
    (hx : p.x = w0 * a.x + w1 * b.x + w2 * c.x + w3 * d.x)
    (hy : p.y = w0 * a.y + w1 * b.y + w2 * c.y + w3 * d.y)
    (hz : p.z = w0 * a.z + w1 * b.z + w2 * c.z + w3 * d.z) :
    ((b.sub a).cross (c.sub a)).dot (p.sub a) = w3 * -volume_determinant a b c d ∧
    ((c.sub a).cross (d.sub a)).dot (p.sub a) = w1 * -volume_determinant a b c d ∧
    ((d.sub a).cross (b.sub a)).dot (p.sub a) = w2 * -volume_determinant a b c d ∧
    ((d.sub b).cross (c.sub b)).dot (p.sub b) = w0 * -volume_determinant a b c d := by
  have hw0 : w0 = 1 - w1 - w2 - w3 := by linear_combination hsum
  subst hw0
  simp only [volume_determinant, Point.sub, Point.dot, Point.cross, hx, hy, hz]
  refine ⟨?_, ?_, ?_, ?_⟩ <;> ring

theorem point_outside_of_plane_eq_false_iff {K : Type} [LinearOrderedField K]
    (point a b c d : Point K) :
    point_outside_of_plane point a b c d = false
      ↔ 0 ≤ ((b.sub a).cross (c.sub a)).dot (point.sub a)
          * ((b.sub a).cross (c.sub a)).dot (d.sub a) := by
  simp only [point_outside_of_plane, decide_eq_false_iff_not, not_lt]

/-- On a tetrahedron with `v ≠ 0`, a point is in the closed tetrahedron exactly
when none of the four tests of `squared_distance` is true. -/
theorem inTetrahedron_iff {K : Type} [LinearOrderedField K] (p a b c d : Point K)
    (hdet : volume_determinant a b c d ≠ 0) :
    InTetrahedron p a b c d ↔
      point_outside_of_plane p a b c d = false ∧ point_outside_of_plane p a c d b = false ∧
      point_outside_of_plane p a d b c = false ∧ point_outside_of_plane p b d c a = false := by
  obtain ⟨d1, d2, d3, d4⟩ := signd_eq_volume_determinant a b c d
  rw [point_outside_of_plane_eq_false_iff, point_outside_of_plane_eq_false_iff,
    point_outside_of_plane_eq_false_iff, point_outside_of_plane_eq_false_iff, d1, d2, d3, d4]
  have hD : -volume_determinant a b c d ≠ 0 := neg_ne_zero.mpr hdet
  have hDD : 0 < -volume_determinant a b c d * -volume_determinant a b c d :=
    lt_of_le_of_ne (mul_self_nonneg _) (Ne.symm (mul_self_ne_zero.mpr hD))
  constructor
  · rintro ⟨w0, w1, w2, w3, h0, h1, h2, h3, hsum, hx, hy, hz⟩
    obtain ⟨s1, s2, s3, s4⟩ := signp_of_weights a b c d p w0 w1 w2 w3 hsum hx hy hz
    rw [s1, s2, s3, s4]
    refine ⟨?_, ?_, ?_, ?_⟩
    · rw [mul_assoc]; exact mul_nonneg h3 hDD.le
    · rw [mul_assoc]; exact mul_nonneg h1 hDD.le
    · rw [mul_assoc]; exact mul_nonneg h2 hDD.le
    · rw [mul_assoc]; exact mul_nonneg h0 hDD.le
  · rintro ⟨t1, t2, t3, t4⟩
    obtain ⟨hsum, hx, hy, hz⟩ := signp_sum a b c d p
    generalize ((b.sub a).cross (c.sub a)).dot (p.sub a) = s1 at t1 hsum hx hy hz
    generalize ((c.sub a).cross (d.sub a)).dot (p.sub a) = s2 at t2 hsum hx hy hz
    generalize ((d.sub a).cross (b.sub a)).dot (p.sub a) = s3 at t3 hsum hx hy hz
    generalize ((d.sub b).cross (c.sub b)).dot (p.sub b) = s4 at t4 hsum hx hy hz
    generalize -volume_determinant a b c d = D at hD hDD t1 t2 t3 t4 hsum hx hy hz
    have nn : ∀ s : K, 0 ≤ s * D → 0 ≤ s / D := by
      intro s hs
      have : s / D = s * D / (D * D) := by
        field_simp
        ring
      rw [this]
      exact div_nonneg hs hDD.le
    refine ⟨s4 / D, s2 / D, s3 / D, s1 / D, nn _ t4, nn _ t2, nn _ t3, nn _ t1, ?_, ?_, ?_, ?_⟩
    · field_simp
      linear_combination hsum
    · field_simp
      linear_combination hx
    · field_simp
      linear_combination hy
    · field_simp
      linear_combination hz

/-- The result of `squared_distance` from its running minimum: 0 when no
distance was taken, the least distance taken otherwise. -/
theorem running_min_result {K : Type} [LinearOrderedField K] (M r : K) (S : List K) (P : Prop)
    (hinv : (S = [] ∧ r = M) ∨ (r ∈ S ∧ (∀ s ∈ S, r ≤ s) ∧ r < M))
    (hpos : ∀ s ∈ S, 0 < s) (hnil : S = [] ↔ P) :
    ((if r = M then 0 else r) = 0 ↔ P) ∧ (∀ s ∈ S, (if r = M then 0 else r) ≤ s) ∧
    (¬P → (if r = M then 0 else r) ∈ S) := by
  rcases hinv with ⟨hSe, hr⟩ | ⟨hm, hle, hlt⟩
  · rw [if_pos hr]
    refine ⟨⟨fun _ => hnil.mp hSe, fun _ => rfl⟩, fun s hs => ?_, fun hn => ?_⟩
    · rw [hSe] at hs; cases hs
    · exact absurd (hnil.mp hSe) hn
  · rw [if_neg (ne_of_lt hlt)]
    have hne : ¬P := fun h => by
      rw [hnil.mpr h] at hm; cases hm
    refine ⟨⟨fun h0 => ?_, fun h => absurd h hne⟩, hle, fun _ => hm⟩
    exact absurd h0 (ne_of_gt (hpos r hm))

theorem append_eq_nil_iff_four {K : Type} (b1 b2 b3 b4 : Bool) (t1 t2 t3 t4 : K) :
    [] ++ (if b1 = true then [t1] else []) ++ (if b2 = true then [t2] else [])
        ++ (if b3 = true then [t3] else []) ++ (if b4 = true then [t4] else []) = []
      ↔ b1 = false ∧ b2 = false ∧ b3 = false ∧ b4 = false := by
  cases b1 <;> cases b2 <;> cases b3 <;> cases b4 <;> simp

/-- What `squared_distance` computes while the distances stay below the initial
value of the running minimum. On a cell with `v ≠ 0` and vertices `a`, `b`, `c`, `d`,
`squared_distance` tests the faces `abc`, `acd`, `adb`, `bdc` against `d`, `b`,
`c`, `a`; no test is true exactly when the point is in the closed tetrahedron.
When the triangle distances of the separating faces are positive and below the
initial value of the running minimum, the largest double in the source, the
result is 0 exactly when the point is in the closed tetrahedron, and otherwise
the least of the triangle distances of the separating faces. -/
theorem squared_distance_spec {K : Type} [LinearOrderedField K]
    (triangle_squared_distance : Point K → Point K → Point K → Point K → K) (numeric_max : K)
    (mesh : Mesh K) (cell : Nat) (point : Point K)
    (hdet : volume_determinant
      (mesh.geometry.point ((mesh.topology.cell_vertices cell).getD 0 0))
      (mesh.geometry.point ((mesh.topology.cell_vertices cell).getD 1 0))
      (mesh.geometry.point ((mesh.topology.cell_vertices cell).getD 2 0))
      (mesh.geometry.point ((mesh.topology.cell_vertices cell).getD 3 0)) ≠ 0)
    (hpos : ∀ r ∈ separating_distances triangle_squared_distance mesh cell point, 0 < r)
    (hmax : ∀ r ∈ separating_distances triangle_squared_distance mesh cell point,
      r < numeric_max) :
    let a := mesh.geometry.point ((mesh.topology.cell_vertices cell).getD 0 0)
    let b := mesh.geometry.point ((mesh.topology.cell_vertices cell).getD 1 0)
    let c := mesh.geometry.point ((mesh.topology.cell_vertices cell).getD 2 0)
    let d := mesh.geometry.point ((mesh.topology.cell_vertices cell).getD 3 0)
    (InTetrahedron point a b c d ↔
      point_outside_of_plane point a b c d = false ∧
      point_outside_of_plane point a c d b = false ∧
      point_outside_of_plane point a d b c = false ∧
      point_outside_of_plane point b d c a = false) ∧
    (separating_distances triangle_squared_distance mesh cell point = [] ↔
      InTetrahedron point a b c d) ∧
    (squared_distance triangle_squared_distance numeric_max mesh cell point = 0 ↔
      InTetrahedron point a b c d) ∧
    (∀ r ∈ separating_distances triangle_squared_distance mesh cell point,
      squared_distance triangle_squared_distance numeric_max mesh cell point ≤ r) ∧
    (¬InTetrahedron point a b c d →
      squared_distance triangle_squared_distance numeric_max mesh cell point
        ∈ separating_distances triangle_squared_distance mesh cell point) := by
  intro a b c d
  have hin := inTetrahedron_iff point a b c d hdet
  have hS : separating_distances triangle_squared_distance mesh cell point
      = [] ++ (if point_outside_of_plane point a b c d = true
          then [triangle_squared_distance point a b c] else [])
        ++ (if point_outside_of_plane point a c d b = true
          then [triangle_squared_distance point a c d] else [])
        ++ (if point_outside_of_plane point a d b c = true
          then [triangle_squared_distance point a d b] else [])
        ++ (if point_outside_of_plane point b d c a = true
          then [triangle_squared_distance point b d c] else []) := rfl
  rw [hS] at hpos hmax
  have m1 : point_outside_of_plane point a b c d = true →
      triangle_squared_distance point a b c < numeric_max := fun h => hmax _ (by simp [h])
  have m2 : point_outside_of_plane point a c d b = true →
      triangle_squared_distance point a c d < numeric_max := fun h => hmax _ (by simp [h])
  have m3 : point_outside_of_plane point a d b c = true →
      triangle_squared_distance point a d b < numeric_max := fun h => hmax _ (by simp [h])
  have m4 : point_outside_of_plane point b d c a = true →
      triangle_squared_distance point b d c < numeric_max := fun h => hmax _ (by simp [h])
  have i1 := running_min_step numeric_max numeric_max _ [] _ (Or.inl ⟨rfl, rfl⟩) m1
  have i2 := running_min_step numeric_max _ _ _ _ i1 m2
  have i3 := running_min_step numeric_max _ _ _ _ i2 m3
  have i4 := running_min_step numeric_max _ _ _ _ i3 m4
  have hnil := (append_eq_nil_iff_four (point_outside_of_plane point a b c d)
    (point_outside_of_plane point a c d b) (point_outside_of_plane point a d b c)
    (point_outside_of_plane point b d c a) (triangle_squared_distance point a b c)
    (triangle_squared_distance point a c d) (triangle_squared_distance point a d b)
    (triangle_squared_distance point b d c)).trans hin.symm
  exact ⟨hin, hnil, running_min_result numeric_max _ _ _ i4 hpos hnil⟩

/-- The unit tetrahedron is not degenerate. -/
theorem unit_tetrahedron_determinant (K : Type) [LinearOrderedField K] :
    volume_determinant
      ((unit_tetrahedron K).geometry.point
        (((unit_tetrahedron K).topology.cell_vertices 0).getD 0 0))
      ((unit_tetrahedron K).geometry.point
        (((unit_tetrahedron K).topology.cell_vertices 0).getD 1 0))
      ((unit_tetrahedron K).geometry.point
        (((unit_tetrahedron K).topology.cell_vertices 0).getD 2 0))
      ((unit_tetrahedron K).geometry.point
        (((unit_tetrahedron K).topology.cell_vertices 0).getD 3 0)) ≠ 0 := by
  obtain ⟨h0, h1, h2, h3⟩ := unit_tetrahedron_points K
  rw [h0, h1, h2, h3]
  norm_num [volume_determinant]

theorem separating_distances_const {K : Type} [LinearOrderedField K] (t : K) (mesh : Mesh K)
    (cell : Nat) (point : Point K) :
    ∀ r ∈ separating_distances (fun _ _ _ _ => t) mesh cell point, r = t := by
  intro r hr
  simp only [separating_distances, List.nil_append, List.mem_append] at hr
  rcases hr with ((hr | hr) | hr) | hr <;>
    (split at hr
     · exact List.mem_singleton.mp hr
     · cases hr)

theorem squared_distance_spec_witness :
    volume_determinant
      ((unit_tetrahedron ℚ).geometry.point
        (((unit_tetrahedron ℚ).topology.cell_vertices 0).getD 0 0))
      ((unit_tetrahedron ℚ).geometry.point
        (((unit_tetrahedron ℚ).topology.cell_vertices 0).getD 1 0))
      ((unit_tetrahedron ℚ).geometry.point
        (((unit_tetrahedron ℚ).topology.cell_vertices 0).getD 2 0))
      ((unit_tetrahedron ℚ).geometry.point
        (((unit_tetrahedron ℚ).topology.cell_vertices 0).getD 3 0)) ≠ 0 ∧
    (∀ r ∈ separating_distances (fun _ _ _ _ => (1 : ℚ)) (unit_tetrahedron ℚ) 0
      ⟨1 / 4, 1 / 4, -1⟩, 0 < r) ∧
    (∀ r ∈ separating_distances (fun _ _ _ _ => (1 : ℚ)) (unit_tetrahedron ℚ) 0
      ⟨1 / 4, 1 / 4, -1⟩, r < double_max ℚ) ∧
    (squared_distance (fun _ _ _ _ => (1 : ℚ)) (double_max ℚ) (unit_tetrahedron ℚ) 0
        ⟨1 / 4, 1 / 4, -1⟩ = 0 ↔
      InTetrahedron ⟨1 / 4, 1 / 4, -1⟩
        ((unit_tetrahedron ℚ).geometry.point
          (((unit_tetrahedron ℚ).topology.cell_vertices 0).getD 0 0))
        ((unit_tetrahedron ℚ).geometry.point
          (((unit_tetrahedron ℚ).topology.cell_vertices 0).getD 1 0))
        ((unit_tetrahedron ℚ).geometry.point
          (((unit_tetrahedron ℚ).topology.cell_vertices 0).getD 2 0))
        ((unit_tetrahedron ℚ).geometry.point
          (((unit_tetrahedron ℚ).topology.cell_vertices 0).getD 3 0))) :=
  ⟨unit_tetrahedron_determinant ℚ,
    fun r hr => by rw [separating_distances_const 1 _ _ _ r hr]; norm_num,
    fun r hr => by rw [separating_distances_const 1 _ _ _ r hr]; norm_num [double_max],
    (squared_distance_spec (fun _ _ _ _ => (1 : ℚ)) (double_max ℚ) (unit_tetrahedron ℚ) 0
      ⟨1 / 4, 1 / 4, -1⟩ (unit_tetrahedron_determinant ℚ)
      (fun r hr => by rw [separating_distances_const 1 _ _ _ r hr]; norm_num)
      (fun r hr => by rw [separating_distances_const 1 _ _ _ r hr]; norm_num [double_max])).2.2.1⟩

/-- Claim C25. The value 0 is returned for a point outside of the tetrahedron.
The point `(1/4, 1/4, -2^512)` is below the face `abc` of the tetrahedron
`a = (0,0,0), b = (1,0,0), c = (0,1,0), d = (0,0,1)`, at squared distance `2^1024`
from it, its foot `(1/4, 1/4, 0)` being inside the face; the triangle distance
is given here by `z^2`, its value for such a point and a face in the plane
`z = 0`. Only the plane of `abc` separates the point from the opposite vertex.
The running minimum starts at the largest double, which is smaller than
`2^1024`, and stays there, so `squared_distance` takes the point for one inside
the tetrahedron and returns 0; and so it does with every triangle distance
function that has the value `2^1024` on the face. -/
theorem squared_distance_beyond_max :
    squared_distance (fun p _ _ _ => p.z * p.z) (double_max ℚ) (unit_tetrahedron ℚ) 0
      ⟨1 / 4, 1 / 4, -2 ^ 512⟩ = 0 ∧
    separating_distances (fun p _ _ _ => p.z * p.z) (unit_tetrahedron ℚ) 0
      ⟨1 / 4, 1 / 4, -2 ^ 512⟩ = [2 ^ 1024] ∧
    ¬InTetrahedron (⟨1 / 4, 1 / 4, -2 ^ 512⟩ : Point ℚ)
      ((unit_tetrahedron ℚ).geometry.point
        (((unit_tetrahedron ℚ).topology.cell_vertices 0).getD 0 0))
      ((unit_tetrahedron ℚ).geometry.point
        (((unit_tetrahedron ℚ).topology.cell_vertices 0).getD 1 0))
      ((unit_tetrahedron ℚ).geometry.point
        (((unit_tetrahedron ℚ).topology.cell_vertices 0).getD 2 0))
      ((unit_tetrahedron ℚ).geometry.point
        (((unit_tetrahedron ℚ).topology.cell_vertices 0).getD 3 0)) ∧
    volume_determinant
      ((unit_tetrahedron ℚ).geometry.point
        (((unit_tetrahedron ℚ).topology.cell_vertices 0).getD 0 0))
      ((unit_tetrahedron ℚ).geometry.point
        (((unit_tetrahedron ℚ).topology.cell_vertices 0).getD 1 0))
      ((unit_tetrahedron ℚ).geometry.point
        (((unit_tetrahedron ℚ).topology.cell_vertices 0).getD 2 0))
      ((unit_tetrahedron ℚ).geometry.point
        (((unit_tetrahedron ℚ).topology.cell_vertices 0).getD 3 0)) ≠ 0 ∧
    double_max ℚ < 2 ^ 1024 ∧
    ∀ triangle_squared_distance : Point ℚ → Point ℚ → Point ℚ → Point ℚ → ℚ,
      triangle_squared_distance ⟨1 / 4, 1 / 4, -2 ^ 512⟩ ⟨0, 0, 0⟩ ⟨1, 0, 0⟩ ⟨0, 1, 0⟩
        = 2 ^ 1024 →
      squared_distance triangle_squared_distance (double_max ℚ) (unit_tetrahedron ℚ) 0
        ⟨1 / 4, 1 / 4, -2 ^ 512⟩ = 0 := by
  obtain ⟨h0, h1, h2, h3⟩ := unit_tetrahedron_points ℚ
  have t1 : point_outside_of_plane (⟨1 / 4, 1 / 4, -2 ^ 512⟩ : Point ℚ) ⟨0, 0, 0⟩ ⟨1, 0, 0⟩
      ⟨0, 1, 0⟩ ⟨0, 0, 1⟩ = true := by
    norm_num [point_outside_of_plane, Point.sub, Point.dot, Point.cross]
  have t2 : point_outside_of_plane (⟨1 / 4, 1 / 4, -2 ^ 512⟩ : Point ℚ) ⟨0, 0, 0⟩ ⟨0, 1, 0⟩
      ⟨0, 0, 1⟩ ⟨1, 0, 0⟩ = false := by
    norm_num [point_outside_of_plane, Point.sub, Point.dot, Point.cross]
  have t3 : point_outside_of_plane (⟨1 / 4, 1 / 4, -2 ^ 512⟩ : Point ℚ) ⟨0, 0, 0⟩ ⟨0, 0, 1⟩
      ⟨1, 0, 0⟩ ⟨0, 1, 0⟩ = false := by
    norm_num [point_outside_of_plane, Point.sub, Point.dot, Point.cross]
  have t4 : point_outside_of_plane (⟨1 / 4, 1 / 4, -2 ^ 512⟩ : Point ℚ) ⟨1, 0, 0⟩ ⟨0, 0, 1⟩
      ⟨0, 1, 0⟩ ⟨0, 0, 0⟩ = false := by
    norm_num [point_outside_of_plane, Point.sub, Point.dot, Point.cross]
  have hlt : double_max ℚ < 2 ^ 1024 := by norm_num [double_max]
  have hz : (-2 ^ 512 : ℚ) * -2 ^ 512 = 2 ^ 1024 := by norm_num
  refine ⟨?_, ?_, ?_, unit_tetrahedron_determinant ℚ, hlt, fun tsd h => ?_⟩
  · simp only [squared_distance, h0, h1, h2, h3, t1, t2, t3, t4, hz, Bool.false_eq_true,
      if_false, if_true, min_eq_left hlt.le]
  · simp only [separating_distances, h0, h1, h2, h3, t1, t2, t3, t4, hz, Bool.false_eq_true,
      if_false, if_true, List.nil_append, List.append_nil]
  · rw [h0, h1, h2, h3]
    rintro ⟨w0, w1, w2, w3, -, -, -, n3, -, -, -, hz⟩
    simp only [mul_zero, add_zero, zero_add, mul_one] at hz
    have : (0 : ℚ) < 2 ^ 512 := by positivity
    linarith
  · simp only [squared_distance, h0, h1, h2, h3, t1, t2, t3, t4, h, Bool.false_eq_true,
      if_false, if_true, min_eq_left hlt.le]

/-! ## `find_edge` on the vertices and edges alone -/

theorem Valid.edgeConnectivity {t : MeshTopology} {c : Nat} (hv : Valid t c) :
    EdgeConnectivity t c where
  cv_length := hv.cv_length
  cv_nodup := hv.cv_nodup
  ce_length := hv.ce_length
  ce_nodup := hv.ce_nodup
  ev_length := hv.ev_length
  ev_nodup := hv.ev_nodup
  ev_sub := hv.ev_sub
  ev_all := hv.ev_all

/-- An edge of the cell passes the test of one slot only. -/
theorem EdgeConnectivity.test_unique {u : MeshTopology} {c : Nat} (hv : EdgeConnectivity u c)
    (x : Nat) (hx : x ∈ u.cell_edges c) (s t : Nat) (hs : s < 6) (ht : t < 6)
    (h1 : cell_edge_test u.c10 (u.cell_vertices c) s x = true)
    (h2 : cell_edge_test u.c10 (u.cell_vertices c) t x = true) : s = t := by
  rw [cell_edge_test_iff u c s x (hv.ev_length x hx)] at h1
  rw [cell_edge_test_iff u c t x (hv.ev_length x hx)] at h2
  obtain ⟨p, q, hp, hq, hpq, hpos⟩ := pair_positions (u.cell_vertices c) (u.edge_vertices x)
    hv.cv_nodup (hv.ev_length x hx) (hv.ev_nodup x hx) (hv.ev_sub x hx)
  rw [hv.cv_length] at hp hq hpos
  rw [hpos _ (EV_fst_lt s hs), hpos _ (EV_snd_lt s hs)] at h1
  rw [hpos _ (EV_fst_lt t ht), hpos _ (EV_snd_lt t ht)] at h2
  exact EV_unique s hs t ht p hp q hq hpq
    ⟨fun h => h1.1 (Or.inl h), fun h => h1.1 (Or.inr h), fun h => h1.2 (Or.inl h),
      fun h => h1.2 (Or.inr h)⟩
    ⟨fun h => h2.1 (Or.inl h), fun h => h2.1 (Or.inr h), fun h => h2.2 (Or.inl h),
      fun h => h2.2 (Or.inr h)⟩

/-- Every slot has an edge of the cell that passes its test: the edge joining
the two vertices outside the pair. -/
theorem EdgeConnectivity.test_exists {u : MeshTopology} {c : Nat} (hv : EdgeConnectivity u c)
    (m : Nat) (hm : m < 6) :
    ∃ x, x ∈ u.cell_edges c ∧ cell_edge_test u.c10 (u.cell_vertices c) m x = true := by
  have hm' : 5 - m < 6 := by omega
  have hk := EV_fst_lt (5 - m) hm'
  have hl := EV_snd_lt (5 - m) hm'
  have hkl := EV_fst_ne_snd (5 - m) hm'
  have hi := EV_fst_lt m hm
  have hj := EV_snd_lt m hm
  obtain ⟨c1, c2, c3, c4⟩ := EV_complement m hm
  generalize (EV.getD (5 - m) (0, 0)).1 = k at hk hl hkl c1 c2 c3 c4
  generalize (EV.getD (5 - m) (0, 0)).2 = l at hk hl hkl c1 c2 c3 c4
  have hcvk : (u.cell_vertices c).getD k 0 ∈ u.cell_vertices c :=
    getD_mem _ k (by rw [hv.cv_length]; exact hk)
  have hcvl : (u.cell_vertices c).getD l 0 ∈ u.cell_vertices c :=
    getD_mem _ l (by rw [hv.cv_length]; exact hl)
  have hne : (u.cell_vertices c).getD k 0 ≠ (u.cell_vertices c).getD l 0 := fun h =>
    hkl (getD_inj_of_nodup _ hv.cv_nodup k l (by rw [hv.cv_length]; exact hk)
      (by rw [hv.cv_length]; exact hl) h)
  obtain ⟨x, hx, hxk, hxl⟩ := hv.ev_all _ hcvk _ hcvl hne
  refine ⟨x, hx, ?_⟩
  rw [cell_edge_test_iff u c m x (hv.ev_length x hx)]
  obtain ⟨p, q, hp, hq, hpq, hpos⟩ := pair_positions (u.cell_vertices c) (u.edge_vertices x)
    hv.cv_nodup (hv.ev_length x hx) (hv.ev_nodup x hx) (hv.ev_sub x hx)
  rw [hv.cv_length] at hp hq hpos
  rw [hpos _ hi, hpos _ hj]
  rw [hpos _ hk] at hxk
  rw [hpos _ hl] at hxl
  generalize (EV.getD m (0, 0)).1 = i at hi c1 c2
  generalize (EV.getD m (0, 0)).2 = j at hj c3 c4
  omega

/-- Two edges of the cell that pass the test of the same slot are the same
edge. -/
theorem EdgeConnectivity.test_inj {u : MeshTopology} {c : Nat} (hv : EdgeConnectivity u c)
    (m : Nat) (hm : m < 6) (e e' : Nat) (he : e ∈ u.cell_edges c) (he' : e' ∈ u.cell_edges c)
    (h : cell_edge_test u.c10 (u.cell_vertices c) m e = true)
    (h' : cell_edge_test u.c10 (u.cell_vertices c) m e' = true) : e = e' := by
  have sce : Selected (cell_edge_test u.c10 (u.cell_vertices c)) (u.cell_edges c) 6
      (sort_cell_edges u.c10 (u.cell_vertices c) (u.cell_edges c)) := by
    rw [sort_cell_edges_eq]
    exact (foldl_scan_swap_selected 6 _ _ hv.ce_length hv.test_exists hv.test_unique 6
      (Nat.le_refl _)).2
  obtain ⟨k, hk, hke⟩ := exists_getD_of_mem _ e (sce.1.symm.subset he)
  obtain ⟨k', hk', hke'⟩ := exists_getD_of_mem _ e' (sce.1.symm.subset he')
  rw [sce.1.length_eq, hv.ce_length] at hk hk'
  have e1 := hv.test_unique e he k m hk hm (hke ▸ sce.2 k hk) h
  have e2 := hv.test_unique e' he' k' m hk' hm (hke' ▸ sce.2 k' hk') h'
  rw [← hke, ← hke', e1, e2]

/-- With the vertices and edges of a tetrahedron, `find_edge` returns a position
of the edge list whose edge passes the test of the slot. -/
theorem EdgeConnectivity.find_edge_ok {t : MeshTopology} {c : Nat} (hv : EdgeConnectivity t c)
    (i : Nat) (hi : i < 6) :
    ∃ j, j < 6 ∧ find_edge t i c = .ok j ∧
      cell_edge_test t.c10 (t.cell_vertices c) i ((t.cell_edges c).getD j 0) = true := by
  obtain ⟨x, hx, hq⟩ := hv.test_exists i hi
  obtain ⟨m, hm, hmx⟩ := exists_getD_of_mem _ x hx
  rw [hv.ce_length] at hm
  have hPm := (find_edge_test_eq t c i _ (hv.ev_length _ (hmx ▸ hx))).mpr (hmx ▸ hq)
  obtain ⟨j, hj, hPj, hfind⟩ := find_range_exists
    (fun j =>
      (t.c10.connections ((t.cell_edges c).getD j 0)).getD 0 0
          != (t.cell_vertices c).getD (EV.getD i (0, 0)).1 0
        && (t.c10.connections ((t.cell_edges c).getD j 0)).getD 0 0
          != (t.cell_vertices c).getD (EV.getD i (0, 0)).2 0
        && (t.c10.connections ((t.cell_edges c).getD j 0)).getD 1 0
          != (t.cell_vertices c).getD (EV.getD i (0, 0)).1 0
        && (t.c10.connections ((t.cell_edges c).getD j 0)).getD 1 0
          != (t.cell_vertices c).getD (EV.getD i (0, 0)).2 0) 6 m hm hPm
  refine ⟨j, hj, ?_, ?_⟩
  · unfold find_edge
    simp only [MeshTopology.cell_vertices, MeshTopology.cell_edges] at hfind ⊢
    rw [hfind]
  · exact (find_edge_test_eq t c i _
      (hv.ev_length _ (getD_mem _ j (by rw [hv.ce_length]; exact hj)))).mp hPj

/-- The vertices and edges still form a tetrahedron when the edge list of the
cell is rearranged. -/
theorem EdgeConnectivity.of_perm {t : MeshTopology} {c : Nat} (hv : EdgeConnectivity t c)
    (l : List Nat) (hl : l.Perm (t.cell_edges c)) :
    EdgeConnectivity { t with c31 := t.c31.set c l } c := by
  have hc : c < t.c31.length :=
    lt_length_of_length_connections t.c31 c 5 hv.ce_length
  have he : MeshTopology.cell_edges { t with c31 := t.c31.set c l } c = l := by
    show MeshConnectivity.connections (t.c31.set c l) c = l
    rw [connections_set]
    simp [hc]
  exact {
    cv_length := hv.cv_length
    cv_nodup := hv.cv_nodup
    ce_length := by rw [he, hl.length_eq]; exact hv.ce_length
    ce_nodup := by rw [he]; exact hl.nodup_iff.mpr hv.ce_nodup
    ev_length := fun e h => hv.ev_length e (hl.subset (he ▸ h))
    ev_nodup := fun e h => hv.ev_nodup e (hl.subset (he ▸ h))
    ev_sub := fun e h => hv.ev_sub e (hl.subset (he ▸ h))
    ev_all := fun a ha b hb hab => by
      obtain ⟨e, hm, h1, h2⟩ := hv.ev_all a ha b hb hab
      exact ⟨e, he.symm ▸ hl.symm.subset hm, h1, h2⟩ }

/-- Claim C27. On a cell whose vertices and edges form a tetrahedron (four
distinct vertices, six edges joining the six pairs), in any order of the edge
list, `find_edge(i, cell)` returns for every `i < 6` the one position of the
edge list whose edge contains neither vertex of the pair `EV[i]`; different `i`
give different positions, and the six new vertex indices of `refine_cell` are
pairwise distinct. -/
theorem find_edge_unique {K : Type} (mesh : Mesh K) (c : Nat)
    (hv : EdgeConnectivity mesh.topology c) :
    (∀ i, i < 6 → ∃ j, j < 6 ∧ find_edge mesh.topology i c = .ok j ∧
      ((mesh.topology.cell_vertices c).getD (EV.getD i (0, 0)).1 0
          ∉ mesh.topology.edge_vertices ((mesh.topology.cell_edges c).getD j 0) ∧
        (mesh.topology.cell_vertices c).getD (EV.getD i (0, 0)).2 0
          ∉ mesh.topology.edge_vertices ((mesh.topology.cell_edges c).getD j 0)) ∧
      ∀ j', j' < 6 →
        (mesh.topology.cell_vertices c).getD (EV.getD i (0, 0)).1 0
          ∉ mesh.topology.edge_vertices ((mesh.topology.cell_edges c).getD j' 0) →
        (mesh.topology.cell_vertices c).getD (EV.getD i (0, 0)).2 0
          ∉ mesh.topology.edge_vertices ((mesh.topology.cell_edges c).getD j' 0) → j' = j) ∧
    (∀ i i', i < 6 → i' < 6 → find_edge mesh.topology i c = find_edge mesh.topology i' c →
      i = i') ∧
    (∀ i i', i < 6 → i' < 6 → i ≠ i' → new_vertex mesh c i ≠ new_vertex mesh c i') ∧
    [new_vertex mesh c 0, new_vertex mesh c 1, new_vertex mesh c 2, new_vertex mesh c 3,
      new_vertex mesh c 4, new_vertex mesh c 5].Nodup ∧
    (∀ l : List Nat, l.Perm (mesh.topology.cell_edges c) →
      EdgeConnectivity { mesh.topology with c31 := mesh.topology.c31.set c l } c) := by
  have hmem : ∀ j, j < 6 → (mesh.topology.cell_edges c).getD j 0 ∈ mesh.topology.cell_edges c :=
    fun j hj => getD_mem _ j (by rw [hv.ce_length]; exact hj)
  have hinj : ∀ i i', i < 6 → i' < 6 →
      find_edge mesh.topology i c = find_edge mesh.topology i' c → i = i' := by
    intro i i' hi hi' h
    obtain ⟨j, hj, hf, hq⟩ := hv.find_edge_ok i hi
    obtain ⟨j', hj', hf', hq'⟩ := hv.find_edge_ok i' hi'
    rw [hf, hf'] at h
    injection h with h
    subst h
    exact hv.test_unique _ (hmem j hj) i i' hi hi' hq hq'
  have hnew : ∀ i i', i < 6 → i' < 6 → i ≠ i' → new_vertex mesh c i ≠ new_vertex mesh c i' := by
    intro i i' hi hi' hne h
    obtain ⟨j, hj, hf, hq⟩ := hv.find_edge_ok i hi
    obtain ⟨j', hj', hf', hq'⟩ := hv.find_edge_ok i' hi'
    unfold new_vertex at h
    rw [hf, hf'] at h
    simp only [add_right_inj] at h
    have hjj : j = j' := getD_inj_of_nodup _ hv.ce_nodup j j' (by rw [hv.ce_length]; exact hj)
      (by rw [hv.ce_length]; exact hj') h
    subst hjj
    exact hne (hv.test_unique _ (hmem j hj) i i' hi hi' hq hq')
  refine ⟨fun i hi => ?_, hinj, hnew, ?_, fun l hl => hv.of_perm l hl⟩
  · obtain ⟨j, hj, hf, hq⟩ := hv.find_edge_ok i hi
    refine ⟨j, hj, hf, (cell_edge_test_iff _ c i _ (hv.ev_length _ (hmem j hj))).mp hq,
      fun j' hj' h1 h2 => ?_⟩
    have hq' := (cell_edge_test_iff _ c i _ (hv.ev_length _ (hmem j' hj'))).mpr ⟨h1, h2⟩
    exact getD_inj_of_nodup _ hv.ce_nodup j' j (by rw [hv.ce_length]; exact hj')
      (by rw [hv.ce_length]; exact hj)
      (hv.test_inj i hi _ _ (hmem j' hj') (hmem j hj) hq' hq)
  · simp only [List.nodup_cons, List.mem_cons, List.mem_singleton, List.not_mem_nil, or_false,
      not_or, not_false_eq_true, List.nodup_nil, and_true]
    refine ⟨⟨?_, ?_, ?_, ?_, ?_⟩, ⟨?_, ?_, ?_, ?_⟩, ⟨?_, ?_, ?_⟩, ⟨?_, ?_⟩, ?_⟩ <;>
      exact hnew _ _ (by decide) (by decide) (by decide)

theorem find_edge_unique_witness :
    EdgeConnectivity skew_mesh.topology 0 ∧
    (∀ i i', i < 6 → i' < 6 → i ≠ i' → new_vertex skew_mesh 0 i ≠ new_vertex skew_mesh 0 i') ∧
    [new_vertex skew_mesh 0 0, new_vertex skew_mesh 0 1, new_vertex skew_mesh 0 2,
      new_vertex skew_mesh 0 3, new_vertex skew_mesh 0 4, new_vertex skew_mesh 0 5].Nodup :=
  ⟨unit_mesh_valid.edgeConnectivity,
    (find_edge_unique skew_mesh 0 unit_mesh_valid.edgeConnectivity).2.2.1,
    (find_edge_unique skew_mesh 0 unit_mesh_valid.edgeConnectivity).2.2.2.1⟩

/-! ## `order` only permutes -/

theorem Valid.sized {t : MeshTopology} {c : Nat} (hv : Valid t c) : Sized t c where
  edges := fun _ => hv.ce_length
  facets := fun _ => hv.cf_length
  facet_edges := fun _ => hv.fe_length

/-- A loop that rewrites tuples of a table, each by a rearrangement of what it
finds, leaves every tuple a rearrangement of the one before, and the tuples of
the entities it does not visit as they were. -/
theorem foldl_set_perm {α : Type} (n : Nat) (G : α → Nat)
    (F : MeshConnectivity → α → List Nat)
    (hF : ∀ conn a, n ≤ (conn.connections (G a)).length →
      (F conn a).Perm (conn.connections (G a)))
    (l : List α) (conn : MeshConnectivity)
    (hlen : ∀ a, a ∈ l → n ≤ (conn.connections (G a)).length) (e : Nat) :
    ((l.foldl (fun conn a => conn.set (G a) (F conn a)) conn).connections e).Perm
        (conn.connections e) ∧
    ((∀ a, a ∈ l → G a ≠ e) →
      (l.foldl (fun conn a => conn.set (G a) (F conn a)) conn).connections e
        = conn.connections e) := by
  induction l generalizing conn with
  | nil => exact ⟨List.Perm.refl _, fun _ => rfl⟩
  | cons a l ih =>
    rw [List.foldl_cons]
    have h1 : ∀ e', (MeshConnectivity.connections (conn.set (G a) (F conn a)) e').Perm
        (conn.connections e') := by
      intro e'
      rw [connections_set]
      split
      · rename_i h
        rw [h.1]
        exact hF conn a (hlen a (List.mem_cons_self _ _))
      · exact List.Perm.refl _
    have hlen' : ∀ a', a' ∈ l →
        n ≤ (MeshConnectivity.connections (conn.set (G a) (F conn a)) (G a')).length := by
      intro a' ha'
      rw [(h1 (G a')).length_eq]
      exact hlen a' (List.mem_cons_of_mem _ ha')
    obtain ⟨i1, i2⟩ := ih (conn.set (G a) (F conn a)) hlen'
    refine ⟨i1.trans (h1 e), fun hne => ?_⟩
    rw [i2 (fun a' ha' => hne a' (List.mem_cons_of_mem _ ha')), connections_set]
    have := hne a (List.mem_cons_self _ _)
    simp [Ne.symm this]

theorem getD_mem_of_length (l : List Nat) (n : Nat) (hl : l.length = n) (i : Nat)
    (hi : i ∈ List.range n) : l.getD i 0 ∈ l :=
  getD_mem l i (by rw [hl]; exact List.mem_range.mp hi)

/-- Claim C28. On connectivity with the sizes of a tetrahedron, `order` only
permutes: every tuple of every table is after `order` a rearrangement of the
same tuple before, and the tuples of an entity that is not this cell, one of
its edges or one of its facets are unchanged. -/
theorem order_permutes (t : MeshTopology) (c : Nat) (g : Nat → Nat) (hs : Sized t c) :
    TuplePerm t (order t c g) ∧
    (∀ e, e ∉ t.cell_edges c → (order t c g).edge_vertices e = t.edge_vertices e) ∧
    (∀ f, f ∉ t.cell_facets c → (order t c g).facet_vertices f = t.facet_vertices f ∧
      (order t c g).facet_edges f = t.facet_edges f) ∧
    (∀ c', c' ≠ c → (order t c g).cell_vertices c' = t.cell_vertices c' ∧
      (order t c g).cell_edges c' = t.cell_edges c' ∧
      (order t c g).cell_facets c' = t.cell_facets c') := by
  have k10 := fun e => foldl_set_perm 0 (fun i => (t.cell_edges c).getD i 0)
    (fun conn i => sort_entities 2 (conn.connections ((t.cell_edges c).getD i 0)) g)
    (fun conn a _ => sort_entities_perm 2 _ g) (List.range 6) t.c10
    (fun _ _ => Nat.zero_le _) e
  have k20 := fun e => foldl_set_perm 0 (fun i => (t.cell_facets c).getD i 0)
    (fun conn i => sort_entities 3 (conn.connections ((t.cell_facets c).getD i 0)) g)
    (fun conn a _ => sort_entities_perm 3 _ g) (List.range 4) t.c20
    (fun _ _ => Nat.zero_le _) e
  have k21 : t.c21 ≠ [] → ∀ e,
      ((order t c g).c21.connections e).Perm (t.c21.connections e) ∧
      ((∀ a, a ∈ List.range 4 → (t.cell_facets c).getD a 0 ≠ e) →
        (order t c g).c21.connections e = t.c21.connections e) := by
    intro h e
    rw [order_c21]
    exact foldl_set_perm 3 (fun i => (t.cell_facets c).getD i 0)
      (fun conn i => sort_facet_edges (order t c g).c10
        ((order t c g).c20.connections ((t.cell_facets c).getD i 0))
        (conn.connections ((t.cell_facets c).getD i 0)))
      (fun conn a hl => sort_facet_edges_perm _ _ _ hl) (List.range 4) t.c21
      (fun a ha => Nat.le_of_eq (hs.facet_edges h _
        (getD_mem_of_length _ 4 (hs.facets (Or.inr (Or.inl h))) a ha)).symm) e
  have e21 : t.c21 = [] → (order t c g).c21 = t.c21 := by
    intro h
    rw [order_c21, h]
    exact foldl_set_nil (fun _ i => (t.cell_facets c).getD i 0)
      (fun conn i => sort_facet_edges (order t c g).c10
          ((order t c g).c20.connections ((t.cell_facets c).getD i 0))
          (conn.connections ((t.cell_facets c).getD i 0))) (List.range 4)
  have e10 : t.c10 = [] → (order t c g).c10 = t.c10 := by
    intro h
    rw [order_c10, h]
    exact foldl_set_nil (fun _ i => (t.cell_edges c).getD i 0)
      (fun conn i => sort_entities 2 (conn.connections ((t.cell_edges c).getD i 0)) g)
      (List.range 6)
  have e20 : t.c20 = [] → (order t c g).c20 = t.c20 := by
    intro h
    rw [order_c20, h]
    exact foldl_set_nil (fun _ i => (t.cell_facets c).getD i 0)
      (fun conn i => sort_entities 3 (conn.connections ((t.cell_facets c).getD i 0)) g)
      (List.range 4)
  have p31 : ∀ c', ((order t c g).c31.connections c').Perm (t.c31.connections c') := by
    intro c'
    rw [order_c31, connections_set]
    split
    · rename_i h
      rw [h.1]
      have hne : t.c31 ≠ [] := fun h0 => by rw [h0] at h; simp at h
      exact sort_cell_edges_perm _ _ _ (Nat.le_of_eq (hs.edges (Or.inr hne)).symm)
    · exact List.Perm.refl _
  have p32 : ∀ c', ((order t c g).c32.connections c').Perm (t.c32.connections c') := by
    intro c'
    rw [order_c32, connections_set]
    split
    · rename_i h
      rw [h.1]
      have hne : t.c32 ≠ [] := fun h0 => by rw [h0] at h; simp at h
      exact sort_cell_facets_perm _ _ _ (Nat.le_of_eq (hs.facets (Or.inr (Or.inr hne))).symm)
    · exact List.Perm.refl _
  refine ⟨⟨fun e => ?_, fun e => ?_, fun f => ?_, fun c' => ?_, p31, p32⟩,
    fun e he => ?_, fun f hf => ⟨?_, ?_⟩, fun c' hc => ⟨?_, ?_, ?_⟩⟩
  · rw [order_c10]; exact (k10 e).1
  · rw [order_c20]; exact (k20 e).1
  · by_cases h : t.c21 = []
    · rw [e21 h]
    · exact (k21 h f).1
  · rw [order_c30, connections_sort_at]
    split
    · exact sort_entities_perm 4 _ g
    · exact List.Perm.refl _
  · show (order t c g).c10.connections e = t.c10.connections e
    by_cases h : t.c10 = []
    · rw [e10 h]
    · rw [order_c10]
      exact (k10 e).2 (fun a ha hea =>
        he (hea ▸ getD_mem_of_length _ 6 (hs.edges (Or.inl h)) a ha))
  · show (order t c g).c20.connections f = t.c20.connections f
    by_cases h : t.c20 = []
    · rw [e20 h]
    · rw [order_c20]
      exact (k20 f).2 (fun a ha hfa =>
        hf (hfa ▸ getD_mem_of_length _ 4 (hs.facets (Or.inl h)) a ha))
  · show (order t c g).c21.connections f = t.c21.connections f
    by_cases h : t.c21 = []
    · rw [e21 h]
    · exact (k21 h f).2 (fun a ha hfa =>
        hf (hfa ▸ getD_mem_of_length _ 4 (hs.facets (Or.inr (Or.inl h))) a ha))
  · show (order t c g).c30.connections c' = t.c30.connections c'
    rw [order_c30, connections_sort_at, if_neg hc]
  · show (order t c g).c31.connections c' = t.c31.connections c'
    rw [order_c31, connections_set, if_neg (fun h => hc h.1)]
  · show (order t c g).c32.connections c' = t.c32.connections c'
    rw [order_c32, connections_set, if_neg (fun h => hc h.1)]

theorem order_permutes_witness :
    Sized two_cell_mesh 0 ∧ TuplePerm two_cell_mesh (order two_cell_mesh 0 id) ∧
    (∀ c', c' ≠ 0 → (order two_cell_mesh 0 id).cell_vertices c' = two_cell_mesh.cell_vertices c' ∧
      (order two_cell_mesh 0 id).cell_edges c' = two_cell_mesh.cell_edges c' ∧
      (order two_cell_mesh 0 id).cell_facets c' = two_cell_mesh.cell_facets c') :=
  ⟨two_cell_mesh_valid_0.sized, (order_permutes two_cell_mesh 0 id two_cell_mesh_valid_0.sized).1,
    (order_permutes two_cell_mesh 0 id two_cell_mesh_valid_0.sized).2.2.2⟩

/-! ## `squared_distance` on a degenerate cell -/

/-- A test against an opposite vertex in the plane of the face is false. -/
theorem point_outside_of_plane_of_signd {K : Type} [LinearOrderedField K]
    (point a b c d : Point K) (h : ((b.sub a).cross (c.sub a)).dot (d.sub a) = 0) :
    point_outside_of_plane point a b c d = false := by
  simp only [point_outside_of_plane, h, mul_zero, lt_self_iff_false, decide_False]

/-- Claim C29, amended. In exact arithmetic, on a degenerate cell, whose four
vertices are coplanar so that the expression `v` of `volume` is zero,
`squared_distance` returns 0 for every query point: in each of the four
outside-of-plane tests the projection of the opposite vertex is 0, so no test
is true. -/
theorem squared_distance_degenerate {K : Type} [LinearOrderedField K]
    (triangle_squared_distance : Point K → Point K → Point K → Point K → K) (numeric_max : K)
    (mesh : Mesh K) (cell : Nat) (point : Point K)
    (hdeg : volume_determinant
      (mesh.geometry.point ((mesh.topology.cell_vertices cell).getD 0 0))
      (mesh.geometry.point ((mesh.topology.cell_vertices cell).getD 1 0))
      (mesh.geometry.point ((mesh.topology.cell_vertices cell).getD 2 0))
      (mesh.geometry.point ((mesh.topology.cell_vertices cell).getD 3 0)) = 0) :
    squared_distance triangle_squared_distance numeric_max mesh cell point = 0 ∧
    point_outside_of_plane point
      (mesh.geometry.point ((mesh.topology.cell_vertices cell).getD 0 0))
      (mesh.geometry.point ((mesh.topology.cell_vertices cell).getD 1 0))
      (mesh.geometry.point ((mesh.topology.cell_vertices cell).getD 2 0))
      (mesh.geometry.point ((mesh.topology.cell_vertices cell).getD 3 0)) = false ∧
    point_outside_of_plane point
      (mesh.geometry.point ((mesh.topology.cell_vertices cell).getD 0 0))
      (mesh.geometry.point ((mesh.topology.cell_vertices cell).getD 2 0))
      (mesh.geometry.point ((mesh.topology.cell_vertices cell).getD 3 0))
      (mesh.geometry.point ((mesh.topology.cell_vertices cell).getD 1 0)) = false ∧
    point_outside_of_plane point
      (mesh.geometry.point ((mesh.topology.cell_vertices cell).getD 0 0))
      (mesh.geometry.point ((mesh.topology.cell_vertices cell).getD 3 0))
      (mesh.geometry.point ((mesh.topology.cell_vertices cell).getD 1 0))
      (mesh.geometry.point ((mesh.topology.cell_vertices cell).getD 2 0)) = false ∧
    point_outside_of_plane point
      (mesh.geometry.point ((mesh.topology.cell_vertices cell).getD 1 0))
      (mesh.geometry.point ((mesh.topology.cell_vertices cell).getD 3 0))
      (mesh.geometry.point ((mesh.topology.cell_vertices cell).getD 2 0))
      (mesh.geometry.point ((mesh.topology.cell_vertices cell).getD 0 0)) = false := by
  obtain ⟨s1, s2, s3, s4⟩ := signd_eq_volume_determinant
    (mesh.geometry.point ((mesh.topology.cell_vertices cell).getD 0 0))
    (mesh.geometry.point ((mesh.topology.cell_vertices cell).getD 1 0))
    (mesh.geometry.point ((mesh.topology.cell_vertices cell).getD 2 0))
    (mesh.geometry.point ((mesh.topology.cell_vertices cell).getD 3 0))
  rw [hdeg, neg_zero] at s1 s2 s3 s4
  have t1 : point_outside_of_plane point
      (mesh.geometry.point ((mesh.topology.cell_vertices cell).getD 0 0))
      (mesh.geometry.point ((mesh.topology.cell_vertices cell).getD 1 0))
      (mesh.geometry.point ((mesh.topology.cell_vertices cell).getD 2 0))
      (mesh.geometry.point ((mesh.topology.cell_vertices cell).getD 3 0)) = false := by
    exact point_outside_of_plane_of_signd _ _ _ _ _ s1
  have t2 : point_outside_of_plane point
      (mesh.geometry.point ((mesh.topology.cell_vertices cell).getD 0 0))
      (mesh.geometry.point ((mesh.topology.cell_vertices cell).getD 2 0))
      (mesh.geometry.point ((mesh.topology.cell_vertices cell).getD 3 0))
      (mesh.geometry.point ((mesh.topology.cell_vertices cell).getD 1 0)) = false := by
    exact point_outside_of_plane_of_signd _ _ _ _ _ s2
  have t3 : point_outside_of_plane point
      (mesh.geometry.point ((mesh.topology.cell_vertices cell).getD 0 0))
      (mesh.geometry.point ((mesh.topology.cell_vertices cell).getD 3 0))
      (mesh.geometry.point ((mesh.topology.cell_vertices cell).getD 1 0))
      (mesh.geometry.point ((mesh.topology.cell_vertices cell).getD 2 0)) = false := by
    exact point_outside_of_plane_of_signd _ _ _ _ _ s3
  have t4 : point_outside_of_plane point
      (mesh.geometry.point ((mesh.topology.cell_vertices cell).getD 1 0))
      (mesh.geometry.point ((mesh.topology.cell_vertices cell).getD 3 0))
      (mesh.geometry.point ((mesh.topology.cell_vertices cell).getD 2 0))
      (mesh.geometry.point ((mesh.topology.cell_vertices cell).getD 0 0)) = false := by
    exact point_outside_of_plane_of_signd _ _ _ _ _ s4
  refine ⟨?_, t1, t2, t3, t4⟩
  simp only [squared_distance, t1, t2, t3, t4, Bool.false_eq_true, if_false, if_true]

/-- The four corners of the unit square are coplanar. -/
theorem flat_mesh_degenerate :
    volume_determinant
      (flat_mesh.geometry.point ((flat_mesh.topology.cell_vertices 0).getD 0 0))
      (flat_mesh.geometry.point ((flat_mesh.topology.cell_vertices 0).getD 1 0))
      (flat_mesh.geometry.point ((flat_mesh.topology.cell_vertices 0).getD 2 0))
      (flat_mesh.geometry.point ((flat_mesh.topology.cell_vertices 0).getD 3 0)) = 0 := by
  have h0 : flat_mesh.geometry.point ((flat_mesh.topology.cell_vertices 0).getD 0 0)
      = ⟨0, 0, 0⟩ := rfl
  have h1 : flat_mesh.geometry.point ((flat_mesh.topology.cell_vertices 0).getD 1 0)
      = ⟨1, 0, 0⟩ := rfl
  have h2 : flat_mesh.geometry.point ((flat_mesh.topology.cell_vertices 0).getD 2 0)
      = ⟨0, 1, 0⟩ := rfl
  have h3 : flat_mesh.geometry.point ((flat_mesh.topology.cell_vertices 0).getD 3 0)
      = ⟨1, 1, 0⟩ := rfl
  rw [h0, h1, h2, h3]
  norm_num [volume_determinant]

theorem squared_distance_degenerate_witness :
    volume_determinant
      (flat_mesh.geometry.point ((flat_mesh.topology.cell_vertices 0).getD 0 0))
      (flat_mesh.geometry.point ((flat_mesh.topology.cell_vertices 0).getD 1 0))
      (flat_mesh.geometry.point ((flat_mesh.topology.cell_vertices 0).getD 2 0))
      (flat_mesh.geometry.point ((flat_mesh.topology.cell_vertices 0).getD 3 0)) = 0 ∧
    squared_distance (fun _ _ _ _ => (7 : ℚ)) 1000 flat_mesh 0 ⟨100, 200, 300⟩ = 0 :=
  ⟨flat_mesh_degenerate,
    (squared_distance_degenerate (fun _ _ _ _ => (7 : ℚ)) 1000 flat_mesh 0 ⟨100, 200, 300⟩
      flat_mesh_degenerate).1⟩

/-- Claim C29, counterexample. The vertices `a = (0,0,0)`, `b = (-2,-3,-262143)`,
`c = (-524287,-131072,-131071)`, `d = b + c` are coplanar: the expression `v` of
`volume` is 0. In double arithmetic the test of face `abc` computes the normal
`(b - a) x (c - a) = (-34359214083, 137437904899, -1310717)` without rounding,
but two of the three products of its projection on `d - a` exceed `2^53` and
are rounded: the products `18014157992361987`, `-18014673384636425` and
`515392274438`, whose sum is 0, become `18014157992361988`,
`-18014673384636424` and `515392274438`, and `signd` is 2 instead of 0. For the
point `(0,0,1)`, `signp = -1310717`, so the test is true; the other three tests
are false. The point of the face `abc` nearest to `(0,0,1)` is the vertex `a`,
at squared distance 1, which is the value taken here for the triangle distance:
`squared_distance_double` returns 1, and with any triangle distance function it
returns the distance to the face `abc` when that is below the largest double. -/
theorem squared_distance_rounded :
    volume_determinant (⟨0, 0, 0⟩ : Point ℚ) ⟨-2, -3, -262143⟩
      ⟨-524287, -131072, -131071⟩ ⟨-524289, -131075, -393214⟩ = 0 ∧
    ((⟨-2, -3, -262143⟩ : Point Int).sub_double ⟨0, 0, 0⟩).cross_double
        ((⟨-524287, -131072, -131071⟩ : Point Int).sub_double ⟨0, 0, 0⟩)
      = ⟨-34359214083, 137437904899, -1310717⟩ ∧
    round_double (-34359214083 * -524289) = 18014157992361988 ∧
    round_double (137437904899 * -131075) = -18014673384636424 ∧
    round_double (-1310717 * -393214) = 515392274438 ∧
    Point.dot_double ⟨-34359214083, 137437904899, -1310717⟩
      ((⟨-524289, -131075, -393214⟩ : Point Int).sub_double ⟨0, 0, 0⟩) = 2 ∧
    Point.dot_double ⟨-34359214083, 137437904899, -1310717⟩
      ((⟨0, 0, 1⟩ : Point Int).sub_double ⟨0, 0, 0⟩) = -1310717 ∧
    point_outside_of_plane_double ⟨0, 0, 1⟩ ⟨0, 0, 0⟩ ⟨-2, -3, -262143⟩
      ⟨-524287, -131072, -131071⟩ ⟨-524289, -131075, -393214⟩ = true ∧
    point_outside_of_plane_double ⟨0, 0, 1⟩ ⟨0, 0, 0⟩ ⟨-524287, -131072, -131071⟩
      ⟨-524289, -131075, -393214⟩ ⟨-2, -3, -262143⟩ = false ∧
    point_outside_of_plane_double ⟨0, 0, 1⟩ ⟨0, 0, 0⟩ ⟨-524289, -131075, -393214⟩
      ⟨-2, -3, -262143⟩ ⟨-524287, -131072, -131071⟩ = false ∧
    point_outside_of_plane_double ⟨0, 0, 1⟩ ⟨-2, -3, -262143⟩ ⟨-524289, -131075, -393214⟩
      ⟨-524287, -131072, -131071⟩ ⟨0, 0, 0⟩ = false ∧
    squared_distance_double (fun p a _ _ => (p.sub_double a).dot_double (p.sub_double a))
      ((2 ^ 53 - 1) * 2 ^ 971) parallelogram_mesh 0 ⟨0, 0, 1⟩ = 1 ∧
    ∀ (triangle_squared_distance : Point Int → Point Int → Point Int → Point Int → Int)
      (r : Int),
      triangle_squared_distance ⟨0, 0, 1⟩ ⟨0, 0, 0⟩ ⟨-2, -3, -262143⟩
        ⟨-524287, -131072, -131071⟩ = r →
      r < (2 ^ 53 - 1) * 2 ^ 971 →
      squared_distance_double triangle_squared_distance ((2 ^ 53 - 1) * 2 ^ 971)
        parallelogram_mesh 0 ⟨0, 0, 1⟩ = r := by
  have h0 : parallelogram_mesh.geometry.point_double
      ((parallelogram_mesh.topology.cell_vertices 0).getD 0 0) = ⟨0, 0, 0⟩ := rfl
  have h1 : parallelogram_mesh.geometry.point_double
      ((parallelogram_mesh.topology.cell_vertices 0).getD 1 0) = ⟨-2, -3, -262143⟩ := rfl
  have h2 : parallelogram_mesh.geometry.point_double
      ((parallelogram_mesh.topology.cell_vertices 0).getD 2 0)
        = ⟨-524287, -131072, -131071⟩ := rfl
  have h3 : parallelogram_mesh.geometry.point_double
      ((parallelogram_mesh.topology.cell_vertices 0).getD 3 0)
        = ⟨-524289, -131075, -393214⟩ := rfl
  have t1 : point_outside_of_plane_double ⟨0, 0, 1⟩ ⟨0, 0, 0⟩ ⟨-2, -3, -262143⟩
      ⟨-524287, -131072, -131071⟩ ⟨-524289, -131075, -393214⟩ = true := by decide
  have t2 : point_outside_of_plane_double ⟨0, 0, 1⟩ ⟨0, 0, 0⟩ ⟨-524287, -131072, -131071⟩
      ⟨-524289, -131075, -393214⟩ ⟨-2, -3, -262143⟩ = false := by decide
  have t3 : point_outside_of_plane_double ⟨0, 0, 1⟩ ⟨0, 0, 0⟩ ⟨-524289, -131075, -393214⟩
      ⟨-2, -3, -262143⟩ ⟨-524287, -131072, -131071⟩ = false := by decide
  have t4 : point_outside_of_plane_double ⟨0, 0, 1⟩ ⟨-2, -3, -262143⟩
      ⟨-524289, -131075, -393214⟩ ⟨-524287, -131072, -131071⟩ ⟨0, 0, 0⟩ = false := by decide
  have hn : ((⟨0, 0, 1⟩ : Point Int).sub_double ⟨0, 0, 0⟩).dot_double
      ((⟨0, 0, 1⟩ : Point Int).sub_double ⟨0, 0, 0⟩) = 1 := by decide
  have key : ∀ (tsd : Point Int → Point Int → Point Int → Point Int → Int) (r : Int),
      tsd ⟨0, 0, 1⟩ ⟨0, 0, 0⟩ ⟨-2, -3, -262143⟩ ⟨-524287, -131072, -131071⟩ = r →
      r < (2 ^ 53 - 1) * 2 ^ 971 →
      squared_distance_double tsd ((2 ^ 53 - 1) * 2 ^ 971) parallelogram_mesh 0 ⟨0, 0, 1⟩
        = r := by
    intro tsd r hr hlt
    simp only [squared_distance_double, h0, h1, h2, h3, t1, t2, t3, t4, hr, Bool.false_eq_true,
      if_false, if_true, min_eq_right hlt.le, if_neg hlt.ne]
  refine ⟨by norm_num [volume_determinant], by decide, by decide, by decide, by decide,
    by decide, by decide, t1, t2, t3, t4, key _ 1 hn (by norm_num), key⟩

/-! ## `order` on connectivity that was never built -/

theorem order_cell_facets_perm (t : MeshTopology) (c : Nat) (hv : Valid t c) :
    TuplePerm t (order_cell_facets t c) := by
  refine ⟨fun _ => List.Perm.refl _, fun _ => List.Perm.refl _, fun _ => List.Perm.refl _,
    fun _ => List.Perm.refl _, fun _ => List.Perm.refl _, fun e => ?_⟩
  show (MeshConnectivity.connections (if t.c32.isEmpty then t.c32 else _) e).Perm _
  rw [if_isEmpty_set, connections_set]
  split
  · rename_i h
    rw [h.1]
    exact sort_cell_facets_perm _ _ _ (Nat.le_of_eq hv.cf_length.symm)
  · exact List.Perm.refl _

end Dolfin
